import Mathlib

/-!
# Teensy2ppSD: SD/MMC SPI block driver and SCSI command processor

A shallow embedding of `MassStorage/Lib/mmc_avr_spi.c` and
`VirtualSerialMassStorage/Lib/SCSI.c`.

* Machine integers are natural numbers reduced modulo `2^8`, `2^16` (the AVR
  `unsigned int`) or `2^32` wherever the C code can wrap.
* The SPI bus and the 100 Hz timer interrupt are an environment `Env`: the byte
  the card shifts out on the n-th exchange and the number of timer interrupts
  delivered while the n-th step is in progress.
* Every hardware side effect is appended to a trace, so that "no bus traffic"
  is the statement that the trace is unchanged.
* Busy-wait loops need not terminate; they are run with a fuel argument and
  return `none` when the fuel is exhausted.
* The Block Transfer Pump keeps, besides the logs of endpoint calls and Block
  Driver calls, one ordered log of its Block Driver calls (with the sector
  buffer), endpoint waits and reads of the host-abort flag, so that "nothing
  happens after the flag is seen set" can be stated.
-/

namespace Teensy2ppSD

/-! ## Constants -/

/-- Modelled from the spec: `diskio.h` is not among the sources; the Card Status
bitset has the three flags NOINIT, NODISK and PROTECT, with the FatFs values. -/
def STA_NOINIT : Nat := 0x01
/-- Modelled from the spec: the NODISK flag of the Card Status bitset (FatFs value). -/
def STA_NODISK : Nat := 0x02
/-- Modelled from the spec: the PROTECT flag of the Card Status bitset (FatFs value). -/
def STA_PROTECT : Nat := 0x04

/-- Result codes of the Block Driver (`DRESULT` of `diskio.h`): OK, generic I/O
error, write protected, not ready, parameter error. -/
inductive DRESULT where
  | RES_OK
  | RES_ERROR
  | RES_WRPRT
  | RES_NOTRDY
  | RES_PARERR
  deriving DecidableEq, Repr

open DRESULT

def CT_MMC : Nat := 0x01
def CT_SD1 : Nat := 0x02
def CT_SD2 : Nat := 0x04
def CT_SDC : Nat := CT_SD1 ||| CT_SD2
def CT_BLOCK : Nat := 0x08

def CMD0 : Nat := 0
def CMD1 : Nat := 1
def ACMD41 : Nat := 0x80 + 41
def CMD8 : Nat := 8
def CMD9 : Nat := 9
def CMD10 : Nat := 10
def CMD12 : Nat := 12
def ACMD13 : Nat := 0x80 + 13
def CMD16 : Nat := 16
def CMD17 : Nat := 17
def CMD18 : Nat := 18
def CMD23 : Nat := 23
def ACMD23 : Nat := 0x80 + 23
def CMD24 : Nat := 24
def CMD25 : Nat := 25
def CMD32 : Nat := 32
def CMD33 : Nat := 33
def CMD38 : Nat := 38
def CMD48 : Nat := 48
def CMD49 : Nat := 49
def CMD55 : Nat := 55
def CMD58 : Nat := 58

/-! ## Driver state, environment and trace -/

/-- One observable hardware action of the driver, or the marker `cmd index arg`
left in the trace each time `send_cmd` is entered with that command index and
argument (the marker is no bus action; it records which commands the driver
issues, and in which order relative to the bus traffic). -/
inductive SpiEv where
  | xchg (tx rx : Nat)
  | csLow
  | csHigh
  | powerOn
  | powerOff
  | fclkSlow
  | fclkFast
  | cmd (index arg : Nat)
  deriving DecidableEq, Repr

/-- The environment of the firmware. `miso n` is the byte the card drives during
the n-th step, `ticks n` the number of 10 ms timer interrupts delivered during
that step. The remaining fields describe the USB side as seen through the LUFA
endpoint primitives, indexed by the number of USB observations made so far. -/
structure Env where
  miso : Nat → Nat
  ticks : Nat → Nat
  epWait : Nat → Nat
  epRWAllowed : Nat → Bool
  epStream : Nat → Nat × Nat
  epOut : Nat → Nat
  msReset : Nat → Bool

/-- The driver's globals (`Stat`, `CardType`, `Timer1`, `Timer2`), the step
counter and the hardware trace. -/
structure Drv where
  Stat : Nat
  CardType : Nat
  Timer1 : Nat
  Timer2 : Nat
  now : Nat
  trace : List SpiEv
  deriving DecidableEq, Repr

/-- The state at reset: `Stat = STA_NOINIT`, everything else zero. -/
def Drv.init : Drv :=
  { Stat := STA_NOINIT, CardType := 0, Timer1 := 0, Timer2 := 0, now := 0, trace := [] }

/-- `mmc_disk_timerproc` with `MMC_NO_CARD_DETECT` defined: both counters are
decremented unless already zero; `Stat` is not touched. -/
def mmc_disk_timerproc (d : Drv) : Drv :=
  let n := d.Timer1
  let d := if n ≠ 0 then { d with Timer1 := n - 1 } else d
  let n := d.Timer2
  if n ≠ 0 then { d with Timer2 := n - 1 } else d

/-- The timer interrupt firing `k` times. -/
def timerTicks : Nat → Drv → Drv
  | 0, d => d
  | k + 1, d => timerTicks k (mmc_disk_timerproc d)

/-- One step of real time: the interrupts of this step run and the step counter
advances. -/
def elapse (env : Env) (d : Drv) : Drv :=
  { timerTicks (env.ticks d.now) d with now := d.now + 1 }

/-- `xchg_spi`: shift `dat` out, return the byte shifted in. -/
def xchg_spi (env : Env) (dat : Nat) (d : Drv) : Nat × Drv :=
  let rx := env.miso d.now % 256
  (rx, elapse env { d with trace := d.trace ++ [SpiEv.xchg dat rx] })

/-- `rcvr_spi_multi`: two bytes per iteration, `do ... while (cnt -= 2)` on a
16-bit counter. -/
def rcvr_spi_multi (env : Env) :
    Nat → List Nat → Nat → Nat → Drv → Option (List Nat × Drv)
  | 0, _, _, _, _ => none
  | fuel + 1, buf, p, cnt, d =>
    let (b0, d) := xchg_spi env 0xFF d
    let buf := buf.set p b0
    let (b1, d) := xchg_spi env 0xFF d
    let buf := buf.set (p + 1) b1
    let cnt := (cnt + 65536 - 2) % 65536
    if cnt ≠ 0 then rcvr_spi_multi env fuel buf (p + 2) cnt d else some (buf, d)

/-- `xmit_spi_multi`: two bytes per iteration, `do ... while (cnt -= 2)`. -/
def xmit_spi_multi (env : Env) :
    Nat → List Nat → Nat → Nat → Drv → Option Drv
  | 0, _, _, _, _ => none
  | fuel + 1, buf, p, cnt, d =>
    let (_, d) := xchg_spi env (buf.getD p 0 % 256) d
    let (_, d) := xchg_spi env (buf.getD (p + 1) 0 % 256) d
    let cnt := (cnt + 65536 - 2) % 65536
    if cnt ≠ 0 then xmit_spi_multi env fuel buf (p + 2) cnt d else some d

/-- The loop of `wait_ready`: `do d = xchg_spi(0xFF); while (d != 0xFF && Timer2)`. -/
def wait_ready_loop (env : Env) : Nat → Drv → Option (Nat × Drv)
  | 0, _ => none
  | fuel + 1, d =>
    let (r, d) := xchg_spi env 0xFF d
    if r ≠ 0xFF ∧ d.Timer2 ≠ 0 then wait_ready_loop env fuel d else some (r, d)

/-- `wait_ready`: arm `Timer2` (an 8-bit counter) with `wt / 10` and poll for 0xFF. -/
def wait_ready (env : Env) (fuel : Nat) (wt : Nat) (d : Drv) : Option (Nat × Drv) :=
  match wait_ready_loop env fuel { d with Timer2 := wt / 10 % 256 } with
  | none => none
  | some (r, d) => some (if r = 0xFF then 1 else 0, d)

/-- `deselect`: CS high, one dummy clock. -/
def deselect (env : Env) (d : Drv) : Drv :=
  (xchg_spi env 0xFF { d with trace := d.trace ++ [SpiEv.csHigh] }).2

/-- `select`: CS low, one dummy clock, wait for ready; on timeout deselect. -/
def select (env : Env) (fuel : Nat) (d : Drv) : Option (Nat × Drv) :=
  let d := (xchg_spi env 0xFF { d with trace := d.trace ++ [SpiEv.csLow] }).2
  match wait_ready env fuel 500 d with
  | none => none
  | some (r, d) => if r ≠ 0 then some (1, d) else some (0, deselect env d)

/-- The token wait of `rcvr_datablock`:
`do token = xchg_spi(0xFF); while (token == 0xFF && Timer1)`. -/
def rcvr_token_loop (env : Env) : Nat → Drv → Option (Nat × Drv)
  | 0, _ => none
  | fuel + 1, d =>
    let (token, d) := xchg_spi env 0xFF d
    if token = 0xFF ∧ d.Timer1 ≠ 0 then rcvr_token_loop env fuel d else some (token, d)

/-- `rcvr_datablock`: wait for the data token 0xFE, receive `btr` bytes at
offset `p` of the buffer, discard two CRC bytes. Returns 1 on success. -/
def rcvr_datablock (env : Env) (fuel : Nat) (buf : List Nat) (p btr : Nat) (d : Drv) :
    Option (Nat × List Nat × Drv) :=
  match rcvr_token_loop env fuel { d with Timer1 := 20 } with
  | none => none
  | some (token, d) =>
    if token ≠ 0xFE then some (0, buf, d)
    else
      match rcvr_spi_multi env fuel buf p btr d with
      | none => none
      | some (buf, d) =>
        let d := (xchg_spi env 0xFF d).2
        let d := (xchg_spi env 0xFF d).2
        some (1, buf, d)

/-- `xmit_datablock`: wait for ready, send the token, and unless it is the stop
token 0xFD send 512 bytes from offset `p`, two dummy CRC bytes and read the
data response. -/
def xmit_datablock (env : Env) (fuel : Nat) (buf : List Nat) (p token : Nat) (d : Drv) :
    Option (Nat × Drv) :=
  match wait_ready env fuel 500 d with
  | none => none
  | some (r, d) =>
    if r = 0 then some (0, d)
    else
      let d := (xchg_spi env token d).2
      if token = 0xFD then some (1, d)
      else
        match xmit_spi_multi env fuel buf p 512 d with
        | none => none
        | some d =>
          let d := (xchg_spi env 0xFF d).2
          let d := (xchg_spi env 0xFF d).2
          let (resp, d) := xchg_spi env 0xFF d
          some (if resp &&& 0x1F = 0x05 then 1 else 0, d)

/-- The response wait of `send_cmd`:
`do res = xchg_spi(0xFF); while ((res & 0x80) && --n)`, entered with
`n = k + 1`; `send_cmd` enters it with `n = 10`. -/
def send_cmd_resp (env : Env) : Nat → Drv → Nat × Drv
  | 0, d => xchg_spi env 0xFF d
  | k + 1, d =>
    let (res, d) := xchg_spi env 0xFF d
    if res &&& 0x80 ≠ 0 then send_cmd_resp env k d else (res, d)

/-- The part of `send_cmd` after the ACMD prefix: `cmd` is a plain command index. -/
def send_cmd_frame (env : Env) (fuel : Nat) (cmd arg : Nat) (d : Drv) : Option (Nat × Drv) :=
  let sel : Option (Nat × Drv) :=
    if cmd ≠ CMD12 then select env fuel (deselect env d) else some (1, d)
  match sel with
  | none => none
  | some (ok, d) =>
    if ok = 0 then some (0xFF, d)
    else
      let d := (xchg_spi env ((0x40 ||| cmd) % 256) d).2
      let d := (xchg_spi env (arg / 2 ^ 24 % 256) d).2
      let d := (xchg_spi env (arg / 2 ^ 16 % 256) d).2
      let d := (xchg_spi env (arg / 2 ^ 8 % 256) d).2
      let d := (xchg_spi env (arg % 256) d).2
      let n := if cmd = CMD8 then 0x87 else if cmd = CMD0 then 0x95 else 0x01
      let d := (xchg_spi env n d).2
      let d := if cmd = CMD12 then (xchg_spi env 0xFF d).2 else d
      some (send_cmd_resp env 9 d)

/-- Entry into `send_cmd(cmd, arg)`: the call is recorded in the trace. -/
def Drv.mark (d : Drv) (cmd arg : Nat) : Drv :=
  { d with trace := d.trace ++ [SpiEv.cmd cmd arg] }

/-- `send_cmd`: an application command (bit 7 set) is preceded by CMD55 (the
recursive call `send_cmd(CMD55, 0)`) and abandoned when CMD55 answers more
than 1. -/
def send_cmd (env : Env) (fuel : Nat) (cmd arg : Nat) (d : Drv) : Option (Nat × Drv) :=
  let d := d.mark cmd arg
  if cmd &&& 0x80 ≠ 0 then
    match send_cmd_frame env fuel CMD55 0 (d.mark CMD55 0) with
    | none => none
    | some (res, d) =>
      if res > 1 then some (res, d) else send_cmd_frame env fuel (cmd &&& 0x7F) arg d
  else send_cmd_frame env fuel cmd arg d

/-- `mmc_disk_status`. -/
def mmc_disk_status (d : Drv) : Nat := d.Stat

/-- The sector loop of `mmc_disk_read`:
`do { if (!rcvr_datablock(buff, 512)) break; buff += 512; } while (--count)`.
Returns the final `count`. -/
def read_loop (env : Env) (fuel : Nat) :
    Nat → List Nat → Nat → Nat → Drv → Option (Nat × List Nat × Drv)
  | 0, _, _, _, _ => none
  | k + 1, buf, p, count, d =>
    match rcvr_datablock env fuel buf p 512 d with
    | none => none
    | some (ok, buf, d) =>
      if ok = 0 then some (count, buf, d)
      else
        let count := (count + 65536 - 1) % 65536
        if count ≠ 0 then read_loop env fuel k buf (p + 512) count d
        else some (count, buf, d)

/-- `mmc_disk_read`: `buf` is the memory `buff` points into, at offset `p`. -/
def mmc_disk_read (env : Env) (fuel : Nat) (buf : List Nat) (p sector count : Nat) (d : Drv) :
    Option (DRESULT × List Nat × Drv) :=
  if count = 0 then some (RES_PARERR, buf, d)
  else if d.Stat &&& STA_NOINIT ≠ 0 then some (RES_NOTRDY, buf, d)
  else
    let sector := if d.CardType &&& CT_BLOCK = 0 then sector * 512 % 2 ^ 32 else sector
    let cmd := if count > 1 then CMD18 else CMD17
    match send_cmd env fuel cmd sector d with
    | none => none
    | some (res, d) =>
      let body : Option (Nat × List Nat × Drv) :=
        if res = 0 then
          match read_loop env fuel fuel buf p count d with
          | none => none
          | some (count, buf, d) =>
            if cmd = CMD18 then
              match send_cmd env fuel CMD12 0 d with
              | none => none
              | some (_, d) => some (count, buf, d)
            else some (count, buf, d)
        else some (count, buf, d)
      match body with
      | none => none
      | some (count, buf, d) =>
        some (if count ≠ 0 then RES_ERROR else RES_OK, buf, deselect env d)

/-- The block loop of the multiple block write:
`do { if (!xmit_datablock(buff, 0xFC)) break; buff += 512; } while (--count)`. -/
def write_loop (env : Env) (fuel : Nat) :
    Nat → List Nat → Nat → Nat → Drv → Option (Nat × Drv)
  | 0, _, _, _, _ => none
  | k + 1, buf, p, count, d =>
    match xmit_datablock env fuel buf p 0xFC d with
    | none => none
    | some (ok, d) =>
      if ok = 0 then some (count, d)
      else
        let count := (count + 65536 - 1) % 65536
        if count ≠ 0 then write_loop env fuel k buf (p + 512) count d
        else some (count, d)

/-- `mmc_disk_write`. -/
def mmc_disk_write (env : Env) (fuel : Nat) (buf : List Nat) (p sector count : Nat) (d : Drv) :
    Option (DRESULT × Drv) :=
  if count = 0 then some (RES_PARERR, d)
  else if d.Stat &&& STA_NOINIT ≠ 0 then some (RES_NOTRDY, d)
  else if d.Stat &&& STA_PROTECT ≠ 0 then some (RES_WRPRT, d)
  else
    let sector := if d.CardType &&& CT_BLOCK = 0 then sector * 512 % 2 ^ 32 else sector
    let body : Option (Nat × Drv) :=
      if count = 1 then
        match send_cmd env fuel CMD24 sector d with
        | none => none
        | some (res, d) =>
          if res = 0 then
            match xmit_datablock env fuel buf p 0xFE d with
            | none => none
            | some (ok, d) => some (if ok ≠ 0 then 0 else count, d)
          else some (count, d)
      else
        let pre : Option Drv :=
          if d.CardType &&& CT_SDC ≠ 0 then
            (send_cmd env fuel ACMD23 count d).map Prod.snd
          else some d
        match pre with
        | none => none
        | some d =>
          match send_cmd env fuel CMD25 sector d with
          | none => none
          | some (res, d) =>
            if res = 0 then
              match write_loop env fuel fuel buf p count d with
              | none => none
              | some (count, d) =>
                match xmit_datablock env fuel buf 0 0xFD d with
                | none => none
                | some (ok, d) => some (if ok = 0 then 1 else count, d)
            else some (count, d)
    match body with
    | none => none
    | some (count, d) => some (if count ≠ 0 then RES_ERROR else RES_OK, deselect env d)

/-! ## Initialisation and control -/

/-- `for (n = k; n; n--) xchg_spi(0xFF)`: `k` dummy exchanges, results discarded. -/
def xchg_n (env : Env) : Nat → Drv → Drv
  | 0, d => d
  | k + 1, d => xchg_n env k (xchg_spi env 0xFF d).2

/-- `for (n = k; n; n--) *ptr++ = xchg_spi(0xFF)`: receive `k` bytes into the
buffer from offset `p` on. -/
def rcvr_n (env : Env) : Nat → List Nat → Nat → Drv → List Nat × Drv
  | 0, buf, _, d => (buf, d)
  | k + 1, buf, p, d =>
    let (b, d) := xchg_spi env 0xFF d
    rcvr_n env k (buf.set p b) (p + 1) d

/-- `for (dc = k; dc; dc--) xchg_spi(*bp++)`: send `k` bytes of the buffer from
offset `p` on. -/
def xmit_n (env : Env) : Nat → List Nat → Nat → Drv → Drv
  | 0, _, _, d => d
  | k + 1, buf, p, d => xmit_n env k buf (p + 1) (xchg_spi env (buf.getD p 0 % 256) d).2

/-- `power_on`: configure the pins and enable the SPI module. -/
def power_on (d : Drv) : Drv := { d with trace := d.trace ++ [SpiEv.powerOn] }

/-- `power_off`: disable the SPI module and release the pins. `Stat` is not
touched. -/
def power_off (d : Drv) : Drv := { d with trace := d.trace ++ [SpiEv.powerOff] }

/-- `FCLK_SLOW()`. -/
def FCLK_SLOW (d : Drv) : Drv := { d with trace := d.trace ++ [SpiEv.fclkSlow] }

/-- `FCLK_FAST()`. -/
def FCLK_FAST (d : Drv) : Drv := { d with trace := d.trace ++ [SpiEv.fclkFast] }

/-- The empty loop `for (...; Timer1; ) ;` after its initialisation: it spins
until the timer interrupt has brought `Timer1` down to zero; each turn takes one
step of time. -/
def spin_Timer1 (env : Env) : Nat → Drv → Option Drv
  | 0, _ => none
  | fuel + 1, d => if d.Timer1 ≠ 0 then spin_Timer1 env fuel (elapse env d) else some d

/-- `while (Timer1 && send_cmd(cmd, arg)) ;` -/
def init_wait (env : Env) (fuel : Nat) (cmd arg : Nat) : Nat → Drv → Option Drv
  | 0, _ => none
  | k + 1, d =>
    if d.Timer1 ≠ 0 then
      match send_cmd env fuel cmd arg d with
      | none => none
      | some (res, d) => if res ≠ 0 then init_wait env fuel cmd arg k d else some d
    else some d

/-- The SDv2 branch of `mmc_disk_initialize`, entered after CMD8 was answered
1: read the R7 trailer, check the echo, wait for the card to leave the idle
state and read the OCR. Returns the card type `ty` (0 on failure). -/
def init_sd2 (env : Env) (fuel : Nat) (d : Drv) : Option (Nat × Drv) :=
  let (ocr, d) := rcvr_n env 4 [0, 0, 0, 0] 0 d
  if ocr.getD 2 0 = 0x01 ∧ ocr.getD 3 0 = 0xAA then
    match init_wait env fuel ACMD41 (2 ^ 30) fuel d with
    | none => none
    | some d =>
      if d.Timer1 ≠ 0 then
        match send_cmd env fuel CMD58 0 d with
        | none => none
        | some (r58, d) =>
          if r58 = 0 then
            let (ocr, d) := rcvr_n env 4 ocr 0 d
            some (if ocr.getD 0 0 &&& 0x40 ≠ 0 then CT_SD2 ||| CT_BLOCK else CT_SD2, d)
          else some (0, d)
      else some (0, d)
  else some (0, d)

/-- The SDv1 / MMCv3 branch of `mmc_disk_initialize`, entered after CMD8 was
not answered 1. Returns the card type `ty` (0 on failure). -/
def init_sd1_mmc (env : Env) (fuel : Nat) (d : Drv) : Option (Nat × Drv) :=
  match send_cmd env fuel ACMD41 0 d with
  | none => none
  | some (r41, d) =>
    let ty := if r41 ≤ 1 then CT_SD1 else CT_MMC
    let cmd := if r41 ≤ 1 then ACMD41 else CMD1
    match init_wait env fuel cmd 0 fuel d with
    | none => none
    | some d =>
      if d.Timer1 = 0 then some (0, d)
      else
        match send_cmd env fuel CMD16 512 d with
        | none => none
        | some (r16, d) => some (if r16 ≠ 0 then 0 else ty, d)

/-- The card probe of `mmc_disk_initialize`, from `ty = 0; if (send_cmd(CMD0, 0)
== 1) ...` to the end of that statement. Returns `ty`. -/
def init_probe (env : Env) (fuel : Nat) (d : Drv) : Option (Nat × Drv) :=
  match send_cmd env fuel CMD0 0 d with
  | none => none
  | some (r0, d) =>
    if r0 = 1 then
      match send_cmd env fuel CMD8 0x1AA { d with Timer1 := 100 } with
      | none => none
      | some (r8, d) => if r8 = 1 then init_sd2 env fuel d else init_sd1_mmc env fuel d
    else some (0, d)

/-- `mmc_disk_initialize` (with `MMC_NO_CARD_DETECT` defined). Returns `Stat`. -/
def mmc_disk_initialize (env : Env) (fuel : Nat) (d : Drv) : Option (Nat × Drv) :=
  match spin_Timer1 env fuel { power_off d with Timer1 := 10 } with
  | none => none
  | some d =>
    let d := xchg_n env 10 (FCLK_SLOW (power_on d))
    match init_probe env fuel d with
    | none => none
    | some (ty, d) =>
      let d := deselect env { d with CardType := ty }
      let d :=
        if ty ≠ 0 then FCLK_FAST { d with Stat := d.Stat &&& (0xFF ^^^ STA_NOINIT) }
        else power_off d
      some (d.Stat, d)

/-- The control codes of `mmc_disk_ioctl` that have a `case` of their own;
`other` stands for every code that has none. The numeric values are defined in
`diskio.h`, which is not among the sources. -/
inductive Ctrl where
  | CTRL_SYNC
  | GET_SECTOR_COUNT
  | GET_BLOCK_SIZE
  | CTRL_TRIM
  | MMC_GET_TYPE
  | MMC_GET_CSD
  | MMC_GET_CID
  | MMC_GET_OCR
  | MMC_GET_SDSTAT
  | CTRL_POWER_OFF
  | ISDIO_READ
  | ISDIO_WRITE
  | ISDIO_MRITE
  | other (code : Nat)
  deriving DecidableEq, Repr

/-- `SDIO_CTRL`, the command structure of the iSDIO control codes; `data` is
the memory its `data` pointer refers to. -/
structure SDIO_CTRL where
  func : Nat
  ndata : Nat
  addr : Nat
  data : List Nat
  deriving DecidableEq, Repr

/-- `*(uint32_t*)buff = v` on the little-endian AVR. -/
def store32 (buff : List Nat) (v : Nat) : List Nat :=
  (((buff.set 0 (v % 256)).set 1 (v / 256 % 256)).set 2 (v / 65536 % 256)).set 3
    (v / 16777216 % 256)

/-- `((uint32_t*)buff)[i]` on the little-endian AVR. -/
def load32 (buff : List Nat) (i : Nat) : Nat :=
  buff.getD (4 * i) 0 % 256 + 256 * (buff.getD (4 * i + 1) 0 % 256)
    + 65536 * (buff.getD (4 * i + 2) 0 % 256) + 16777216 * (buff.getD (4 * i + 3) 0 % 256)

/-- The sector count `GET_SECTOR_COUNT` stores for a CSD. The shift of the
SDv1 / MMC formula is `n - 9`; C leaves it undefined for `n < 9`, here it is 0
then. -/
def csd_sector_count (csd : List Nat) : Nat :=
  let c := fun i => csd.getD i 0 % 256
  if c 0 >>> 6 = 1 then
    let csize := c 9 + (c 8 <<< 8) + ((c 7 &&& 63) <<< 16) + 1
    (csize <<< 10) % 2 ^ 32
  else
    let n := ((c 5 &&& 15) + ((c 10 &&& 128) >>> 7) + ((c 9 &&& 3) <<< 1) + 2) % 256
    let csize := (c 8 >>> 6) + (c 7 <<< 2) + ((c 6 &&& 3) <<< 10) + 1
    (csize <<< (n - 9)) % 2 ^ 32

/-- The erase block size `GET_BLOCK_SIZE` stores for an SD status block (SDv2). -/
def sdstat_block_size (csd : List Nat) : Nat :=
  (16 <<< ((csd.getD 10 0 % 256) >>> 4)) % 2 ^ 32

/-- The erase block size `GET_BLOCK_SIZE` stores for a CSD (SDv1 when `sd1`,
MMCv3 otherwise), computed in 16 bits. The SDv1 shift is `(csd[13] >> 6) - 1`;
C leaves it undefined when that is negative, here it is 0 then. -/
def csd_block_size (sd1 : Bool) (csd : List Nat) : Nat :=
  let c := fun i => csd.getD i 0 % 256
  if sd1 then
    ((((c 10 &&& 63) <<< 1) + ((c 11 &&& 128) >>> 7) + 1) <<< ((c 13 >>> 6) - 1)) % 65536
  else
    ((((c 10 &&& 124) >>> 2) + 1) * (((c 11 &&& 3) <<< 3) + ((c 11 &&& 224) >>> 5) + 1)) % 65536

/-- `send_cmd(cmd, 0) == 0 && rcvr_datablock(ptr, btr)`: the register read
shared by several control codes. Returns whether both succeeded. -/
def read_register (env : Env) (fuel : Nat) (cmd btr : Nat) (ptr : List Nat) (d : Drv) :
    Option (Bool × List Nat × Drv) :=
  match send_cmd env fuel cmd 0 d with
  | none => none
  | some (res, d) =>
    if res = 0 then
      match rcvr_datablock env fuel ptr 0 btr d with
      | none => none
      | some (ok, ptr, d) => some (ok ≠ 0, ptr, d)
    else some (false, ptr, d)

/-- The body of `case MMC_GET_CSD`. -/
def ioctl_get_csd (env : Env) (fuel : Nat) (ptr : List Nat) (d : Drv) :
    Option (DRESULT × List Nat × Drv) :=
  match read_register env fuel CMD9 16 ptr d with
  | none => none
  | some (ok, ptr, d) => some (if ok then RES_OK else RES_ERROR, ptr, deselect env d)

/-- The body of `case GET_BLOCK_SIZE`. -/
def ioctl_block_size (env : Env) (fuel : Nat) (buff : List Nat) (d : Drv) :
    Option (DRESULT × List Nat × Drv) :=
  let csd := List.replicate 16 0
  let body : Option (DRESULT × List Nat × Drv) :=
    if d.CardType &&& CT_SD2 ≠ 0 then
      match send_cmd env fuel ACMD13 0 d with
      | none => none
      | some (res, d) =>
        if res = 0 then
          match rcvr_datablock env fuel csd 0 16 (xchg_spi env 0xFF d).2 with
          | none => none
          | some (ok, csd, d) =>
            if ok ≠ 0 then
              some (RES_OK, store32 buff (sdstat_block_size csd), xchg_n env (64 - 16) d)
            else some (RES_ERROR, buff, d)
        else some (RES_ERROR, buff, d)
    else
      match read_register env fuel CMD9 16 csd d with
      | none => none
      | some (ok, csd, d1) =>
        if ok then
          some (RES_OK, store32 buff (csd_block_size (d.CardType &&& CT_SD1 ≠ 0) csd), d1)
        else some (RES_ERROR, buff, d1)
  match body with
  | none => none
  | some (res, buff, d) => some (res, buff, deselect env d)

/-- The body of `case CTRL_TRIM`. The nested call `mmc_disk_ioctl(MMC_GET_CSD,
csd)` is its status check followed by the body of `case MMC_GET_CSD`. -/
def ioctl_trim (env : Env) (fuel : Nat) (buff : List Nat) (d : Drv) : Option (DRESULT × Drv) :=
  if d.CardType &&& CT_SDC = 0 then some (RES_ERROR, d)
  else
    let nested : Option (DRESULT × List Nat × Drv) :=
      if d.Stat &&& STA_NOINIT ≠ 0 then some (RES_NOTRDY, List.replicate 16 0, d)
      else ioctl_get_csd env fuel (List.replicate 16 0) d
    match nested with
    | none => none
    | some (r, csd, d) =>
      if r ≠ RES_OK then some (RES_ERROR, d)
      else if (csd.getD 0 0 % 256) >>> 6 = 0 ∧ (csd.getD 10 0 % 256) &&& 0x40 = 0 then
        some (RES_ERROR, d)
      else
        let st := if d.CardType &&& CT_BLOCK = 0 then load32 buff 0 * 512 % 2 ^ 32
          else load32 buff 0
        let ed := if d.CardType &&& CT_BLOCK = 0 then load32 buff 1 * 512 % 2 ^ 32
          else load32 buff 1
        match send_cmd env fuel CMD32 st d with
        | none => none
        | some (r32, d) =>
          if r32 ≠ 0 then some (RES_ERROR, d)
          else
            match send_cmd env fuel CMD33 ed d with
            | none => none
            | some (r33, d) =>
              if r33 ≠ 0 then some (RES_ERROR, d)
              else
                match send_cmd env fuel CMD38 0 d with
                | none => none
                | some (r38, d) =>
                  if r38 ≠ 0 then some (RES_ERROR, d)
                  else
                    match wait_ready env fuel 30000 d with
                    | none => none
                    | some (rdy, d) => some (if rdy ≠ 0 then RES_OK else RES_ERROR, d)

/-- The argument of CMD48 / CMD49 for the iSDIO register access:
`flag | (uint32_t)func << 28 | (uint32_t)addr << 9 | low`. -/
def isdio_arg (flag : Nat) (sdi : SDIO_CTRL) (low : Nat) : Nat :=
  flag ||| ((sdi.func % 256) <<< 28) % 2 ^ 32 ||| ((sdi.addr % 2 ^ 32) <<< 9) % 2 ^ 32 ||| low

/-- The body of `case ISDIO_READ`. Returns the result and the memory `data`
points to. -/
def ioctl_isdio_read (env : Env) (fuel : Nat) (sdi : SDIO_CTRL) (d : Drv) :
    Option (DRESULT × List Nat × Drv) :=
  let ndata := sdi.ndata % 65536
  match send_cmd env fuel CMD48
      (isdio_arg 0x80000000 sdi (((ndata + 65535) % 65536) &&& 0x1FF)) d with
  | none => none
  | some (res, d) =>
    let body : Option (DRESULT × List Nat × Drv) :=
      if res = 0 then
        match rcvr_token_loop env fuel { d with Timer1 := 100 } with
        | none => none
        | some (rc, d) =>
          if rc = 0xFE then
            let (data, d) := rcvr_n env ndata sdi.data 0 d
            some (RES_OK, data, xchg_n env ((514 + 65536 - ndata) % 65536) d)
          else some (RES_ERROR, sdi.data, d)
      else some (RES_ERROR, sdi.data, d)
    match body with
    | none => none
    | some (res, data, d) => some (res, data, deselect env d)

/-- The body of `case ISDIO_WRITE`. -/
def ioctl_isdio_write (env : Env) (fuel : Nat) (sdi : SDIO_CTRL) (d : Drv) :
    Option (DRESULT × Drv) :=
  let ndata := sdi.ndata % 65536
  match send_cmd env fuel CMD49
      (isdio_arg 0x80000000 sdi (((ndata + 65535) % 65536) &&& 0x1FF)) d with
  | none => none
  | some (res, d) =>
    if res = 0 then
      let d := (xchg_spi env 0xFE (xchg_spi env 0xFF d).2).2
      let d := xmit_n env ndata sdi.data 0 d
      let d := xchg_n env ((514 + 65536 - ndata) % 65536) d
      let (resp, d) := xchg_spi env 0xFF d
      some (if resp &&& 0x1F = 0x05 then RES_OK else RES_ERROR, deselect env d)
    else some (RES_ERROR, deselect env d)

/-- The body of `case ISDIO_MRITE`. -/
def ioctl_isdio_mrite (env : Env) (fuel : Nat) (sdi : SDIO_CTRL) (d : Drv) :
    Option (DRESULT × Drv) :=
  let ndata := sdi.ndata % 65536
  match send_cmd env fuel CMD49 (isdio_arg 0x84000000 sdi (ndata >>> 8)) d with
  | none => none
  | some (res, d) =>
    if res = 0 then
      let d := (xchg_spi env 0xFE (xchg_spi env 0xFF d).2).2
      let d := (xchg_spi env (ndata % 256) d).2
      let d := xchg_n env 513 d
      let (resp, d) := xchg_spi env 0xFF d
      some (if resp &&& 0x1F = 0x05 then RES_OK else RES_ERROR, deselect env d)
    else some (RES_ERROR, deselect env d)

/-- `mmc_disk_ioctl`: `buff` is the memory the buffer pointer refers to, `sdi`
the same memory read as an `SDIO_CTRL` (used by the iSDIO codes only). Returns
the result, the buffer, the memory `sdi.data` points to, and the driver. -/
def mmc_disk_ioctl (env : Env) (fuel : Nat) (cmd : Ctrl) (buff : List Nat) (sdi : SDIO_CTRL)
    (d : Drv) : Option (DRESULT × List Nat × List Nat × Drv) :=
  if d.Stat &&& STA_NOINIT ≠ 0 then some (RES_NOTRDY, buff, sdi.data, d)
  else
    match cmd with
    | Ctrl.CTRL_SYNC =>
      (select env fuel d).map fun r =>
        (if r.1 ≠ 0 then RES_OK else RES_ERROR, buff, sdi.data, deselect env r.2)
    | Ctrl.GET_SECTOR_COUNT =>
      (read_register env fuel CMD9 16 (List.replicate 16 0) d).map fun r =>
        (if r.1 then RES_OK else RES_ERROR,
         if r.1 then store32 buff (csd_sector_count r.2.1) else buff, sdi.data,
         deselect env r.2.2)
    | Ctrl.GET_BLOCK_SIZE =>
      (ioctl_block_size env fuel buff d).map fun r => (r.1, r.2.1, sdi.data, r.2.2)
    | Ctrl.CTRL_TRIM =>
      (ioctl_trim env fuel buff d).map fun r => (r.1, buff, sdi.data, r.2)
    | Ctrl.MMC_GET_TYPE => some (RES_OK, buff.set 0 (d.CardType % 256), sdi.data, d)
    | Ctrl.MMC_GET_CSD =>
      (ioctl_get_csd env fuel buff d).map fun r => (r.1, r.2.1, sdi.data, r.2.2)
    | Ctrl.MMC_GET_CID =>
      (read_register env fuel CMD10 16 buff d).map fun r =>
        (if r.1 then RES_OK else RES_ERROR, r.2.1, sdi.data, deselect env r.2.2)
    | Ctrl.MMC_GET_OCR =>
      (send_cmd env fuel CMD58 0 d).map fun r =>
        if r.1 = 0 then
          (RES_OK, (rcvr_n env 4 buff 0 r.2).1, sdi.data, deselect env (rcvr_n env 4 buff 0 r.2).2)
        else (RES_ERROR, buff, sdi.data, deselect env r.2)
    | Ctrl.MMC_GET_SDSTAT =>
      match send_cmd env fuel ACMD13 0 d with
      | none => none
      | some (res, d) =>
        if res = 0 then
          (rcvr_datablock env fuel buff 0 64 (xchg_spi env 0xFF d).2).map fun r =>
            (if r.1 ≠ 0 then RES_OK else RES_ERROR, r.2.1, sdi.data, deselect env r.2.2)
        else some (RES_ERROR, buff, sdi.data, deselect env d)
    | Ctrl.CTRL_POWER_OFF =>
      some (RES_OK, buff, sdi.data, { power_off d with Stat := d.Stat ||| STA_NOINIT })
    | Ctrl.ISDIO_READ =>
      (ioctl_isdio_read env fuel sdi d).map fun r => (r.1, buff, r.2.1, r.2.2)
    | Ctrl.ISDIO_WRITE =>
      (ioctl_isdio_write env fuel sdi d).map fun r => (r.1, buff, sdi.data, r.2)
    | Ctrl.ISDIO_MRITE =>
      (ioctl_isdio_mrite env fuel sdi d).map fun r => (r.1, buff, sdi.data, r.2)
    | Ctrl.other _ => some (RES_PARERR, buff, sdi.data, d)

/-! ## SCSI command processor -/

/-- Build-time configuration of the SCSI layer. The macros `LUN_MEDIA_BLOCKS`,
`TOTAL_LUNS`, `DISK_READ_ONLY` and `RW_DIVEDE_2_16` are used by `SCSI.c`; the
headers that define them are not among the sources, so they are parameters. -/
structure Config where
  LUN_MEDIA_BLOCKS : Nat
  TOTAL_LUNS : Nat
  DISK_READ_ONLY : Bool
  RW_DIVEDE_2_16 : Bool
  deriving DecidableEq, Repr

/-- Modelled from the spec: `VIRTUAL_MEMORY_BLOCK_SIZE` is defined in a header
that is not among the sources; the block size is fixed at 512 bytes. -/
def VIRTUAL_MEMORY_BLOCK_SIZE : Nat := 512

def SCSI_CMD_TEST_UNIT_READY : Nat := 0x00
def SCSI_CMD_REQUEST_SENSE : Nat := 0x03
def SCSI_CMD_INQUIRY : Nat := 0x12
def SCSI_CMD_MODE_SENSE_6 : Nat := 0x1A
def SCSI_CMD_START_STOP_UNIT : Nat := 0x1B
def SCSI_CMD_SEND_DIAGNOSTIC : Nat := 0x1D
def SCSI_CMD_PREVENT_ALLOW_MEDIUM_REMOVAL : Nat := 0x1E
def SCSI_CMD_READ_CAPACITY_10 : Nat := 0x25
def SCSI_CMD_READ_10 : Nat := 0x28
def SCSI_CMD_WRITE_10 : Nat := 0x2A
def SCSI_CMD_VERIFY_10 : Nat := 0x2F

def SCSI_SENSE_KEY_GOOD : Nat := 0x00
def SCSI_SENSE_KEY_HARDWARE_ERROR : Nat := 0x04
def SCSI_SENSE_KEY_ILLEGAL_REQUEST : Nat := 0x05
def SCSI_SENSE_KEY_DATA_PROTECT : Nat := 0x07

def SCSI_ASENSE_NO_ADDITIONAL_INFORMATION : Nat := 0x00
def SCSI_ASENSE_INVALID_COMMAND : Nat := 0x20
def SCSI_ASENSE_LOGICAL_BLOCK_ADDRESS_OUT_OF_RANGE : Nat := 0x21
def SCSI_ASENSE_INVALID_FIELD_IN_CDB : Nat := 0x24
def SCSI_ASENSE_WRITE_PROTECTED : Nat := 0x27

def SCSI_ASENSEQ_NO_QUALIFIER : Nat := 0x00

def ENDPOINT_READYWAIT_NoError : Nat := 0
def ENDPOINT_RWSTREAM_NoError : Nat := 0
def ENDPOINT_RWSTREAM_IncompleteTransfer : Nat := 5

def DATA_READ : Bool := true
def DATA_WRITE : Bool := false

/-- The mutable part of `SenseData`: the (key, additional sense code,
qualifier) triple written by `SCSI_SET_SENSE`. -/
structure SenseTriple where
  SenseKey : Nat
  AdditionalSenseCode : Nat
  AdditionalSenseQualifier : Nat
  deriving DecidableEq, Repr

/-- The 18 bytes of `SenseData` as streamed by REQUEST SENSE: response code
0x70 and additional length 0x0A come from the initialiser, the key sits in the
low four bits of byte 2, the code in byte 12 and the qualifier in byte 13. -/
def SenseTriple.bytes (s : SenseTriple) : List Nat :=
  [0x70, 0, s.SenseKey % 16, 0, 0, 0, 0, 0x0A, 0, 0, 0, 0,
   s.AdditionalSenseCode % 256, s.AdditionalSenseQualifier % 256, 0, 0, 0, 0]

/-- The 36 bytes of `InquiryData`: device type block (0), removable, version 0,
response data format 2, additional length 0x1F, no capability flags, vendor
`YOULEMEI`, product `WAHAHA Disk` padded with zeros to 16 bytes, revision `0.00`. -/
def InquiryData : List Nat :=
  [0x00, 0x80, 0x00, 0x02, 0x1F, 0x00, 0x00, 0x00,
   0x59, 0x4F, 0x55, 0x4C, 0x45, 0x4D, 0x45, 0x49,
   0x57, 0x41, 0x48, 0x41, 0x48, 0x41, 0x20, 0x44, 0x69, 0x73, 0x6B, 0, 0, 0, 0, 0,
   0x30, 0x2E, 0x30, 0x30]

/-- One call of a LUFA endpoint primitive. Stream events carry the bytes of the
request in memory order. -/
inductive EpEv where
  | Write_Stream_LE (data : List Nat)
  | Write_Stream_BE (data : List Nat)
  | Null_Stream (len : Nat)
  | Write_8 (b : Nat)
  | Read_Stream_LE (data : List Nat)
  | Read_8 (b : Nat)
  | ClearIN
  | ClearOUT
  | WaitUntilReady (res : Nat)
  | IsReadWriteAllowed (res : Bool)
  deriving DecidableEq, Repr

/-- The bytes an endpoint call puts on the wire towards the host. -/
def EpEv.wire : EpEv → List Nat
  | .Write_Stream_LE data => data
  | .Write_Stream_BE data => data.reverse
  | .Null_Stream len => List.replicate len 0
  | .Write_8 b => [b]
  | _ => []

/-- The bytes written to the IN endpoint by a log of endpoint calls. -/
def inBytes (log : List EpEv) : List Nat := (log.map EpEv.wire).flatten

/-- The bytes an endpoint call takes from the OUT endpoint. -/
def EpEv.taken : EpEv → List Nat
  | .Read_Stream_LE data => data
  | .Read_8 b => [b]
  | _ => []

/-- The bytes read from the OUT endpoint by a log of endpoint calls. -/
def outBytes (log : List EpEv) : List Nat := (log.map EpEv.taken).flatten

/-- A call of the Block Driver made by the Block Transfer Pump. -/
inductive IoCall where
  | read (sector count : Nat) (res : DRESULT)
  | write (sector count : Nat) (res : DRESULT)
  deriving DecidableEq, Repr

/-- A step of the Block Transfer Pump that decides how it goes on, kept in the
order of execution: a Block Driver call with the contents of the sector buffer
(as returned by a read, as handed over to a write), an endpoint wait with its
result, a read of the host-abort flag with its value. -/
inductive PumpEv where
  | call (c : IoCall) (data : List Nat)
  | wait (res : Nat)
  | flag (set : Bool)
  deriving DecidableEq, Repr

/-- The part of the state reached through the driver and the endpoint
primitives: the driver, the logs of endpoint calls and Block Driver calls, the
number `usb` of observations of the USB side made so far and the number
`outPos` of bytes taken from the OUT endpoint. The log `seq` keeps the Block
Driver calls, the endpoint waits and the reads of the host-abort flag in the
order in which they happened. -/
structure Io where
  drv : Drv
  usb : Nat
  outPos : Nat
  ep : List EpEv
  calls : List IoCall
  seq : List PumpEv
  deriving DecidableEq, Repr

/-- The state the SCSI layer works on: the I/O state, `SenseData` and the
command block (`SCSICommandData`, `LUN`, `DataTransferLength`). -/
structure World where
  io : Io
  SenseData : SenseTriple
  SCSICommandData : List Nat
  LUN : Nat
  DataTransferLength : Nat
  deriving DecidableEq, Repr

/-- `SCSICommandData[i]`, a `uint8_t`. -/
def World.cdb (w : World) (i : Nat) : Nat := w.SCSICommandData.getD i 0 % 256

/-- `*(uint16_t*)&SCSICommandData[i]` on the little-endian AVR. -/
def World.load16 (w : World) (i : Nat) : Nat := w.cdb i + 256 * w.cdb (i + 1)

/-- `*(uint32_t*)&SCSICommandData[i]` on the little-endian AVR. -/
def World.load32 (w : World) (i : Nat) : Nat :=
  w.cdb i + 256 * w.cdb (i + 1) + 65536 * w.cdb (i + 2) + 16777216 * w.cdb (i + 3)

/-- `SwapEndian_16`. -/
def SwapEndian_16 (x : Nat) : Nat := (x % 256) * 256 + x / 256 % 256

/-- `SwapEndian_32`. -/
def SwapEndian_32 (x : Nat) : Nat :=
  (x % 256) * 16777216 + (x / 256 % 256) * 65536 + (x / 65536 % 256) * 256 + x / 16777216 % 256

/-- The four bytes of a `uint32_t` in memory order (least significant first). -/
def mem32 (x : Nat) : List Nat :=
  [x % 256, x / 256 % 256, x / 65536 % 256, x / 16777216 % 256]

/-- Big-endian 32-bit encoding. -/
def be32 (x : Nat) : List Nat :=
  [x / 16777216 % 256, x / 65536 % 256, x / 256 % 256, x % 256]

/-- Subtraction of `uint32_t` values. -/
def sub32 (a b : Nat) : Nat := (a % 2 ^ 32 + 2 ^ 32 - b % 2 ^ 32) % 2 ^ 32

/-- `SCSI_SET_SENSE`. -/
def SCSI_SET_SENSE (key acode aqual : Nat) (w : World) : World :=
  { w with SenseData :=
      { SenseKey := key, AdditionalSenseCode := acode, AdditionalSenseQualifier := aqual } }

def Io.logEp (w : Io) (e : EpEv) : Io := { w with ep := w.ep ++ [e] }

def Endpoint_ClearIN (w : Io) : Io := w.logEp EpEv.ClearIN

def Endpoint_ClearOUT (w : Io) : Io := w.logEp EpEv.ClearOUT

def Endpoint_Write_8 (b : Nat) (w : Io) : Io := w.logEp (EpEv.Write_8 b)

/-- `Endpoint_Write_Stream_LE(buf, len, NULL)`. -/
def Endpoint_Write_Stream_LE (data : List Nat) (w : Io) : Io :=
  w.logEp (EpEv.Write_Stream_LE data)

/-- `Endpoint_Write_Stream_BE(buf, len, NULL)`. -/
def Endpoint_Write_Stream_BE (data : List Nat) (w : Io) : Io :=
  w.logEp (EpEv.Write_Stream_BE data)

/-- `Endpoint_Null_Stream(len, NULL)`. -/
def Endpoint_Null_Stream (len : Nat) (w : Io) : Io := w.logEp (EpEv.Null_Stream len)

/-- `Endpoint_WaitUntilReady`: the result is the environment's. -/
def Endpoint_WaitUntilReady (env : Env) (w : Io) : Nat × Io :=
  let r := env.epWait w.usb % 256
  (r, { w with usb := w.usb + 1, ep := w.ep ++ [EpEv.WaitUntilReady r],
                seq := w.seq ++ [PumpEv.wait r] })

/-- `Endpoint_IsReadWriteAllowed`: the result is the environment's. -/
def Endpoint_IsReadWriteAllowed (env : Env) (w : Io) : Bool × Io :=
  let r := env.epRWAllowed w.usb
  (r, { w with usb := w.usb + 1, ep := w.ep ++ [EpEv.IsReadWriteAllowed r] })

/-- A read of the volatile flag `State.IsMassStoreReset`. -/
def IsMassStoreReset (env : Env) (w : Io) : Bool × Io :=
  let r := env.msReset w.usb
  (r, { w with usb := w.usb + 1, seq := w.seq ++ [PumpEv.flag r] })

/-- `Endpoint_Read_8`. -/
def Endpoint_Read_8 (env : Env) (w : Io) : Nat × Io :=
  let b := env.epOut w.outPos % 256
  (b, { w with outPos := w.outPos + 1, ep := w.ep ++ [EpEv.Read_8 b] })

/-- `SCSI_Command_Inquiry`. -/
def SCSI_Command_Inquiry (w : World) : Bool × World :=
  let AllocationLength := SwapEndian_16 (w.load16 3)
  let BytesTransferred := min AllocationLength InquiryData.length
  if w.cdb 1 &&& 3 ≠ 0 ∨ w.cdb 2 ≠ 0 then
    (false, SCSI_SET_SENSE SCSI_SENSE_KEY_ILLEGAL_REQUEST SCSI_ASENSE_INVALID_FIELD_IN_CDB
      SCSI_ASENSEQ_NO_QUALIFIER w)
  else
    let io := Endpoint_Write_Stream_LE (InquiryData.take BytesTransferred) w.io
    let io := Endpoint_Null_Stream (AllocationLength - BytesTransferred) io
    let io := Endpoint_ClearIN io
    (true, { w with io := io,
                    DataTransferLength := sub32 w.DataTransferLength BytesTransferred })

/-- `SCSI_Command_Request_Sense`. -/
def SCSI_Command_Request_Sense (w : World) : Bool × World :=
  let AllocationLength := w.cdb 4
  let BytesTransferred := min AllocationLength w.SenseData.bytes.length
  let io := Endpoint_Write_Stream_LE (w.SenseData.bytes.take BytesTransferred) w.io
  let io := Endpoint_Null_Stream (AllocationLength - BytesTransferred) io
  let io := Endpoint_ClearIN io
  (true, { w with io := io,
                  DataTransferLength := sub32 w.DataTransferLength BytesTransferred })

/-- `SCSI_Command_Read_Capacity_10`. -/
def SCSI_Command_Read_Capacity_10 (cfg : Config) (w : World) : Bool × World :=
  let LastBlockAddressInLUN := sub32 cfg.LUN_MEDIA_BLOCKS 1
  let MediaBlockSize := VIRTUAL_MEMORY_BLOCK_SIZE
  let io := Endpoint_Write_Stream_BE (mem32 LastBlockAddressInLUN) w.io
  let io := Endpoint_Write_Stream_BE (mem32 MediaBlockSize) io
  let io := Endpoint_ClearIN io
  (true, { w with io := io, DataTransferLength := sub32 w.DataTransferLength 8 })

/-- `SCSI_Command_Send_Diagnostic`. -/
def SCSI_Command_Send_Diagnostic (w : World) : Bool × World :=
  if w.cdb 1 &&& 4 = 0 then
    (false, SCSI_SET_SENSE SCSI_SENSE_KEY_ILLEGAL_REQUEST SCSI_ASENSE_INVALID_FIELD_IN_CDB
      SCSI_ASENSEQ_NO_QUALIFIER w)
  else if mmc_disk_status w.io.drv &&& STA_NOINIT ≠ 0 then
    (false, SCSI_SET_SENSE SCSI_SENSE_KEY_HARDWARE_ERROR SCSI_ASENSE_NO_ADDITIONAL_INFORMATION
      SCSI_ASENSEQ_NO_QUALIFIER w)
  else
    (true, { w with DataTransferLength := 0 })

/-- `SCSI_Command_ModeSense_6`. -/
def SCSI_Command_ModeSense_6 (cfg : Config) (w : World) : Bool × World :=
  let io := Endpoint_Write_8 0x00 w.io
  let io := Endpoint_Write_8 0x00 io
  let io := Endpoint_Write_8 (if cfg.DISK_READ_ONLY then 0x80 else 0x00) io
  let io := Endpoint_Write_8 0x00 io
  let io := Endpoint_ClearIN io
  (true, { w with io := io, DataTransferLength := sub32 w.DataTransferLength 4 })

/-! ## Block Transfer Pump -/

/-- `Endpoint_Write_Stream_LE(buffer, len, &BytesProcessed)`: the environment
decides the error code and how many bytes fit. With no error the rest of the
buffer is written; with `IncompleteTransfer` at most the announced number of
bytes is written and `BytesProcessed` advances; with any other code nothing
is written. Returns the error code and the new `BytesProcessed`. -/
def Endpoint_Write_Stream_LE_part (env : Env) (buffer : List Nat) (len processed : Nat)
    (w : Io) : Nat × Nat × Io :=
  let code := (env.epStream w.usb).1 % 256
  let room := (env.epStream w.usb).2
  let rest := len - processed
  let moved :=
    if code = ENDPOINT_RWSTREAM_NoError then rest
    else if code = ENDPOINT_RWSTREAM_IncompleteTransfer then min room rest
    else 0
  let w := { w with usb := w.usb + 1,
                    ep := w.ep ++ [EpEv.Write_Stream_LE ((buffer.drop processed).take moved)] }
  (code, if code = ENDPOINT_RWSTREAM_IncompleteTransfer then processed + moved else processed, w)

/-- Store `k` bytes of the OUT endpoint into the buffer from offset `p` on. -/
def storeOut (env : Env) : Nat → Nat → Nat → List Nat → List Nat
  | 0, _, _, buffer => buffer
  | k + 1, src, p, buffer => storeOut env k (src + 1) (p + 1) (buffer.set p (env.epOut src % 256))

/-- `Endpoint_Read_Stream_LE(buffer, len, &BytesProcessed)`: as for the write
stream, with the bytes taken from the OUT endpoint and stored in the buffer. -/
def Endpoint_Read_Stream_LE_part (env : Env) (buffer : List Nat) (len processed : Nat)
    (w : Io) : Nat × Nat × List Nat × Io :=
  let code := (env.epStream w.usb).1 % 256
  let room := (env.epStream w.usb).2
  let rest := len - processed
  let moved :=
    if code = ENDPOINT_RWSTREAM_NoError then rest
    else if code = ENDPOINT_RWSTREAM_IncompleteTransfer then min room rest
    else 0
  let buffer := storeOut env moved w.outPos processed buffer
  let w := { w with usb := w.usb + 1, outPos := w.outPos + moved,
                    ep := w.ep ++ [EpEv.Read_Stream_LE ((buffer.drop processed).take moved)] }
  (code, if code = ENDPOINT_RWSTREAM_IncompleteTransfer then processed + moved else processed,
    buffer, w)

/-- The check made before each chunk: if the endpoint does not allow access,
clear the bank (`clear`) and wait until it is ready. Returns `true` when the
wait failed and the pump has to return. -/
def pump_bank (env : Env) (clear : Io → Io) (w : Io) : Bool × Io :=
  let (allowed, w) := Endpoint_IsReadWriteAllowed env w
  if allowed then (false, w)
  else
    let (e, w) := Endpoint_WaitUntilReady env (clear w)
    (e ≠ 0, w)

/-- `for (i = 0; i < 16; i++) Endpoint_Write_8(buffer[BytesInBlockDiv16++])`,
with `k` iterations left. -/
def write_16 (buffer : List Nat) : Nat → Nat → Io → Io
  | 0, _, w => w
  | k + 1, n, w => write_16 buffer k (n + 1) (Endpoint_Write_8 (buffer.getD n 0) w)

/-- `for (i = 0; i < 16; i++) buffer[BytesInBlockDiv16++] = Endpoint_Read_8()`,
with `k` iterations left. -/
def read_16 (env : Env) : Nat → Nat → List Nat → Io → List Nat × Io
  | 0, _, buffer, w => (buffer, w)
  | k + 1, n, buffer, w =>
    let (b, w) := Endpoint_Read_8 env w
    read_16 env k (n + 1) (buffer.set n b) w

/-- The inner loop of `MMC_ReadBlocks2` with `RW_DIVEDE_2_16` defined:
`while (BytesInBlockDiv16 < VIRTUAL_MEMORY_BLOCK_SIZE)`, 16 bytes per turn.
The Boolean is `true` when the pump returned from inside the loop. -/
def read_block_16 (env : Env) (buffer : List Nat) : Nat → Nat → Io → Option (Bool × Io)
  | 0, _, _ => none
  | fuel + 1, n, w =>
    if n < VIRTUAL_MEMORY_BLOCK_SIZE then
      let (quit, w) := pump_bank env Endpoint_ClearIN w
      if quit then some (true, w)
      else
        let w := write_16 buffer 16 n w
        let (reset, w) := IsMassStoreReset env w
        if reset then some (true, w) else read_block_16 env buffer fuel ((n + 16) % 65536) w
    else some (false, w)

/-- The inner loop of `MMC_ReadBlocks2` without `RW_DIVEDE_2_16`:
`do ... while (ErrorCode == ENDPOINT_RWSTREAM_IncompleteTransfer)` around the
partial stream write. -/
def read_block_stream (env : Env) (buffer : List Nat) : Nat → Nat → Io → Option (Bool × Io)
  | 0, _, _ => none
  | fuel + 1, processed, w =>
    let (quit, w) := pump_bank env Endpoint_ClearOUT w
    if quit then some (true, w)
    else
      let (code, processed, w) :=
        Endpoint_Write_Stream_LE_part env buffer VIRTUAL_MEMORY_BLOCK_SIZE processed w
      let (reset, w) := IsMassStoreReset env w
      if reset then some (true, w)
      else if code = ENDPOINT_RWSTREAM_IncompleteTransfer then
        read_block_stream env buffer fuel processed w
      else some (false, w)

/-- The sector loop of `MMC_ReadBlocks2`: `while (TotalBlocks)`; `div16` says
whether `RW_DIVEDE_2_16` is defined. The sector
buffer is a fresh local of each turn (its initial contents are indeterminate in
C; they are zero here). The Boolean is `true` when the pump returned early. -/
def MMC_ReadBlocks2_loop (div16 : Bool) (env : Env) (fuel : Nat) :
    Nat → Nat → Nat → Io → Option (Bool × Io)
  | 0, _, _, _ => none
  | k + 1, BlockAddress, TotalBlocks, w =>
    if TotalBlocks = 0 then some (false, w)
    else
      match mmc_disk_read env fuel (List.replicate VIRTUAL_MEMORY_BLOCK_SIZE 0) 0
          BlockAddress 1 w.drv with
      | none => none
      | some (res, buffer, d) =>
        let w := { w with drv := d, calls := w.calls ++ [IoCall.read BlockAddress 1 res],
                          seq := w.seq ++ [PumpEv.call (IoCall.read BlockAddress 1 res) buffer] }
        let inner :=
          if div16 then read_block_16 env buffer fuel 0 w
          else read_block_stream env buffer fuel 0 w
        match inner with
        | none => none
        | some (true, w) => some (true, w)
        | some (false, w) =>
          MMC_ReadBlocks2_loop div16 env fuel k ((BlockAddress + 1) % 2 ^ 32)
            ((TotalBlocks + 65536 - 1) % 65536) w

/-- `MMC_ReadBlocks2`. -/
def MMC_ReadBlocks2 (div16 : Bool) (env : Env) (fuel : Nat) (BlockAddress TotalBlocks : Nat)
    (w : Io) : Option Io :=
  let (e, w) := Endpoint_WaitUntilReady env w
  if e ≠ 0 then some w
  else
    match MMC_ReadBlocks2_loop div16 env fuel fuel BlockAddress TotalBlocks w with
    | none => none
    | some (true, w) => some w
    | some (false, w) =>
      let (allowed, w) := Endpoint_IsReadWriteAllowed env w
      some (if allowed then w else Endpoint_ClearIN w)

/-- The inner loop of `MMC_WriteBlocks2` with `RW_DIVEDE_2_16` defined. -/
def write_block_16 (env : Env) : Nat → Nat → List Nat → Io → Option (Bool × List Nat × Io)
  | 0, _, _, _ => none
  | fuel + 1, n, buffer, w =>
    if n < VIRTUAL_MEMORY_BLOCK_SIZE then
      let (quit, w) := pump_bank env Endpoint_ClearOUT w
      if quit then some (true, buffer, w)
      else
        let (buffer, w) := read_16 env 16 n buffer w
        let (reset, w) := IsMassStoreReset env w
        if reset then some (true, buffer, w)
        else write_block_16 env fuel ((n + 16) % 65536) buffer w
    else some (false, buffer, w)

/-- The inner loop of `MMC_WriteBlocks2` without `RW_DIVEDE_2_16`. -/
def write_block_stream (env : Env) :
    Nat → Nat → List Nat → Io → Option (Bool × List Nat × Io)
  | 0, _, _, _ => none
  | fuel + 1, processed, buffer, w =>
    let (quit, w) := pump_bank env Endpoint_ClearOUT w
    if quit then some (true, buffer, w)
    else
      let (code, processed, buffer, w) :=
        Endpoint_Read_Stream_LE_part env buffer VIRTUAL_MEMORY_BLOCK_SIZE processed w
      let (reset, w) := IsMassStoreReset env w
      if reset then some (true, buffer, w)
      else if code = ENDPOINT_RWSTREAM_IncompleteTransfer then
        write_block_stream env fuel processed buffer w
      else some (false, buffer, w)

/-- The sector loop of `MMC_WriteBlocks2`: `while (TotalBlocks)`. -/
def MMC_WriteBlocks2_loop (div16 : Bool) (env : Env) (fuel : Nat) :
    Nat → Nat → Nat → Io → Option (Bool × Io)
  | 0, _, _, _ => none
  | k + 1, BlockAddress, TotalBlocks, w =>
    if TotalBlocks = 0 then some (false, w)
    else
      let inner :=
        if div16 then
          write_block_16 env fuel 0 (List.replicate VIRTUAL_MEMORY_BLOCK_SIZE 0) w
        else write_block_stream env fuel 0 (List.replicate VIRTUAL_MEMORY_BLOCK_SIZE 0) w
      match inner with
      | none => none
      | some (true, _, w) => some (true, w)
      | some (false, buffer, w) =>
        match mmc_disk_write env fuel buffer 0 BlockAddress 1 w.drv with
        | none => none
        | some (res, d) =>
          let w := { w with drv := d, calls := w.calls ++ [IoCall.write BlockAddress 1 res],
                            seq := w.seq ++ [PumpEv.call (IoCall.write BlockAddress 1 res) buffer] }
          MMC_WriteBlocks2_loop div16 env fuel k ((BlockAddress + 1) % 2 ^ 32)
            ((TotalBlocks + 65536 - 1) % 65536) w

/-- `MMC_WriteBlocks2`. -/
def MMC_WriteBlocks2 (div16 : Bool) (env : Env) (fuel : Nat) (BlockAddress TotalBlocks : Nat)
    (w : Io) : Option Io :=
  let (e, w) := Endpoint_WaitUntilReady env w
  if e ≠ 0 then some w
  else
    match MMC_WriteBlocks2_loop div16 env fuel fuel BlockAddress TotalBlocks w with
    | none => none
    | some (true, w) => some w
    | some (false, w) =>
      let (allowed, w) := Endpoint_IsReadWriteAllowed env w
      some (if allowed then w else Endpoint_ClearOUT w)

/-- `SCSI_Command_ReadWrite_10`. -/
def SCSI_Command_ReadWrite_10 (cfg : Config) (env : Env) (fuel : Nat) (IsDataRead : Bool)
    (w : World) : Option (Bool × World) :=
  if IsDataRead = DATA_WRITE ∧ cfg.DISK_READ_ONLY = true then
    some (false, SCSI_SET_SENSE SCSI_SENSE_KEY_DATA_PROTECT SCSI_ASENSE_WRITE_PROTECTED
      SCSI_ASENSEQ_NO_QUALIFIER w)
  else
    let BlockAddress := SwapEndian_32 (w.load32 2)
    let TotalBlocks := SwapEndian_16 (w.load16 7)
    if BlockAddress ≥ cfg.LUN_MEDIA_BLOCKS then
      some (false, SCSI_SET_SENSE SCSI_SENSE_KEY_ILLEGAL_REQUEST
        SCSI_ASENSE_LOGICAL_BLOCK_ADDRESS_OUT_OF_RANGE SCSI_ASENSEQ_NO_QUALIFIER w)
    else
      let BlockAddress :=
        if cfg.TOTAL_LUNS > 1 then
          (BlockAddress + (w.LUN % 256) * cfg.LUN_MEDIA_BLOCKS % 2 ^ 32) % 2 ^ 32
        else BlockAddress
      let pumped :=
        if IsDataRead = DATA_READ then
          MMC_ReadBlocks2 cfg.RW_DIVEDE_2_16 env fuel BlockAddress TotalBlocks w.io
        else MMC_WriteBlocks2 cfg.RW_DIVEDE_2_16 env fuel BlockAddress TotalBlocks w.io
      match pumped with
      | none => none
      | some io =>
        let left := sub32 w.DataTransferLength (TotalBlocks * VIRTUAL_MEMORY_BLOCK_SIZE)
        some (true, { w with io := io, DataTransferLength := left })

/-- The `switch` statement of `SCSI_DecodeSCSICommand`: the handler selected by
the first command byte, giving `CommandSuccess` and the new state. -/
def SCSI_Decode_switch (cfg : Config) (env : Env) (fuel : Nat) (w : World) :
    Option (Bool × World) :=
  let op := w.cdb 0
  if op = SCSI_CMD_INQUIRY then some (SCSI_Command_Inquiry w)
  else if op = SCSI_CMD_REQUEST_SENSE then some (SCSI_Command_Request_Sense w)
  else if op = SCSI_CMD_READ_CAPACITY_10 then some (SCSI_Command_Read_Capacity_10 cfg w)
  else if op = SCSI_CMD_SEND_DIAGNOSTIC then some (SCSI_Command_Send_Diagnostic w)
  else if op = SCSI_CMD_WRITE_10 then SCSI_Command_ReadWrite_10 cfg env fuel DATA_WRITE w
  else if op = SCSI_CMD_READ_10 then SCSI_Command_ReadWrite_10 cfg env fuel DATA_READ w
  else if op = SCSI_CMD_MODE_SENSE_6 then some (SCSI_Command_ModeSense_6 cfg w)
  else if op = SCSI_CMD_START_STOP_UNIT ∨ op = SCSI_CMD_TEST_UNIT_READY
      ∨ op = SCSI_CMD_PREVENT_ALLOW_MEDIUM_REMOVAL ∨ op = SCSI_CMD_VERIFY_10 then
    some (true, { w with DataTransferLength := 0 })
  else
    some (false, SCSI_SET_SENSE SCSI_SENSE_KEY_ILLEGAL_REQUEST SCSI_ASENSE_INVALID_COMMAND
      SCSI_ASENSEQ_NO_QUALIFIER w)

/-- `SCSI_DecodeSCSICommand`: run the handler, and on success reset the sense
triple to GOOD. -/
def SCSI_DecodeSCSICommand (cfg : Config) (env : Env) (fuel : Nat) (w : World) :
    Option (Bool × World) :=
  match SCSI_Decode_switch cfg env fuel w with
  | none => none
  | some (CommandSuccess, w) =>
    if CommandSuccess then
      some (true, SCSI_SET_SENSE SCSI_SENSE_KEY_GOOD SCSI_ASENSE_NO_ADDITIONAL_INFORMATION
        SCSI_ASENSEQ_NO_QUALIFIER w)
    else some (false, w)

/-! ## Notions used in the statements -/

/-- The commands issued according to a trace: the `(index, argument)` pairs of
its `send_cmd` markers, in order. -/
def cmdsOf (tr : List SpiEv) : List (Nat × Nat) :=
  tr.filterMap fun e => match e with
    | SpiEv.cmd index arg => some (index, arg)
    | _ => none

/-- The bytes shifted out according to a trace, in order. -/
def txOf (tr : List SpiEv) : List Nat :=
  tr.filterMap fun e => match e with
    | SpiEv.xchg tx _ => some tx
    | _ => none

/-- From `d` to `d1` the driver left `Stat` and `CardType` alone, only added
to the trace, and issued exactly the commands `cs`. -/
def Issued (d d1 : Drv) (cs : List (Nat × Nat)) : Prop :=
  d1.Stat = d.Stat ∧ d1.CardType = d.CardType ∧ d.trace <+: d1.trace ∧
    cmdsOf d1.trace = cmdsOf d.trace ++ cs

/-- The numeric values of the thirteen control codes that `mmc_disk_ioctl`
handles. They are defined in `diskio.h`, which is not among the sources, so
they are parameters. -/
structure CtrlCodes where
  CTRL_SYNC : Nat
  GET_SECTOR_COUNT : Nat
  GET_BLOCK_SIZE : Nat
  CTRL_TRIM : Nat
  MMC_GET_TYPE : Nat
  MMC_GET_CSD : Nat
  MMC_GET_CID : Nat
  MMC_GET_OCR : Nat
  MMC_GET_SDSTAT : Nat
  CTRL_POWER_OFF : Nat
  ISDIO_READ : Nat
  ISDIO_WRITE : Nat
  ISDIO_MRITE : Nat
  deriving DecidableEq, Repr

/-- The thirteen handled control codes. -/
def CtrlCodes.handled (k : CtrlCodes) : List Nat :=
  [k.CTRL_SYNC, k.GET_SECTOR_COUNT, k.GET_BLOCK_SIZE, k.CTRL_TRIM, k.MMC_GET_TYPE,
   k.MMC_GET_CSD, k.MMC_GET_CID, k.MMC_GET_OCR, k.MMC_GET_SDSTAT, k.CTRL_POWER_OFF,
   k.ISDIO_READ, k.ISDIO_WRITE, k.ISDIO_MRITE]

/-- The `switch (cmd)` of `mmc_disk_ioctl` on the numeric control code: the
`case` it selects, `other` being the `default`. -/
def Ctrl.ofCode (k : CtrlCodes) (code : Nat) : Ctrl :=
  if code = k.CTRL_SYNC then Ctrl.CTRL_SYNC
  else if code = k.GET_SECTOR_COUNT then Ctrl.GET_SECTOR_COUNT
  else if code = k.GET_BLOCK_SIZE then Ctrl.GET_BLOCK_SIZE
  else if code = k.CTRL_TRIM then Ctrl.CTRL_TRIM
  else if code = k.MMC_GET_TYPE then Ctrl.MMC_GET_TYPE
  else if code = k.MMC_GET_CSD then Ctrl.MMC_GET_CSD
  else if code = k.MMC_GET_CID then Ctrl.MMC_GET_CID
  else if code = k.MMC_GET_OCR then Ctrl.MMC_GET_OCR
  else if code = k.MMC_GET_SDSTAT then Ctrl.MMC_GET_SDSTAT
  else if code = k.CTRL_POWER_OFF then Ctrl.CTRL_POWER_OFF
  else if code = k.ISDIO_READ then Ctrl.ISDIO_READ
  else if code = k.ISDIO_WRITE then Ctrl.ISDIO_WRITE
  else if code = k.ISDIO_MRITE then Ctrl.ISDIO_MRITE
  else Ctrl.other code

/-- Values for the control codes used in the examples. -/
def CtrlCodes.sample : CtrlCodes :=
  { CTRL_SYNC := 0, GET_SECTOR_COUNT := 1, GET_BLOCK_SIZE := 3, CTRL_TRIM := 4,
    MMC_GET_TYPE := 50, MMC_GET_CSD := 51, MMC_GET_CID := 52, MMC_GET_OCR := 53,
    MMC_GET_SDSTAT := 54, CTRL_POWER_OFF := 7, ISDIO_READ := 55, ISDIO_WRITE := 56,
    ISDIO_MRITE := 57 }

/-- The eleven opcodes `SCSI_DecodeSCSICommand` has a `case` for. -/
def supportedOpcodes : List Nat :=
  [SCSI_CMD_INQUIRY, SCSI_CMD_REQUEST_SENSE, SCSI_CMD_READ_CAPACITY_10,
   SCSI_CMD_SEND_DIAGNOSTIC, SCSI_CMD_WRITE_10, SCSI_CMD_READ_10, SCSI_CMD_MODE_SENSE_6,
   SCSI_CMD_START_STOP_UNIT, SCSI_CMD_TEST_UNIT_READY, SCSI_CMD_PREVENT_ALLOW_MEDIUM_REMOVAL,
   SCSI_CMD_VERIFY_10]

/-- The four opcodes that share the empty handler. -/
def noopOpcodes : List Nat :=
  [SCSI_CMD_START_STOP_UNIT, SCSI_CMD_TEST_UNIT_READY, SCSI_CMD_PREVENT_ALLOW_MEDIUM_REMOVAL,
   SCSI_CMD_VERIFY_10]

/-- From `d` to `d1` the only bytes shifted out were 0xFF dummy clocks. -/
def OnlyClocks (d d1 : Drv) : Prop :=
  ∃ k, txOf d1.trace = txOf d.trace ++ List.replicate k 0xFF

/-- The trailing byte of a command frame: a valid CRC for CMD0 and CMD8, a
dummy CRC with the stop bit otherwise. -/
def frameCrc (c : Nat) : Nat := if c = 0 then 0x95 else if c = 8 then 0x87 else 0x01

/-- The six bytes of the frame of command `c` with argument `a`. -/
def frameBytes (c a : Nat) : List Nat :=
  [0x40 ||| c, a / 2 ^ 24 % 256, a / 2 ^ 16 % 256, a / 2 ^ 8 % 256, a % 256, frameCrc c]

/-- The bytes `rx 0, rx 1, ...` are read as a response and `rx k` is the one
returned: every earlier byte has bit 7 set, and `rx k` has bit 7 clear or is
the last of `n + 1` tries. -/
def ResponseAt (rx : Nat → Nat) (n k : Nat) : Prop :=
  k ≤ n ∧ (∀ j, j < k → rx j &&& 0x80 ≠ 0) ∧ (rx k &&& 0x80 = 0 ∨ k = n)

/-- The six exchanges that send the frame of `send_cmd`. -/
def frame_sent (env : Env) (c a : Nat) (d : Drv) : Drv :=
  (xchg_spi env (if c = CMD8 then 0x87 else if c = CMD0 then 0x95 else 0x01)
    (xchg_spi env (a % 256) (xchg_spi env (a / 2 ^ 8 % 256)
      (xchg_spi env (a / 2 ^ 16 % 256) (xchg_spi env (a / 2 ^ 24 % 256)
        (xchg_spi env ((0x40 ||| c) % 256) d).2).2).2).2).2).2

/-- The buffer `out` is `buf` with the `n` bytes the card sent from step `t` on
stored at offsets `p .. p + n - 1`, and nothing else changed. -/
def Filled (env : Env) (t p n : Nat) (buf out : List Nat) : Prop :=
  out.length = buf.length ∧
  ∀ i, out[i]? = if p ≤ i ∧ i < p + n ∧ i < buf.length then some (env.miso (t + (i - p)) % 256)
    else buf[i]?

/-- A wait that starts at step `s` and ends at step `t`: every byte read before
step `t` is 0xFF. -/
def WaitEnds (env : Env) (s t : Nat) : Prop :=
  s ≤ t ∧ ∀ j, s ≤ j → j < t → env.miso j % 256 = 0xFF

/-- From step `s` on, `m` sectors arrive one after the other, the first stored at
offset `p`: each is preceded by a wait that ends with the data token 0xFE at
some step `t`, its 512 data bytes are read at steps `t + 1 .. t + 512` and
stored consecutively, and two CRC bytes are read at steps `t + 513`, `t + 514`
and dropped. The last sector ends before step `e`, leaving the buffer `out`. -/
def SectorsReceived (env : Env) : Nat → Nat → Nat → List Nat → Nat → List Nat → Prop
  | 0, s, _, buf, e, out => e = s ∧ out = buf
  | m + 1, s, p, buf, e, out =>
    ∃ t mid, WaitEnds env s t ∧ env.miso t % 256 = 0xFE ∧ Filled env (t + 1) p 512 buf mid ∧
      SectorsReceived env m (t + 515) (p + 512) mid e out

/-- A busy wait that starts at step `s` and ends at step `w`: every byte read
before step `w` differs from 0xFF. -/
def BusyUntil (env : Env) (s w : Nat) : Prop :=
  s ≤ w ∧ ∀ j, s ≤ j → j < w → env.miso j % 256 ≠ 0xFF

/-- The `n` bytes of the buffer from offset `p` on, as they are shifted out. -/
def bytesFrom (buf : List Nat) : Nat → Nat → List Nat
  | _, 0 => []
  | p, n + 1 => buf.getD p 0 % 256 :: bytesFrom buf (p + 1) n

/-- From step `s` on, `m` data blocks are sent one after the other and accepted,
the first taken from offset `p`: for each, the card is found ready at some step
`w`, then `token`, the 512 bytes of the block and two dummy CRC bytes are
shifted out, and the data response read at step `w + 516` has 0x05 in its low
five bits. The last block ends before step `e`; `tx` lists every byte shifted
out. -/
def BlocksAccepted (env : Env) (token : Nat) (buf : List Nat) :
    Nat → Nat → Nat → Nat → List Nat → Prop
  | 0, s, _, e, tx => e = s ∧ tx = []
  | m + 1, s, p, e, tx =>
    ∃ w rest, BusyUntil env s w ∧ env.miso w % 256 = 0xFF ∧
      env.miso (w + 516) % 256 &&& 0x1F = 0x05 ∧
      BlocksAccepted env token buf m (w + 517) (p + 512) e rest ∧
      tx = List.replicate (w + 1 - s) 0xFF ++
        token :: (bytesFrom buf p 512 ++ 0xFF :: 0xFF :: 0xFF :: rest)

/-- The attempt to send the data block at offset `p` from step `s` on fails:
either the card is still busy when the wait ends, and nothing but dummy clocks
was shifted out, or the block is sent and its data response has not 0x05 in its
low five bits. The attempt ends before step `e`; `tx` lists every byte shifted
out. -/
def BlockRefused (env : Env) (token : Nat) (buf : List Nat) (s p e : Nat) (tx : List Nat) :
    Prop :=
  ∃ w, BusyUntil env s w ∧
    ((env.miso w % 256 ≠ 0xFF ∧ e = w + 1 ∧ tx = List.replicate (w + 1 - s) 0xFF) ∨
     (env.miso w % 256 = 0xFF ∧ env.miso (w + 516) % 256 &&& 0x1F ≠ 0x05 ∧ e = w + 517 ∧
       tx = List.replicate (w + 1 - s) 0xFF ++
         token :: (bytesFrom buf p 512 ++ [0xFF, 0xFF, 0xFF])))

/-- The stop token of a multiple block write, attempted from step `s` on: it is
sent (`sent = true`) exactly when the card is ready at the end of the wait. -/
def StopToken (env : Env) (s : Nat) (sent : Bool) (tx : List Nat) : Prop :=
  ∃ w, BusyUntil env s w ∧ (sent = true ↔ env.miso w % 256 = 0xFF) ∧
    tx = List.replicate (w + 1 - s) 0xFF ++ (if sent then [0xFD] else [])

/-! ## Concrete inputs used by the examples -/

/-- An environment in which the card always answers 0xFF, one timer interrupt
is delivered per step, the endpoints are always ready and the host never
resets the transport. -/
def Env.quiet : Env :=
  { miso := fun _ => 0xFF, ticks := fun _ => 1, epWait := fun _ => 0,
    epRWAllowed := fun _ => true, epStream := fun _ => (0, 0), epOut := fun _ => 0,
    msReset := fun _ => false }

/-- An environment in which the card answers 0x00 at step 6 and 0x05 at step 7,
0xFF otherwise. -/
def Env.stuffed : Env :=
  { miso := fun n => if n = 6 then 0x00 else if n = 7 then 0x05 else 0xFF,
    ticks := fun _ => 1, epWait := fun _ => 0,
    epRWAllowed := fun _ => true, epStream := fun _ => (0, 0), epOut := fun _ => 0,
    msReset := fun _ => false }

/-- An environment in which the card answers a single block write issued from
the idle state: ready at once, response 0 to the command, ready for the data
block, data response 0x05. -/
def Env.writing : Env :=
  { miso := fun n => if n = 9 then 0 else if n = 526 then 0x05 else 0xFF,
    ticks := fun _ => 1, epWait := fun _ => 0,
    epRWAllowed := fun _ => true, epStream := fun _ => (0, 0), epOut := fun _ => 0,
    msReset := fun _ => false }

/-- A driver state with the given status and card type, idle otherwise. -/
def Drv.mk0 (stat ty : Nat) : Drv :=
  { Stat := stat, CardType := ty, Timer1 := 0, Timer2 := 0, now := 0, trace := [] }

/-- A world with the given driver, command block, LUN and transfer length. -/
def World.mk0 (d : Drv) (cdb : List Nat) (lun dtl : Nat) : World :=
  { io := { drv := d, usb := 0, outPos := 0, ep := [], calls := [], seq := [] },
    SenseData := ⟨0, 0, 0⟩, SCSICommandData := cdb, LUN := lun, DataTransferLength := dtl }

/-- The big-endian 16-bit value of command bytes `i`, `i + 1`. -/
def World.be16At (w : World) (i : Nat) : Nat := w.cdb i * 256 + w.cdb (i + 1)

/-- The big-endian 32-bit value of command bytes `i .. i + 3`. -/
def World.be32At (w : World) (i : Nat) : Nat :=
  w.cdb i * 16777216 + w.cdb (i + 1) * 65536 + w.cdb (i + 2) * 256 + w.cdb (i + 3)

/-- The sense triples a failing command can leave. -/
def failureSenses : List SenseTriple :=
  [⟨SCSI_SENSE_KEY_ILLEGAL_REQUEST, SCSI_ASENSE_INVALID_FIELD_IN_CDB,
     SCSI_ASENSEQ_NO_QUALIFIER⟩,
   ⟨SCSI_SENSE_KEY_HARDWARE_ERROR, SCSI_ASENSE_NO_ADDITIONAL_INFORMATION,
     SCSI_ASENSEQ_NO_QUALIFIER⟩,
   ⟨SCSI_SENSE_KEY_DATA_PROTECT, SCSI_ASENSE_WRITE_PROTECTED, SCSI_ASENSEQ_NO_QUALIFIER⟩,
   ⟨SCSI_SENSE_KEY_ILLEGAL_REQUEST, SCSI_ASENSE_LOGICAL_BLOCK_ADDRESS_OUT_OF_RANGE,
     SCSI_ASENSEQ_NO_QUALIFIER⟩,
   ⟨SCSI_SENSE_KEY_ILLEGAL_REQUEST, SCSI_ASENSE_INVALID_COMMAND, SCSI_ASENSEQ_NO_QUALIFIER⟩]

/-- The sense triple of a command that succeeded. -/
def goodSense : SenseTriple :=
  ⟨SCSI_SENSE_KEY_GOOD, SCSI_ASENSE_NO_ADDITIONAL_INFORMATION, SCSI_ASENSEQ_NO_QUALIFIER⟩

/-- A configuration with one LUN of 262144 blocks, as set up by `main` for the
loopback file. -/
def Config.loopback (readOnly div16 : Bool) : Config :=
  { LUN_MEDIA_BLOCKS := 262144, TOTAL_LUNS := 1, DISK_READ_ONLY := readOnly,
    RW_DIVEDE_2_16 := div16 }

/-- An environment in which the card answers a single block read issued from
the idle state: ready at once, response 0 to the command, data token 0xFE,
512 data bytes and two CRC bytes. -/
def Env.reading : Env :=
  { miso := fun n => if n = 9 then 0 else if n = 10 then 0xFE
      else if 11 ≤ n ∧ n < 523 then (n - 11) % 251 else 0xFF,
    ticks := fun _ => 1, epWait := fun _ => 0,
    epRWAllowed := fun _ => true, epStream := fun _ => (0, 0), epOut := fun _ => 0,
    msReset := fun _ => false }

/-- What a failing handler does: it leaves the triple `s`, changes nothing
else, and does the same whatever the sense triple was before. -/
def FailsWith (f : World → Option (Bool × World)) (w w' : World) : Prop :=
  ∃ s, s ∈ failureSenses ∧ w' = { w with SenseData := s } ∧
    ∀ prior, f { w with SenseData := prior } = some (false, { w with SenseData := s })

/-! ## Further notions and inputs: timer budgets, CSD fields, reachable driver states, pump calls -/

/-- The dummy clocks of `n` steps from step `s` on: each shifts out 0xFF and
reads what the card drives. -/
def clocks (env : Env) : Nat → Nat → List SpiEv
  | _, 0 => []
  | s, n + 1 => SpiEv.xchg 0xFF (env.miso s % 256) :: clocks env (s + 1) n

/-- The number of timer interrupts delivered in the `n` steps from step `s`
on. -/
def ticksIn (env : Env) : Nat → Nat → Nat
  | _, 0 => 0
  | s, n + 1 => env.ticks s + ticksIn env (s + 1) n

/-- A card that is ready at once while no timer interrupt is delivered. -/
def Env.frozen : Env :=
  { miso := fun _ => 0xFF, ticks := fun _ => 0, epWait := fun _ => 0,
    epRWAllowed := fun _ => true, epStream := fun _ => (0, 0), epOut := fun _ => 0,
    msReset := fun _ => false }

/-- A card that holds the data line low for ever, with one timer interrupt per
step. -/
def Env.busy : Env :=
  { miso := fun _ => 0, ticks := fun _ => 1, epWait := fun _ => 0,
    epRWAllowed := fun _ => true, epStream := fun _ => (0, 0), epOut := fun _ => 0,
    msReset := fun _ => false }

/-- Byte `i` of a CSD. -/
def csdByte (csd : List Nat) (i : Nat) : Nat := csd.getD i 0 % 256

/-- The 22-bit `C_SIZE` field of a version 2.0 CSD. -/
def C_SIZE_v2 (csd : List Nat) : Nat :=
  ((csdByte csd 7 &&& 63) <<< 16) ||| (csdByte csd 8 <<< 8) ||| csdByte csd 9

/-- The 12-bit `C_SIZE` field of a version 1.x CSD. -/
def C_SIZE_v1 (csd : List Nat) : Nat :=
  ((csdByte csd 6 &&& 3) <<< 10) ||| (csdByte csd 7 <<< 2) ||| (csdByte csd 8 >>> 6)

/-- The `READ_BL_LEN` field of a version 1.x CSD. -/
def READ_BL_LEN (csd : List Nat) : Nat := csdByte csd 5 &&& 15

/-- The `C_SIZE_MULT` field of a version 1.x CSD. -/
def C_SIZE_MULT (csd : List Nat) : Nat :=
  ((csdByte csd 9 &&& 3) <<< 1) ||| (csdByte csd 10 >>> 7)

/-- The capacity in 512-byte sectors a CSD announces, as a number without
bound: `(C_SIZE + 1) * 1024` when the structure field is 1, and
`(C_SIZE + 1) * 2 ^ (READ_BL_LEN + C_SIZE_MULT + 2 - 9)` otherwise. -/
def csdCapacity (csd : List Nat) : Nat :=
  if csdByte csd 0 >>> 6 = 1 then (C_SIZE_v2 csd + 1) * 1024
  else (C_SIZE_v1 csd + 1) * 2 ^ (READ_BL_LEN csd + C_SIZE_MULT csd + 2 - 9)

/-- A version 2.0 CSD whose `C_SIZE` field is all ones (a 2 TiB card). -/
def csdFull : List Nat := [0x40, 0, 0, 0, 0, 0, 0, 0x3F, 0xFF, 0xFF, 0, 0, 0, 0, 0, 0]

/-- A version 1.x CSD of a 2 GiB card: `READ_BL_LEN = 10`, `C_SIZE = 4095`,
`C_SIZE_MULT = 7`. -/
def csdTwoGiB : List Nat := [0, 0, 0, 0, 0, 0x0A, 0x03, 0xFF, 0xC0, 0x03, 0x80, 0, 0, 0, 0, 0]

/-- The direction (`true` for a read), sector and count of a Block Driver
call. -/
def IoCall.target : IoCall → Bool × Nat × Nat
  | .read s c _ => (true, s, c)
  | .write s c _ => (false, s, c)

/-- The pump stopped at a wait point: its last observation of the USB side was
an endpoint wait that failed or the host-abort flag read as set. -/
def Stopped (env : Env) (w : Io) : Prop :=
  0 < w.usb ∧ (env.msReset (w.usb - 1) = true ∨ env.epWait (w.usb - 1) % 256 ≠ 0)

/-- The stream primitives never fail: every call reports completion or an
incomplete transfer. -/
def StreamsOk (env : Env) : Prop :=
  ∀ k, (env.epStream k).1 % 256 = ENDPOINT_RWSTREAM_NoError ∨
    (env.epStream k).1 % 256 = ENDPOINT_RWSTREAM_IncompleteTransfer

/-- The number of bytes written to the IN endpoint so far. -/
def Io.inCount (w : Io) : Nat := (inBytes w.ep).length

/-- A host that has reset the transport before the command starts. -/
def Env.aborted : Env :=
  { miso := fun _ => 0xFF, ticks := fun _ => 1, epWait := fun _ => 0,
    epRWAllowed := fun _ => true, epStream := fun _ => (0, 0), epOut := fun _ => 0,
    msReset := fun _ => true }

/-- The targets of `m` single-sector Block Driver calls at consecutive 32-bit
sector addresses from `A` on, in this order. -/
def sectorRun (isRead : Bool) (A m : Nat) : List (Bool × Nat × Nat) :=
  (List.range m).map (fun i => (isRead, (A + i) % 2 ^ 32, 1))

/-- The targets of the Block Driver calls logged so far. -/
def Io.targets (w : Io) : List (Bool × Nat × Nat) := w.calls.map IoCall.target

/-- No host reset and no endpoint failure: the host-abort flag reads as clear
and every endpoint wait succeeds, whenever they are observed. -/
def Undisturbed (env : Env) : Prop :=
  ∀ k, env.msReset k = false ∧ env.epWait k % 256 = 0

/-- The host-abort flag reads as set at every observation from the `s`-th on. -/
def AbortedFrom (env : Env) (s : Nat) : Prop := ∀ k, s ≤ k → env.msReset k = true

/-- From `d` to `d1` the driver left `Stat` and `CardType` alone. -/
def Kept (d d1 : Drv) : Prop := d1.Stat = d.Stat ∧ d1.CardType = d.CardType

/-- The driver states reachable from the state at reset by calls of the entry
points `mmc_disk_initialize`, `mmc_disk_read`, `mmc_disk_write`,
`mmc_disk_ioctl` and `mmc_disk_timerproc`, in any order and with any
arguments, while the bus behaves as `env` says. -/
inductive Reachable (env : Env) : Drv → Prop
  | atReset : Reachable env Drv.init
  | afterInit (d : Drv) (fuel : Nat) (r : Nat × Drv) :
      Reachable env d → mmc_disk_initialize env fuel d = some r → Reachable env r.2
  | afterRead (d : Drv) (fuel : Nat) (buf : List Nat) (p sector count : Nat)
      (r : DRESULT × List Nat × Drv) :
      Reachable env d → mmc_disk_read env fuel buf p sector count d = some r →
      Reachable env r.2.2
  | afterWrite (d : Drv) (fuel : Nat) (buf : List Nat) (p sector count : Nat) (r : DRESULT × Drv) :
      Reachable env d → mmc_disk_write env fuel buf p sector count d = some r →
      Reachable env r.2
  | afterIoctl (d : Drv) (fuel : Nat) (cmd : Ctrl) (buff : List Nat) (sdi : SDIO_CTRL)
      (r : DRESULT × List Nat × List Nat × Drv) :
      Reachable env d → mmc_disk_ioctl env fuel cmd buff sdi d = some r →
      Reachable env r.2.2.2
  | afterTimer (d : Drv) : Reachable env d → Reachable env (mmc_disk_timerproc d)

/-- A card that answers an initialisation as an MMC card (CMD0 answered 1 at
step 29, CMD1 answered 0 at step 77, CMD16 answered 0 at step 87) and nothing
but 0xFF from then on, as if removed. -/
def Env.removed : Env :=
  { miso := fun n => if n = 29 then 1 else if n = 77 ∨ n = 87 then 0 else 0xFF,
    ticks := fun _ => 1, epWait := fun _ => 0,
    epRWAllowed := fun _ => true, epStream := fun _ => (0, 0), epOut := fun _ => 0,
    msReset := fun _ => false }

/-! ## The order of the pump's steps and the data it moves -/

/-- Whether the pump gives up at this event: an endpoint wait that failed or
the host-abort flag read as set. -/
def PumpEv.isStop : PumpEv → Bool
  | .wait res => decide (res ≠ 0)
  | .flag set => set
  | .call _ _ => false

/-- The Block Driver call of an event, with the sector buffer. -/
def PumpEv.callOf : PumpEv → Option (IoCall × List Nat)
  | .call c data => some (c, data)
  | _ => none

/-- The Block Driver calls among the events, in order, each with its sector
buffer. -/
def callsIn (evs : List PumpEv) : List (IoCall × List Nat) := evs.filterMap PumpEv.callOf

/-- None of the events makes the pump give up. -/
def NoStop (evs : List PumpEv) : Prop := ∀ e ∈ evs, e.isStop = false

/-- From `w` to `r` the pump logged events among which the Block Driver calls
are `cs`; when `quit` is set the last event made it give up and no earlier one
did, otherwise none did. -/
def Ran (w r : Io) (quit : Bool) (cs : List (IoCall × List Nat)) : Prop :=
  ∃ evs, r.seq = w.seq ++ evs ∧ callsIn evs = cs ∧
    if quit then ∃ pre e, evs = pre ++ [e] ∧ NoStop pre ∧ e.isStop = true else NoStop evs

/-- The 512 bytes the host supplies on the OUT endpoint from position `s` on. -/
def outSector (env : Env) (s : Nat) : List Nat :=
  (List.range 512).map (fun j => env.epOut (s + j) % 256)

/-- A host that sends the bytes 0, 1, 2, ... and lets every transfer through. -/
def Env.counting : Env :=
  { miso := fun _ => 0xFF, ticks := fun _ => 1, epWait := fun _ => 0,
    epRWAllowed := fun _ => true, epStream := fun _ => (0, 0), epOut := fun n => n,
    msReset := fun _ => false }

/-- A host that resets the transport in the middle of the command: the
host-abort flag reads as set from the 100th observation on. -/
def Env.abortedLate : Env :=
  { miso := fun _ => 0xFF, ticks := fun _ => 1, epWait := fun _ => 0,
    epRWAllowed := fun _ => true, epStream := fun _ => (0, 0), epOut := fun n => n,
    msReset := fun n => decide (100 ≤ n) }

/-- The Block Driver calls of a log made again, in order, from the driver
state `d`: every read into a fresh sector buffer, every write from the buffer
logged with it. The result is the driver state they lead to, provided each call
returns what the log says (its result and, for a read, the buffer). -/
def replayCalls (env : Env) (fuel : Nat) : List (IoCall × List Nat) → Drv → Option Drv
  | [], d => some d
  | (IoCall.read sector count res, data) :: rest, d =>
    match mmc_disk_read env fuel (List.replicate VIRTUAL_MEMORY_BLOCK_SIZE 0) 0 sector count d with
    | none => none
    | some (res1, buffer, d1) =>
      if res1 = res ∧ buffer = data then replayCalls env fuel rest d1 else none
  | (IoCall.write sector count res, data) :: rest, d =>
    match mmc_disk_write env fuel data 0 sector count d with
    | none => none
    | some (res1, d1) => if res1 = res then replayCalls env fuel rest d1 else none

/-! # Theorems -/

/-! ## The Block Driver's parameter and status checks -/

/-- C1: with `count = 0`, `mmc_disk_read` and `mmc_disk_write` return
`RES_PARERR` for every status, card type, buffer and sector, whatever the fuel
and the bus; the driver state returned is the one passed in, so the trace has
no new SPI exchange and no chip-select change, and `Stat`, `CardType`,
`Timer1`, `Timer2` and the buffer are unchanged. -/
theorem C1_count_zero_is_parerr (env : Env) (fuel : Nat) (buf : List Nat) (p sector : Nat)
    (d : Drv) :
    mmc_disk_read env fuel buf p sector 0 d = some (RES_PARERR, buf, d) ∧
    mmc_disk_write env fuel buf p sector 0 d = some (RES_PARERR, d) := by
  constructor
  · simp [mmc_disk_read]
  · simp [mmc_disk_write]

/-- C2 as stated fails: with `STA_NOINIT` set and `count = 0` both operations
return `RES_PARERR`, not `RES_NOTRDY`. -/
theorem C2_counterexample :
    (Drv.mk0 STA_NOINIT 0).Stat &&& STA_NOINIT ≠ 0 ∧
    mmc_disk_read Env.quiet 0 [] 0 0 0 (Drv.mk0 STA_NOINIT 0)
      = some (RES_PARERR, [], Drv.mk0 STA_NOINIT 0) ∧
    mmc_disk_write Env.quiet 0 [] 0 0 0 (Drv.mk0 STA_NOINIT 0)
      = some (RES_PARERR, Drv.mk0 STA_NOINIT 0) ∧
    RES_PARERR ≠ RES_NOTRDY := by
  refine ⟨by decide, by simp [mmc_disk_read], by simp [mmc_disk_write], by decide⟩

/-- C2 (amended): whenever `Stat` has `STA_NOINIT` set and `count` is not
zero, `mmc_disk_read` and `mmc_disk_write` return `RES_NOTRDY` for every
buffer and sector, with the driver state, trace and buffer unchanged: no SPI
command is issued. -/
theorem C2_noinit_is_notrdy (env : Env) (fuel : Nat) (buf : List Nat) (p sector count : Nat)
    (d : Drv) (hcount : count ≠ 0) (hstat : d.Stat &&& STA_NOINIT ≠ 0) :
    mmc_disk_read env fuel buf p sector count d = some (RES_NOTRDY, buf, d) ∧
    mmc_disk_write env fuel buf p sector count d = some (RES_NOTRDY, d) := by
  constructor
  · simp [mmc_disk_read, hcount, hstat]
  · simp [mmc_disk_write, hcount, hstat]

/-- C2 (amended) at a concrete input: three sectors from sector 7 on an
uninitialised SDv2 card. -/
theorem C2_noinit_is_notrdy_witness :
    mmc_disk_read Env.quiet 0 [1, 2, 3] 0 7 3 (Drv.mk0 STA_NOINIT CT_SD2)
      = some (RES_NOTRDY, [1, 2, 3], Drv.mk0 STA_NOINIT CT_SD2) ∧
    mmc_disk_write Env.quiet 0 [1, 2, 3] 0 7 3 (Drv.mk0 STA_NOINIT CT_SD2)
      = some (RES_NOTRDY, Drv.mk0 STA_NOINIT CT_SD2) :=
  C2_noinit_is_notrdy Env.quiet 0 [1, 2, 3] 0 7 3 (Drv.mk0 STA_NOINIT CT_SD2)
    (by decide) (by decide)

/-- C3 as stated fails: with `STA_PROTECT` set, `mmc_disk_write` returns
`RES_PARERR` when `count = 0`, and `RES_NOTRDY` when `STA_NOINIT` is set too. -/
theorem C3_counterexample :
    (Drv.mk0 STA_PROTECT 0).Stat &&& STA_PROTECT ≠ 0 ∧
    mmc_disk_write Env.quiet 0 [] 0 0 0 (Drv.mk0 STA_PROTECT 0)
      = some (RES_PARERR, Drv.mk0 STA_PROTECT 0) ∧
    (Drv.mk0 (STA_PROTECT ||| STA_NOINIT) 0).Stat &&& STA_PROTECT ≠ 0 ∧
    mmc_disk_write Env.quiet 0 [] 0 0 1 (Drv.mk0 (STA_PROTECT ||| STA_NOINIT) 0)
      = some (RES_NOTRDY, Drv.mk0 (STA_PROTECT ||| STA_NOINIT) 0) ∧
    RES_PARERR ≠ RES_WRPRT ∧ RES_NOTRDY ≠ RES_WRPRT := by
  refine ⟨by decide, by simp [mmc_disk_write], by decide, ?_, by decide, by decide⟩
  have h : (Drv.mk0 (STA_PROTECT ||| STA_NOINIT) 0).Stat &&& STA_NOINIT ≠ 0 := by decide
  simp [mmc_disk_write, h]

/-- C3 (amended): whenever `Stat` has `STA_PROTECT` set and `STA_NOINIT`
clear and `count` is not zero, `mmc_disk_write` returns `RES_WRPRT` for every
buffer and sector, with the driver state and trace unchanged: no SPI command
is issued. -/
theorem C3_protect_is_wrprt (env : Env) (fuel : Nat) (buf : List Nat) (p sector count : Nat)
    (d : Drv) (hcount : count ≠ 0) (hinit : d.Stat &&& STA_NOINIT = 0)
    (hprot : d.Stat &&& STA_PROTECT ≠ 0) :
    mmc_disk_write env fuel buf p sector count d = some (RES_WRPRT, d) := by
  simp [mmc_disk_write, hcount, hinit, hprot]

/-- C3 (amended) at a concrete input: one sector on an initialised,
write-protected card. -/
theorem C3_protect_is_wrprt_witness :
    mmc_disk_write Env.quiet 0 [] 0 5 1 (Drv.mk0 STA_PROTECT CT_SD2)
      = some (RES_WRPRT, Drv.mk0 STA_PROTECT CT_SD2) :=
  C3_protect_is_wrprt Env.quiet 0 [] 0 5 1 (Drv.mk0 STA_PROTECT CT_SD2)
    (by decide) (by decide) (by decide)

/-! ## Byte order -/

theorem cdb_lt (w : World) (i : Nat) : w.cdb i < 256 := by
  unfold World.cdb
  exact Nat.mod_lt _ (by norm_num)

theorem swap16_load16 (w : World) (i : Nat) : SwapEndian_16 (w.load16 i) = w.be16At i := by
  have h0 := cdb_lt w i
  have h1 := cdb_lt w (i + 1)
  unfold SwapEndian_16 World.load16 World.be16At
  omega

theorem swap32_load32 (w : World) (i : Nat) : SwapEndian_32 (w.load32 i) = w.be32At i := by
  have h0 := cdb_lt w i
  have h1 := cdb_lt w (i + 1)
  have h2 := cdb_lt w (i + 2)
  have h3 := cdb_lt w (i + 3)
  unfold SwapEndian_32 World.load32 World.be32At
  omega

theorem be16At_lt (w : World) (i : Nat) : w.be16At i < 65536 := by
  have h0 := cdb_lt w i
  have h1 := cdb_lt w (i + 1)
  unfold World.be16At
  omega

theorem mem32_reverse (x : Nat) : (mem32 x).reverse = be32 x := by
  simp [mem32, be32]

theorem inquiryData_length : InquiryData.length = 36 := by decide

theorem senseBytes_length (s : SenseTriple) : s.bytes.length = 18 := by
  simp [SenseTriple.bytes]

theorem inBytes_append (a b : List EpEv) : inBytes (a ++ b) = inBytes a ++ inBytes b := by
  simp [inBytes]

theorem outBytes_append (a b : List EpEv) : outBytes (a ++ b) = outBytes a ++ outBytes b := by
  simp [outBytes]

/-! ## Termination of the driver's loops when the timer keeps ticking -/

theorem timerproc_eq (d : Drv) :
    mmc_disk_timerproc d = { d with Timer1 := d.Timer1 - 1, Timer2 := d.Timer2 - 1 } := by
  obtain ⟨s, c, t1, t2, n, tr⟩ := d
  unfold mmc_disk_timerproc
  by_cases h1 : t1 = 0 <;> by_cases h2 : t2 = 0 <;> simp [h1, h2]

theorem timerTicks_eq (k : Nat) : ∀ d : Drv,
    timerTicks k d = { d with Timer1 := d.Timer1 - k, Timer2 := d.Timer2 - k } := by
  induction k with
  | zero => intro d; rfl
  | succ k ih =>
    intro d
    simp only [timerTicks, ih, timerproc_eq]
    congr 1 <;> omega

theorem xchg_spi_eq (env : Env) (dat : Nat) (d : Drv) :
    xchg_spi env dat d = (env.miso d.now % 256,
      { d with Timer1 := d.Timer1 - env.ticks d.now, Timer2 := d.Timer2 - env.ticks d.now,
               now := d.now + 1,
               trace := d.trace ++ [SpiEv.xchg dat (env.miso d.now % 256)] }) := by
  simp [xchg_spi, elapse, timerTicks_eq]

theorem wait_ready_loop_returns (env : Env) (hticks : ∀ n, 1 ≤ env.ticks n) :
    ∀ (fuel : Nat) (d : Drv), d.Timer2 < fuel → (wait_ready_loop env fuel d).isSome = true := by
  intro fuel
  induction fuel with
  | zero => intro d h; omega
  | succ k ih =>
    intro d h
    unfold wait_ready_loop
    rw [xchg_spi_eq]
    simp only
    split
    · rename_i hc
      apply ih
      have := hticks d.now
      show d.Timer2 - env.ticks d.now < k
      omega
    · rfl

theorem wait_ready_returns (env : Env) (hticks : ∀ n, 1 ≤ env.ticks n) (fuel wt : Nat) (d : Drv)
    (hf : 256 ≤ fuel) : ∃ r, wait_ready env fuel wt d = some r := by
  unfold wait_ready
  have h := wait_ready_loop_returns env hticks fuel { d with Timer2 := wt / 10 % 256 }
    (by show wt / 10 % 256 < fuel; omega)
  obtain ⟨⟨r, d1⟩, hr⟩ := Option.isSome_iff_exists.mp h
  rw [hr]
  exact ⟨_, rfl⟩

theorem rcvr_token_loop_returns (env : Env) (hticks : ∀ n, 1 ≤ env.ticks n) :
    ∀ (fuel : Nat) (d : Drv), d.Timer1 < fuel → ∃ r, rcvr_token_loop env fuel d = some r := by
  intro fuel
  induction fuel with
  | zero => intro d h; omega
  | succ k ih =>
    intro d h
    unfold rcvr_token_loop
    rw [xchg_spi_eq]
    simp only
    split
    · rename_i hc
      apply ih
      have := hticks d.now
      show d.Timer1 - env.ticks d.now < k
      omega
    · exact ⟨_, rfl⟩

theorem rcvr_spi_multi_returns (env : Env) :
    ∀ (fuel k : Nat) (buf : List Nat) (p : Nat) (d : Drv), 1 ≤ k → k ≤ fuel → k ≤ 32767 →
      ∃ r, rcvr_spi_multi env fuel buf p (2 * k) d = some r := by
  intro fuel
  induction fuel with
  | zero => intro k buf p d h1 h2; omega
  | succ f ih =>
    intro k buf p d h1 h2 h3
    have hc : (2 * k + 65536 - 2) % 65536 = 2 * (k - 1) := by omega
    rw [rcvr_spi_multi]
    simp only [hc]
    split
    · rename_i hne
      exact ih (k - 1) _ _ _ (by omega) (by omega) (by omega)
    · exact ⟨_, rfl⟩

theorem xmit_spi_multi_returns (env : Env) :
    ∀ (fuel k : Nat) (buf : List Nat) (p : Nat) (d : Drv), 1 ≤ k → k ≤ fuel → k ≤ 32767 →
      ∃ r, xmit_spi_multi env fuel buf p (2 * k) d = some r := by
  intro fuel
  induction fuel with
  | zero => intro k buf p d h1 h2; omega
  | succ f ih =>
    intro k buf p d h1 h2 h3
    have hc : (2 * k + 65536 - 2) % 65536 = 2 * (k - 1) := by omega
    rw [xmit_spi_multi]
    simp only [hc]
    split
    · rename_i hne
      exact ih (k - 1) _ _ _ (by omega) (by omega) (by omega)
    · exact ⟨_, rfl⟩

theorem select_returns (env : Env) (hticks : ∀ n, 1 ≤ env.ticks n) (fuel : Nat) (d : Drv)
    (hf : 256 ≤ fuel) : ∃ r, select env fuel d = some r := by
  unfold select
  simp only
  obtain ⟨⟨r, d1⟩, hr⟩ := wait_ready_returns env hticks fuel 500
    (xchg_spi env 0xFF { d with trace := d.trace ++ [SpiEv.csLow] }).2 hf
  rw [hr]
  simp only
  split <;> exact ⟨_, rfl⟩

theorem send_cmd_frame_returns (env : Env) (hticks : ∀ n, 1 ≤ env.ticks n) (fuel cmd arg : Nat)
    (d : Drv) (hf : 256 ≤ fuel) : ∃ r, send_cmd_frame env fuel cmd arg d = some r := by
  unfold send_cmd_frame
  by_cases hc : cmd ≠ CMD12
  · obtain ⟨⟨ok, d1⟩, hr⟩ := select_returns env hticks fuel (deselect env d) hf
    simp only [hc, if_true, hr, ne_eq, not_false_eq_true]
    split <;> exact ⟨_, rfl⟩
  · simp only [hc, if_false]
    split <;> exact ⟨_, rfl⟩

theorem send_cmd_returns (env : Env) (hticks : ∀ n, 1 ≤ env.ticks n) (fuel cmd arg : Nat)
    (d : Drv) (hf : 256 ≤ fuel) : ∃ r, send_cmd env fuel cmd arg d = some r := by
  unfold send_cmd
  simp only
  split
  · obtain ⟨⟨res, d1⟩, hr⟩ := send_cmd_frame_returns env hticks fuel CMD55 0
      ((d.mark cmd arg).mark CMD55 0) hf
    rw [hr]
    simp only
    split
    · exact ⟨_, rfl⟩
    · exact send_cmd_frame_returns env hticks fuel _ _ _ hf
  · exact send_cmd_frame_returns env hticks fuel _ _ _ hf

theorem rcvr_datablock_returns (env : Env) (hticks : ∀ n, 1 ≤ env.ticks n) (fuel : Nat)
    (buf : List Nat) (p : Nat) (d : Drv) (hf : 256 ≤ fuel) :
    ∃ r, rcvr_datablock env fuel buf p 512 d = some r := by
  unfold rcvr_datablock
  obtain ⟨⟨token, d1⟩, ht⟩ := rcvr_token_loop_returns env hticks fuel { d with Timer1 := 20 }
    (by show 20 < fuel; omega)
  rw [ht]
  simp only
  split
  · exact ⟨_, rfl⟩
  · obtain ⟨⟨buf1, d2⟩, hm⟩ := rcvr_spi_multi_returns env fuel 256 buf p d1
      (by omega) (by omega) (by omega)
    rw [hm]
    exact ⟨_, rfl⟩

theorem xmit_datablock_returns (env : Env) (hticks : ∀ n, 1 ≤ env.ticks n) (fuel : Nat)
    (buf : List Nat) (p token : Nat) (d : Drv) (hf : 256 ≤ fuel) :
    ∃ r, xmit_datablock env fuel buf p token d = some r := by
  unfold xmit_datablock
  obtain ⟨⟨r, d1⟩, hr⟩ := wait_ready_returns env hticks fuel 500 d hf
  rw [hr]
  simp only
  split
  · exact ⟨_, rfl⟩
  · split
    · exact ⟨_, rfl⟩
    · obtain ⟨d2, hm⟩ := xmit_spi_multi_returns env fuel 256 buf p (xchg_spi env token d1).2
        (by omega) (by omega) (by omega)
      rw [hm]
      exact ⟨_, rfl⟩

theorem read_loop_returns (env : Env) (hticks : ∀ n, 1 ≤ env.ticks n) (fuel : Nat)
    (hf : 256 ≤ fuel) :
    ∀ (k count : Nat) (buf : List Nat) (p : Nat) (d : Drv), 1 ≤ count → count ≤ k →
      count < 65536 → ∃ r, read_loop env fuel k buf p count d = some r := by
  intro k
  induction k with
  | zero => intro count buf p d h1 h2; omega
  | succ k ih =>
    intro count buf p d h1 h2 h3
    rw [read_loop]
    obtain ⟨⟨ok, buf1, d1⟩, hr⟩ := rcvr_datablock_returns env hticks fuel buf p d hf
    rw [hr]
    simp only
    have hc : (count + 65536 - 1) % 65536 = count - 1 := by omega
    rw [hc]
    split
    · exact ⟨_, rfl⟩
    · split
      · exact ih _ _ _ _ (by omega) (by omega) (by omega)
      · exact ⟨_, rfl⟩

theorem mmc_disk_read_returns (env : Env) (hticks : ∀ n, 1 ≤ env.ticks n) (fuel : Nat)
    (buf : List Nat) (p sector count : Nat) (d : Drv) (hf : 256 ≤ fuel) (hc : count ≤ fuel)
    (hc16 : count < 65536) : ∃ r, mmc_disk_read env fuel buf p sector count d = some r := by
  unfold mmc_disk_read
  split
  · exact ⟨_, rfl⟩
  rename_i hcount
  split
  · exact ⟨_, rfl⟩
  simp only
  obtain ⟨⟨res, d1⟩, hs⟩ := send_cmd_returns env hticks fuel
    (if count > 1 then CMD18 else CMD17)
    (if d.CardType &&& CT_BLOCK = 0 then sector * 512 % 2 ^ 32 else sector) d hf
  rw [hs]
  simp only
  by_cases hres : res = 0
  · simp only [hres, if_true]
    obtain ⟨⟨c1, buf1, d2⟩, hl⟩ := read_loop_returns env hticks fuel hf fuel count buf p d1
      (by omega) hc hc16
    rw [hl]
    simp only
    obtain ⟨⟨r2, d3⟩, h12⟩ := send_cmd_returns env hticks fuel CMD12 0 d2 hf
    rw [h12]
    by_cases h18 : (if count > 1 then CMD18 else CMD17) = CMD18
    · simp only [h18, if_true]
      exact ⟨_, rfl⟩
    · simp only [h18, if_false]
      exact ⟨_, rfl⟩
  · simp only [hres, if_false]
    exact ⟨_, rfl⟩

theorem write_loop_returns (env : Env) (hticks : ∀ n, 1 ≤ env.ticks n) (fuel : Nat)
    (hf : 256 ≤ fuel) :
    ∀ (k count : Nat) (buf : List Nat) (p : Nat) (d : Drv), 1 ≤ count → count ≤ k →
      count < 65536 → ∃ r, write_loop env fuel k buf p count d = some r := by
  intro k
  induction k with
  | zero => intro count buf p d h1 h2; omega
  | succ k ih =>
    intro count buf p d h1 h2 h3
    rw [write_loop]
    obtain ⟨⟨ok, d1⟩, hr⟩ := xmit_datablock_returns env hticks fuel buf p 0xFC d hf
    rw [hr]
    simp only
    have hc : (count + 65536 - 1) % 65536 = count - 1 := by omega
    rw [hc]
    split
    · exact ⟨_, rfl⟩
    · split
      · exact ih _ _ _ _ (by omega) (by omega) (by omega)
      · exact ⟨_, rfl⟩

theorem mmc_disk_write_returns (env : Env) (hticks : ∀ n, 1 ≤ env.ticks n) (fuel : Nat)
    (buf : List Nat) (p sector count : Nat) (d : Drv) (hf : 256 ≤ fuel) (hc : count ≤ fuel)
    (hc16 : count < 65536) : ∃ r, mmc_disk_write env fuel buf p sector count d = some r := by
  unfold mmc_disk_write
  split
  · exact ⟨_, rfl⟩
  rename_i hcount
  split
  · exact ⟨_, rfl⟩
  split
  · exact ⟨_, rfl⟩
  simp only
  by_cases h1 : count = 1
  · simp only [h1, if_true]
    obtain ⟨⟨res, d1⟩, hs⟩ := send_cmd_returns env hticks fuel CMD24
      (if d.CardType &&& CT_BLOCK = 0 then sector * 512 % 2 ^ 32 else sector) d hf
    rw [hs]
    simp only
    by_cases hres : res = 0
    · simp only [hres, if_true]
      obtain ⟨⟨ok, d2⟩, hx⟩ := xmit_datablock_returns env hticks fuel buf p 0xFE d1 hf
      rw [hx]
      exact ⟨_, rfl⟩
    · simp only [hres, if_false]
      exact ⟨_, rfl⟩
  · simp only [h1, if_false]
    have hpre : ∃ d0, (if d.CardType &&& CT_SDC ≠ 0 then
        (send_cmd env fuel ACMD23 count d).map Prod.snd else some d) = some d0 := by
      split
      · obtain ⟨⟨r, d0⟩, h⟩ := send_cmd_returns env hticks fuel ACMD23 count d hf
        rw [h]
        exact ⟨_, rfl⟩
      · exact ⟨_, rfl⟩
    obtain ⟨d0, hd0⟩ := hpre
    rw [hd0]
    simp only
    obtain ⟨⟨res, d1⟩, hs⟩ := send_cmd_returns env hticks fuel CMD25
      (if d.CardType &&& CT_BLOCK = 0 then sector * 512 % 2 ^ 32 else sector) d0 hf
    rw [hs]
    simp only
    by_cases hres : res = 0
    · simp only [hres, if_true]
      obtain ⟨⟨c1, d2⟩, hl⟩ := write_loop_returns env hticks fuel hf fuel count buf p d1
        (by omega) hc hc16
      rw [hl]
      simp only
      obtain ⟨⟨ok, d3⟩, hx⟩ := xmit_datablock_returns env hticks fuel buf 0 0xFD d2 hf
      rw [hx]
      exact ⟨_, rfl⟩
    · simp only [hres, if_false]
      exact ⟨_, rfl⟩

/-! ## Termination of the Block Transfer Pump -/

theorem read_block_16_returns (env : Env) (buffer : List Nat) :
    ∀ (fuel j : Nat) (w : Io), j ≤ 32 → 32 - j < fuel →
      ∃ r, read_block_16 env buffer fuel (16 * j) w = some r := by
  intro fuel
  induction fuel with
  | zero => intro j w h1 h2; omega
  | succ f ih =>
    intro j w h1 h2
    rw [read_block_16]
    by_cases hn : 16 * j < VIRTUAL_MEMORY_BLOCK_SIZE
    · rw [if_pos hn]
      generalize pump_bank env Endpoint_ClearIN w = pb
      obtain ⟨quit, w1⟩ := pb
      simp only
      cases quit
      · simp only [Bool.false_eq_true, if_false]
        generalize IsMassStoreReset env (write_16 buffer 16 (16 * j) w1) = mr
        obtain ⟨reset, w2⟩ := mr
        simp only
        cases reset
        · simp only [Bool.false_eq_true, if_false]
          have hj : (16 * j + 16) % 65536 = 16 * (j + 1) := by omega
          rw [hj]
          unfold VIRTUAL_MEMORY_BLOCK_SIZE at hn
          exact ih (j + 1) w2 (by omega) (by omega)
        · exact ⟨_, rfl⟩
      · exact ⟨_, rfl⟩
    · rw [if_neg hn]
      exact ⟨_, rfl⟩

theorem write_block_16_returns (env : Env) :
    ∀ (fuel j : Nat) (buffer : List Nat) (w : Io), j ≤ 32 → 32 - j < fuel →
      ∃ r, write_block_16 env fuel (16 * j) buffer w = some r := by
  intro fuel
  induction fuel with
  | zero => intro j buffer w h1 h2; omega
  | succ f ih =>
    intro j buffer w h1 h2
    rw [write_block_16]
    by_cases hn : 16 * j < VIRTUAL_MEMORY_BLOCK_SIZE
    · rw [if_pos hn]
      generalize pump_bank env Endpoint_ClearOUT w = pb
      obtain ⟨quit, w1⟩ := pb
      simp only
      cases quit
      · simp only [Bool.false_eq_true, if_false]
        generalize read_16 env 16 (16 * j) buffer w1 = rd
        obtain ⟨buffer1, w2⟩ := rd
        simp only
        generalize IsMassStoreReset env w2 = mr
        obtain ⟨reset, w3⟩ := mr
        simp only
        cases reset
        · simp only [Bool.false_eq_true, if_false]
          have hj : (16 * j + 16) % 65536 = 16 * (j + 1) := by omega
          rw [hj]
          unfold VIRTUAL_MEMORY_BLOCK_SIZE at hn
          exact ih (j + 1) buffer1 w3 (by omega) (by omega)
        · exact ⟨_, rfl⟩
      · exact ⟨_, rfl⟩
    · rw [if_neg hn]
      exact ⟨_, rfl⟩

theorem read_block_stream_returns (env : Env) (buffer : List Nat)
    (hstream : ∀ n, (env.epStream n).1 % 256 ≠ ENDPOINT_RWSTREAM_IncompleteTransfer)
    (fuel processed : Nat) (w : Io) (hf : 1 ≤ fuel) :
    ∃ r, read_block_stream env buffer fuel processed w = some r := by
  obtain ⟨f, rfl⟩ : ∃ f, fuel = f + 1 := ⟨fuel - 1, by omega⟩
  rw [read_block_stream]
  generalize pump_bank env Endpoint_ClearOUT w = pb
  obtain ⟨quit, w1⟩ := pb
  simp only
  cases quit
  · simp only [Bool.false_eq_true, if_false, Endpoint_Write_Stream_LE_part, IsMassStoreReset,
      hstream w1.usb]
    split <;> exact ⟨_, rfl⟩
  · exact ⟨_, rfl⟩

theorem write_block_stream_returns (env : Env)
    (hstream : ∀ n, (env.epStream n).1 % 256 ≠ ENDPOINT_RWSTREAM_IncompleteTransfer)
    (fuel processed : Nat) (buffer : List Nat) (w : Io) (hf : 1 ≤ fuel) :
    ∃ r, write_block_stream env fuel processed buffer w = some r := by
  obtain ⟨f, rfl⟩ : ∃ f, fuel = f + 1 := ⟨fuel - 1, by omega⟩
  rw [write_block_stream]
  generalize pump_bank env Endpoint_ClearOUT w = pb
  obtain ⟨quit, w1⟩ := pb
  simp only
  cases quit
  · simp only [Bool.false_eq_true, if_false, Endpoint_Read_Stream_LE_part, IsMassStoreReset,
      hstream w1.usb]
    split <;> exact ⟨_, rfl⟩
  · exact ⟨_, rfl⟩

theorem read_inner_returns (div16 : Bool) (env : Env) (buffer : List Nat)
    (hstream : div16 = true ∨
      ∀ n, (env.epStream n).1 % 256 ≠ ENDPOINT_RWSTREAM_IncompleteTransfer)
    (fuel : Nat) (hf : 256 ≤ fuel) (w : Io) :
    ∃ r, (if div16 then read_block_16 env buffer fuel 0 w
      else read_block_stream env buffer fuel 0 w) = some r := by
  cases div16
  · rcases hstream with h | h
    · exact absurd h (by decide)
    · simp only [Bool.false_eq_true, if_false]
      exact read_block_stream_returns env buffer h fuel 0 w (by omega)
  · simp only [if_true]
    exact read_block_16_returns env buffer fuel 0 w (by omega) (by omega)

theorem write_inner_returns (div16 : Bool) (env : Env) (buffer : List Nat)
    (hstream : div16 = true ∨
      ∀ n, (env.epStream n).1 % 256 ≠ ENDPOINT_RWSTREAM_IncompleteTransfer)
    (fuel : Nat) (hf : 256 ≤ fuel) (w : Io) :
    ∃ r, (if div16 then write_block_16 env fuel 0 buffer w
      else write_block_stream env fuel 0 buffer w) = some r := by
  cases div16
  · rcases hstream with h | h
    · exact absurd h (by decide)
    · simp only [Bool.false_eq_true, if_false]
      exact write_block_stream_returns env h fuel 0 buffer w (by omega)
  · simp only [if_true]
    exact write_block_16_returns env fuel 0 buffer w (by omega) (by omega)

theorem MMC_ReadBlocks2_loop_returns (div16 : Bool) (env : Env)
    (hticks : ∀ n, 1 ≤ env.ticks n)
    (hstream : div16 = true ∨
      ∀ n, (env.epStream n).1 % 256 ≠ ENDPOINT_RWSTREAM_IncompleteTransfer)
    (fuel : Nat) (hf : 256 ≤ fuel) :
    ∀ (k BlockAddress TotalBlocks : Nat) (w : Io), TotalBlocks < k → TotalBlocks < 65536 →
      ∃ r, MMC_ReadBlocks2_loop div16 env fuel k BlockAddress TotalBlocks w = some r := by
  intro k
  induction k with
  | zero => intro a t w h; omega
  | succ k ih =>
    intro a t w h1 h2
    rw [MMC_ReadBlocks2_loop]
    by_cases ht : t = 0
    · rw [if_pos ht]
      exact ⟨_, rfl⟩
    · rw [if_neg ht]
      obtain ⟨⟨res, buffer, d⟩, hr⟩ := mmc_disk_read_returns env hticks fuel
        (List.replicate VIRTUAL_MEMORY_BLOCK_SIZE 0) 0 a 1 w.drv hf (by omega) (by omega)
      rw [hr]
      simp only
      obtain ⟨⟨quit, w1⟩, hi⟩ := read_inner_returns div16 env buffer hstream fuel hf
        { w with drv := d, calls := w.calls ++ [IoCall.read a 1 res],
                 seq := w.seq ++ [PumpEv.call (IoCall.read a 1 res) buffer] }
      rw [hi]
      cases quit
      · simp only
        have hc : (t + 65536 - 1) % 65536 = t - 1 := by omega
        rw [hc]
        exact ih _ _ _ (by omega) (by omega)
      · exact ⟨_, rfl⟩

theorem MMC_WriteBlocks2_loop_returns (div16 : Bool) (env : Env)
    (hticks : ∀ n, 1 ≤ env.ticks n)
    (hstream : div16 = true ∨
      ∀ n, (env.epStream n).1 % 256 ≠ ENDPOINT_RWSTREAM_IncompleteTransfer)
    (fuel : Nat) (hf : 256 ≤ fuel) :
    ∀ (k BlockAddress TotalBlocks : Nat) (w : Io), TotalBlocks < k → TotalBlocks < 65536 →
      ∃ r, MMC_WriteBlocks2_loop div16 env fuel k BlockAddress TotalBlocks w = some r := by
  intro k
  induction k with
  | zero => intro a t w h; omega
  | succ k ih =>
    intro a t w h1 h2
    rw [MMC_WriteBlocks2_loop]
    by_cases ht : t = 0
    · rw [if_pos ht]
      exact ⟨_, rfl⟩
    · rw [if_neg ht]
      obtain ⟨⟨quit, buffer, w1⟩, hi⟩ := write_inner_returns div16 env
        (List.replicate VIRTUAL_MEMORY_BLOCK_SIZE 0) hstream fuel hf w
      simp only
      rw [hi]
      cases quit
      · simp only
        obtain ⟨⟨res, d⟩, hr⟩ := mmc_disk_write_returns env hticks fuel buffer 0 a 1 w1.drv hf
          (by omega) (by omega)
        rw [hr]
        simp only
        have hc : (t + 65536 - 1) % 65536 = t - 1 := by omega
        rw [hc]
        exact ih _ _ _ (by omega) (by omega)
      · exact ⟨_, rfl⟩

theorem MMC_ReadBlocks2_returns (div16 : Bool) (env : Env)
    (hticks : ∀ n, 1 ≤ env.ticks n)
    (hstream : div16 = true ∨
      ∀ n, (env.epStream n).1 % 256 ≠ ENDPOINT_RWSTREAM_IncompleteTransfer)
    (fuel : Nat) (hf : 256 ≤ fuel) (BlockAddress TotalBlocks : Nat) (w : Io)
    (ht : TotalBlocks < fuel) (ht16 : TotalBlocks < 65536) :
    ∃ r, MMC_ReadBlocks2 div16 env fuel BlockAddress TotalBlocks w = some r := by
  unfold MMC_ReadBlocks2
  simp only
  split
  · exact ⟨_, rfl⟩
  · obtain ⟨⟨quit, w1⟩, hl⟩ := MMC_ReadBlocks2_loop_returns div16 env hticks hstream fuel hf
      fuel BlockAddress TotalBlocks (Endpoint_WaitUntilReady env w).2 ht ht16
    rw [hl]
    cases quit <;> exact ⟨_, rfl⟩

theorem MMC_WriteBlocks2_returns (div16 : Bool) (env : Env)
    (hticks : ∀ n, 1 ≤ env.ticks n)
    (hstream : div16 = true ∨
      ∀ n, (env.epStream n).1 % 256 ≠ ENDPOINT_RWSTREAM_IncompleteTransfer)
    (fuel : Nat) (hf : 256 ≤ fuel) (BlockAddress TotalBlocks : Nat) (w : Io)
    (ht : TotalBlocks < fuel) (ht16 : TotalBlocks < 65536) :
    ∃ r, MMC_WriteBlocks2 div16 env fuel BlockAddress TotalBlocks w = some r := by
  unfold MMC_WriteBlocks2
  simp only
  split
  · exact ⟨_, rfl⟩
  · obtain ⟨⟨quit, w1⟩, hl⟩ := MMC_WriteBlocks2_loop_returns div16 env hticks hstream fuel hf
      fuel BlockAddress TotalBlocks (Endpoint_WaitUntilReady env w).2 ht ht16
    rw [hl]
    cases quit <;> exact ⟨_, rfl⟩

/-! ## Sense data -/

theorem cdb_setSense (w : World) (s : SenseTriple) (i : Nat) :
    World.cdb { w with SenseData := s } i = w.cdb i := rfl

theorem load16_setSense (w : World) (s : SenseTriple) (i : Nat) :
    World.load16 { w with SenseData := s } i = w.load16 i := rfl

theorem load32_setSense (w : World) (s : SenseTriple) (i : Nat) :
    World.load32 { w with SenseData := s } i = w.load32 i := rfl

theorem inquiry_false (w w' : World) (h : SCSI_Command_Inquiry w = (false, w')) :
    FailsWith (fun x => some (SCSI_Command_Inquiry x)) w w' := by
  unfold SCSI_Command_Inquiry at h
  by_cases hc : w.cdb 1 &&& 3 ≠ 0 ∨ w.cdb 2 ≠ 0
  · simp only [hc, if_true] at h
    simp [SCSI_SET_SENSE] at h
    refine ⟨_, ?_, h.symm, ?_⟩
    · simp [failureSenses]
    · intro prior
      simp [cdb_setSense, SCSI_Command_Inquiry, hc, SCSI_SET_SENSE]
  · simp only [hc, if_false] at h
    simp at h

theorem diagnostic_false (w w' : World) (h : SCSI_Command_Send_Diagnostic w = (false, w')) :
    FailsWith (fun x => some (SCSI_Command_Send_Diagnostic x)) w w' := by
  unfold SCSI_Command_Send_Diagnostic at h
  by_cases hc : w.cdb 1 &&& 4 = 0
  · simp only [hc, if_true] at h
    simp [SCSI_SET_SENSE] at h
    refine ⟨_, ?_, h.symm, ?_⟩
    · simp [failureSenses]
    · intro prior
      simp [cdb_setSense, SCSI_Command_Send_Diagnostic, hc, SCSI_SET_SENSE]
  · simp only [hc, if_false] at h
    by_cases hs : mmc_disk_status w.io.drv &&& STA_NOINIT ≠ 0
    · rw [if_pos hs] at h
      simp [SCSI_SET_SENSE] at h
      refine ⟨_, ?_, h.symm, ?_⟩
      · simp [failureSenses]
      · intro prior
        have hs2 : mmc_disk_status w.io.drv &&& STA_NOINIT ≠ 0 := hs
        simp [cdb_setSense, SCSI_Command_Send_Diagnostic, hc, hs2, SCSI_SET_SENSE]
    · rw [if_neg hs] at h
      simp at h

theorem readwrite_false (cfg : Config) (env : Env) (fuel : Nat) (isRead : Bool) (w w' : World)
    (h : SCSI_Command_ReadWrite_10 cfg env fuel isRead w = some (false, w')) :
    FailsWith (SCSI_Command_ReadWrite_10 cfg env fuel isRead) w w' := by
  unfold SCSI_Command_ReadWrite_10 at h
  by_cases hg : isRead = DATA_WRITE ∧ cfg.DISK_READ_ONLY = true
  · rw [if_pos hg] at h
    simp [SCSI_SET_SENSE] at h
    refine ⟨_, ?_, h.symm, ?_⟩
    · simp [failureSenses]
    · intro prior
      unfold SCSI_Command_ReadWrite_10
      rw [if_pos hg]
      simp [SCSI_SET_SENSE]
  · rw [if_neg hg] at h
    by_cases hr : SwapEndian_32 (w.load32 2) ≥ cfg.LUN_MEDIA_BLOCKS
    · simp only [hr, if_true] at h
      simp [SCSI_SET_SENSE] at h
      refine ⟨_, ?_, h.symm, ?_⟩
      · simp [failureSenses]
      · intro prior
        unfold SCSI_Command_ReadWrite_10
        rw [if_neg hg]
        simp only [load32_setSense, hr, if_true]
        simp [SCSI_SET_SENSE]
    · simp only [hr, if_false] at h
      split at h <;> simp at h

theorem switch_false (cfg : Config) (env : Env) (fuel : Nat) (w w' : World)
    (h : SCSI_Decode_switch cfg env fuel w = some (false, w')) :
    FailsWith (SCSI_Decode_switch cfg env fuel) w w' := by
  unfold SCSI_Decode_switch at h
  by_cases h1 : w.cdb 0 = SCSI_CMD_INQUIRY
  · simp only [h1, if_true, Option.some.injEq] at h
    obtain ⟨s, hs, hw, hp⟩ := inquiry_false w w' h
    refine ⟨s, hs, hw, fun prior => ?_⟩
    simp only [SCSI_Decode_switch, cdb_setSense, h1, if_true]
    exact hp prior
  simp only [h1, if_false] at h
  by_cases h2 : w.cdb 0 = SCSI_CMD_REQUEST_SENSE
  · simp [h2, SCSI_Command_Request_Sense] at h
  simp only [h2, if_false] at h
  by_cases h3 : w.cdb 0 = SCSI_CMD_READ_CAPACITY_10
  · simp [h3, SCSI_Command_Read_Capacity_10] at h
  simp only [h3, if_false] at h
  by_cases h4 : w.cdb 0 = SCSI_CMD_SEND_DIAGNOSTIC
  · simp only [h4, if_true, Option.some.injEq] at h
    obtain ⟨s, hs, hw, hp⟩ := diagnostic_false w w' h
    refine ⟨s, hs, hw, fun prior => ?_⟩
    simp only [SCSI_Decode_switch, cdb_setSense, h1, h2, h3, h4, if_true, if_false]
    exact hp prior
  simp only [h4, if_false] at h
  by_cases h5 : w.cdb 0 = SCSI_CMD_WRITE_10
  · simp only [h5, if_true] at h
    obtain ⟨s, hs, hw, hp⟩ := readwrite_false cfg env fuel _ w w' h
    refine ⟨s, hs, hw, fun prior => ?_⟩
    simp only [SCSI_Decode_switch, cdb_setSense, h1, h2, h3, h4, h5, if_true, if_false]
    exact hp prior
  simp only [h5, if_false] at h
  by_cases h6 : w.cdb 0 = SCSI_CMD_READ_10
  · simp only [h6, if_true] at h
    obtain ⟨s, hs, hw, hp⟩ := readwrite_false cfg env fuel _ w w' h
    refine ⟨s, hs, hw, fun prior => ?_⟩
    simp only [SCSI_Decode_switch, cdb_setSense, h1, h2, h3, h4, h5, h6, if_true, if_false]
    exact hp prior
  simp only [h6, if_false] at h
  by_cases h7 : w.cdb 0 = SCSI_CMD_MODE_SENSE_6
  · simp [h7, SCSI_Command_ModeSense_6] at h
  simp only [h7, if_false] at h
  by_cases h8 : w.cdb 0 = SCSI_CMD_START_STOP_UNIT ∨ w.cdb 0 = SCSI_CMD_TEST_UNIT_READY
      ∨ w.cdb 0 = SCSI_CMD_PREVENT_ALLOW_MEDIUM_REMOVAL ∨ w.cdb 0 = SCSI_CMD_VERIFY_10
  · simp [h8] at h
  simp only [h8, if_false] at h
  simp [SCSI_SET_SENSE] at h
  refine ⟨_, ?_, h.symm, fun prior => ?_⟩
  · simp [failureSenses]
  · simp only [SCSI_Decode_switch, cdb_setSense, h1, h2, h3, h4, h5, h6, h7, h8, if_false]
    simp [SCSI_SET_SENSE]

theorem failureSense_facts (s : SenseTriple) (hs : s ∈ failureSenses) :
    s.SenseKey ≠ SCSI_SENSE_KEY_GOOD ∧
    s.bytes = [0x70, 0, s.SenseKey, 0, 0, 0, 0, 0x0A, 0, 0, 0, 0,
      s.AdditionalSenseCode, s.AdditionalSenseQualifier, 0, 0, 0, 0] := by
  simp only [failureSenses, List.mem_cons, List.mem_singleton, List.not_mem_nil, or_false] at hs
  rcases hs with h | h | h | h | h <;> subst h <;> constructor <;> decide

theorem decode_request_sense (cfg : Config) (env : Env) (fuel : Nat) (w : World)
    (hop : w.cdb 0 = SCSI_CMD_REQUEST_SENSE) :
    SCSI_DecodeSCSICommand cfg env fuel w
      = some (true, SCSI_SET_SENSE SCSI_SENSE_KEY_GOOD SCSI_ASENSE_NO_ADDITIONAL_INFORMATION
          SCSI_ASENSEQ_NO_QUALIFIER (SCSI_Command_Request_Sense w).2) := by
  simp [SCSI_DecodeSCSICommand, SCSI_Decode_switch, hop, SCSI_CMD_REQUEST_SENSE,
    SCSI_CMD_INQUIRY, SCSI_Command_Request_Sense]

theorem request_sense_next (cfg : Config) (env : Env) (fuel : Nat) (w : World)
    (hop : w.cdb 0 = SCSI_CMD_REQUEST_SENSE) :
    ∃ w2, SCSI_DecodeSCSICommand cfg env fuel w = some (true, w2) ∧
      w2.io.ep = w.io.ep ++ [EpEv.Write_Stream_LE (w.SenseData.bytes.take (min (w.cdb 4) 18)),
        EpEv.Null_Stream (w.cdb 4 - min (w.cdb 4) 18), EpEv.ClearIN] ∧
      w2.SenseData = goodSense := by
  refine ⟨_, decode_request_sense cfg env fuel w hop, ?_, ?_⟩
  · simp [SCSI_Command_Request_Sense, SCSI_SET_SENSE, Endpoint_ClearIN, Endpoint_Null_Stream,
      Endpoint_Write_Stream_LE, Io.logEp, senseBytes_length]
  · simp [SCSI_SET_SENSE, goodSense]

/-- C4: for every command block, configuration, environment and prior sense
triple, when `SCSI_DecodeSCSICommand` returns `true` the sense triple left is
(GOOD, NO ADDITIONAL INFORMATION, NO QUALIFIER). When it returns `false`, the
triple left is one of the five triples the failing branches set, its key is not
GOOD, nothing but the triple has changed, and the outcome is the same whatever
the sense triple was before the command (so it is never a stale triple). The
18-byte sense record then holds that key in byte 2, the code in byte 12 and the
qualifier in byte 13, and a REQUEST SENSE decoded next, with allocation length
`L` in byte 4, succeeds, streams the first `min L 18` bytes of that record
followed by `L - min L 18` zeros (the whole record when `L ≥ 18`), and leaves
the sense triple GOOD. -/
theorem C4_sense_after_command (cfg : Config) (env : Env) (fuel : Nat) (w : World)
    (ok : Bool) (w' : World)
    (h : SCSI_DecodeSCSICommand cfg env fuel w = some (ok, w')) :
    (ok = true → w'.SenseData = goodSense) ∧
    (ok = false →
      w'.SenseData ∈ failureSenses ∧
      w'.SenseData.SenseKey ≠ SCSI_SENSE_KEY_GOOD ∧
      w' = { w with SenseData := w'.SenseData } ∧
      (∀ prior, SCSI_DecodeSCSICommand cfg env fuel { w with SenseData := prior }
        = some (false, w')) ∧
      w'.SenseData.bytes = [0x70, 0, w'.SenseData.SenseKey, 0, 0, 0, 0, 0x0A, 0, 0, 0, 0,
        w'.SenseData.AdditionalSenseCode, w'.SenseData.AdditionalSenseQualifier, 0, 0, 0, 0] ∧
      (∀ rs fuel2, rs.getD 0 0 % 256 = SCSI_CMD_REQUEST_SENSE →
        ∃ w2, SCSI_DecodeSCSICommand cfg env fuel2 { w' with SCSICommandData := rs }
            = some (true, w2) ∧
          w2.io.ep = w'.io.ep ++
            [EpEv.Write_Stream_LE (w'.SenseData.bytes.take (min (rs.getD 4 0 % 256) 18)),
             EpEv.Null_Stream (rs.getD 4 0 % 256 - min (rs.getD 4 0 % 256) 18),
             EpEv.ClearIN] ∧
          (18 ≤ rs.getD 4 0 % 256 →
            inBytes w2.io.ep = inBytes w'.io.ep ++
              (w'.SenseData.bytes ++ List.replicate (rs.getD 4 0 % 256 - 18) 0)) ∧
          inBytes w2.io.ep = inBytes w'.io.ep ++
            (w'.SenseData.bytes.take (min (rs.getD 4 0 % 256) 18) ++
              List.replicate (rs.getD 4 0 % 256 - min (rs.getD 4 0 % 256) 18) 0) ∧
          w2.SenseData = goodSense)) := by
  unfold SCSI_DecodeSCSICommand at h
  cases hsw : SCSI_Decode_switch cfg env fuel w with
  | none => simp [hsw] at h
  | some r =>
    obtain ⟨c, w1⟩ := r
    cases c
    · simp [hsw] at h
      obtain ⟨hok, hw⟩ := h
      subst hw
      refine ⟨fun ht => absurd (hok.symm.trans ht) (by decide), fun _ => ?_⟩
      obtain ⟨s, hs, hw, hp⟩ := switch_false cfg env fuel w w1 hsw
      subst hw
      obtain ⟨hkey, hbytes⟩ := failureSense_facts s hs
      refine ⟨hs, hkey, rfl, ?_, hbytes, ?_⟩
      · intro prior
        unfold SCSI_DecodeSCSICommand
        rw [hp prior]
        rfl
      · intro rs fuel2 hop
        obtain ⟨w2, hdec, hep, hgood⟩ := request_sense_next cfg env fuel2
          { ({ w with SenseData := s } : World) with SCSICommandData := rs } hop
        have hep2 : w2.io.ep = w.io.ep ++
            [EpEv.Write_Stream_LE (s.bytes.take (min (rs.getD 4 0 % 256) 18)),
            EpEv.Null_Stream (rs.getD 4 0 % 256 - min (rs.getD 4 0 % 256) 18),
            EpEv.ClearIN] := hep
        refine ⟨w2, hdec, hep, ?_, ?_, hgood⟩
        · intro h18
          have ht : List.take 18 s.bytes = s.bytes := by
            apply List.take_of_length_le
            rw [senseBytes_length]
          rw [hep2, inBytes_append, Nat.min_eq_right h18, ht]
          simp [inBytes, EpEv.wire]
        · rw [hep2, inBytes_append]
          simp [inBytes, EpEv.wire]
    · simp [hsw] at h
      obtain ⟨hok, hw⟩ := h
      subst hw
      refine ⟨fun _ => ?_, fun hf => absurd (hok.symm.trans hf) (by decide)⟩
      simp [SCSI_SET_SENSE, goodSense]

/-- C4 at a concrete input: an unsupported opcode 0xFF decoded while the sense
triple still holds DATA PROTECT / WRITE PROTECTED from an earlier command
leaves ILLEGAL REQUEST / INVALID COMMAND, and a REQUEST SENSE with allocation
length 18 decoded next succeeds and streams the record carrying that triple. -/
theorem C4_sense_after_command_witness :
    ({ World.mk0 (Drv.mk0 0 CT_SD2) [0xFF, 0, 0, 0, 0, 0] 0 0 with
        SenseData := ⟨SCSI_SENSE_KEY_ILLEGAL_REQUEST, SCSI_ASENSE_INVALID_COMMAND,
          SCSI_ASENSEQ_NO_QUALIFIER⟩ } : World).SenseData ∈ failureSenses ∧
    ∃ w2, SCSI_DecodeSCSICommand (Config.loopback false false) Env.quiet 0
        { World.mk0 (Drv.mk0 0 CT_SD2) [0x03, 0, 0, 0, 18, 0] 0 0 with
          SenseData := ⟨SCSI_SENSE_KEY_ILLEGAL_REQUEST, SCSI_ASENSE_INVALID_COMMAND,
            SCSI_ASENSEQ_NO_QUALIFIER⟩ } = some (true, w2) ∧
      inBytes w2.io.ep
        = [0x70, 0, 0x05, 0, 0, 0, 0, 0x0A, 0, 0, 0, 0, 0x20, 0x00, 0, 0, 0, 0] :=
  have h := (C4_sense_after_command (Config.loopback false false) Env.quiet 0
    { World.mk0 (Drv.mk0 0 CT_SD2) [0xFF, 0, 0, 0, 0, 0] 0 0 with
      SenseData := ⟨SCSI_SENSE_KEY_DATA_PROTECT, SCSI_ASENSE_WRITE_PROTECTED,
        SCSI_ASENSEQ_NO_QUALIFIER⟩ }
    false
    { World.mk0 (Drv.mk0 0 CT_SD2) [0xFF, 0, 0, 0, 0, 0] 0 0 with
      SenseData := ⟨SCSI_SENSE_KEY_ILLEGAL_REQUEST, SCSI_ASENSE_INVALID_COMMAND,
        SCSI_ASENSEQ_NO_QUALIFIER⟩ }
    (by decide)).2 rfl
  have hnext := h.2.2.2.2.2 [0x03, 0, 0, 0, 18, 0] 0 (by decide)
  ⟨h.1, hnext.elim fun w2 hw2 => ⟨w2, hw2.1, hw2.2.2.1 (by decide)⟩⟩

/-- C4 as stated fails for a REQUEST SENSE whose allocation length is below
18: after the unsupported opcode 0xFF has left ILLEGAL REQUEST / INVALID
COMMAND (code 0x20), a REQUEST SENSE with allocation length 12 succeeds and
streams the first 12 bytes of the record only, without the additional sense
code of byte 12 and the qualifier of byte 13, and one with allocation length 0
streams nothing; both leave the sense triple GOOD, so the triple is lost. -/
theorem C4_counterexample :
    (SCSI_DecodeSCSICommand (Config.loopback false false) Env.quiet 0
        (World.mk0 (Drv.mk0 0 CT_SD2) [0xFF, 0, 0, 0, 0, 0] 0 0)).map
      (fun r => (r.1, r.2.SenseData))
      = some (false, ⟨SCSI_SENSE_KEY_ILLEGAL_REQUEST, SCSI_ASENSE_INVALID_COMMAND,
          SCSI_ASENSEQ_NO_QUALIFIER⟩) ∧
    ((SCSI_DecodeSCSICommand (Config.loopback false false) Env.quiet 0
        (World.mk0 (Drv.mk0 0 CT_SD2) [0xFF, 0, 0, 0, 0, 0] 0 0)).bind
      (fun r => SCSI_DecodeSCSICommand (Config.loopback false false) Env.quiet 0
        { r.2 with SCSICommandData := [0x03, 0, 0, 0, 12, 0] })).map
      (fun r => (r.1, inBytes r.2.io.ep, r.2.SenseData))
      = some (true, [0x70, 0, 0x05, 0, 0, 0, 0, 0x0A, 0, 0, 0, 0], goodSense) ∧
    ((SCSI_DecodeSCSICommand (Config.loopback false false) Env.quiet 0
        (World.mk0 (Drv.mk0 0 CT_SD2) [0xFF, 0, 0, 0, 0, 0] 0 0)).bind
      (fun r => SCSI_DecodeSCSICommand (Config.loopback false false) Env.quiet 0
        { r.2 with SCSICommandData := [0x03, 0, 0, 0, 0, 0] })).map
      (fun r => (r.1, inBytes r.2.io.ep, r.2.SenseData))
      = some (true, [], goodSense) := by
  refine ⟨?_, ?_, ?_⟩ <;> decide

/-! ## READ(10) / WRITE(10): address and write-protect checks -/

/-- C5 as stated fails for WRITE(10) on a read-only configuration: the
write-protect check comes first, so an out-of-range WRITE(10) fails with
DATA PROTECT / WRITE PROTECTED instead of ILLEGAL REQUEST / LOGICAL BLOCK
ADDRESS OUT OF RANGE. -/
theorem C5_counterexample :
    (World.mk0 (Drv.mk0 0 CT_SD2) [0x2A, 0, 0xFF, 0xFF, 0xFF, 0xFF, 0, 0, 1, 0] 0 512).be32At 2
      ≥ (Config.loopback true false).LUN_MEDIA_BLOCKS ∧
    SCSI_DecodeSCSICommand (Config.loopback true false) Env.quiet 0
        (World.mk0 (Drv.mk0 0 CT_SD2) [0x2A, 0, 0xFF, 0xFF, 0xFF, 0xFF, 0, 0, 1, 0] 0 512)
      = some (false,
          { World.mk0 (Drv.mk0 0 CT_SD2) [0x2A, 0, 0xFF, 0xFF, 0xFF, 0xFF, 0, 0, 1, 0] 0 512 with
            SenseData := ⟨SCSI_SENSE_KEY_DATA_PROTECT, SCSI_ASENSE_WRITE_PROTECTED,
              SCSI_ASENSEQ_NO_QUALIFIER⟩ }) ∧
    SCSI_SENSE_KEY_DATA_PROTECT ≠ SCSI_SENSE_KEY_ILLEGAL_REQUEST := by
  refine ⟨by decide, by decide, by decide⟩

/-- C5 (amended): for every READ(10), and for every WRITE(10) on a
configuration that is not read-only, whose big-endian block address (bytes
2-5) is at least `LUN_MEDIA_BLOCKS`, the handler returns `false` and the only
change to the state is the sense triple ILLEGAL REQUEST / LOGICAL BLOCK
ADDRESS OUT OF RANGE / NO QUALIFIER: the log of Block Driver calls, the driver
state, the endpoint log and `DataTransferLength` are unchanged. The same
holds through `SCSI_DecodeSCSICommand` for the two opcodes. -/
theorem C5_lba_out_of_range (cfg : Config) (env : Env) (fuel : Nat) (isRead : Bool) (w : World)
    (hrange : cfg.LUN_MEDIA_BLOCKS ≤ w.be32At 2)
    (hrw : isRead = DATA_READ ∨ cfg.DISK_READ_ONLY = false) :
    SCSI_Command_ReadWrite_10 cfg env fuel isRead w
      = some (false, { w with SenseData := ⟨SCSI_SENSE_KEY_ILLEGAL_REQUEST,
          SCSI_ASENSE_LOGICAL_BLOCK_ADDRESS_OUT_OF_RANGE, SCSI_ASENSEQ_NO_QUALIFIER⟩ }) ∧
    (w.cdb 0 = (if isRead then SCSI_CMD_READ_10 else SCSI_CMD_WRITE_10) →
      SCSI_DecodeSCSICommand cfg env fuel w
        = some (false, { w with SenseData := ⟨SCSI_SENSE_KEY_ILLEGAL_REQUEST,
            SCSI_ASENSE_LOGICAL_BLOCK_ADDRESS_OUT_OF_RANGE, SCSI_ASENSEQ_NO_QUALIFIER⟩ })) := by
  have hguard : ¬ (isRead = DATA_WRITE ∧ cfg.DISK_READ_ONLY = true) := by
    rcases hrw with h | h
    · simp [h, DATA_READ, DATA_WRITE]
    · simp [h]
  have hmain : SCSI_Command_ReadWrite_10 cfg env fuel isRead w
      = some (false, { w with SenseData := ⟨SCSI_SENSE_KEY_ILLEGAL_REQUEST,
          SCSI_ASENSE_LOGICAL_BLOCK_ADDRESS_OUT_OF_RANGE, SCSI_ASENSEQ_NO_QUALIFIER⟩ }) := by
    unfold SCSI_Command_ReadWrite_10
    rw [if_neg hguard]
    simp only [swap32_load32, ge_iff_le, hrange, if_true, SCSI_SET_SENSE]
  refine ⟨hmain, ?_⟩
  intro hop
  cases isRead
  · have hop2 : w.cdb 0 = SCSI_CMD_WRITE_10 := by simpa using hop
    have hm : SCSI_Command_ReadWrite_10 cfg env fuel DATA_WRITE w = _ := hmain
    unfold SCSI_DecodeSCSICommand SCSI_Decode_switch
    simp [hop2, hm, SCSI_CMD_WRITE_10, SCSI_CMD_INQUIRY, SCSI_CMD_REQUEST_SENSE,
      SCSI_CMD_READ_CAPACITY_10, SCSI_CMD_SEND_DIAGNOSTIC]
  · have hop2 : w.cdb 0 = SCSI_CMD_READ_10 := by simpa using hop
    have hm : SCSI_Command_ReadWrite_10 cfg env fuel DATA_READ w = _ := hmain
    unfold SCSI_DecodeSCSICommand SCSI_Decode_switch
    simp [hop2, hm, SCSI_CMD_READ_10, SCSI_CMD_WRITE_10, SCSI_CMD_INQUIRY,
      SCSI_CMD_REQUEST_SENSE, SCSI_CMD_READ_CAPACITY_10, SCSI_CMD_SEND_DIAGNOSTIC]

/-- C5 (amended) at a concrete input: READ(10) of one block at address
0x00040000 = 262144 on a read-only device of 262144 blocks. -/
theorem C5_lba_out_of_range_witness :
    SCSI_Command_ReadWrite_10 (Config.loopback true false) Env.quiet 0 true
        (World.mk0 (Drv.mk0 0 CT_SD2) [0x28, 0, 0, 4, 0, 0, 0, 0, 1, 0] 0 512)
      = some (false, { World.mk0 (Drv.mk0 0 CT_SD2) [0x28, 0, 0, 4, 0, 0, 0, 0, 1, 0] 0 512 with
          SenseData := ⟨SCSI_SENSE_KEY_ILLEGAL_REQUEST,
            SCSI_ASENSE_LOGICAL_BLOCK_ADDRESS_OUT_OF_RANGE, SCSI_ASENSEQ_NO_QUALIFIER⟩ }) :=
  (C5_lba_out_of_range (Config.loopback true false) Env.quiet 0 true
    (World.mk0 (Drv.mk0 0 CT_SD2) [0x28, 0, 0, 4, 0, 0, 0, 0, 1, 0] 0 512)
    (by decide) (Or.inl rfl)).1

/-! ## INQUIRY, REQUEST SENSE, READ CAPACITY(10) -/

/-- C6: for every INQUIRY command block with bits 0-1 of byte 1 clear and
byte 2 zero, with `L` the big-endian value of bytes 3-4, the handler succeeds
and makes exactly three endpoint calls: a stream write of the first
`min L 36` bytes of the inquiry record, a null stream of `L - min L 36` zero
bytes, and `Endpoint_ClearIN`. The bytes written to the IN endpoint are those
record bytes followed by that many zeros, `L` bytes in all; for `L = 8` they
are the first 8 bytes of the record and nothing else. -/
theorem C6_inquiry_stream (w : World) (hbits : w.cdb 1 &&& 3 = 0) (hpage : w.cdb 2 = 0) :
    (SCSI_Command_Inquiry w).1 = true ∧
    (SCSI_Command_Inquiry w).2.io.ep = w.io.ep ++
      [EpEv.Write_Stream_LE (InquiryData.take (min (w.be16At 3) 36)),
       EpEv.Null_Stream (w.be16At 3 - min (w.be16At 3) 36), EpEv.ClearIN] ∧
    inBytes (SCSI_Command_Inquiry w).2.io.ep = inBytes w.io.ep ++
      (InquiryData.take (min (w.be16At 3) 36)
        ++ List.replicate (w.be16At 3 - min (w.be16At 3) 36) 0) ∧
    (InquiryData.take (min (w.be16At 3) 36)
        ++ List.replicate (w.be16At 3 - min (w.be16At 3) 36) 0).length = w.be16At 3 ∧
    (w.be16At 3 = 8 →
      inBytes (SCSI_Command_Inquiry w).2.io.ep = inBytes w.io.ep ++ InquiryData.take 8) := by
  have hep : (SCSI_Command_Inquiry w).2.io.ep = w.io.ep ++
      [EpEv.Write_Stream_LE (InquiryData.take (min (w.be16At 3) 36)),
       EpEv.Null_Stream (w.be16At 3 - min (w.be16At 3) 36), EpEv.ClearIN] := by
    simp [SCSI_Command_Inquiry, hbits, hpage, swap16_load16, inquiryData_length,
      Endpoint_Write_Stream_LE, Endpoint_Null_Stream, Endpoint_ClearIN, Io.logEp]
  have hin : inBytes (SCSI_Command_Inquiry w).2.io.ep = inBytes w.io.ep ++
      (InquiryData.take (min (w.be16At 3) 36)
        ++ List.replicate (w.be16At 3 - min (w.be16At 3) 36) 0) := by
    rw [hep, inBytes_append]
    simp [inBytes, EpEv.wire]
  refine ⟨?_, hep, hin, ?_, ?_⟩
  · simp [SCSI_Command_Inquiry, hbits, hpage]
  · simp only [List.length_append, List.length_take, List.length_replicate, inquiryData_length]
    omega
  · intro h8
    rw [hin, h8]
    simp

/-- C6 at a concrete input: INQUIRY with allocation length 8. -/
theorem C6_inquiry_stream_witness :
    inBytes (SCSI_Command_Inquiry
        (World.mk0 (Drv.mk0 0 CT_SD2) [0x12, 0, 0, 0, 8, 0] 0 8)).2.io.ep
      = [0x00, 0x80, 0x00, 0x02, 0x1F, 0x00, 0x00, 0x00] :=
  (C6_inquiry_stream (World.mk0 (Drv.mk0 0 CT_SD2) [0x12, 0, 0, 0, 8, 0] 0 8)
    (by decide) (by decide)).2.2.2.2 (by decide)

/-- C7 as stated fails when the allocation length exceeds the record size:
INQUIRY with allocation length 40 writes 40 bytes to the IN endpoint and
decrements `DataTransferLength` by 36 (from 40 to 4); REQUEST SENSE with
allocation length 20 writes 20 bytes and decrements it by 18 (from 20 to 2). -/
theorem C7_counterexample :
    (SCSI_Command_Inquiry (World.mk0 (Drv.mk0 0 CT_SD2) [0x12, 0, 0, 0, 40, 0] 0 40)).1 = true ∧
    (inBytes (SCSI_Command_Inquiry
      (World.mk0 (Drv.mk0 0 CT_SD2) [0x12, 0, 0, 0, 40, 0] 0 40)).2.io.ep).length = 40 ∧
    (SCSI_Command_Inquiry
      (World.mk0 (Drv.mk0 0 CT_SD2) [0x12, 0, 0, 0, 40, 0] 0 40)).2.DataTransferLength = 4 ∧
    (SCSI_Command_Request_Sense
      (World.mk0 (Drv.mk0 0 CT_SD2) [0x03, 0, 0, 0, 20, 0] 0 20)).1 = true ∧
    (inBytes (SCSI_Command_Request_Sense
      (World.mk0 (Drv.mk0 0 CT_SD2) [0x03, 0, 0, 0, 20, 0] 0 20)).2.io.ep).length = 20 ∧
    (SCSI_Command_Request_Sense
      (World.mk0 (Drv.mk0 0 CT_SD2) [0x03, 0, 0, 0, 20, 0] 0 20)).2.DataTransferLength = 2 := by
  refine ⟨by decide, by decide, by decide, by decide, by decide, by decide⟩

/-- C7 (amended): a successful INQUIRY with allocation length `L` (bytes 3-4,
big-endian) decrements `DataTransferLength`, modulo 2^32, by `min L 36`, the
number of record bytes it wrote; a REQUEST SENSE (which always succeeds) with
allocation length `L` (byte 4) decrements it by `min L 18`. The `L - min L 36`
(resp. `L - min L 18`) zero padding bytes written after the record are not
subtracted, so the decrement is the number of bytes written exactly when `L`
does not exceed the record size. -/
theorem C7_transfer_length (w : World) :
    ((SCSI_Command_Inquiry w).1 = true →
      (SCSI_Command_Inquiry w).2.DataTransferLength
        = sub32 w.DataTransferLength (min (w.be16At 3) 36) ∧
      (inBytes (SCSI_Command_Inquiry w).2.io.ep).length
        = (inBytes w.io.ep).length + min (w.be16At 3) 36 + (w.be16At 3 - min (w.be16At 3) 36)) ∧
    (SCSI_Command_Request_Sense w).1 = true ∧
    (SCSI_Command_Request_Sense w).2.DataTransferLength
      = sub32 w.DataTransferLength (min (w.cdb 4) 18) ∧
    (inBytes (SCSI_Command_Request_Sense w).2.io.ep).length
      = (inBytes w.io.ep).length + min (w.cdb 4) 18 + (w.cdb 4 - min (w.cdb 4) 18) := by
  refine ⟨?_, ?_, ?_, ?_⟩
  · intro hok
    have hcond : ¬ (w.cdb 1 &&& 3 ≠ 0 ∨ w.cdb 2 ≠ 0) := by
      intro hc
      simp [SCSI_Command_Inquiry, hc] at hok
    constructor
    · simp [SCSI_Command_Inquiry, hcond, swap16_load16, inquiryData_length,
        Endpoint_Write_Stream_LE, Endpoint_Null_Stream, Endpoint_ClearIN, Io.logEp]
    · simp only [SCSI_Command_Inquiry, if_neg hcond, swap16_load16, inquiryData_length,
        Endpoint_Write_Stream_LE, Endpoint_Null_Stream, Endpoint_ClearIN, Io.logEp]
      simp [inBytes, EpEv.wire, inquiryData_length]
      omega
  · simp [SCSI_Command_Request_Sense]
  · simp [SCSI_Command_Request_Sense, senseBytes_length,
      Endpoint_Write_Stream_LE, Endpoint_Null_Stream, Endpoint_ClearIN, Io.logEp]
  · simp only [SCSI_Command_Request_Sense, senseBytes_length,
      Endpoint_Write_Stream_LE, Endpoint_Null_Stream, Endpoint_ClearIN, Io.logEp]
    simp [inBytes, EpEv.wire, senseBytes_length]
    omega

/-- C7 (amended) at a concrete input: INQUIRY with allocation length 40 and
`DataTransferLength = 40` leaves `sub32 40 36`. -/
theorem C7_transfer_length_witness :
    (SCSI_Command_Inquiry
      (World.mk0 (Drv.mk0 0 CT_SD2) [0x12, 0, 0, 0, 40, 0] 0 40)).2.DataTransferLength
      = sub32 40 (min 40 36) :=
  ((C7_transfer_length (World.mk0 (Drv.mk0 0 CT_SD2) [0x12, 0, 0, 0, 40, 0] 0 40)).1
    (by decide)).1

/-- C8: READ CAPACITY(10) succeeds and makes exactly three endpoint calls, two
big-endian stream writes of four bytes each and `Endpoint_ClearIN`; the 8 bytes
written to the IN endpoint are the big-endian encoding of
`LUN_MEDIA_BLOCKS - 1` (computed in 32 bits) followed by that of 512, and
`DataTransferLength` is decremented by 8 modulo 2^32. For a block count `N`
with `1 ≤ N ≤ 2^32` the first word encodes `N - 1`; for `N = 262144` the bytes
are 00 03 FF FF 00 00 02 00. -/
theorem C8_read_capacity (cfg : Config) (w : World) :
    (SCSI_Command_Read_Capacity_10 cfg w).1 = true ∧
    (SCSI_Command_Read_Capacity_10 cfg w).2.io.ep = w.io.ep ++
      [EpEv.Write_Stream_BE (mem32 (sub32 cfg.LUN_MEDIA_BLOCKS 1)),
       EpEv.Write_Stream_BE (mem32 512), EpEv.ClearIN] ∧
    inBytes (SCSI_Command_Read_Capacity_10 cfg w).2.io.ep
      = inBytes w.io.ep ++ (be32 (sub32 cfg.LUN_MEDIA_BLOCKS 1) ++ be32 512) ∧
    (be32 (sub32 cfg.LUN_MEDIA_BLOCKS 1) ++ be32 512).length = 8 ∧
    (1 ≤ cfg.LUN_MEDIA_BLOCKS → cfg.LUN_MEDIA_BLOCKS ≤ 2 ^ 32 →
      sub32 cfg.LUN_MEDIA_BLOCKS 1 = cfg.LUN_MEDIA_BLOCKS - 1) ∧
    (SCSI_Command_Read_Capacity_10 cfg w).2.DataTransferLength
      = sub32 w.DataTransferLength 8 ∧
    (cfg.LUN_MEDIA_BLOCKS = 262144 →
      inBytes (SCSI_Command_Read_Capacity_10 cfg w).2.io.ep
        = inBytes w.io.ep ++ [0x00, 0x03, 0xFF, 0xFF, 0x00, 0x00, 0x02, 0x00]) := by
  have hep : (SCSI_Command_Read_Capacity_10 cfg w).2.io.ep = w.io.ep ++
      [EpEv.Write_Stream_BE (mem32 (sub32 cfg.LUN_MEDIA_BLOCKS 1)),
       EpEv.Write_Stream_BE (mem32 512), EpEv.ClearIN] := by
    simp [SCSI_Command_Read_Capacity_10, Endpoint_Write_Stream_BE, Endpoint_ClearIN,
      Io.logEp, VIRTUAL_MEMORY_BLOCK_SIZE]
  have hin : inBytes (SCSI_Command_Read_Capacity_10 cfg w).2.io.ep
      = inBytes w.io.ep ++ (be32 (sub32 cfg.LUN_MEDIA_BLOCKS 1) ++ be32 512) := by
    rw [hep, inBytes_append]
    simp [inBytes, EpEv.wire, mem32, be32]
  refine ⟨?_, hep, hin, ?_, ?_, ?_, ?_⟩
  · simp [SCSI_Command_Read_Capacity_10]
  · simp [be32]
  · intro h1 h2
    unfold sub32
    rcases Nat.lt_or_eq_of_le h2 with h | h
    · rw [Nat.mod_eq_of_lt h]
      norm_num
      omega
    · rw [h]
      norm_num
  · simp [SCSI_Command_Read_Capacity_10, Endpoint_Write_Stream_BE, Endpoint_ClearIN,
      Io.logEp]
  · intro hN
    rw [hin, hN]
    simp [be32, sub32]

/-- C8 at a concrete input: the loopback configuration of 262144 blocks. -/
theorem C8_read_capacity_witness :
    inBytes (SCSI_Command_Read_Capacity_10 (Config.loopback false false)
        (World.mk0 (Drv.mk0 0 CT_SD2) [0x25, 0, 0, 0, 0, 0, 0, 0, 0, 0] 0 8)).2.io.ep
      = [0x00, 0x03, 0xFF, 0xFF, 0x00, 0x00, 0x02, 0x00] :=
  (C8_read_capacity (Config.loopback false false)
    (World.mk0 (Drv.mk0 0 CT_SD2) [0x25, 0, 0, 0, 0, 0, 0, 0, 0, 0] 0 8)).2.2.2.2.2.2 rfl

/-! ## READ(10) / WRITE(10): read-only configuration and the pump's arguments -/

/-- C9: on a configuration with `DISK_READ_ONLY` true, every WRITE(10) command
block fails, and the only change to the state is the sense triple DATA PROTECT /
WRITE PROTECTED / NO QUALIFIER: the driver state and its SPI trace, the log of
Block Driver calls, the endpoint log (so nothing is read from the OUT
endpoint) and `DataTransferLength` are unchanged; the same holds through
`SCSI_DecodeSCSICommand`. READ(10) does not depend on the read-only setting:
it behaves as on the configuration with `DISK_READ_ONLY` false, and when it
fails the sense is never DATA PROTECT. -/
theorem C9_read_only_write (cfg : Config) (env : Env) (fuel : Nat) (w : World)
    (hro : cfg.DISK_READ_ONLY = true) :
    SCSI_Command_ReadWrite_10 cfg env fuel DATA_WRITE w
      = some (false, { w with SenseData := ⟨SCSI_SENSE_KEY_DATA_PROTECT,
          SCSI_ASENSE_WRITE_PROTECTED, SCSI_ASENSEQ_NO_QUALIFIER⟩ }) ∧
    (w.cdb 0 = SCSI_CMD_WRITE_10 →
      SCSI_DecodeSCSICommand cfg env fuel w
        = some (false, { w with SenseData := ⟨SCSI_SENSE_KEY_DATA_PROTECT,
            SCSI_ASENSE_WRITE_PROTECTED, SCSI_ASENSEQ_NO_QUALIFIER⟩ })) ∧
    SCSI_Command_ReadWrite_10 cfg env fuel DATA_READ w
      = SCSI_Command_ReadWrite_10 { cfg with DISK_READ_ONLY := false } env fuel DATA_READ w ∧
    (∀ w', SCSI_Command_ReadWrite_10 cfg env fuel DATA_READ w = some (false, w') →
      w'.SenseData.SenseKey = SCSI_SENSE_KEY_ILLEGAL_REQUEST) := by
  have hmain : SCSI_Command_ReadWrite_10 cfg env fuel DATA_WRITE w
      = some (false, { w with SenseData := ⟨SCSI_SENSE_KEY_DATA_PROTECT,
          SCSI_ASENSE_WRITE_PROTECTED, SCSI_ASENSEQ_NO_QUALIFIER⟩ }) := by
    simp [SCSI_Command_ReadWrite_10, hro, SCSI_SET_SENSE]
  refine ⟨hmain, ?_, ?_, ?_⟩
  · intro hop
    unfold SCSI_DecodeSCSICommand SCSI_Decode_switch
    simp [hop, hmain, SCSI_CMD_WRITE_10, SCSI_CMD_INQUIRY, SCSI_CMD_REQUEST_SENSE,
      SCSI_CMD_READ_CAPACITY_10, SCSI_CMD_SEND_DIAGNOSTIC]
  · simp [SCSI_Command_ReadWrite_10, DATA_READ, DATA_WRITE]
  · intro w' h
    unfold SCSI_Command_ReadWrite_10 at h
    simp only [DATA_READ, DATA_WRITE] at h
    by_cases hr : SwapEndian_32 (w.load32 2) ≥ cfg.LUN_MEDIA_BLOCKS
    · simp [hr, SCSI_SET_SENSE] at h
      rw [← h]
    · simp only [hr, if_false] at h
      simp at h
      split at h <;> simp at h

/-- C9 at a concrete input: WRITE(10) of one block at address 5 on the
read-only loopback configuration. -/
theorem C9_read_only_write_witness :
    SCSI_Command_ReadWrite_10 (Config.loopback true false) Env.quiet 0 DATA_WRITE
        (World.mk0 (Drv.mk0 0 CT_SD2) [0x2A, 0, 0, 0, 0, 5, 0, 0, 1, 0] 0 512)
      = some (false, { World.mk0 (Drv.mk0 0 CT_SD2) [0x2A, 0, 0, 0, 0, 5, 0, 0, 1, 0] 0 512 with
          SenseData := ⟨SCSI_SENSE_KEY_DATA_PROTECT, SCSI_ASENSE_WRITE_PROTECTED,
            SCSI_ASENSEQ_NO_QUALIFIER⟩ }) :=
  (C9_read_only_write (Config.loopback true false) Env.quiet 0
    (World.mk0 (Drv.mk0 0 CT_SD2) [0x2A, 0, 0, 0, 0, 5, 0, 0, 1, 0] 0 512) rfl).1

/-- C10: for every READ(10) / WRITE(10) command block that passes both checks
(not a write on a read-only configuration, block address below
`LUN_MEDIA_BLOCKS`), the handler runs the Block Transfer Pump (`MMC_ReadBlocks2`
for a read, `MMC_WriteBlocks2` for a write) on the I/O state with the
big-endian value of bytes 2-5 as start address, plus `LUN * LUN_MEDIA_BLOCKS`
in 32 bits when `TOTAL_LUNS > 1`, and the big-endian value of bytes 7-8 as
block count; when the pump returns, the handler returns `true`, the I/O state
is the pump's, `DataTransferLength` is its value at entry decreased by
`count * 512` modulo 2^32, and the sense triple and the rest of the command
block are unchanged. The 32-bit sum is the exact sum whenever that is below
2^32. The pump does return, and the command reports success, whenever the
timer interrupt is delivered at least once per step, the endpoint streams are
not cut short (or the build moves 16 bytes at a time), and the fuel is at
least 65536. -/
theorem C10_pump_arguments (cfg : Config) (env : Env) (fuel : Nat) (isRead : Bool) (w : World)
    (hrw : isRead = DATA_READ ∨ cfg.DISK_READ_ONLY = false)
    (hrange : w.be32At 2 < cfg.LUN_MEDIA_BLOCKS) :
    SCSI_Command_ReadWrite_10 cfg env fuel isRead w
      = ((if isRead then MMC_ReadBlocks2 else MMC_WriteBlocks2) cfg.RW_DIVEDE_2_16 env fuel
          (if cfg.TOTAL_LUNS > 1 then
            (w.be32At 2 + w.LUN % 256 * cfg.LUN_MEDIA_BLOCKS) % 2 ^ 32
           else w.be32At 2)
          (w.be16At 7) w.io).map
        (fun io => (true,
          { w with io := io,
                   DataTransferLength := sub32 w.DataTransferLength (w.be16At 7 * 512) })) ∧
    (w.be32At 2 + w.LUN % 256 * cfg.LUN_MEDIA_BLOCKS < 2 ^ 32 →
      (w.be32At 2 + w.LUN % 256 * cfg.LUN_MEDIA_BLOCKS) % 2 ^ 32
        = w.be32At 2 + w.LUN % 256 * cfg.LUN_MEDIA_BLOCKS) ∧
    ((∀ n, 1 ≤ env.ticks n) →
      (cfg.RW_DIVEDE_2_16 = true ∨
        ∀ n, (env.epStream n).1 % 256 ≠ ENDPOINT_RWSTREAM_IncompleteTransfer) →
      65536 ≤ fuel →
      ∃ io, SCSI_Command_ReadWrite_10 cfg env fuel isRead w
        = some (true,
            { w with io := io,
                     DataTransferLength := sub32 w.DataTransferLength (w.be16At 7 * 512) })) := by
  have hguard : ¬ (isRead = DATA_WRITE ∧ cfg.DISK_READ_ONLY = true) := by
    rcases hrw with h | h
    · simp [h, DATA_READ, DATA_WRITE]
    · simp [h]
  have hmain : SCSI_Command_ReadWrite_10 cfg env fuel isRead w
      = ((if isRead then MMC_ReadBlocks2 else MMC_WriteBlocks2) cfg.RW_DIVEDE_2_16 env fuel
          (if cfg.TOTAL_LUNS > 1 then
            (w.be32At 2 + w.LUN % 256 * cfg.LUN_MEDIA_BLOCKS) % 2 ^ 32
           else w.be32At 2)
          (w.be16At 7) w.io).map
        (fun io => (true,
          { w with io := io,
                   DataTransferLength := sub32 w.DataTransferLength (w.be16At 7 * 512) })) := ?_
  · refine ⟨hmain, fun h => Nat.mod_eq_of_lt h, ?_⟩
    intro hticks hstream hfuel
    have h16 := be16At_lt w 7
    rw [hmain]
    cases isRead
    · simp only [Bool.false_eq_true, if_false]
      obtain ⟨io, hio⟩ := MMC_WriteBlocks2_returns cfg.RW_DIVEDE_2_16 env hticks hstream fuel
        (by omega) (if cfg.TOTAL_LUNS > 1 then
            (w.be32At 2 + w.LUN % 256 * cfg.LUN_MEDIA_BLOCKS) % 2 ^ 32
           else w.be32At 2) (w.be16At 7) w.io (by omega) h16
      exact ⟨io, by rw [hio]; rfl⟩
    · simp only [if_true]
      obtain ⟨io, hio⟩ := MMC_ReadBlocks2_returns cfg.RW_DIVEDE_2_16 env hticks hstream fuel
        (by omega) (if cfg.TOTAL_LUNS > 1 then
            (w.be32At 2 + w.LUN % 256 * cfg.LUN_MEDIA_BLOCKS) % 2 ^ 32
           else w.be32At 2) (w.be16At 7) w.io (by omega) h16
      exact ⟨io, by rw [hio]; rfl⟩
  unfold SCSI_Command_ReadWrite_10
  rw [if_neg hguard]
  simp only [swap32_load32, swap16_load16, ge_iff_le, Nat.not_le.mpr hrange, if_false,
    VIRTUAL_MEMORY_BLOCK_SIZE, DATA_READ, Nat.add_mod_mod]
  cases isRead
  · simp only [Bool.false_eq_true, if_false]
    generalize MMC_WriteBlocks2 _ _ _ _ _ _ = r
    cases r <;> rfl
  · simp only [if_true]
    generalize MMC_ReadBlocks2 _ _ _ _ _ _ = r
    cases r <;> rfl

set_option maxRecDepth 1000000 in
set_option maxHeartbeats 4000000 in
/-- C10 at a concrete input: READ(10) of one block at address 5 on a card that
answers the read. The pump returns after one Block Driver call for sector 5,
the command reports success and `DataTransferLength` goes from 512 to 0. -/
theorem C10_pump_arguments_witness :
    (SCSI_Command_ReadWrite_10 (Config.loopback false false) Env.reading 300 true
        (World.mk0 (Drv.mk0 0 CT_SD2) [0x28, 0, 0, 0, 0, 5, 0, 0, 1, 0] 0 512)).map
      (fun r => (r.1, r.2.DataTransferLength, r.2.io.calls))
      = some (true, 0, [IoCall.read 5 1 RES_OK]) := by
  rw [(C10_pump_arguments (Config.loopback false false) Env.reading 300 true
    (World.mk0 (Drv.mk0 0 CT_SD2) [0x28, 0, 0, 0, 0, 5, 0, 0, 1, 0] 0 512)
    (Or.inl rfl) (by decide)).1]
  decide

/-! ## What the driver's primitives leave alone -/

theorem Issued.refl (d : Drv) : Issued d d [] := by
  simp [Issued]

theorem Issued.trans {d d1 d2 : Drv} {cs1 cs2 : List (Nat × Nat)}
    (h1 : Issued d d1 cs1) (h2 : Issued d1 d2 cs2) : Issued d d2 (cs1 ++ cs2) := by
  obtain ⟨a1, b1, p1, c1⟩ := h1
  obtain ⟨a2, b2, p2, c2⟩ := h2
  refine ⟨a2.trans a1, b2.trans b1, p1.trans p2, ?_⟩
  rw [c2, c1, List.append_assoc]

theorem Issued.quiet {d d1 d2 : Drv} {cs : List (Nat × Nat)}
    (h1 : Issued d d1 []) (h2 : Issued d1 d2 cs) : Issued d d2 cs := by
  simpa using h1.trans h2

theorem Issued.then_quiet {d d1 d2 : Drv} {cs : List (Nat × Nat)}
    (h1 : Issued d d1 cs) (h2 : Issued d1 d2 []) : Issued d d2 cs := by
  simpa using h1.trans h2

theorem xchg_spi_issued (env : Env) (dat : Nat) (d : Drv) :
    Issued d (xchg_spi env dat d).2 [] := by
  rw [xchg_spi_eq]
  simp [Issued, cmdsOf]

theorem elapse_issued (env : Env) (d : Drv) : Issued d (elapse env d) [] := by
  simp [Issued, elapse, timerTicks_eq]

theorem event_issued (d : Drv) (e : SpiEv) (he : ∀ i a, e ≠ SpiEv.cmd i a) :
    Issued d { d with trace := d.trace ++ [e] } [] := by
  cases e <;> simp [Issued, cmdsOf] at he ⊢

theorem timer1_issued (d : Drv) (v : Nat) : Issued d { d with Timer1 := v } [] := by
  simp [Issued]

theorem timer2_issued (d : Drv) (v : Nat) : Issued d { d with Timer2 := v } [] := by
  simp [Issued]

theorem mark_issued (d : Drv) (cmd arg : Nat) : Issued d (d.mark cmd arg) [(cmd, arg)] := by
  simp [Issued, Drv.mark, cmdsOf]

theorem xchg_n_issued (env : Env) : ∀ (k : Nat) (d : Drv), Issued d (xchg_n env k d) [] := by
  intro k
  induction k with
  | zero => intro d; exact Issued.refl d
  | succ k ih =>
    intro d
    rw [xchg_n]
    exact (xchg_spi_issued env 0xFF d).quiet (ih _)

theorem rcvr_n_issued (env : Env) :
    ∀ (k : Nat) (buf : List Nat) (p : Nat) (d : Drv), Issued d (rcvr_n env k buf p d).2 [] := by
  intro k
  induction k with
  | zero => intro buf p d; exact Issued.refl d
  | succ k ih =>
    intro buf p d
    rw [rcvr_n]
    exact (xchg_spi_issued env 0xFF d).quiet (ih _ _ _)

theorem xmit_n_issued (env : Env) :
    ∀ (k : Nat) (buf : List Nat) (p : Nat) (d : Drv), Issued d (xmit_n env k buf p d) [] := by
  intro k
  induction k with
  | zero => intro buf p d; exact Issued.refl d
  | succ k ih =>
    intro buf p d
    rw [xmit_n]
    exact (xchg_spi_issued env _ d).quiet (ih _ _ _)

theorem rcvr_spi_multi_issued (env : Env) :
    ∀ (fuel : Nat) (buf : List Nat) (p cnt : Nat) (d : Drv) (r : List Nat × Drv),
      rcvr_spi_multi env fuel buf p cnt d = some r → Issued d r.2 [] := by
  intro fuel
  induction fuel with
  | zero => intro buf p cnt d r h; simp [rcvr_spi_multi] at h
  | succ f ih =>
    intro buf p cnt d r h
    rw [rcvr_spi_multi] at h
    simp only at h
    have h2 := (xchg_spi_issued env 0xFF d).quiet
      (xchg_spi_issued env 0xFF (xchg_spi env 0xFF d).2)
    split at h
    · exact h2.quiet (ih _ _ _ _ _ h)
    · simp only [Option.some.injEq] at h
      rw [← h]
      exact h2

theorem xmit_spi_multi_issued (env : Env) :
    ∀ (fuel : Nat) (buf : List Nat) (p cnt : Nat) (d : Drv) (r : Drv),
      xmit_spi_multi env fuel buf p cnt d = some r → Issued d r [] := by
  intro fuel
  induction fuel with
  | zero => intro buf p cnt d r h; simp [xmit_spi_multi] at h
  | succ f ih =>
    intro buf p cnt d r h
    rw [xmit_spi_multi] at h
    simp only at h
    have h2 := (xchg_spi_issued env (buf.getD p 0 % 256) d).quiet
      (xchg_spi_issued env (buf.getD (p + 1) 0 % 256) (xchg_spi env (buf.getD p 0 % 256) d).2)
    split at h
    · exact h2.quiet (ih _ _ _ _ _ h)
    · simp only [Option.some.injEq] at h
      rw [← h]
      exact h2

theorem wait_ready_loop_issued (env : Env) :
    ∀ (fuel : Nat) (d : Drv) (r : Nat × Drv),
      wait_ready_loop env fuel d = some r → Issued d r.2 [] := by
  intro fuel
  induction fuel with
  | zero => intro d r h; simp [wait_ready_loop] at h
  | succ f ih =>
    intro d r h
    rw [wait_ready_loop] at h
    simp only at h
    split at h
    · exact (xchg_spi_issued env 0xFF d).quiet (ih _ _ h)
    · simp only [Option.some.injEq] at h
      rw [← h]
      exact xchg_spi_issued env 0xFF d

theorem rcvr_token_loop_issued (env : Env) :
    ∀ (fuel : Nat) (d : Drv) (r : Nat × Drv),
      rcvr_token_loop env fuel d = some r → Issued d r.2 [] := by
  intro fuel
  induction fuel with
  | zero => intro d r h; simp [rcvr_token_loop] at h
  | succ f ih =>
    intro d r h
    rw [rcvr_token_loop] at h
    simp only at h
    split at h
    · exact (xchg_spi_issued env 0xFF d).quiet (ih _ _ h)
    · simp only [Option.some.injEq] at h
      rw [← h]
      exact xchg_spi_issued env 0xFF d

theorem spin_Timer1_issued (env : Env) :
    ∀ (fuel : Nat) (d r : Drv), spin_Timer1 env fuel d = some r → Issued d r [] := by
  intro fuel
  induction fuel with
  | zero => intro d r h; simp [spin_Timer1] at h
  | succ f ih =>
    intro d r h
    rw [spin_Timer1] at h
    split at h
    · exact (elapse_issued env d).quiet (ih _ _ h)
    · simp only [Option.some.injEq] at h
      rw [← h]
      exact Issued.refl d

theorem wait_ready_issued (env : Env) (fuel wt : Nat) (d : Drv) (r : Nat × Drv)
    (h : wait_ready env fuel wt d = some r) : Issued d r.2 [] := by
  unfold wait_ready at h
  split at h
  · simp at h
  · rename_i r0 d0 hl
    simp only [Option.some.injEq] at h
    rw [← h]
    exact (timer2_issued d _).quiet (wait_ready_loop_issued env fuel _ (r0, d0) hl)

theorem deselect_issued (env : Env) (d : Drv) : Issued d (deselect env d) [] := by
  unfold deselect
  exact (event_issued d SpiEv.csHigh (by intro i a; simp)).quiet (xchg_spi_issued env 0xFF _)

theorem select_issued (env : Env) (fuel : Nat) (d : Drv) (r : Nat × Drv)
    (h : select env fuel d = some r) : Issued d r.2 [] := by
  unfold select at h
  simp only at h
  have h0 := (event_issued d SpiEv.csLow (by intro i a; simp)).quiet
    (xchg_spi_issued env 0xFF { d with trace := d.trace ++ [SpiEv.csLow] })
  split at h
  · simp at h
  · rename_i r0 d0 hw
    have h1 := h0.quiet (wait_ready_issued env fuel 500 _ _ hw)
    split at h
    · simp only [Option.some.injEq] at h
      rw [← h]
      exact h1
    · simp only [Option.some.injEq] at h
      rw [← h]
      exact h1.quiet (deselect_issued env d0)

theorem rcvr_datablock_issued (env : Env) (fuel : Nat) (buf : List Nat) (p btr : Nat) (d : Drv)
    (r : Nat × List Nat × Drv) (h : rcvr_datablock env fuel buf p btr d = some r) :
    Issued d r.2.2 [] := by
  unfold rcvr_datablock at h
  split at h
  · simp at h
  · rename_i tok d0 ht
    have h0 := (timer1_issued d 20).quiet (rcvr_token_loop_issued env fuel _ _ ht)
    split at h
    · simp only [Option.some.injEq] at h
      rw [← h]
      exact h0
    · split at h
      · simp at h
      · rename_i buf1 d1 hm
        simp only [Option.some.injEq] at h
        rw [← h]
        exact ((h0.quiet (rcvr_spi_multi_issued env fuel _ _ _ _ _ hm)).quiet
          (xchg_spi_issued env 0xFF d1)).quiet (xchg_spi_issued env 0xFF _)

theorem xmit_datablock_issued (env : Env) (fuel : Nat) (buf : List Nat) (p token : Nat)
    (d : Drv) (r : Nat × Drv) (h : xmit_datablock env fuel buf p token d = some r) :
    Issued d r.2 [] := by
  unfold xmit_datablock at h
  split at h
  · simp at h
  · rename_i rdy d0 hw
    have h0 := wait_ready_issued env fuel 500 _ _ hw
    split at h
    · simp only [Option.some.injEq] at h
      rw [← h]
      exact h0
    · have h1 := h0.quiet (xchg_spi_issued env token d0)
      simp only at h
      split at h
      · simp only [Option.some.injEq] at h
        rw [← h]
        exact h1
      · split at h
        · simp at h
        · rename_i d1 hm
          simp only [Option.some.injEq] at h
          rw [← h]
          exact (((h1.quiet (xmit_spi_multi_issued env fuel _ _ _ _ _ hm)).quiet
            (xchg_spi_issued env 0xFF d1)).quiet (xchg_spi_issued env 0xFF _)).quiet
            (xchg_spi_issued env 0xFF _)

theorem send_cmd_resp_issued (env : Env) :
    ∀ (k : Nat) (d : Drv), Issued d (send_cmd_resp env k d).2 [] := by
  intro k
  induction k with
  | zero => intro d; rw [send_cmd_resp]; exact xchg_spi_issued env 0xFF d
  | succ k ih =>
    intro d
    rw [send_cmd_resp]
    simp only
    split
    · exact (xchg_spi_issued env 0xFF d).quiet (ih _)
    · exact xchg_spi_issued env 0xFF d

theorem send_cmd_frame_issued (env : Env) (fuel cmd arg : Nat) (d : Drv) (r : Nat × Drv)
    (h : send_cmd_frame env fuel cmd arg d = some r) : Issued d r.2 [] := by
  unfold send_cmd_frame at h
  simp only at h
  have hsel : ∀ ok d0, (if cmd ≠ CMD12 then select env fuel (deselect env d)
      else some (1, d)) = some (ok, d0) → Issued d d0 [] := by
    intro ok d0 hs
    split at hs
    · exact (deselect_issued env d).quiet (select_issued env fuel _ _ hs)
    · simp only [Option.some.injEq, Prod.mk.injEq] at hs
      rw [← hs.2]
      exact Issued.refl d
  split at h
  · simp at h
  · rename_i ok d0 hs
    have h0 := hsel ok d0 hs
    split at h
    · simp only [Option.some.injEq] at h
      rw [← h]
      exact h0
    · simp only [Option.some.injEq] at h
      rw [← h]
      refine h0.quiet ?_
      have e1 := xchg_spi_issued env ((0x40 ||| cmd) % 256) d0
      have e2 := e1.quiet (xchg_spi_issued env (arg / 2 ^ 24 % 256) _)
      have e3 := e2.quiet (xchg_spi_issued env (arg / 2 ^ 16 % 256) _)
      have e4 := e3.quiet (xchg_spi_issued env (arg / 2 ^ 8 % 256) _)
      have e5 := e4.quiet (xchg_spi_issued env (arg % 256) _)
      have e6 := e5.quiet (xchg_spi_issued env
        (if cmd = CMD8 then 0x87 else if cmd = CMD0 then 0x95 else 0x01) _)
      split
      · exact (e6.quiet (xchg_spi_issued env 0xFF _)).quiet (send_cmd_resp_issued env 9 _)
      · exact e6.quiet (send_cmd_resp_issued env 9 _)

/-- The commands one call of `send_cmd` issues: the command itself, and CMD55
first when it is an application command. -/
theorem send_cmd_issued (env : Env) (fuel cmd arg : Nat) (d : Drv) (r : Nat × Drv)
    (h : send_cmd env fuel cmd arg d = some r) :
    Issued d r.2 (if cmd &&& 0x80 ≠ 0 then [(cmd, arg), (CMD55, 0)] else [(cmd, arg)]) := by
  unfold send_cmd at h
  simp only at h
  split at h
  · rename_i hacmd
    rw [if_pos hacmd]
    have h0 := (mark_issued d cmd arg).trans (mark_issued (d.mark cmd arg) CMD55 0)
    split at h
    · simp at h
    · rename_i res d0 hf
      have h1 := h0.then_quiet (send_cmd_frame_issued env fuel _ _ _ _ hf)
      split at h
      · simp only [Option.some.injEq] at h
        rw [← h]
        exact h1
      · exact h1.then_quiet (send_cmd_frame_issued env fuel _ _ _ _ h)
  · rename_i hplain
    rw [if_neg hplain]
    exact (mark_issued d cmd arg).then_quiet (send_cmd_frame_issued env fuel _ _ _ _ h)

theorem read_loop_issued (env : Env) (fuel : Nat) :
    ∀ (k : Nat) (buf : List Nat) (p count : Nat) (d : Drv) (r : Nat × List Nat × Drv),
      read_loop env fuel k buf p count d = some r → Issued d r.2.2 [] := by
  intro k
  induction k with
  | zero => intro buf p count d r h; simp [read_loop] at h
  | succ k ih =>
    intro buf p count d r h
    rw [read_loop] at h
    split at h
    · simp at h
    · rename_i ok buf1 d1 hr
      have h0 := rcvr_datablock_issued env fuel _ _ _ _ _ hr
      split at h
      · simp only [Option.some.injEq] at h
        rw [← h]
        exact h0
      · simp only at h
        split at h
        · exact h0.quiet (ih _ _ _ _ _ h)
        · simp only [Option.some.injEq] at h
          rw [← h]
          exact h0

theorem write_loop_issued (env : Env) (fuel : Nat) :
    ∀ (k : Nat) (buf : List Nat) (p count : Nat) (d : Drv) (r : Nat × Drv),
      write_loop env fuel k buf p count d = some r → Issued d r.2 [] := by
  intro k
  induction k with
  | zero => intro buf p count d r h; simp [write_loop] at h
  | succ k ih =>
    intro buf p count d r h
    rw [write_loop] at h
    split at h
    · simp at h
    · rename_i ok d1 hr
      have h0 := xmit_datablock_issued env fuel _ _ _ _ _ hr
      split at h
      · simp only [Option.some.injEq] at h
        rw [← h]
        exact h0
      · simp only at h
        split at h
        · exact h0.quiet (ih _ _ _ _ _ h)
        · simp only [Option.some.injEq] at h
          rw [← h]
          exact h0

/-! ## The commands `mmc_disk_read` issues -/

/-- How `mmc_disk_read` runs once both guards are passed: the read command, the
sector loop when it was answered 0, CMD12 after a multiple block read, and the
final `deselect`. -/
theorem mmc_disk_read_run (env : Env) (fuel : Nat) (buf : List Nat) (p sector count : Nat)
    (d : Drv) (r : DRESULT × List Nat × Drv)
    (hcount : count ≠ 0) (hinit : d.Stat &&& STA_NOINIT = 0)
    (h : mmc_disk_read env fuel buf p sector count d = some r) :
    ∃ res d1,
      send_cmd env fuel (if count > 1 then CMD18 else CMD17)
        (if d.CardType &&& CT_BLOCK = 0 then sector * 512 % 2 ^ 32 else sector) d
        = some (res, d1) ∧
      ((res ≠ 0 ∧ r = (RES_ERROR, buf, deselect env d1)) ∨
       (res = 0 ∧ ∃ c b d2, read_loop env fuel fuel buf p count d1 = some (c, b, d2) ∧
          ((count = 1 ∧ r = (if c ≠ 0 then RES_ERROR else RES_OK, b, deselect env d2)) ∨
           (count > 1 ∧ ∃ r12 d3, send_cmd env fuel CMD12 0 d2 = some (r12, d3) ∧
              r = (if c ≠ 0 then RES_ERROR else RES_OK, b, deselect env d3))))) := by
  unfold mmc_disk_read at h
  rw [if_neg hcount, if_neg (by simpa using hinit)] at h
  simp only at h
  cases hs : send_cmd env fuel (if count > 1 then CMD18 else CMD17)
      (if d.CardType &&& CT_BLOCK = 0 then sector * 512 % 2 ^ 32 else sector) d with
  | none => rw [hs] at h; simp at h
  | some x =>
    obtain ⟨res, d1⟩ := x
    refine ⟨res, d1, rfl, ?_⟩
    rw [hs] at h
    simp only at h
    by_cases hres : res = 0
    · right
      refine ⟨hres, ?_⟩
      simp only [hres, if_true] at h
      cases hl : read_loop env fuel fuel buf p count d1 with
      | none => rw [hl] at h; simp at h
      | some y =>
        obtain ⟨c, b, d2⟩ := y
        refine ⟨c, b, d2, rfl, ?_⟩
        rw [hl] at h
        simp only at h
        by_cases h1 : count > 1
        · right
          refine ⟨h1, ?_⟩
          simp only [h1, if_true] at h
          cases h12 : send_cmd env fuel CMD12 0 d2 with
          | none => rw [h12] at h; simp at h
          | some z =>
            obtain ⟨r12, d3⟩ := z
            refine ⟨r12, d3, rfl, ?_⟩
            rw [h12] at h
            simp only [Option.some.injEq] at h
            exact h.symm
        · left
          have hc1 : count = 1 := by omega
          refine ⟨hc1, ?_⟩
          have hne : ¬ (CMD17 = CMD18) := by decide
          simp only [h1, if_false, hne, Option.some.injEq] at h
          exact h.symm
    · left
      refine ⟨hres, ?_⟩
      simp only [hres, if_false, Option.some.injEq] at h
      simp only [hcount, ne_eq, not_false_eq_true, if_true] at h
      exact h.symm

/-! ## Bytes shifted out and responses read -/

theorem txOf_append (a b : List SpiEv) : txOf (a ++ b) = txOf a ++ txOf b := by
  simp [txOf, List.filterMap_append]

theorem OnlyClocks.same (d : Drv) : OnlyClocks d d := ⟨0, by simp⟩

theorem OnlyClocks.next {d d1 d2 : Drv} (h1 : OnlyClocks d d1) (h2 : OnlyClocks d1 d2) :
    OnlyClocks d d2 := by
  obtain ⟨k1, e1⟩ := h1
  obtain ⟨k2, e2⟩ := h2
  refine ⟨k1 + k2, ?_⟩
  rw [e2, e1, List.append_assoc, List.replicate_add]

theorem xchg_spi_clocks (env : Env) (d : Drv) : OnlyClocks d (xchg_spi env 0xFF d).2 := by
  refine ⟨1, ?_⟩
  rw [xchg_spi_eq]
  simp [txOf_append, txOf]

theorem csLow_clocks (d : Drv) : OnlyClocks d { d with trace := d.trace ++ [SpiEv.csLow] } :=
  ⟨0, by simp [txOf_append, txOf]⟩

theorem csHigh_clocks (d : Drv) : OnlyClocks d { d with trace := d.trace ++ [SpiEv.csHigh] } :=
  ⟨0, by simp [txOf_append, txOf]⟩

theorem mark_clocks (d : Drv) (c a : Nat) : OnlyClocks d (d.mark c a) :=
  ⟨0, by simp [Drv.mark, txOf_append, txOf]⟩

theorem wait_ready_loop_clocks (env : Env) :
    ∀ (fuel : Nat) (d : Drv) (r : Nat × Drv),
      wait_ready_loop env fuel d = some r → OnlyClocks d r.2 := by
  intro fuel
  induction fuel with
  | zero => intro d r h; simp [wait_ready_loop] at h
  | succ f ih =>
    intro d r h
    rw [wait_ready_loop] at h
    simp only at h
    split at h
    · exact (xchg_spi_clocks env d).next (ih _ _ h)
    · simp only [Option.some.injEq] at h
      rw [← h]
      exact xchg_spi_clocks env d

theorem wait_ready_clocks (env : Env) (fuel wt : Nat) (d : Drv) (r : Nat × Drv)
    (h : wait_ready env fuel wt d = some r) : OnlyClocks d r.2 := by
  unfold wait_ready at h
  split at h
  · simp at h
  · rename_i r0 d0 hw
    simp only [Option.some.injEq] at h
    rw [← h]
    have := wait_ready_loop_clocks env fuel _ (r0, d0) hw
    have h0 : OnlyClocks d { d with Timer2 := wt / 10 % 256 } := ⟨0, by simp⟩
    exact h0.next this

theorem deselect_clocks (env : Env) (d : Drv) : OnlyClocks d (deselect env d) :=
  (csHigh_clocks d).next (xchg_spi_clocks env _)

theorem select_clocks (env : Env) (fuel : Nat) (d : Drv) (r : Nat × Drv)
    (h : select env fuel d = some r) : OnlyClocks d r.2 := by
  unfold select at h
  simp only at h
  have h0 := (csLow_clocks d).next
    (xchg_spi_clocks env { d with trace := d.trace ++ [SpiEv.csLow] })
  split at h
  · simp at h
  · rename_i r0 d0 hw
    have h1 := h0.next (wait_ready_clocks env fuel 500 _ (r0, d0) hw)
    split at h
    · simp only [Option.some.injEq] at h
      rw [← h]
      exact h1
    · simp only [Option.some.injEq] at h
      rw [← h]
      exact h1.next (deselect_clocks env d0)

theorem select_result (env : Env) (fuel : Nat) (d : Drv) (r : Nat × Drv)
    (h : select env fuel d = some r) : r.1 = 0 ∨ r.1 = 1 := by
  unfold select at h
  simp only at h
  split at h
  · simp at h
  · split at h
    · simp only [Option.some.injEq] at h
      rw [← h]
      exact Or.inr rfl
    · simp only [Option.some.injEq] at h
      rw [← h]
      exact Or.inl rfl

theorem send_cmd_resp_spec (env : Env) :
    ∀ (n : Nat) (d : Drv), ∃ k,
      ResponseAt (fun j => env.miso (d.now + j) % 256) n k ∧
      (send_cmd_resp env n d).1 = env.miso (d.now + k) % 256 ∧
      (send_cmd_resp env n d).2.now = d.now + (k + 1) ∧
      txOf (send_cmd_resp env n d).2.trace = txOf d.trace ++ List.replicate (k + 1) 0xFF := by
  intro n
  induction n with
  | zero =>
    intro d
    refine ⟨0, ⟨Nat.le_refl 0, fun j hj => absurd hj (Nat.not_lt_zero j), Or.inr rfl⟩, ?_⟩
    rw [send_cmd_resp, xchg_spi_eq]
    simp [txOf_append, txOf]
  | succ n ih =>
    intro d
    rw [send_cmd_resp, xchg_spi_eq]
    simp only
    split
    · rename_i hbit
      obtain ⟨k, ⟨hk, hall, hlast⟩, h1, h2, h3⟩ := ih
        { d with Timer1 := d.Timer1 - env.ticks d.now, Timer2 := d.Timer2 - env.ticks d.now,
                 now := d.now + 1,
                 trace := d.trace ++ [SpiEv.xchg 0xFF (env.miso d.now % 256)] }
      simp only at hall hlast h1 h2 h3
      refine ⟨k + 1, ⟨by omega, ?_, ?_⟩, ?_, ?_, ?_⟩
      · intro j hj
        cases j with
        | zero => exact hbit
        | succ j =>
          have := hall j (by omega)
          show env.miso (d.now + (j + 1)) % 256 &&& 0x80 ≠ 0
          rw [show d.now + (j + 1) = d.now + 1 + j by omega]
          exact this
      · rcases hlast with hl | hl
        · left
          show env.miso (d.now + (k + 1)) % 256 &&& 0x80 = 0
          rw [show d.now + (k + 1) = d.now + 1 + k by omega]
          exact hl
        · right
          omega
      · rw [h1, show d.now + (k + 1) = d.now + 1 + k by omega]
      · rw [h2]
        omega
      · rw [h3, txOf_append]
        simp only [txOf, List.filterMap_cons, List.filterMap_nil, List.append_assoc,
          List.singleton_append]
        rw [show List.replicate (k + 1 + 1) 0xFF = 0xFF :: List.replicate (k + 1) 0xFF from rfl]
    · rename_i hbit
      refine ⟨0, ⟨Nat.zero_le _, fun j hj => absurd hj (Nat.not_lt_zero j), Or.inl ?_⟩, ?_⟩
      · simpa using hbit
      · simp [txOf_append, txOf]

/-! ## Failed card transfers behind READ(10) and WRITE(10) -/

set_option maxRecDepth 1000000 in
set_option maxHeartbeats 4000000 in
/-- C11: a READ(10) of block 5 on a card that answers the read command with
0xFF, so that mmc_disk_read returns RES_ERROR, and the same command on a card
that is not initialised, so that it returns RES_NOTRDY, both complete as
successful commands with sense GOOD and a zero residue; so does a WRITE(10)
whose mmc_disk_write returns RES_ERROR. The Block Driver result is logged
and not acted on. -/
theorem C11_failed_transfer_reported_good :
    (SCSI_DecodeSCSICommand (Config.loopback false false) Env.quiet 300
        (World.mk0 (Drv.mk0 0 CT_SD2) [0x28, 0, 0, 0, 0, 5, 0, 0, 1, 0] 0 512)).map
      (fun r => (r.1, r.2.SenseData, r.2.io.calls, r.2.DataTransferLength))
      = some (true, goodSense, [IoCall.read 5 1 RES_ERROR], 0) ∧
    (SCSI_DecodeSCSICommand (Config.loopback false false) Env.quiet 300
        (World.mk0 (Drv.mk0 STA_NOINIT 0) [0x28, 0, 0, 0, 0, 5, 0, 0, 1, 0] 0 512)).map
      (fun r => (r.1, r.2.SenseData, r.2.io.calls, r.2.DataTransferLength))
      = some (true, goodSense, [IoCall.read 5 1 RES_NOTRDY], 0) ∧
    (SCSI_DecodeSCSICommand (Config.loopback false false) Env.quiet 300
        (World.mk0 (Drv.mk0 0 CT_SD2) [0x2A, 0, 0, 0, 0, 5, 0, 0, 1, 0] 0 512)).map
      (fun r => (r.1, r.2.SenseData, r.2.io.calls, r.2.DataTransferLength))
      = some (true, goodSense, [IoCall.write 5 1 RES_ERROR], 0) := by
  refine ⟨?_, ?_, ?_⟩ <;> decide

/-! ## Unsupported and empty commands -/

/-- C12: for every command block whose first byte is none of the eleven
supported opcodes, SCSI_DecodeSCSICommand returns false and changes nothing but
the sense triple, which becomes ILLEGAL REQUEST / INVALID COMMAND / NO
QUALIFIER: the endpoint log, the driver and DataTransferLength are as before.
For the four no-op opcodes it returns true and changes nothing but
DataTransferLength, which becomes 0, and the sense triple, which becomes
GOOD. -/
theorem C12_unsupported_opcode (cfg : Config) (env : Env) (fuel : Nat) (w : World) :
    (w.cdb 0 ∉ supportedOpcodes →
      SCSI_DecodeSCSICommand cfg env fuel w = some (false, { w with SenseData :=
        ⟨SCSI_SENSE_KEY_ILLEGAL_REQUEST, SCSI_ASENSE_INVALID_COMMAND,
         SCSI_ASENSEQ_NO_QUALIFIER⟩ })) ∧
    (w.cdb 0 ∈ noopOpcodes →
      SCSI_DecodeSCSICommand cfg env fuel w
        = some (true, { w with DataTransferLength := 0, SenseData := goodSense })) := by
  constructor
  · intro h
    simp only [supportedOpcodes, List.mem_cons, List.mem_singleton, List.not_mem_nil,
      not_or, or_false] at h
    obtain ⟨h1, h2, h3, h4, h5, h6, h7, h8, h9, h10, h11⟩ := h
    simp only [SCSI_DecodeSCSICommand, SCSI_Decode_switch, h1, h2, h3, h4, h5, h6, h7, h8, h9,
      h10, h11, if_false, or_self, SCSI_SET_SENSE]
    rfl
  · intro h
    simp only [noopOpcodes, List.mem_cons, List.mem_singleton, List.not_mem_nil,
      or_false] at h
    have hsw : SCSI_Decode_switch cfg env fuel w
        = some (true, { w with DataTransferLength := 0 }) := by
      unfold SCSI_Decode_switch
      simp only
      rcases h with h | h | h | h <;> rw [h] <;> rfl
    simp only [SCSI_DecodeSCSICommand, hsw, SCSI_SET_SENSE, goodSense]
    rfl

/-- C12 at concrete inputs: opcode 0xA0 (REPORT LUNS) is refused, opcode 0x00
(TEST UNIT READY) succeeds with a zero residue. -/
theorem C12_unsupported_opcode_witness :
    ((World.mk0 (Drv.mk0 0 CT_SD2) [0xA0, 0, 0, 0, 0, 0] 0 16).cdb 0 ∉ supportedOpcodes ∧
      (World.mk0 (Drv.mk0 0 CT_SD2) [0x00, 0, 0, 0, 0, 0] 0 16).cdb 0 ∈ noopOpcodes) ∧
    SCSI_DecodeSCSICommand (Config.loopback false false) Env.quiet 300
        (World.mk0 (Drv.mk0 0 CT_SD2) [0xA0, 0, 0, 0, 0, 0] 0 16)
      = some (false, { World.mk0 (Drv.mk0 0 CT_SD2) [0xA0, 0, 0, 0, 0, 0] 0 16 with
          SenseData := ⟨5, 0x20, 0⟩ }) ∧
    SCSI_DecodeSCSICommand (Config.loopback false false) Env.quiet 300
        (World.mk0 (Drv.mk0 0 CT_SD2) [0x00, 0, 0, 0, 0, 0] 0 16)
      = some (true, { World.mk0 (Drv.mk0 0 CT_SD2) [0x00, 0, 0, 0, 0, 0] 0 16 with
          DataTransferLength := 0, SenseData := ⟨0, 0, 0⟩ }) :=
  ⟨⟨by decide, by decide⟩,
   (C12_unsupported_opcode (Config.loopback false false) Env.quiet 300
      (World.mk0 (Drv.mk0 0 CT_SD2) [0xA0, 0, 0, 0, 0, 0] 0 16)).1 (by decide),
   (C12_unsupported_opcode (Config.loopback false false) Env.quiet 300
      (World.mk0 (Drv.mk0 0 CT_SD2) [0x00, 0, 0, 0, 0, 0] 0 16)).2 (by decide)⟩

/-! ## The result of `mmc_disk_read` -/

theorem Filled.zero (env : Env) (t p : Nat) (buf : List Nat) : Filled env t p 0 buf buf := by
  refine ⟨rfl, fun i => ?_⟩
  rw [if_neg (by omega)]

theorem Filled.step {env : Env} {t p n : Nat} {buf out : List Nat}
    (h : Filled env (t + 1) (p + 1) n (buf.set p (env.miso t % 256)) out) :
    Filled env t p (n + 1) buf out := by
  obtain ⟨hl, hi⟩ := h
  rw [List.length_set] at hl
  refine ⟨hl, fun i => ?_⟩
  rw [hi i, List.length_set, List.getElem?_set]
  by_cases h1 : p = i
  · subst h1
    by_cases h2 : p < buf.length
    · simp [h2]
    · have : buf[p]? = none := by simp; omega
      simp [h2, this]
  · by_cases h2 : p + 1 ≤ i ∧ i < p + 1 + n ∧ i < buf.length
    · rw [if_pos h2, if_pos (by omega)]
      congr 3
      omega
    · rw [if_neg h2, if_neg h1, if_neg (by omega)]

theorem rcvr_spi_multi_filled (env : Env) :
    ∀ (fuel k : Nat) (buf : List Nat) (p : Nat) (d : Drv) (r : List Nat × Drv),
      1 ≤ k → k ≤ 32767 → rcvr_spi_multi env fuel buf p (2 * k) d = some r →
      Filled env d.now p (2 * k) buf r.1 ∧ r.2.now = d.now + 2 * k := by
  intro fuel
  induction fuel with
  | zero => intro k buf p d r _ _ h; simp [rcvr_spi_multi] at h
  | succ f ih =>
    intro k buf p d r h1 h3 h
    have hc : (2 * k + 65536 - 2) % 65536 = 2 * (k - 1) := by omega
    rw [rcvr_spi_multi] at h
    simp only [hc, xchg_spi_eq] at h
    split at h
    · rename_i hne
      obtain ⟨hf, hn⟩ := ih (k - 1) _ _ _ r (by omega) (by omega) h
      simp only at hf hn
      constructor
      · rw [show 2 * k = 2 * (k - 1) + 1 + 1 by omega]
        exact Filled.step (Filled.step hf)
      · rw [hn]
        omega
    · rename_i he
      have hk : k = 1 := by omega
      subst hk
      simp only [Option.some.injEq] at h
      rw [← h]
      constructor
      · exact Filled.step (Filled.step (Filled.zero env _ _ _))
      · rfl

theorem rcvr_token_loop_spec (env : Env) :
    ∀ (fuel : Nat) (d : Drv) (r : Nat × Drv), rcvr_token_loop env fuel d = some r →
      ∃ t, WaitEnds env d.now t ∧ r.1 = env.miso t % 256 ∧ r.2.now = t + 1 := by
  intro fuel
  induction fuel with
  | zero => intro d r h; simp [rcvr_token_loop] at h
  | succ f ih =>
    intro d r h
    rw [rcvr_token_loop] at h
    simp only [xchg_spi_eq] at h
    split at h
    · rename_i hc
      obtain ⟨t, ⟨hst, hall⟩, h1, h2⟩ := ih _ r h
      simp only at hst hall
      refine ⟨t, ⟨by omega, fun j hj1 hj2 => ?_⟩, h1, h2⟩
      by_cases hj : j = d.now
      · rw [hj]
        exact hc.1
      · exact hall j (by omega) hj2
    · simp only [Option.some.injEq] at h
      rw [← h]
      exact ⟨d.now, ⟨Nat.le_refl _, fun j hj1 hj2 => by omega⟩, rfl, rfl⟩

/-- What one call of `rcvr_datablock(buff, 512)` does, told from the bytes the
card sends. -/
theorem rcvr_datablock_spec (env : Env) (fuel : Nat) (buf : List Nat) (p : Nat) (d : Drv)
    (r : Nat × List Nat × Drv) (h : rcvr_datablock env fuel buf p 512 d = some r) :
    ∃ t, WaitEnds env d.now t ∧
      ((env.miso t % 256 = 0xFE ∧ r.1 = 1 ∧ Filled env (t + 1) p 512 buf r.2.1 ∧
          r.2.2.now = t + 515) ∨
       (env.miso t % 256 ≠ 0xFE ∧ r.1 = 0 ∧ r.2.1 = buf ∧ r.2.2.now = t + 1)) := by
  unfold rcvr_datablock at h
  split at h
  · simp at h
  · rename_i token d0 ht
    obtain ⟨t, hw, h1, h2⟩ := rcvr_token_loop_spec env fuel _ (token, d0) ht
    simp only at hw h1 h2
    refine ⟨t, hw, ?_⟩
    split at h
    · rename_i hne
      simp only [Option.some.injEq] at h
      rw [← h]
      exact Or.inr ⟨by rw [← h1]; exact hne, rfl, rfl, h2⟩
    · rename_i heq
      have heq : token = 0xFE := by simpa using heq
      split at h
      · simp at h
      · rename_i b1 d1 hm
        obtain ⟨hf, hn⟩ := rcvr_spi_multi_filled env fuel 256 buf p d0 (b1, d1)
          (by decide) (by decide) hm
        simp only [xchg_spi_eq, Option.some.injEq] at h
        rw [← h]
        refine Or.inl ⟨by rw [← h1]; exact heq, rfl, ?_, ?_⟩
        · rw [← h2]
          exact hf
        · show d1.now + 1 + 1 = t + 515
          rw [hn, h2]

/-- What the sector loop of `mmc_disk_read` does: it receives `m` sectors, and
either these are all `count` or the next wait ends with something other than
the data token. -/
theorem read_loop_spec (env : Env) (fuel : Nat) :
    ∀ (k : Nat) (buf : List Nat) (p count : Nat) (d : Drv) (r : Nat × List Nat × Drv),
      1 ≤ count → count < 65536 → read_loop env fuel k buf p count d = some r →
      ∃ m e, m ≤ count ∧ r.1 = count - m ∧ SectorsReceived env m d.now p buf e r.2.1 ∧
        (m < count → ∃ t, WaitEnds env e t ∧ env.miso t % 256 ≠ 0xFE) := by
  intro k
  induction k with
  | zero => intro buf p count d r _ _ h; simp [read_loop] at h
  | succ k ih =>
    intro buf p count d r h1 h16 h
    rw [read_loop] at h
    split at h
    · simp at h
    · rename_i ok b1 d1 hd
      obtain ⟨t, hw, hcase⟩ := rcvr_datablock_spec env fuel buf p d (ok, b1, d1) hd
      simp only at hcase
      have hdec : (count + 65536 - 1) % 65536 = count - 1 := by omega
      rcases hcase with ⟨htok, hok, hfill, hnow⟩ | ⟨htok, hok, hbuf, hnow⟩
      · rw [if_neg (by rw [hok]; decide)] at h
        simp only [hdec] at h
        split at h
        · rename_i hne
          obtain ⟨m, e, hm, hc, hs, hfail⟩ := ih b1 (p + 512) (count - 1) d1 r
            (by omega) (by omega) h
          rw [hnow] at hs
          refine ⟨m + 1, e, by omega, by rw [hc, Nat.sub_sub, Nat.add_comm], ⟨t, b1, hw, htok, hfill, hs⟩, ?_⟩
          intro hlt
          exact hfail (by omega)
        · rename_i he
          simp only [Option.some.injEq] at h
          rw [← h]
          refine ⟨1, t + 515, by omega, by omega, ⟨t, b1, hw, htok, hfill, rfl, rfl⟩, ?_⟩
          intro hlt
          omega
      · rw [if_pos hok] at h
        simp only [Option.some.injEq] at h
        rw [← h]
        refine ⟨0, d.now, by omega, rfl, ⟨rfl, hbuf⟩, ?_⟩
        intro _
        exact ⟨t, hw, htok⟩

theorem sectorsReceived_frame (env : Env) :
    ∀ (m s p : Nat) (buf : List Nat) (e : Nat) (out : List Nat),
      SectorsReceived env m s p buf e out →
      out.length = buf.length ∧ ∀ i, (i < p ∨ p + 512 * m ≤ i) → out[i]? = buf[i]? := by
  intro m
  induction m with
  | zero =>
    intro s p buf e out h
    obtain ⟨_, h2⟩ := h
    rw [h2]
    exact ⟨rfl, fun _ _ => rfl⟩
  | succ m ih =>
    intro s p buf e out h
    obtain ⟨t, mid, _, _, ⟨hl, hf⟩, hrest⟩ := h
    obtain ⟨hl2, hf2⟩ := ih _ _ _ _ _ hrest
    refine ⟨hl2.trans hl, fun i hi => ?_⟩
    rw [hf2 i (by omega), hf i, if_neg (by omega)]

theorem xmit_spi_multi_spec (env : Env) :
    ∀ (fuel k : Nat) (buf : List Nat) (p : Nat) (d d1 : Drv),
      1 ≤ k → k ≤ 32767 → xmit_spi_multi env fuel buf p (2 * k) d = some d1 →
      d1.now = d.now + 2 * k ∧ txOf d1.trace = txOf d.trace ++ bytesFrom buf p (2 * k) := by
  intro fuel
  induction fuel with
  | zero => intro k buf p d d1 _ _ h; simp [xmit_spi_multi] at h
  | succ f ih =>
    intro k buf p d d1 h1 h3 h
    have hc : (2 * k + 65536 - 2) % 65536 = 2 * (k - 1) := by omega
    rw [xmit_spi_multi] at h
    simp only [hc, xchg_spi_eq] at h
    have hk : 2 * k = 2 * (k - 1) + 1 + 1 := by omega
    split at h
    · rename_i hne
      obtain ⟨hn, ht⟩ := ih (k - 1) _ _ _ d1 (by omega) (by omega) h
      simp only at hn ht
      constructor
      · rw [hn]
        omega
      · rw [ht, hk]
        simp [txOf_append, txOf, bytesFrom]
    · rename_i he
      have hk1 : k = 1 := by omega
      subst hk1
      simp only [Option.some.injEq] at h
      rw [← h]
      constructor
      · rfl
      · simp [txOf_append, txOf, bytesFrom]

theorem wait_ready_loop_spec (env : Env) :
    ∀ (fuel : Nat) (d : Drv) (r : Nat × Drv), wait_ready_loop env fuel d = some r →
      ∃ w, BusyUntil env d.now w ∧ r.1 = env.miso w % 256 ∧ r.2.now = w + 1 ∧
        txOf r.2.trace = txOf d.trace ++ List.replicate (w + 1 - d.now) 0xFF := by
  intro fuel
  induction fuel with
  | zero => intro d r h; simp [wait_ready_loop] at h
  | succ f ih =>
    intro d r h
    rw [wait_ready_loop] at h
    simp only [xchg_spi_eq] at h
    split at h
    · rename_i hc
      obtain ⟨w, ⟨hsw, hall⟩, h1, h2, h3⟩ := ih _ r h
      simp only at hsw hall h3
      refine ⟨w, ⟨by omega, fun j hj1 hj2 => ?_⟩, h1, h2, ?_⟩
      · by_cases hj : j = d.now
        · rw [hj]
          exact hc.1
        · exact hall j (by omega) hj2
      · rw [h3, txOf_append, show w + 1 - d.now = (w + 1 - (d.now + 1)) + 1 by omega,
          List.replicate_succ]
        simp [txOf]
    · simp only [Option.some.injEq] at h
      rw [← h]
      refine ⟨d.now, ⟨Nat.le_refl _, fun j hj1 hj2 => by omega⟩, rfl, rfl, ?_⟩
      simp [txOf_append, txOf]

theorem wait_ready_spec (env : Env) (fuel wt : Nat) (d : Drv) (r : Nat × Drv)
    (h : wait_ready env fuel wt d = some r) :
    ∃ w, BusyUntil env d.now w ∧ r.1 = (if env.miso w % 256 = 0xFF then 1 else 0) ∧
      r.2.now = w + 1 ∧
      txOf r.2.trace = txOf d.trace ++ List.replicate (w + 1 - d.now) 0xFF := by
  unfold wait_ready at h
  split at h
  · simp at h
  · rename_i r0 d0 hw
    obtain ⟨w, hb, h1, h2, h3⟩ := wait_ready_loop_spec env fuel _ (r0, d0) hw
    simp only at hb h1 h2 h3
    simp only [Option.some.injEq] at h
    rw [← h]
    exact ⟨w, hb, by rw [h1], h2, h3⟩

/-- What one call of `xmit_datablock` does, told from the bytes on the bus. -/
theorem xmit_datablock_spec (env : Env) (fuel : Nat) (buf : List Nat) (p token : Nat) (d : Drv)
    (r : Nat × Drv) (h : xmit_datablock env fuel buf p token d = some r) :
    ∃ w, BusyUntil env d.now w ∧
      ((env.miso w % 256 ≠ 0xFF ∧ r.1 = 0 ∧ r.2.now = w + 1 ∧
          txOf r.2.trace = txOf d.trace ++ List.replicate (w + 1 - d.now) 0xFF) ∨
       (env.miso w % 256 = 0xFF ∧ token = 0xFD ∧ r.1 = 1 ∧ r.2.now = w + 2 ∧
          txOf r.2.trace = txOf d.trace ++ (List.replicate (w + 1 - d.now) 0xFF ++ [0xFD])) ∨
       (env.miso w % 256 = 0xFF ∧ token ≠ 0xFD ∧
          r.1 = (if env.miso (w + 516) % 256 &&& 0x1F = 0x05 then 1 else 0) ∧
          r.2.now = w + 517 ∧
          txOf r.2.trace = txOf d.trace ++ (List.replicate (w + 1 - d.now) 0xFF ++
            token :: (bytesFrom buf p 512 ++ [0xFF, 0xFF, 0xFF])))) := by
  unfold xmit_datablock at h
  split at h
  · simp at h
  · rename_i r0 d0 hw
    obtain ⟨w, hb, h1, h2, h3⟩ := wait_ready_spec env fuel 500 d (r0, d0) hw
    simp only at h1 h2 h3
    refine ⟨w, hb, ?_⟩
    split at h
    · rename_i hr0
      simp only [Option.some.injEq] at h
      rw [← h]
      refine Or.inl ⟨?_, rfl, h2, h3⟩
      intro hff
      rw [h1, if_pos hff] at hr0
      exact absurd hr0 (by decide)
    · rename_i hr0
      have hff : env.miso w % 256 = 0xFF := by
        by_contra hne
        rw [h1, if_neg hne] at hr0
        exact hr0 rfl
      simp only [xchg_spi_eq] at h
      split at h
      · rename_i htok
        simp only [Option.some.injEq] at h
        rw [← h]
        refine Or.inr (Or.inl ⟨hff, htok, rfl, ?_, ?_⟩)
        · show d0.now + 1 = w + 2
          rw [h2]
        · show txOf (d0.trace ++ _) = _
          rw [txOf_append, h3, htok]
          simp [txOf]
      · rename_i htok
        split at h
        · simp at h
        · rename_i d1 hm
          obtain ⟨hn, ht⟩ := xmit_spi_multi_spec env fuel 256 buf p _ d1 (by decide) (by decide) hm
          simp only at hn ht
          simp only [Option.some.injEq] at h
          rw [← h]
          refine Or.inr (Or.inr ⟨hff, htok, ?_, ?_, ?_⟩)
          · show (if env.miso (d1.now + 1 + 1) % 256 &&& 0x1F = 0x05 then 1 else 0) = _
            rw [hn, h2]
          · show d1.now + 1 + 1 + 1 = w + 517
            rw [hn, h2]
          · show txOf (d1.trace ++ _ ++ _ ++ _) = _
            simp only [txOf_append, ht, h3]
            simp [txOf]

/-- What the block loop of the multiple block write does: `m` blocks are sent
and accepted, and either these are all `count` or the next attempt fails. -/
theorem write_loop_spec (env : Env) (fuel : Nat) :
    ∀ (k : Nat) (buf : List Nat) (p count : Nat) (d : Drv) (r : Nat × Drv),
      1 ≤ count → count < 65536 → write_loop env fuel k buf p count d = some r →
      ∃ m e tx e2 tx2, m ≤ count ∧ r.1 = count - m ∧
        BlocksAccepted env 0xFC buf m d.now p e tx ∧
        (if m < count then BlockRefused env 0xFC buf e (p + 512 * m) e2 tx2
         else e2 = e ∧ tx2 = []) ∧
        r.2.now = e2 ∧ txOf r.2.trace = txOf d.trace ++ (tx ++ tx2) := by
  intro k
  induction k with
  | zero => intro buf p count d r _ _ h; simp [write_loop] at h
  | succ k ih =>
    intro buf p count d r h1 h16 h
    rw [write_loop] at h
    split at h
    · simp at h
    · rename_i ok d1 hd
      obtain ⟨w, hb, hcase⟩ := xmit_datablock_spec env fuel buf p 0xFC d (ok, d1) hd
      simp only at hcase
      have hdec : (count + 65536 - 1) % 65536 = count - 1 := by omega
      rcases hcase with ⟨hbusy, hok, hnow, htx⟩ | ⟨_, htok, _⟩ | ⟨hrdy, _, hok, hnow, htx⟩
      · rw [if_pos hok] at h
        simp only [Option.some.injEq] at h
        rw [← h]
        refine ⟨0, d.now, [], w + 1, List.replicate (w + 1 - d.now) 0xFF, Nat.zero_le _, rfl,
          ⟨rfl, rfl⟩, ?_, hnow, ?_⟩
        · rw [if_pos (by omega)]
          exact ⟨w, hb, Or.inl ⟨hbusy, rfl, rfl⟩⟩
        · rw [htx]
          rfl
      · exact absurd htok (by decide)
      · by_cases hacc : env.miso (w + 516) % 256 &&& 0x1F = 0x05
        · rw [if_pos hacc] at hok
          rw [if_neg (by rw [hok]; decide)] at h
          simp only [hdec] at h
          split at h
          · rename_i hne
            obtain ⟨m, e, tx, e2, tx2, hm, hc, hacc2, href, hn2, ht2⟩ :=
              ih buf (p + 512) (count - 1) d1 r (by omega) (by omega) h
            rw [hnow] at hacc2
            refine ⟨m + 1, e, List.replicate (w + 1 - d.now) 0xFF ++
                0xFC :: (bytesFrom buf p 512 ++ 0xFF :: 0xFF :: 0xFF :: tx), e2, tx2, by omega,
              by rw [hc, Nat.sub_sub, Nat.add_comm],
              ⟨w, tx, hb, hrdy, hacc, hacc2, rfl⟩, ?_, hn2, ?_⟩
            · by_cases hlt : m < count - 1
              · rw [if_pos hlt] at href
                rw [if_pos (by omega), show p + 512 * (m + 1) = p + 512 + 512 * m by omega]
                exact href
              · rw [if_neg hlt] at href
                rw [if_neg (by omega)]
                exact href
            · rw [ht2, htx]
              simp
          · rename_i he
            simp only [Option.some.injEq] at h
            rw [← h]
            refine ⟨1, w + 517, List.replicate (w + 1 - d.now) 0xFF ++
                0xFC :: (bytesFrom buf p 512 ++ 0xFF :: 0xFF :: 0xFF :: []), w + 517, [], by omega,
              by omega,
              ⟨w, [], hb, hrdy, hacc, ⟨rfl, rfl⟩, rfl⟩, ?_, hnow, ?_⟩
            · rw [if_neg (by omega)]
              exact ⟨rfl, rfl⟩
            · rw [htx]
              simp
        · rw [if_neg hacc] at hok
          rw [if_pos hok] at h
          simp only [Option.some.injEq] at h
          rw [← h]
          refine ⟨0, d.now, [], w + 517, List.replicate (w + 1 - d.now) 0xFF ++
              0xFC :: (bytesFrom buf p 512 ++ [0xFF, 0xFF, 0xFF]), Nat.zero_le _, rfl,
            ⟨rfl, rfl⟩, ?_, hnow, ?_⟩
          · rw [if_pos (by omega)]
            exact ⟨w, hb, Or.inr ⟨hrdy, hacc, rfl, rfl⟩⟩
          · rw [htx]
            rfl

/-- How a single block `mmc_disk_write` runs once the guards are passed. -/
theorem mmc_disk_write_single (env : Env) (fuel : Nat) (buf : List Nat) (p sector : Nat)
    (d : Drv) (r : DRESULT × Drv)
    (hinit : d.Stat &&& STA_NOINIT = 0) (hprot : d.Stat &&& STA_PROTECT = 0)
    (h : mmc_disk_write env fuel buf p sector 1 d = some r) :
    ∃ res d1,
      send_cmd env fuel CMD24
        (if d.CardType &&& CT_BLOCK = 0 then sector * 512 % 2 ^ 32 else sector) d
        = some (res, d1) ∧
      ((res ≠ 0 ∧ r = (RES_ERROR, deselect env d1)) ∨
       (res = 0 ∧ ∃ ok d2, xmit_datablock env fuel buf p 0xFE d1 = some (ok, d2) ∧
          r = (if ok ≠ 0 then RES_OK else RES_ERROR, deselect env d2))) := by
  unfold mmc_disk_write at h
  rw [if_neg (by decide), if_neg (by simpa using hinit), if_neg (by simpa using hprot)] at h
  simp only [if_true] at h
  cases hs : send_cmd env fuel CMD24
      (if d.CardType &&& CT_BLOCK = 0 then sector * 512 % 2 ^ 32 else sector) d with
  | none => rw [hs] at h; simp at h
  | some x =>
    obtain ⟨res, d1⟩ := x
    refine ⟨res, d1, rfl, ?_⟩
    rw [hs] at h
    simp only at h
    by_cases hres : res = 0
    · right
      refine ⟨hres, ?_⟩
      rw [if_pos hres] at h
      cases hx : xmit_datablock env fuel buf p 0xFE d1 with
      | none => rw [hx] at h; simp at h
      | some y =>
        obtain ⟨ok, d2⟩ := y
        refine ⟨ok, d2, rfl, ?_⟩
        rw [hx] at h
        simp only [Option.some.injEq] at h
        rw [← h]
        by_cases hok : ok = 0
        · simp [hok]
        · simp [hok]
    · left
      refine ⟨hres, ?_⟩
      rw [if_neg hres] at h
      simp only [Option.some.injEq] at h
      rw [← h]
      simp

/-- How a multiple block `mmc_disk_write` runs once the guards are passed. -/
theorem mmc_disk_write_multi (env : Env) (fuel : Nat) (buf : List Nat) (p sector count : Nat)
    (d : Drv) (r : DRESULT × Drv) (hcount : 2 ≤ count)
    (hinit : d.Stat &&& STA_NOINIT = 0) (hprot : d.Stat &&& STA_PROTECT = 0)
    (h : mmc_disk_write env fuel buf p sector count d = some r) :
    ∃ d0 res d1,
      (if d.CardType &&& CT_SDC ≠ 0 then ∃ r23, send_cmd env fuel ACMD23 count d = some (r23, d0)
       else d0 = d) ∧
      send_cmd env fuel CMD25
        (if d.CardType &&& CT_BLOCK = 0 then sector * 512 % 2 ^ 32 else sector) d0
        = some (res, d1) ∧
      ((res ≠ 0 ∧ r = (RES_ERROR, deselect env d1)) ∨
       (res = 0 ∧ ∃ c d2 ok d3, write_loop env fuel fuel buf p count d1 = some (c, d2) ∧
          xmit_datablock env fuel buf 0 0xFD d2 = some (ok, d3) ∧
          r = (if ok ≠ 0 ∧ c = 0 then RES_OK else RES_ERROR, deselect env d3))) := by
  unfold mmc_disk_write at h
  rw [if_neg (by omega), if_neg (by simpa using hinit), if_neg (by simpa using hprot)] at h
  simp only at h
  rw [if_neg (by omega)] at h
  have hpre : ∃ d0, (if d.CardType &&& CT_SDC ≠ 0 then
        (send_cmd env fuel ACMD23 count d).map Prod.snd else some d) = some d0 := by
    cases hp : (if d.CardType &&& CT_SDC ≠ 0 then
        (send_cmd env fuel ACMD23 count d).map Prod.snd else some d) with
    | none => rw [hp] at h; simp at h
    | some d0 => exact ⟨d0, rfl⟩
  obtain ⟨d0, hp⟩ := hpre
  rw [hp] at h
  simp only at h
  refine ⟨d0, ?_⟩
  have hpre2 : (if d.CardType &&& CT_SDC ≠ 0 then
      ∃ r23, send_cmd env fuel ACMD23 count d = some (r23, d0) else d0 = d) := by
    by_cases hsd : d.CardType &&& CT_SDC ≠ 0
    · rw [if_pos hsd] at hp ⊢
      cases h23 : send_cmd env fuel ACMD23 count d with
      | none => rw [h23] at hp; simp at hp
      | some x =>
        rw [h23] at hp
        simp only [Option.map_some', Option.some.injEq] at hp
        exact ⟨x.1, by rw [← hp]⟩
    · rw [if_neg hsd] at hp ⊢
      simp only [Option.some.injEq] at hp
      exact hp.symm
  cases hs : send_cmd env fuel CMD25
      (if d.CardType &&& CT_BLOCK = 0 then sector * 512 % 2 ^ 32 else sector) d0 with
  | none => rw [hs] at h; simp at h
  | some x =>
    obtain ⟨res, d1⟩ := x
    refine ⟨res, d1, hpre2, rfl, ?_⟩
    rw [hs] at h
    simp only at h
    by_cases hres : res = 0
    · right
      refine ⟨hres, ?_⟩
      rw [if_pos hres] at h
      cases hl : write_loop env fuel fuel buf p count d1 with
      | none => rw [hl] at h; simp at h
      | some y =>
        obtain ⟨c, d2⟩ := y
        rw [hl] at h
        simp only at h
        cases hx : xmit_datablock env fuel buf 0 0xFD d2 with
        | none => rw [hx] at h; simp at h
        | some z =>
          obtain ⟨ok, d3⟩ := z
          refine ⟨c, d2, ok, d3, rfl, hx, ?_⟩
          rw [hx] at h
          simp only [Option.some.injEq] at h
          rw [← h]
          by_cases hok : ok = 0
          · simp [hok]
          · by_cases hc : c = 0
            · simp [hok, hc]
            · simp [hok, hc]
    · left
      refine ⟨hres, ?_⟩
      rw [if_neg hres] at h
      simp only [Option.some.injEq] at h
      rw [← h]
      have : count ≠ 0 := by omega
      simp [this]

theorem deselect_tx (env : Env) (d : Drv) :
    txOf (deselect env d).trace = txOf d.trace ++ [0xFF] := by
  unfold deselect
  rw [xchg_spi_eq]
  simp [txOf_append, txOf]

/-- C14: on an initialised, unprotected card and for count from 1 to 65535, with
a running timer and enough fuel mmc_disk_write returns, and whenever it returns
this is what happened. SET_WR_BLK_ERASE_COUNT (ACMD23 with argument count) was
issued first exactly when count ≥ 2 and the card type has an SD bit; then
WRITE_BLOCK (count = 1) or WRITE_MULTIPLE_BLOCK (count ≥ 2) was issued and
answered res; m ≤ count blocks were sent with token 0xFE (count = 1) or 0xFC
(count ≥ 2) and accepted with (r & 0x1F) = 0x05 (m = 0 when res is not 0); when
res = 0 and m < count the next block was refused, and no data block follows it;
when res = 0 and count ≥ 2 the stop token 0xFD was then attempted. The result is
RES_OK exactly when res = 0, m = count and, for count ≥ 2, the stop token was
sent; it is RES_ERROR otherwise. The bytes shifted out after the write command
are those of the accepted blocks, of the refused attempt, of the stop token and
the one dummy clock of deselect, in this order. -/
theorem C14_write_result (env : Env) (fuel : Nat) (buf : List Nat) (p sector count : Nat)
    (d : Drv) (hcount : 1 ≤ count) (hc16 : count < 65536)
    (hinit : d.Stat &&& STA_NOINIT = 0) (hprot : d.Stat &&& STA_PROTECT = 0) :
    ((∀ n, 1 ≤ env.ticks n) → 256 ≤ fuel → count ≤ fuel →
      ∃ r, mmc_disk_write env fuel buf p sector count d = some r) ∧
    ∀ r, mmc_disk_write env fuel buf p sector count d = some r →
      ∃ d0 res d1 m e tx e2 tx2 sent tx3,
        (if 2 ≤ count ∧ d.CardType &&& CT_SDC ≠ 0 then
           ∃ r23, send_cmd env fuel ACMD23 count d = some (r23, d0)
         else d0 = d) ∧
        send_cmd env fuel (if count = 1 then CMD24 else CMD25)
          (if d.CardType &&& CT_BLOCK = 0 then sector * 512 % 2 ^ 32 else sector) d0
          = some (res, d1) ∧
        cmdsOf r.2.trace = cmdsOf d.trace ++
          ((if 2 ≤ count ∧ d.CardType &&& CT_SDC ≠ 0 then [(ACMD23, count), (CMD55, 0)]
            else []) ++
           [(if count = 1 then CMD24 else CMD25,
             if d.CardType &&& CT_BLOCK = 0 then sector * 512 % 2 ^ 32 else sector)]) ∧
        m ≤ count ∧ (res ≠ 0 → m = 0) ∧
        BlocksAccepted env (if count = 1 then 0xFE else 0xFC) buf m d1.now p e tx ∧
        (if res = 0 ∧ m < count then
           BlockRefused env (if count = 1 then 0xFE else 0xFC) buf e (p + 512 * m) e2 tx2
         else e2 = e ∧ tx2 = []) ∧
        (if res = 0 ∧ 2 ≤ count then StopToken env e2 sent tx3 else sent = false ∧ tx3 = []) ∧
        (r.1 = RES_OK ↔ res = 0 ∧ m = count ∧ (2 ≤ count → sent = true)) ∧
        (r.1 ≠ RES_OK → r.1 = RES_ERROR) ∧
        txOf r.2.trace = txOf d1.trace ++ (tx ++ (tx2 ++ (tx3 ++ [0xFF]))) := by
  refine ⟨fun hticks hf hc => mmc_disk_write_returns env hticks fuel buf p sector count d
    hf hc hc16, ?_⟩
  intro r h
  have hne : RES_ERROR ≠ RES_OK := by decide
  by_cases h1 : count = 1
  · subst h1
    obtain ⟨res, d1, hs, hrest⟩ := mmc_disk_write_single env fuel buf p sector d r hinit hprot h
    have hi := send_cmd_issued env fuel _ _ d (res, d1) hs
    rw [if_neg (by decide)] at hi
    simp only [if_true]
    have h21 : ¬ (2 ≤ 1 ∧ d.CardType &&& CT_SDC ≠ 0) := fun hh => absurd hh.1 (by decide)
    have hst : ¬ (res = 0 ∧ 2 ≤ 1) := fun hh => absurd hh.2 (by decide)
    rcases hrest with ⟨hres, hr⟩ | ⟨hres, ok, d2, hx, hr⟩
    · refine ⟨d, res, d1, 0, d1.now, [], d1.now, [], false, [], ?_, hs, ?_, Nat.zero_le _,
        fun _ => rfl, ⟨rfl, rfl⟩, ?_, ?_, ?_, ?_, ?_⟩
      · rw [if_neg h21]
      · rw [hr, if_neg h21]
        exact (hi.then_quiet (deselect_issued env d1)).2.2.2
      · rw [if_neg (fun hh => hres hh.1)]
        exact ⟨rfl, rfl⟩
      · rw [if_neg hst]
        exact ⟨rfl, rfl⟩
      · rw [hr]
        exact ⟨fun hh => absurd hh hne, fun hh => absurd hh.1 hres⟩
      · intro _
        rw [hr]
      · rw [hr]
        exact deselect_tx env d1
    · obtain ⟨w, hb, hcase⟩ := xmit_datablock_spec env fuel buf p 0xFE d1 (ok, d2) hx
      simp only at hcase
      have hcm : cmdsOf (deselect env d2).trace = cmdsOf d.trace ++
          ([] ++ [(CMD24, if d.CardType &&& CT_BLOCK = 0 then sector * 512 % 2 ^ 32
            else sector)]) :=
        ((hi.then_quiet (xmit_datablock_issued env fuel buf p 0xFE d1 (ok, d2) hx)).then_quiet
          (deselect_issued env d2)).2.2.2
      rcases hcase with ⟨hbusy, hok, hnow, htx⟩ | ⟨_, htok, _⟩ | ⟨hrdy, _, hok, hnow, htx⟩
      · refine ⟨d, res, d1, 0, d1.now, [], w + 1, List.replicate (w + 1 - d1.now) 0xFF, false,
          [], ?_, hs, ?_, Nat.zero_le _, fun _ => rfl, ⟨rfl, rfl⟩, ?_, ?_, ?_, ?_, ?_⟩
        · rw [if_neg h21]
        · rw [hr, if_neg h21]
          exact hcm
        · rw [if_pos ⟨hres, Nat.zero_lt_one⟩]
          exact ⟨w, hb, Or.inl ⟨hbusy, rfl, rfl⟩⟩
        · rw [if_neg hst]
          exact ⟨rfl, rfl⟩
        · rw [hr, hok]
          exact ⟨fun hh => absurd hh hne, fun hh => absurd hh.2.1 (by decide)⟩
        · intro _
          rw [hr, hok]
          rfl
        · rw [hr]
          show txOf (deselect env d2).trace = _
          rw [deselect_tx, htx]
          simp
      · exact absurd htok (by decide)
      · by_cases hacc : env.miso (w + 516) % 256 &&& 0x1F = 0x05
        · rw [if_pos hacc] at hok
          refine ⟨d, res, d1, 1, w + 517, List.replicate (w + 1 - d1.now) 0xFF ++
              0xFE :: (bytesFrom buf p 512 ++ 0xFF :: 0xFF :: 0xFF :: []), w + 517, [], false,
            [], ?_, hs, ?_, Nat.le_refl _, fun hh => absurd hres hh,
            ⟨w, [], hb, hrdy, hacc, ⟨rfl, rfl⟩, rfl⟩, ?_, ?_, ?_, ?_, ?_⟩
          · rw [if_neg h21]
          · rw [hr, if_neg h21]
            exact hcm
          · rw [if_neg (fun hh => absurd hh.2 (by decide))]
            exact ⟨rfl, rfl⟩
          · rw [if_neg hst]
            exact ⟨rfl, rfl⟩
          · rw [hr, hok]
            exact ⟨fun _ => ⟨hres, rfl, fun hh => absurd hh (by decide)⟩, fun _ => rfl⟩
          · intro hh
            rw [hr, hok] at hh
            exact absurd rfl hh
          · rw [hr]
            show txOf (deselect env d2).trace = _
            rw [deselect_tx, htx]
            simp
        · rw [if_neg hacc] at hok
          refine ⟨d, res, d1, 0, d1.now, [], w + 517, List.replicate (w + 1 - d1.now) 0xFF ++
              0xFE :: (bytesFrom buf p 512 ++ [0xFF, 0xFF, 0xFF]), false,
            [], ?_, hs, ?_, Nat.zero_le _, fun _ => rfl, ⟨rfl, rfl⟩, ?_, ?_, ?_, ?_, ?_⟩
          · rw [if_neg h21]
          · rw [hr, if_neg h21]
            exact hcm
          · rw [if_pos ⟨hres, Nat.zero_lt_one⟩]
            exact ⟨w, hb, Or.inr ⟨hrdy, hacc, rfl, rfl⟩⟩
          · rw [if_neg hst]
            exact ⟨rfl, rfl⟩
          · rw [hr, hok]
            exact ⟨fun hh => absurd hh hne, fun hh => absurd hh.2.1 (by decide)⟩
          · intro _
            rw [hr, hok]
            rfl
          · rw [hr]
            show txOf (deselect env d2).trace = _
            rw [deselect_tx, htx]
            simp
  · have h2 : 2 ≤ count := by omega
    obtain ⟨d0, res, d1, hpre, hs, hrest⟩ := mmc_disk_write_multi env fuel buf p sector count d r
      h2 hinit hprot h
    simp only [if_neg h1]
    have hpre2 : (if 2 ≤ count ∧ d.CardType &&& CT_SDC ≠ 0 then
        ∃ r23, send_cmd env fuel ACMD23 count d = some (r23, d0) else d0 = d) := by
      by_cases hsd : d.CardType &&& CT_SDC ≠ 0
      · rw [if_pos hsd] at hpre
        rw [if_pos ⟨h2, hsd⟩]
        exact hpre
      · rw [if_neg hsd] at hpre
        rw [if_neg (fun hh => hsd hh.2)]
        exact hpre
    have hprei : Issued d d0 (if 2 ≤ count ∧ d.CardType &&& CT_SDC ≠ 0 then
        [(ACMD23, count), (CMD55, 0)] else []) := by
      by_cases hsd : d.CardType &&& CT_SDC ≠ 0
      · rw [if_pos hsd] at hpre
        rw [if_pos ⟨h2, hsd⟩]
        obtain ⟨r23, h23⟩ := hpre
        have := send_cmd_issued env fuel ACMD23 count d (r23, d0) h23
        rw [if_pos (by decide)] at this
        exact this
      · rw [if_neg hsd] at hpre
        rw [if_neg (fun hh => hsd hh.2), hpre]
        exact Issued.refl d
    have hi0 := send_cmd_issued env fuel _ _ d0 (res, d1) hs
    rw [if_neg (by decide)] at hi0
    have hi := hprei.trans hi0
    rcases hrest with ⟨hres, hr⟩ | ⟨hres, c, d2, ok, d3, hl, hx, hr⟩
    · refine ⟨d0, res, d1, 0, d1.now, [], d1.now, [], false, [], hpre2, hs, ?_, Nat.zero_le _,
        fun _ => rfl, ⟨rfl, rfl⟩, ?_, ?_, ?_, ?_, ?_⟩
      · rw [hr]
        exact (hi.then_quiet (deselect_issued env d1)).2.2.2
      · rw [if_neg (fun hh => hres hh.1)]
        exact ⟨rfl, rfl⟩
      · rw [if_neg (fun hh => hres hh.1)]
        exact ⟨rfl, rfl⟩
      · rw [hr]
        exact ⟨fun hh => absurd hh hne, fun hh => absurd hh.1 hres⟩
      · intro _
        rw [hr]
      · rw [hr]
        exact deselect_tx env d1
    · obtain ⟨m, e, tx, e2, tx2, hm, hc, hacc, href, hnow2, htx2⟩ :=
        write_loop_spec env fuel fuel buf p count d1 (c, d2) hcount hc16 hl
      simp only at hc hnow2 htx2
      obtain ⟨w, hb, hcase⟩ := xmit_datablock_spec env fuel buf 0 0xFD d2 (ok, d3) hx
      simp only at hcase
      rw [hnow2] at hb
      have hcm : cmdsOf (deselect env d3).trace = cmdsOf d.trace ++
          ((if 2 ≤ count ∧ d.CardType &&& CT_SDC ≠ 0 then [(ACMD23, count), (CMD55, 0)]
            else []) ++
           [(CMD25, if d.CardType &&& CT_BLOCK = 0 then sector * 512 % 2 ^ 32 else sector)]) :=
        (((hi.then_quiet (write_loop_issued env fuel fuel buf p count d1 (c, d2) hl)).then_quiet
          (xmit_datablock_issued env fuel buf 0 0xFD d2 (ok, d3) hx)).then_quiet
          (deselect_issued env d3)).2.2.2
      have href2 : (if res = 0 ∧ m < count then
          BlockRefused env 0xFC buf e (p + 512 * m) e2 tx2 else e2 = e ∧ tx2 = []) := by
        by_cases hlt : m < count
        · rw [if_pos hlt] at href
          rw [if_pos ⟨hres, hlt⟩]
          exact href
        · rw [if_neg hlt] at href
          rw [if_neg (fun hh => hlt hh.2)]
          exact href
      rcases hcase with ⟨hbusy, hok, hnow, htx⟩ | ⟨hrdy, _, hok, hnow, htx⟩ | ⟨_, htok, _⟩
      · refine ⟨d0, res, d1, m, e, tx, e2, tx2, false, List.replicate (w + 1 - e2) 0xFF,
          hpre2, hs, ?_, hm, fun hh => absurd hres hh, hacc, href2, ?_, ?_, ?_, ?_⟩
        · rw [hr]
          exact hcm
        · rw [if_pos ⟨hres, h2⟩]
          refine ⟨w, hb, ⟨fun hh => absurd hh (by decide), fun hh => absurd hh hbusy⟩, ?_⟩
          simp
        · rw [hr, hok]
          exact ⟨fun hh => absurd hh hne, fun hh => absurd (hh.2.2 h2) (by decide)⟩
        · intro _
          rw [hr, hok]
          rfl
        · rw [hr]
          show txOf (deselect env d3).trace = _
          rw [deselect_tx, htx, htx2, hnow2]
          simp
      · refine ⟨d0, res, d1, m, e, tx, e2, tx2, true, List.replicate (w + 1 - e2) 0xFF ++ [0xFD],
          hpre2, hs, ?_, hm, fun hh => absurd hres hh, hacc, href2, ?_, ?_, ?_, ?_⟩
        · rw [hr]
          exact hcm
        · rw [if_pos ⟨hres, h2⟩]
          refine ⟨w, hb, ⟨fun _ => hrdy, fun _ => rfl⟩, ?_⟩
          simp
        · rw [hr, hok]
          by_cases hc0 : c = 0
          · rw [if_pos ⟨by decide, hc0⟩]
            exact ⟨fun _ => ⟨hres, by omega, fun _ => rfl⟩, fun _ => rfl⟩
          · rw [if_neg (fun hh => hc0 hh.2)]
            exact ⟨fun hh => absurd hh hne, fun hh => absurd hh.2.1 (by omega)⟩
        · intro hh
          rw [hr, hok] at hh ⊢
          by_cases hc0 : c = 0
          · rw [if_pos ⟨by decide, hc0⟩] at hh
            exact absurd rfl hh
          · rw [if_neg (fun hh => hc0 hh.2)]
        · rw [hr]
          show txOf (deselect env d3).trace = _
          rw [deselect_tx, htx, htx2, hnow2]
          simp
      · exact absurd rfl htok

/-- C14 at a concrete input: a single block write on an SD card that answers
the command with 0 and accepts the block returns, and issues WRITE_BLOCK
only. -/
theorem C14_write_result_witness :
    (1 ≤ 1 ∧ 1 < 65536 ∧ (Drv.mk0 0 CT_SD2).Stat &&& STA_NOINIT = 0 ∧
      (Drv.mk0 0 CT_SD2).Stat &&& STA_PROTECT = 0) ∧
    ∃ r, mmc_disk_write Env.writing 300 (List.replicate 512 0) 0 5 1 (Drv.mk0 0 CT_SD2) = some r ∧
      ∃ res m sent, m ≤ 1 ∧ (r.1 = RES_OK ↔ res = 0 ∧ m = 1 ∧ (2 ≤ 1 → sent = true)) ∧
        (r.1 ≠ RES_OK → r.1 = RES_ERROR) ∧
        cmdsOf r.2.trace = cmdsOf (Drv.mk0 0 CT_SD2).trace ++
          ((if 2 ≤ 1 ∧ (Drv.mk0 0 CT_SD2).CardType &&& CT_SDC ≠ 0 then
              [(ACMD23, 1), (CMD55, 0)] else []) ++
           [(if 1 = 1 then CMD24 else CMD25,
             if (Drv.mk0 0 CT_SD2).CardType &&& CT_BLOCK = 0 then 5 * 512 % 2 ^ 32 else 5)]) := by
  refine ⟨⟨by decide, by decide, by decide, by decide⟩, ?_⟩
  have hC := C14_write_result Env.writing 300 (List.replicate 512 0) 0 5 1 (Drv.mk0 0 CT_SD2)
    (by decide) (by decide) (by decide) (by decide)
  obtain ⟨r, hr⟩ := hC.1 (fun _ => Nat.le_refl 1) (by decide) (by decide)
  obtain ⟨d0, res, d1, m, e, tx, e2, tx2, sent, tx3, _, _, hcm, hm, _, _, _, _, hiff, herr, _⟩ :=
    hC.2 r hr
  exact ⟨r, hr, res, m, sent, hm, hiff, herr, hcm⟩


set_option maxRecDepth 1000000 in
set_option maxHeartbeats 4000000 in
/-- C14 as stated fails for count = 1: on a card whose type has an SD bit a
single block write succeeds without SET_WR_BLK_ERASE_COUNT ever being issued;
WRITE_BLOCK is the only command. -/
theorem C14_counterexample :
    (Drv.mk0 0 CT_SD2).CardType &&& CT_SDC ≠ 0 ∧
    ∃ r, mmc_disk_write Env.writing 300 (List.replicate 512 0) 0 5 1 (Drv.mk0 0 CT_SD2) = some r ∧
      r.1 = RES_OK ∧ cmdsOf r.2.trace = [(CMD24, 2560)] := by
  refine ⟨by decide, ?_⟩
  have hv : (mmc_disk_write Env.writing 300 (List.replicate 512 0) 0 5 1
      (Drv.mk0 0 CT_SD2)).map (fun r => r.1) = some RES_OK := by decide
  obtain ⟨r, hr⟩ := mmc_disk_write_returns Env.writing (fun _ => Nat.le_refl 1) 300
    (List.replicate 512 0) 0 5 1 (Drv.mk0 0 CT_SD2) (by decide) (by decide) (by decide)
  refine ⟨r, hr, ?_, ?_⟩
  · rw [hr] at hv
    simpa using hv
  · obtain ⟨res, d1, hs, hrest⟩ := mmc_disk_write_single Env.writing 300 (List.replicate 512 0)
      0 5 (Drv.mk0 0 CT_SD2) r (by decide) (by decide) hr
    have hi := send_cmd_issued Env.writing 300 _ _ _ (res, d1) hs
    rw [if_neg (by decide)] at hi
    rcases hrest with ⟨_, hr2⟩ | ⟨_, ok, d2, hx, hr2⟩
    · rw [hr2]
      exact (hi.then_quiet (deselect_issued Env.writing d1)).2.2.2
    · rw [hr2]
      exact ((hi.then_quiet (xmit_datablock_issued Env.writing 300 _ 0 0xFE d1 (ok, d2)
        hx)).then_quiet (deselect_issued Env.writing d2)).2.2.2

/-! ## The guards of `mmc_disk_ioctl` -/

/-- C15: with STA_NOINIT set, mmc_disk_ioctl returns RES_NOTRDY for every
control code, handled or not, and leaves the driver (so also the SPI trace),
the buffer and the iSDIO data as they were; with STA_NOINIT clear it returns
RES_PARERR, again with nothing changed, for every control code that is none of
the thirteen handled ones. -/
theorem C15_ioctl_guards (k : CtrlCodes) (env : Env) (fuel code : Nat) (buff : List Nat)
    (sdi : SDIO_CTRL) (d : Drv) :
    (d.Stat &&& STA_NOINIT ≠ 0 →
      mmc_disk_ioctl env fuel (Ctrl.ofCode k code) buff sdi d
        = some (RES_NOTRDY, buff, sdi.data, d)) ∧
    (d.Stat &&& STA_NOINIT = 0 → code ∉ k.handled →
      mmc_disk_ioctl env fuel (Ctrl.ofCode k code) buff sdi d
        = some (RES_PARERR, buff, sdi.data, d)) := by
  constructor
  · intro h
    unfold mmc_disk_ioctl
    rw [if_pos h]
  · intro h hc
    simp only [CtrlCodes.handled, List.mem_cons, List.mem_singleton, List.not_mem_nil,
      not_or, or_false] at hc
    obtain ⟨h1, h2, h3, h4, h5, h6, h7, h8, h9, h10, h11, h12, h13⟩ := hc
    have hk : Ctrl.ofCode k code = Ctrl.other code := by
      simp only [Ctrl.ofCode, h1, h2, h3, h4, h5, h6, h7, h8, h9, h10, h11, h12, h13, if_false]
    rw [hk]
    unfold mmc_disk_ioctl
    rw [if_neg (by rw [h]; decide)]

/-- C15 at concrete inputs: GET_SECTOR_COUNT on a card that is not initialised,
and the unknown code 99 on one that is. -/
theorem C15_ioctl_guards_witness :
    ((Drv.mk0 STA_NOINIT 0).Stat &&& STA_NOINIT ≠ 0 ∧
      (Drv.mk0 0 CT_SD2).Stat &&& STA_NOINIT = 0 ∧ 99 ∉ CtrlCodes.sample.handled) ∧
    mmc_disk_ioctl Env.quiet 300 (Ctrl.ofCode CtrlCodes.sample 1) [0, 0, 0, 0] ⟨0, 0, 0, []⟩
        (Drv.mk0 STA_NOINIT 0)
      = some (RES_NOTRDY, [0, 0, 0, 0], [], Drv.mk0 STA_NOINIT 0) ∧
    mmc_disk_ioctl Env.quiet 300 (Ctrl.ofCode CtrlCodes.sample 99) [0, 0, 0, 0] ⟨0, 0, 0, []⟩
        (Drv.mk0 0 CT_SD2)
      = some (RES_PARERR, [0, 0, 0, 0], [], Drv.mk0 0 CT_SD2) :=
  ⟨⟨by decide, by decide, by decide⟩,
   (C15_ioctl_guards CtrlCodes.sample Env.quiet 300 1 [0, 0, 0, 0] ⟨0, 0, 0, []⟩
      (Drv.mk0 STA_NOINIT 0)).1 (by decide),
   (C15_ioctl_guards CtrlCodes.sample Env.quiet 300 99 [0, 0, 0, 0] ⟨0, 0, 0, []⟩
      (Drv.mk0 0 CT_SD2)).2 (by decide) (by decide)⟩

/-! ## The status returned by `mmc_disk_initialize` -/

set_option maxRecDepth 1000000 in
set_option maxHeartbeats 4000000 in
/-- C16: mmc_disk_initialize called on a driver whose Stat is 0 (a card
initialised earlier) while the card answers nothing but 0xFF: CMD0 is not
answered 1, CardType ends as 0 and the card is powered off, yet the returned
status is 0, STA_NOINIT clear. The sibling path CTRL_POWER_OFF of mmc_disk_ioctl
powers the card off and does set STA_NOINIT. -/
theorem C16_failed_initialize_keeps_status :
    ( mmc_disk_initialize Env.quiet 300 (Drv.mk0 0 CT_SD2)).map
      (fun r => (r.1, r.1 &&& STA_NOINIT, r.2.Stat, r.2.CardType))
      = some (0, 0, 0, 0) ∧
    ( mmc_disk_initialize Env.quiet 300 (Drv.mk0 0 CT_SD2)).map
      (fun r => (cmdsOf r.2.trace, r.2.trace.getLast?))
      = some ([(CMD0, 0)], some SpiEv.powerOff) ∧
    (mmc_disk_ioctl Env.quiet 300 Ctrl.CTRL_POWER_OFF [] ⟨0, 0, 0, []⟩ (Drv.mk0 0 CT_SD2)).map
      (fun r => (r.1, r.2.2.2.Stat &&& STA_NOINIT, r.2.2.2.trace))
      = some (RES_OK, STA_NOINIT, [SpiEv.powerOff]) := by
  refine ⟨?_, ?_, ?_⟩ <;> decide

/-! ## The timer procedure -/

/-- C17: one call of mmc_disk_timerproc leaves each of Timer1 and Timer2 equal
to its previous value minus one if that was non-zero and equal to zero if it
was zero, so a counter never grows and never wraps below zero; with
MMC_NO_CARD_DETECT defined, as shipped, Stat and CardType (and the SPI trace)
are left unchanged. -/
theorem C17_timerproc_decrements (d : Drv) :
    (mmc_disk_timerproc d).Timer1 = (if d.Timer1 ≠ 0 then d.Timer1 - 1 else 0) ∧
    (mmc_disk_timerproc d).Timer2 = (if d.Timer2 ≠ 0 then d.Timer2 - 1 else 0) ∧
    (mmc_disk_timerproc d).Timer1 ≤ d.Timer1 ∧
    (mmc_disk_timerproc d).Timer2 ≤ d.Timer2 ∧
    (mmc_disk_timerproc d).Stat = d.Stat ∧
    (mmc_disk_timerproc d).CardType = d.CardType ∧
    (mmc_disk_timerproc d).trace = d.trace := by
  rw [timerproc_eq]
  refine ⟨?_, ?_, Nat.sub_le _ _, Nat.sub_le _ _, rfl, rfl, rfl⟩
  · show d.Timer1 - 1 = _
    split <;> omega
  · show d.Timer2 - 1 = _
    split <;> omega

/-! ## Waiting without timer ticks -/

theorem send_cmd_marked (env : Env) (fuel cmd arg : Nat) (d : Drv) (r : Nat × Drv)
    (h : send_cmd env fuel cmd arg d = some r) :
    d.trace ++ [SpiEv.cmd cmd arg] <+: r.2.trace := by
  have hm : (d.mark cmd arg).trace = d.trace ++ [SpiEv.cmd cmd arg] := rfl
  unfold send_cmd at h
  simp only at h
  split at h
  · split at h
    · simp at h
    · rename_i res d0 hf
      have h1 := (mark_issued (d.mark cmd arg) CMD55 0).then_quiet
        (send_cmd_frame_issued env fuel _ _ _ _ hf)
      split at h
      · simp only [Option.some.injEq] at h
        rw [← h, ← hm]
        exact h1.2.2.1
      · rw [← hm]
        exact h1.2.2.1.trans (send_cmd_frame_issued env fuel _ _ _ _ h).2.2.1
  · rw [← hm]
    exact (send_cmd_frame_issued env fuel _ _ _ _ h).2.2.1

/-- C19: on an initialised card and for every sector and count ≥ 1, with enough
fuel and a running timer mmc_disk_read returns, and whenever it returns the
commands it issued are these: first READ_SINGLE_BLOCK (CMD17) when count = 1
and READ_MULTIPLE_BLOCK (CMD18) when count > 1, with the sector number as
argument when CardType has CT_BLOCK set and sector * 512 modulo 2^32
otherwise; then STOP_TRANSMISSION (CMD12) exactly when count > 1 and the read
command was answered 0, and in that case it is issued right after the state
the sector loop ended in; no other command is issued. -/
theorem C19_read_commands (env : Env) (fuel : Nat) (buf : List Nat) (p sector count : Nat)
    (d : Drv) (hcount : 1 ≤ count) (hinit : d.Stat &&& STA_NOINIT = 0) :
    ((∀ n, 1 ≤ env.ticks n) → 256 ≤ fuel → count ≤ fuel → count < 65536 →
      ∃ r, mmc_disk_read env fuel buf p sector count d = some r) ∧
    ∀ r, mmc_disk_read env fuel buf p sector count d = some r →
      ∃ res d1,
        send_cmd env fuel (if count = 1 then CMD17 else CMD18)
          (if d.CardType &&& CT_BLOCK ≠ 0 then sector else sector * 512 % 2 ^ 32) d
          = some (res, d1) ∧
        cmdsOf r.2.2.trace = cmdsOf d.trace ++
          ((if count = 1 then CMD17 else CMD18,
            if d.CardType &&& CT_BLOCK ≠ 0 then sector else sector * 512 % 2 ^ 32) ::
           (if count > 1 ∧ res = 0 then [(CMD12, 0)] else [])) ∧
        (count > 1 → res = 0 →
          ∃ c b d2, read_loop env fuel fuel buf p count d1 = some (c, b, d2) ∧
            d2.trace ++ [SpiEv.cmd CMD12 0] <+: r.2.2.trace) := by
  refine ⟨fun hticks hf hc hc16 => mmc_disk_read_returns env hticks fuel buf p sector count d
    hf hc hc16, ?_⟩
  intro r h
  have hcmd : (if count = 1 then CMD17 else CMD18) = (if count > 1 then CMD18 else CMD17) := by
    by_cases h1 : count = 1
    · simp [h1]
    · have : count > 1 := by omega
      simp [h1, this]
  have harg : (if d.CardType &&& CT_BLOCK ≠ 0 then sector else sector * 512 % 2 ^ 32)
      = (if d.CardType &&& CT_BLOCK = 0 then sector * 512 % 2 ^ 32 else sector) := by
    by_cases h1 : d.CardType &&& CT_BLOCK = 0
    · simp [h1]
    · simp [h1]
  rw [hcmd, harg]
  obtain ⟨res, d1, hs, hrest⟩ := mmc_disk_read_run env fuel buf p sector count d r
    (by omega) hinit h
  refine ⟨res, d1, hs, ?_⟩
  have hi := send_cmd_issued env fuel _ _ d (res, d1) hs
  have hplain : ((if count > 1 then CMD18 else CMD17) &&& 0x80) = 0 := by
    split <;> decide
  rw [if_neg (by rw [hplain]; decide)] at hi
  rcases hrest with ⟨hres, hr⟩ | ⟨hres, c, b, d2, hl, hr⟩
  · subst hr
    constructor
    · have := (hi.then_quiet (deselect_issued env d1)).2.2.2
      simp only [List.append_nil] at this
      rw [this]
      simp [hres]
    · intro _ h0
      exact absurd h0 hres
  · have hli := read_loop_issued env fuel fuel buf p count d1 (c, b, d2) hl
    rcases hr with ⟨h1, hr⟩ | ⟨hgt, r12, d3, h12, hr⟩
    · subst hr
      constructor
      · have := ((hi.then_quiet hli).then_quiet (deselect_issued env d2)).2.2.2
        rw [this]
        simp [h1]
      · intro hgt
        omega
    · subst hr
      have h12i := send_cmd_issued env fuel CMD12 0 d2 (r12, d3) h12
      rw [if_neg (by decide)] at h12i
      constructor
      · have := (((hi.then_quiet hli).trans h12i).then_quiet (deselect_issued env d3)).2.2.2
        rw [this]
        simp [hgt, hres]
      · intro _ _
        exact ⟨c, b, d2, hl, (send_cmd_marked env fuel CMD12 0 d2 (r12, d3) h12).trans
          (deselect_issued env d3).2.2.1⟩

/-- C19 at a concrete input: a single block read of sector 5 on a byte
addressed card returns and issues READ_SINGLE_BLOCK with argument 2560. -/
theorem C19_read_commands_witness :
    (1 ≤ 1 ∧ (Drv.mk0 0 CT_SD2).Stat &&& STA_NOINIT = 0) ∧
    ∃ r, mmc_disk_read Env.reading 300 (List.replicate 512 0) 0 5 1 (Drv.mk0 0 CT_SD2) = some r ∧
      ∃ res, cmdsOf r.2.2.trace = (CMD17, 2560) ::
        (if 1 > 1 ∧ res = 0 then [(CMD12, 0)] else []) := by
  refine ⟨⟨by decide, by decide⟩, ?_⟩
  have hC := C19_read_commands Env.reading 300 (List.replicate 512 0) 0 5 1 (Drv.mk0 0 CT_SD2)
    (by decide) (by decide)
  obtain ⟨r, hr⟩ := hC.1 (fun _ => Nat.le_refl 1) (by decide) (by decide) (by decide)
  obtain ⟨res, d1, _, hc, _⟩ := hC.2 r hr
  exact ⟨r, hr, res, hc⟩

/-! ## The command frame -/

theorem plain_index (c : Nat) (hc : c < 64) :
    c &&& 0x80 = 0 ∧ (0x40 ||| c) % 256 = 0x40 ||| c := by
  have h : ∀ x : Fin 64, x.val &&& 0x80 = 0 ∧ (0x40 ||| x.val) % 256 = 0x40 ||| x.val := by
    decide
  exact h ⟨c, hc⟩

theorem frame_crc_eq (c : Nat) :
    (if c = CMD8 then 0x87 else if c = CMD0 then 0x95 else 0x01) = frameCrc c := by
  unfold frameCrc CMD8 CMD0
  by_cases h0 : c = 0
  · subst h0
    rfl
  · by_cases h8 : c = 8
    · subst h8
      rfl
    · simp [h0, h8]

theorem frame_sent_spec (env : Env) (c a : Nat) (d : Drv) (hc : c < 64) :
    (frame_sent env c a d).now = d.now + 6 ∧
    txOf (frame_sent env c a d).trace = txOf d.trace ++ frameBytes c a := by
  unfold frame_sent
  rw [frame_crc_eq, (plain_index c hc).2]
  simp only [xchg_spi_eq]
  refine ⟨trivial, ?_⟩
  simp [txOf_append, txOf, frameBytes]

theorem send_cmd_frame_eq (env : Env) (fuel c a : Nat) (d : Drv) :
    send_cmd_frame env fuel c a d =
      match (if c ≠ CMD12 then select env fuel (deselect env d) else some (1, d)) with
      | none => none
      | some (ok, d0) =>
        if ok = 0 then some (0xFF, d0)
        else some (send_cmd_resp env 9
          (if c = CMD12 then (xchg_spi env 0xFF (frame_sent env c a d0)).2
           else frame_sent env c a d0)) := rfl

/-- C20: for every plain command index c below 64 and every argument a, with a
running timer and enough fuel send_cmd returns. For c other than 12 it first
deselects and selects the card, which shifts out dummy clocks only: when select
fails it returns 0xFF in the state select left, no frame byte sent; when select
succeeds it shifts out exactly the six bytes 0x40 | c, a[31..24], a[23..16],
a[15..8], a[7..0], crc (crc = 0x95 for CMD0, 0x87 for CMD8, 0x01 otherwise),
then reads k + 1 ≤ 10 bytes and returns the last of them, which is the first
with bit 7 clear or else the 10th. For c = 12 there is no select: the frame is
sent at once, one byte is read and discarded, and the response is read in the
same way from the byte after it. -/
theorem C20_command_frame (env : Env) (fuel c a : Nat) (d : Drv) (hc : c < 64) :
    ((∀ n, 1 ≤ env.ticks n) → 256 ≤ fuel → ∃ r, send_cmd env fuel c a d = some r) ∧
    (c ≠ CMD12 → ∀ ok d0, select env fuel (deselect env (d.mark c a)) = some (ok, d0) →
      OnlyClocks d d0 ∧
      (ok = 0 → send_cmd env fuel c a d = some (0xFF, d0)) ∧
      (ok ≠ 0 → ∃ k r, send_cmd env fuel c a d = some r ∧
        ResponseAt (fun j => env.miso (d0.now + 6 + j) % 256) 9 k ∧
        r.1 = env.miso (d0.now + 6 + k) % 256 ∧
        txOf r.2.trace = txOf d0.trace ++ frameBytes c a ++ List.replicate (k + 1) 0xFF)) ∧
    (c = CMD12 → ∃ k r, send_cmd env fuel c a d = some r ∧
      ResponseAt (fun j => env.miso (d.now + 7 + j) % 256) 9 k ∧
      r.1 = env.miso (d.now + 7 + k) % 256 ∧
      txOf r.2.trace = txOf d.trace ++ frameBytes c a ++ 0xFF :: List.replicate (k + 1) 0xFF) := by
  have hplain : send_cmd env fuel c a d = send_cmd_frame env fuel c a (d.mark c a) := by
    unfold send_cmd
    simp only
    rw [if_neg (by rw [(plain_index c hc).1]; decide)]
  refine ⟨fun hticks hf => send_cmd_returns env hticks fuel c a d hf, ?_, ?_⟩
  · intro h12 ok d0 hsel
    have hclk : OnlyClocks d d0 :=
      ((mark_clocks d c a).next (deselect_clocks env _)).next
        (select_clocks env fuel _ (ok, d0) hsel)
    refine ⟨hclk, ?_, ?_⟩
    · intro hok
      rw [hplain, send_cmd_frame_eq, if_pos h12, hsel]
      simp only
      rw [if_pos hok]
    · intro hok
      obtain ⟨k, hr, h1, _, h3⟩ := send_cmd_resp_spec env 9 (frame_sent env c a d0)
      obtain ⟨hnow, htx⟩ := frame_sent_spec env c a d0 hc
      rw [hnow] at hr h1
      rw [htx] at h3
      refine ⟨k, _, ?_, hr, h1, h3⟩
      rw [hplain, send_cmd_frame_eq, if_pos h12, hsel]
      simp only
      rw [if_neg hok, if_neg h12]
  · intro h12
    obtain ⟨hnow, htx⟩ := frame_sent_spec env c a (d.mark c a) hc
    obtain ⟨k, hr, h1, _, h3⟩ := send_cmd_resp_spec env 9
      (xchg_spi env 0xFF (frame_sent env c a (d.mark c a))).2
    have hnow1 : (xchg_spi env 0xFF (frame_sent env c a (d.mark c a))).2.now = d.now + 7 := by
      rw [xchg_spi_eq]
      show (frame_sent env c a (d.mark c a)).now + 1 = d.now + 7
      rw [hnow]
      rfl
    have htx1 : txOf (xchg_spi env 0xFF (frame_sent env c a (d.mark c a))).2.trace
        = txOf d.trace ++ frameBytes c a ++ [0xFF] := by
      rw [xchg_spi_eq]
      show txOf ((frame_sent env c a (d.mark c a)).trace ++ _) = _
      rw [txOf_append, htx]
      simp [Drv.mark, txOf_append, txOf]
    rw [hnow1] at hr h1
    rw [htx1] at h3
    refine ⟨k, _, ?_, hr, h1, ?_⟩
    · rw [hplain, send_cmd_frame_eq, if_neg (by simp [h12])]
      simp only
      rw [if_neg (by decide), if_pos h12]
    · rw [h3]
      simp

/-- C20 at concrete inputs: READ_SINGLE_BLOCK returns, and STOP_TRANSMISSION
sends its frame, skips one byte and returns the response after it. -/
theorem C20_command_frame_witness :
    (CMD17 < 64 ∧ CMD12 < 64) ∧
    (∃ r, send_cmd Env.reading 300 CMD17 2560 (Drv.mk0 0 CT_SD2) = some r) ∧
    ∃ k r, send_cmd Env.stuffed 300 CMD12 0 (Drv.mk0 0 CT_SD2) = some r ∧
      ResponseAt (fun j => Env.stuffed.miso ((Drv.mk0 0 CT_SD2).now + 7 + j) % 256) 9 k ∧
      r.1 = Env.stuffed.miso ((Drv.mk0 0 CT_SD2).now + 7 + k) % 256 ∧
      txOf r.2.trace = txOf (Drv.mk0 0 CT_SD2).trace ++ frameBytes CMD12 0
        ++ 0xFF :: List.replicate (k + 1) 0xFF :=
  ⟨⟨by decide, by decide⟩,
   (C20_command_frame Env.reading 300 CMD17 2560 (Drv.mk0 0 CT_SD2) (by decide)).1
     (fun _ => Nat.le_refl 1) (by decide),
   (C20_command_frame Env.stuffed 300 CMD12 0 (Drv.mk0 0 CT_SD2) (by decide)).2.2 rfl⟩

/-- C20 as stated fails for c = 12: the first byte read after the frame is
0x00, bit 7 clear, and send_cmd discards it and returns the next byte, 0x05. -/
theorem C20_counterexample :
    Env.stuffed.miso 6 % 256 &&& 0x80 = 0 ∧
    (send_cmd Env.stuffed 300 CMD12 0 (Drv.mk0 0 CT_SD2)).map (fun r => (r.1, r.2.trace))
      = some (0x05, [SpiEv.cmd 12 0, SpiEv.xchg 0x4C 0xFF, SpiEv.xchg 0 0xFF,
          SpiEv.xchg 0 0xFF, SpiEv.xchg 0 0xFF, SpiEv.xchg 0 0xFF, SpiEv.xchg 0x01 0xFF,
          SpiEv.xchg 0xFF 0x00, SpiEv.xchg 0xFF 0x05]) := by
  constructor <;> decide

/-! ## The budget of a wait -/

theorem ticksIn_succ (env : Env) (s n : Nat) :
    ticksIn env s (n + 1) = env.ticks s + ticksIn env (s + 1) n := rfl

theorem clocks_succ (env : Env) (s n : Nat) :
    clocks env s (n + 1) = SpiEv.xchg 0xFF (env.miso s % 256) :: clocks env (s + 1) n := rfl

/-- What the loop of `wait_ready` does, entered with `Timer2` armed: it polls
until the card returns 0xFF or the interrupts delivered since reach the armed
value. -/
theorem wait_ready_loop_budget (env : Env) :
    ∀ (fuel : Nat) (d : Drv) (r : Nat × Drv), wait_ready_loop env fuel d = some r →
      ∃ w, BusyUntil env d.now w ∧
        (∀ j, d.now ≤ j → j < w → ticksIn env d.now (j + 1 - d.now) < d.Timer2) ∧
        r.1 = env.miso w % 256 ∧
        (r.1 ≠ 0xFF → d.Timer2 ≤ ticksIn env d.now (w + 1 - d.now)) ∧
        r.2.now = w + 1 ∧
        r.2.trace = d.trace ++ clocks env d.now (w + 1 - d.now) ∧
        r.2.Timer2 = d.Timer2 - ticksIn env d.now (w + 1 - d.now) := by
  intro fuel
  induction fuel with
  | zero => intro d r h; simp [wait_ready_loop] at h
  | succ f ih =>
    intro d r h
    rw [wait_ready_loop] at h
    simp only [xchg_spi_eq] at h
    split at h
    · rename_i hc
      obtain ⟨w, ⟨hsw, hall⟩, hbud, h1, h2, h3, h4, h5⟩ := ih _ r h
      simp only at hsw hall hbud h2 h4 h5
      have hw : w + 1 - d.now = (w + 1 - (d.now + 1)) + 1 := by omega
      have hcT : d.Timer2 - env.ticks d.now ≠ 0 := hc.2
      refine ⟨w, ⟨by omega, fun j hj1 hj2 => ?_⟩, fun j hj1 hj2 => ?_, h1, ?_, h3, ?_, ?_⟩
      · by_cases hj : j = d.now
        · rw [hj]
          exact hc.1
        · exact hall j (by omega) hj2
      · by_cases hj : j = d.now
        · rw [hj, show d.now + 1 - d.now = 0 + 1 by omega, ticksIn_succ]
          show env.ticks d.now + 0 < d.Timer2
          omega
        · have := hbud j (by omega) hj2
          rw [show j + 1 - d.now = (j + 1 - (d.now + 1)) + 1 by omega, ticksIn_succ]
          omega
      · intro hne
        have := h2 hne
        rw [hw, ticksIn_succ]
        omega
      · rw [h4, hw, clocks_succ, List.append_assoc]
        rfl
      · rw [h5, hw, ticksIn_succ]
        omega
    · rename_i hc
      simp only [Option.some.injEq] at h
      rw [← h]
      have h1 : d.now + 1 - d.now = 0 + 1 := by omega
      refine ⟨d.now, ⟨Nat.le_refl _, fun j hj1 hj2 => by omega⟩, fun j hj1 hj2 => by omega,
        rfl, ?_, rfl, ?_, ?_⟩
      · intro hne
        rw [h1, ticksIn_succ]
        show d.Timer2 ≤ env.ticks d.now + 0
        have : ¬ (d.Timer2 - env.ticks d.now ≠ 0) := fun hh => hc ⟨hne, hh⟩
        omega
      · rw [h1, clocks_succ]
        rfl
      · rw [h1, ticksIn_succ]
        rfl

/-- What `wait_ready(wt)` does: `Timer2` is armed with `wt / 10` in 8 bits, and
the poll ends with 0xFF or when that many interrupts have been delivered. -/
theorem wait_ready_budget (env : Env) (fuel wt : Nat) (d : Drv) (r : Nat × Drv)
    (h : wait_ready env fuel wt d = some r) :
    ∃ w, BusyUntil env d.now w ∧
      (∀ j, d.now ≤ j → j < w → ticksIn env d.now (j + 1 - d.now) < wt / 10 % 256) ∧
      r.1 = (if env.miso w % 256 = 0xFF then 1 else 0) ∧
      (env.miso w % 256 ≠ 0xFF → wt / 10 % 256 ≤ ticksIn env d.now (w + 1 - d.now)) ∧
      r.2.now = w + 1 ∧
      r.2.trace = d.trace ++ clocks env d.now (w + 1 - d.now) ∧
      r.2.Timer2 = wt / 10 % 256 - ticksIn env d.now (w + 1 - d.now) := by
  unfold wait_ready at h
  split at h
  · simp at h
  · rename_i r0 d0 hw
    obtain ⟨w, hb, hbud, h1, h2, h3, h4, h5⟩ := wait_ready_loop_budget env fuel _ (r0, d0) hw
    simp only at hb hbud h1 h2 h3 h4 h5
    simp only [Option.some.injEq] at h
    rw [← h]
    exact ⟨w, hb, hbud, by rw [h1], fun hne => h2 (by rw [h1]; exact hne), h3, h4, h5⟩

/-! ## What `select` does -/

/-- C21: with a running timer and enough fuel select returns, and whenever it
returns this is what it did: chip-select was asserted, one dummy byte was
exchanged, Timer2 was armed with 50 (500 ms in ticks of 10 ms) and the card was
polled at the steps up to some step w, every byte before step w differing from
0xFF and fewer than 50 interrupts having been delivered by then. Either the
byte of step w was 0xFF and select returned 1, or it was not, 50 interrupts had
been delivered, and select deselected the card (chip-select released, one dummy
clock) and returned 0. -/
theorem C21_select_budget (env : Env) (fuel : Nat) (d : Drv) :
    ((∀ n, 1 ≤ env.ticks n) → 256 ≤ fuel → ∃ r, select env fuel d = some r) ∧
    ∀ r, select env fuel d = some r →
      ∃ w, BusyUntil env (d.now + 1) w ∧
        (∀ j, d.now + 1 ≤ j → j < w → ticksIn env (d.now + 1) (j - d.now) < 50) ∧
        ((env.miso w % 256 = 0xFF ∧ r.1 = 1 ∧
            r.2.trace = d.trace ++ SpiEv.csLow :: clocks env d.now (w + 1 - d.now)) ∨
         (env.miso w % 256 ≠ 0xFF ∧ 50 ≤ ticksIn env (d.now + 1) (w - d.now) ∧ r.1 = 0 ∧
            r.2.trace = d.trace ++ SpiEv.csLow :: (clocks env d.now (w + 1 - d.now) ++
              [SpiEv.csHigh, SpiEv.xchg 0xFF (env.miso (w + 1) % 256)]))) := by
  refine ⟨fun hticks hf => select_returns env hticks fuel d hf, ?_⟩
  intro r h
  unfold select at h
  simp only [xchg_spi_eq] at h
  split at h
  · simp at h
  · rename_i ok d1 hw
    obtain ⟨w, hb, hbud, h1, h2, h3, h4, _⟩ := wait_ready_budget env fuel 500 _ (ok, d1) hw
    simp only at hb hbud h1 h2 h3 h4
    have hlen : w + 1 - d.now = (w + 1 - (d.now + 1)) + 1 := by
      have := hb.1
      omega
    have htr : d1.trace = d.trace ++ SpiEv.csLow :: clocks env d.now (w + 1 - d.now) := by
      rw [h4, hlen, clocks_succ]
      simp
    refine ⟨w, hb, fun j hj1 hj2 => ?_, ?_⟩
    · have := hbud j hj1 hj2
      rw [show j + 1 - (d.now + 1) = j - d.now by omega] at this
      exact this
    · by_cases hff : env.miso w % 256 = 0xFF
      · rw [if_pos hff] at h1
        rw [h1, if_pos (by decide)] at h
        simp only [Option.some.injEq] at h
        rw [← h]
        exact Or.inl ⟨hff, rfl, htr⟩
      · rw [if_neg hff] at h1
        rw [h1, if_neg (by decide)] at h
        simp only [Option.some.injEq] at h
        rw [← h]
        refine Or.inr ⟨hff, ?_, rfl, ?_⟩
        · have := h2 hff
          rw [show w + 1 - (d.now + 1) = w - d.now by omega] at this
          exact this
        · unfold deselect
          rw [xchg_spi_eq]
          show d1.trace ++ [SpiEv.csHigh] ++ [SpiEv.xchg 0xFF (env.miso d1.now % 256)] = _
          rw [htr, h3]
          simp

/-- C21 at a concrete input: on a card that stays busy, with one interrupt per
step, select returns, and it returned 0 after 50 interrupts or 1 on 0xFF. -/
theorem C21_select_budget_witness :
    ∃ r, select Env.busy 300 (Drv.mk0 0 CT_SD2) = some r ∧
      ∃ w, BusyUntil Env.busy ((Drv.mk0 0 CT_SD2).now + 1) w ∧
        ((Env.busy.miso w % 256 = 0xFF ∧ r.1 = 1) ∨
         (Env.busy.miso w % 256 ≠ 0xFF ∧
            50 ≤ ticksIn Env.busy ((Drv.mk0 0 CT_SD2).now + 1) (w - (Drv.mk0 0 CT_SD2).now) ∧
            r.1 = 0)) := by
  have hC := C21_select_budget Env.busy 300 (Drv.mk0 0 CT_SD2)
  obtain ⟨r, hr⟩ := hC.1 (fun _ => Nat.le_refl 1) (by decide)
  obtain ⟨w, hb, _, hcase⟩ := hC.2 r hr
  refine ⟨r, hr, w, hb, ?_⟩
  rcases hcase with ⟨h1, h2, _⟩ | ⟨h1, h2, h3, _⟩
  · exact Or.inl ⟨h1, h2⟩
  · exact Or.inr ⟨h1, h2, h3⟩

set_option maxRecDepth 1000000 in
set_option maxHeartbeats 4000000 in
/-- C21 as stated fails: on a card that is ready at once, with no interrupt
delivered, select leaves Timer2 at 50, not 500; on a card that stays busy, with
one interrupt per step, select gives up after the dummy byte and 50 polls (the
deselect clock is the 52nd step). -/
theorem C21_counterexample :
    (select Env.frozen 300 (Drv.mk0 0 CT_SD2)).map (fun r => (r.1, r.2.Timer2)) = some (1, 50) ∧
    (select Env.busy 1000 (Drv.mk0 0 CT_SD2)).map (fun r => (r.1, r.2.now, r.2.Timer2))
      = some (0, 52, 0) := by
  constructor <;> decide

/-! ## The sector count of a CSD -/

theorem csdByte_lt (csd : List Nat) (i : Nat) : csdByte csd i < 256 :=
  Nat.mod_lt _ (by decide)

theorem or3_eq_add (a b c i k : Nat) (hb : b < 2 ^ i) (hc : c < 2 ^ k) :
    ((a <<< (i + k)) ||| (b <<< k)) ||| c = c + (b <<< k) + (a <<< (i + k)) := by
  have hbk : b <<< k < 2 ^ (i + k) := by
    rw [Nat.shiftLeft_eq, Nat.pow_add]
    exact Nat.mul_lt_mul_of_pos_right hb (Nat.two_pow_pos k)
  have h1 : (a <<< (i + k)) ||| (b <<< k) = a <<< (i + k) + b <<< k := by
    rw [Nat.shiftLeft_eq a, Nat.mul_comm a]
    exact (Nat.mul_add_lt_is_or hbk a).symm
  have h2 : a <<< (i + k) + b <<< k = 2 ^ k * (a * 2 ^ i + b) := by
    rw [Nat.shiftLeft_eq, Nat.shiftLeft_eq, Nat.pow_add]
    ring
  rw [h1, h2, ← Nat.mul_add_lt_is_or hc, ← h2]
  omega

set_option maxRecDepth 100000 in
theorem byte_top_bit (x : Nat) (hx : x < 256) : (x &&& 128) >>> 7 = x >>> 7 := by
  have h : ∀ y : Fin 256, (y.val &&& 128) >>> 7 = y.val >>> 7 := by decide
  exact h ⟨x, hx⟩

set_option maxRecDepth 100000 in
theorem byte_fields (x : Nat) (hx : x < 256) :
    x &&& 63 < 64 ∧ x &&& 3 < 4 ∧ x &&& 15 < 16 ∧ x >>> 6 < 4 ∧ x >>> 7 < 2 := by
  have h : ∀ y : Fin 256, y.val &&& 63 < 64 ∧ y.val &&& 3 < 4 ∧ y.val &&& 15 < 16 ∧
      y.val >>> 6 < 4 ∧ y.val >>> 7 < 2 := by decide
  exact h ⟨x, hx⟩

theorem C_SIZE_v2_eq (csd : List Nat) :
    C_SIZE_v2 csd = csdByte csd 9 + (csdByte csd 8 <<< 8) + ((csdByte csd 7 &&& 63) <<< 16) ∧
    C_SIZE_v2 csd < 2 ^ 22 := by
  have h := or3_eq_add (csdByte csd 7 &&& 63) (csdByte csd 8) (csdByte csd 9) 8 8
    (csdByte_lt csd 8) (csdByte_lt csd 9)
  have e : C_SIZE_v2 csd
      = csdByte csd 9 + (csdByte csd 8 <<< 8) + ((csdByte csd 7 &&& 63) <<< 16) := h
  refine ⟨e, ?_⟩
  rw [e, Nat.shiftLeft_eq, Nat.shiftLeft_eq]
  have h7 := (byte_fields (csdByte csd 7) (csdByte_lt csd 7)).1
  have h8 := csdByte_lt csd 8
  have h9 := csdByte_lt csd 9
  omega

theorem C_SIZE_v1_eq (csd : List Nat) :
    C_SIZE_v1 csd = (csdByte csd 8 >>> 6) + (csdByte csd 7 <<< 2) + ((csdByte csd 6 &&& 3) <<< 10) ∧
    C_SIZE_v1 csd < 2 ^ 12 := by
  have h8 := (byte_fields (csdByte csd 8) (csdByte_lt csd 8)).2.2.2.1
  have h6 := (byte_fields (csdByte csd 6) (csdByte_lt csd 6)).2.1
  have h7 := csdByte_lt csd 7
  have h := or3_eq_add (csdByte csd 6 &&& 3) (csdByte csd 7) (csdByte csd 8 >>> 6) 8 2
    h7 h8
  have e : C_SIZE_v1 csd
      = (csdByte csd 8 >>> 6) + (csdByte csd 7 <<< 2) + ((csdByte csd 6 &&& 3) <<< 10) := h
  refine ⟨e, ?_⟩
  rw [e, Nat.shiftLeft_eq, Nat.shiftLeft_eq]
  omega

theorem C_SIZE_MULT_eq (csd : List Nat) :
    C_SIZE_MULT csd = ((csdByte csd 10 &&& 128) >>> 7) + ((csdByte csd 9 &&& 3) <<< 1) ∧
    C_SIZE_MULT csd < 8 := by
  have h10 := (byte_fields (csdByte csd 10) (csdByte_lt csd 10)).2.2.2.2
  have h9 := (byte_fields (csdByte csd 9) (csdByte_lt csd 9)).2.1
  have e : C_SIZE_MULT csd = (csdByte csd 10 >>> 7) + ((csdByte csd 9 &&& 3) <<< 1) := by
    unfold C_SIZE_MULT
    rw [Nat.shiftLeft_eq, Nat.mul_comm]
    rw [← Nat.mul_add_lt_is_or (show csdByte csd 10 >>> 7 < 2 ^ 1 from h10)]
    omega
  rw [byte_top_bit _ (csdByte_lt csd 10)]
  refine ⟨e, ?_⟩
  rw [e, Nat.shiftLeft_eq]
  omega

/-- The value `GET_SECTOR_COUNT` computes is the capacity the CSD announces,
reduced modulo 2^32 for a version 2.0 CSD. -/
theorem csd_sector_count_eq (csd : List Nat) :
    (csdByte csd 0 >>> 6 = 1 → csd_sector_count csd = csdCapacity csd % 2 ^ 32) ∧
    (csdByte csd 0 >>> 6 ≠ 1 → 9 ≤ READ_BL_LEN csd + C_SIZE_MULT csd + 2 →
      csd_sector_count csd = csdCapacity csd ∧ csdCapacity csd < 2 ^ 32) := by
  constructor
  · intro hv
    have hv2 : (csd.getD 0 0 % 256) >>> 6 = 1 := hv
    unfold csd_sector_count csdCapacity
    simp only
    rw [if_pos hv2, if_pos hv, (C_SIZE_v2_eq csd).1, Nat.shiftLeft_eq _ 10]
    rfl
  · intro hv hn
    have hv2 : ¬ ((csd.getD 0 0 % 256) >>> 6 = 1) := hv
    obtain ⟨e1, b1⟩ := C_SIZE_v1_eq csd
    obtain ⟨em, bm⟩ := C_SIZE_MULT_eq csd
    have hr := (byte_fields (csdByte csd 5) (csdByte_lt csd 5)).2.2.1
    have hsum : (csdByte csd 5 &&& 15) + ((csdByte csd 10 &&& 128) >>> 7)
        + ((csdByte csd 9 &&& 3) <<< 1) + 2 = READ_BL_LEN csd + C_SIZE_MULT csd + 2 := by
      rw [em]
      unfold READ_BL_LEN
      omega
    have hcount : csd_sector_count csd
        = ((C_SIZE_v1 csd + 1) <<< ((READ_BL_LEN csd + C_SIZE_MULT csd + 2) % 256 - 9))
            % 2 ^ 32 := by
      rw [← hsum, e1]
      unfold csd_sector_count csdByte
      simp only
      rw [if_neg hv2]
    have hcap : csdCapacity csd
        = (C_SIZE_v1 csd + 1) * 2 ^ (READ_BL_LEN csd + C_SIZE_MULT csd + 2 - 9) := by
      unfold csdCapacity
      rw [if_neg hv]
    have hrl : READ_BL_LEN csd < 16 := hr
    have hlt : (C_SIZE_v1 csd + 1) * 2 ^ (READ_BL_LEN csd + C_SIZE_MULT csd + 2 - 9) < 2 ^ 32 := by
      have hs : READ_BL_LEN csd + C_SIZE_MULT csd + 2 - 9 ≤ 15 := by omega
      calc (C_SIZE_v1 csd + 1) * 2 ^ (READ_BL_LEN csd + C_SIZE_MULT csd + 2 - 9)
          ≤ 2 ^ 12 * 2 ^ 15 :=
            Nat.mul_le_mul (by omega) (Nat.pow_le_pow_right (by decide) hs)
        _ < 2 ^ 32 := by decide
    rw [hcount, hcap, Nat.mod_eq_of_lt (show READ_BL_LEN csd + C_SIZE_MULT csd + 2 < 256 by omega),
      Nat.shiftLeft_eq, Nat.mod_eq_of_lt hlt]
    exact ⟨rfl, hlt⟩

theorem rcvr_datablock_returns_n (env : Env) (hticks : ∀ n, 1 ≤ env.ticks n) (fuel k : Nat)
    (buf : List Nat) (p : Nat) (d : Drv) (hf : 256 ≤ fuel) (hk1 : 1 ≤ k) (hk : k ≤ 256) :
    ∃ r, rcvr_datablock env fuel buf p (2 * k) d = some r := by
  unfold rcvr_datablock
  obtain ⟨⟨token, d1⟩, ht⟩ := rcvr_token_loop_returns env hticks fuel { d with Timer1 := 20 }
    (by show 20 < fuel; omega)
  rw [ht]
  simp only
  split
  · exact ⟨_, rfl⟩
  · obtain ⟨⟨buf1, d2⟩, hm⟩ := rcvr_spi_multi_returns env fuel k buf p d1
      hk1 (by omega) (by omega)
    rw [hm]
    exact ⟨_, rfl⟩

/-- What one call of `rcvr_datablock(buff, 2 * k)` does, told from the bytes the
card sends. -/
theorem rcvr_datablock_spec_n (env : Env) (fuel k : Nat) (buf : List Nat) (p : Nat) (d : Drv)
    (r : Nat × List Nat × Drv) (hk1 : 1 ≤ k) (hk : k ≤ 32767)
    (h : rcvr_datablock env fuel buf p (2 * k) d = some r) :
    ∃ t, WaitEnds env d.now t ∧
      ((env.miso t % 256 = 0xFE ∧ r.1 = 1 ∧ Filled env (t + 1) p (2 * k) buf r.2.1 ∧
          r.2.2.now = t + 2 * k + 3) ∨
       (env.miso t % 256 ≠ 0xFE ∧ r.1 = 0 ∧ r.2.1 = buf ∧ r.2.2.now = t + 1)) := by
  unfold rcvr_datablock at h
  split at h
  · simp at h
  · rename_i token d0 ht
    obtain ⟨t, hw, h1, h2⟩ := rcvr_token_loop_spec env fuel _ (token, d0) ht
    simp only at hw h1 h2
    refine ⟨t, hw, ?_⟩
    split at h
    · rename_i hne
      simp only [Option.some.injEq] at h
      rw [← h]
      exact Or.inr ⟨by rw [← h1]; exact hne, rfl, rfl, h2⟩
    · rename_i heq
      have heq : token = 0xFE := by simpa using heq
      split at h
      · simp at h
      · rename_i b1 d1 hm
        obtain ⟨hf, hn⟩ := rcvr_spi_multi_filled env fuel k buf p d0 (b1, d1) hk1 hk hm
        simp only [xchg_spi_eq, Option.some.injEq] at h
        rw [← h]
        refine Or.inl ⟨by rw [← h1]; exact heq, rfl, ?_, ?_⟩
        · rw [← h2]
          exact hf
        · show d1.now + 1 + 1 = t + 2 * k + 3
          rw [hn, h2]
          omega

theorem load32_store32 (buff : List Nat) (v : Nat) (hlen : 4 ≤ buff.length) (hv : v < 2 ^ 32) :
    load32 (store32 buff v) 0 = v := by
  unfold load32 store32
  simp only [List.getD_eq_getElem?_getD, List.getElem?_set, List.length_set]
  have h0 : 0 < buff.length := by omega
  have h1 : 1 < buff.length := by omega
  have h2 : 2 < buff.length := by omega
  have h3 : 3 < buff.length := by omega
  simp [h0, h1, h2, h3]
  omega

theorem csd_sector_count_lt (csd : List Nat) : csd_sector_count csd < 2 ^ 32 := by
  unfold csd_sector_count
  simp only
  split <;> exact Nat.mod_lt _ (by decide)

/-- C22: for every CSD whose structure field (csd[0] >> 6) is 1, the value
GET_SECTOR_COUNT computes is (C_SIZE + 1) * 1024 modulo 2^32, with C_SIZE the
22-bit field of bytes 7-9; it is the exact capacity unless C_SIZE is 0x3FFFFF.
For every other CSD with READ_BL_LEN + C_SIZE_MULT + 2 ≥ 9 it is exactly
(C_SIZE + 1) * 2^(READ_BL_LEN + C_SIZE_MULT + 2 - 9), below 2^32, with the
12-bit C_SIZE of bytes 6-8, READ_BL_LEN of byte 5 and C_SIZE_MULT of bytes 9-10.
On an initialised card, with a running timer and enough fuel the GET_SECTOR_COUNT
call returns; its result is RES_OK or RES_ERROR; when it is RES_OK a data token
0xFE was followed by the 16 bytes of a CSD and the value computed from them was
stored, least significant byte first, in the first four bytes of the buffer;
when it is RES_ERROR the buffer is unchanged. -/
theorem C22_sector_count (env : Env) (fuel : Nat) (buff : List Nat) (sdi : SDIO_CTRL)
    (d : Drv) (csd : List Nat) :
    (csdByte csd 0 >>> 6 = 1 →
      csd_sector_count csd = (C_SIZE_v2 csd + 1) * 1024 % 2 ^ 32 ∧
      (C_SIZE_v2 csd ≠ 0x3FFFFF → csd_sector_count csd = (C_SIZE_v2 csd + 1) * 1024)) ∧
    (csdByte csd 0 >>> 6 ≠ 1 → 9 ≤ READ_BL_LEN csd + C_SIZE_MULT csd + 2 →
      csd_sector_count csd
        = (C_SIZE_v1 csd + 1) * 2 ^ (READ_BL_LEN csd + C_SIZE_MULT csd + 2 - 9) ∧
      (C_SIZE_v1 csd + 1) * 2 ^ (READ_BL_LEN csd + C_SIZE_MULT csd + 2 - 9) < 2 ^ 32) ∧
    (d.Stat &&& STA_NOINIT = 0 →
      ((∀ n, 1 ≤ env.ticks n) → 256 ≤ fuel →
        ∃ r, mmc_disk_ioctl env fuel Ctrl.GET_SECTOR_COUNT buff sdi d = some r) ∧
      ∀ r, mmc_disk_ioctl env fuel Ctrl.GET_SECTOR_COUNT buff sdi d = some r →
        (r.1 = RES_OK ∨ r.1 = RES_ERROR) ∧
        (r.1 = RES_OK → ∃ t got, env.miso t % 256 = 0xFE ∧
          Filled env (t + 1) 0 16 (List.replicate 16 0) got ∧
          r.2.1 = store32 buff (csd_sector_count got) ∧
          (4 ≤ buff.length → load32 r.2.1 0 = csd_sector_count got)) ∧
        (r.1 = RES_ERROR → r.2.1 = buff)) := by
  obtain ⟨hv2, hv1⟩ := csd_sector_count_eq csd
  refine ⟨?_, ?_, ?_⟩
  · intro hv
    have h := hv2 hv
    have hcap : csdCapacity csd = (C_SIZE_v2 csd + 1) * 1024 := by
      unfold csdCapacity
      rw [if_pos hv]
    rw [hcap] at h
    refine ⟨h, fun hne => ?_⟩
    rw [h]
    have := (C_SIZE_v2_eq csd).2
    exact Nat.mod_eq_of_lt (by omega)
  · intro hv hn
    have h := hv1 hv hn
    have hcap : csdCapacity csd
        = (C_SIZE_v1 csd + 1) * 2 ^ (READ_BL_LEN csd + C_SIZE_MULT csd + 2 - 9) := by
      unfold csdCapacity
      rw [if_neg hv]
    rw [hcap] at h
    exact h
  · intro hinit
    have hio : mmc_disk_ioctl env fuel Ctrl.GET_SECTOR_COUNT buff sdi d
        = (read_register env fuel CMD9 16 (List.replicate 16 0) d).map fun r =>
            (if r.1 then RES_OK else RES_ERROR,
             if r.1 then store32 buff (csd_sector_count r.2.1) else buff, sdi.data,
             deselect env r.2.2) := by
      unfold mmc_disk_ioctl
      rw [if_neg (by rw [hinit]; decide)]
    rw [hio]
    constructor
    · intro hticks hf
      unfold read_register
      obtain ⟨⟨res, d1⟩, hs⟩ := send_cmd_returns env hticks fuel CMD9 0 d hf
      rw [hs]
      simp only
      split
      · obtain ⟨⟨ok, b, d2⟩, hr⟩ := rcvr_datablock_returns_n env hticks fuel 8
          (List.replicate 16 0) 0 d1 hf (by decide) (by decide)
        have hr' : rcvr_datablock env fuel (List.replicate 16 0) 0 16 d1 = some (ok, b, d2) := hr
        rw [hr']
        exact ⟨_, rfl⟩
      · exact ⟨_, rfl⟩
    · intro r h
      cases hreg : read_register env fuel CMD9 16 (List.replicate 16 0) d with
      | none => rw [hreg] at h; simp at h
      | some x =>
        obtain ⟨ok, got, d2⟩ := x
        rw [hreg] at h
        simp only [Option.map_some', Option.some.injEq] at h
        rw [← h]
        cases ok
        · simp only [Bool.false_eq_true, if_false]
          exact ⟨Or.inr trivial, fun hh => absurd hh (by decide), fun _ => trivial⟩
        · simp only [if_true]
          refine ⟨Or.inl trivial, fun _ => ?_, fun hh => absurd hh (by decide)⟩
          unfold read_register at hreg
          split at hreg
          · simp at hreg
          · rename_i res d1 hs
            split at hreg
            · split at hreg
              · simp at hreg
              · rename_i ok1 b1 d3 hrd
                simp only [Option.some.injEq, Prod.mk.injEq] at hreg
                obtain ⟨hok, hgot, _⟩ := hreg
                have hrd' : rcvr_datablock env fuel (List.replicate 16 0) 0 (2 * 8) d1
                    = some (ok1, b1, d3) := hrd
                obtain ⟨t, _, hcase⟩ := rcvr_datablock_spec_n env fuel 8 _ 0 d1 (ok1, b1, d3)
                  (by decide) (by decide) hrd'
                rcases hcase with ⟨htok, _, hfill, _⟩ | ⟨_, hz, _⟩
                · refine ⟨t, got, htok, ?_, rfl, fun hlen => ?_⟩
                  · rw [← hgot]
                    exact hfill
                  · exact load32_store32 buff _ hlen (csd_sector_count_lt got)
                · simp only at hz
                  rw [hz] at hok
                  simp at hok
            · simp at hreg

/-- C22 at a concrete input: a version 1.x CSD of a 2 GiB card gives 4194304
sectors. -/
theorem C22_sector_count_witness :
    (csdByte csdTwoGiB 0 >>> 6 ≠ 1 ∧ 9 ≤ READ_BL_LEN csdTwoGiB + C_SIZE_MULT csdTwoGiB + 2) ∧
    csd_sector_count csdTwoGiB
      = (C_SIZE_v1 csdTwoGiB + 1) * 2 ^ (READ_BL_LEN csdTwoGiB + C_SIZE_MULT csdTwoGiB + 2 - 9) ∧
    csd_sector_count csdTwoGiB = 4194304 :=
  ⟨⟨by decide, by decide⟩,
   ((C22_sector_count Env.quiet 300 [0, 0, 0, 0] ⟨0, 0, 0, []⟩ (Drv.mk0 0 CT_SD2)
      csdTwoGiB).2.1 (by decide) (by decide)).1,
   by decide⟩

/-- C22 as stated fails for a version 2.0 CSD whose C_SIZE is 0x3FFFFF: the
capacity (C_SIZE + 1) * 1024 is 2^32 sectors, the shift overflows 32 bits and
the value computed is 0. -/
theorem C22_counterexample :
    csdByte csdFull 0 >>> 6 = 1 ∧ C_SIZE_v2 csdFull = 0x3FFFFF ∧
    (C_SIZE_v2 csdFull + 1) * 1024 = 2 ^ 32 ∧ csd_sector_count csdFull = 0 := by
  refine ⟨?_, ?_, ?_, ?_⟩ <;> decide

/-! ## The Block Transfer Pump sector by sector -/

theorem inCount_log (w : Io) (e : EpEv) :
    (w.logEp e).inCount = w.inCount + e.wire.length := by
  simp [Io.logEp, Io.inCount, inBytes]

theorem inCount_ep (w : Io) (u : Nat) (e : EpEv) (q : List PumpEv) :
    ({ w with usb := u, ep := w.ep ++ [e], seq := q } : Io).inCount
      = w.inCount + e.wire.length := by
  simp [Io.inCount, inBytes]

theorem pump_bank_spec (env : Env) (clear : Io → Io) (w : Io)
    (hclear : ∀ v, (clear v).calls = v.calls ∧ (clear v).drv = v.drv ∧
      (clear v).outPos = v.outPos ∧ (clear v).usb = v.usb ∧ (clear v).inCount = v.inCount) :
    (pump_bank env clear w).2.calls = w.calls ∧ (pump_bank env clear w).2.drv = w.drv ∧
    (pump_bank env clear w).2.outPos = w.outPos ∧
    (pump_bank env clear w).2.inCount = w.inCount ∧
    ((pump_bank env clear w).1 = true → Stopped env (pump_bank env clear w).2) := by
  obtain ⟨c1, c2, c3, c4, c5⟩ := hclear
    { w with usb := w.usb + 1, ep := w.ep ++ [EpEv.IsReadWriteAllowed (env.epRWAllowed w.usb)] }
  unfold pump_bank Endpoint_IsReadWriteAllowed Endpoint_WaitUntilReady
  simp only
  cases hA : env.epRWAllowed w.usb
  · rw [hA] at c1 c2 c3 c4 c5
    simp only [Bool.false_eq_true, if_false]
    refine ⟨c1, c2, c3, ?_, ?_⟩
    · rw [inCount_ep, c5, inCount_ep]
      rfl
    · intro hq
      refine ⟨Nat.succ_pos _, Or.inr ?_⟩
      show env.epWait ((clear _).usb + 1 - 1) % 256 ≠ 0
      rw [Nat.add_sub_cancel]
      simpa using hq
  · simp only [if_true]
    refine ⟨trivial, trivial, trivial, ?_, fun hh => absurd hh (by decide)⟩
    rw [inCount_ep]
    rfl

theorem clearIN_frame (v : Io) : (Endpoint_ClearIN v).calls = v.calls ∧
    (Endpoint_ClearIN v).drv = v.drv ∧ (Endpoint_ClearIN v).outPos = v.outPos ∧
    (Endpoint_ClearIN v).usb = v.usb ∧ (Endpoint_ClearIN v).inCount = v.inCount :=
  ⟨rfl, rfl, rfl, rfl, inCount_log v EpEv.ClearIN⟩

theorem clearOUT_frame (v : Io) : (Endpoint_ClearOUT v).calls = v.calls ∧
    (Endpoint_ClearOUT v).drv = v.drv ∧ (Endpoint_ClearOUT v).outPos = v.outPos ∧
    (Endpoint_ClearOUT v).usb = v.usb ∧ (Endpoint_ClearOUT v).inCount = v.inCount :=
  ⟨rfl, rfl, rfl, rfl, inCount_log v EpEv.ClearOUT⟩

theorem write_16_spec (buffer : List Nat) : ∀ (k n : Nat) (w : Io),
    (write_16 buffer k n w).calls = w.calls ∧ (write_16 buffer k n w).drv = w.drv ∧
    (write_16 buffer k n w).outPos = w.outPos ∧ (write_16 buffer k n w).usb = w.usb ∧
    (write_16 buffer k n w).inCount = w.inCount + k := by
  intro k
  induction k with
  | zero => intro n w; exact ⟨rfl, rfl, rfl, rfl, rfl⟩
  | succ k ih =>
    intro n w
    rw [write_16]
    obtain ⟨h1, h2, h3, h4, h5⟩ := ih (n + 1) (Endpoint_Write_8 (buffer.getD n 0) w)
    refine ⟨h1, h2, h3, h4, ?_⟩
    rw [h5]
    show (w.logEp (EpEv.Write_8 (buffer.getD n 0))).inCount + k = _
    rw [inCount_log]
    show w.inCount + 1 + k = _
    omega

theorem read_16_spec (env : Env) : ∀ (k n : Nat) (buffer : List Nat) (w : Io),
    (read_16 env k n buffer w).2.calls = w.calls ∧ (read_16 env k n buffer w).2.drv = w.drv ∧
    (read_16 env k n buffer w).2.outPos = w.outPos + k ∧
    (read_16 env k n buffer w).2.usb = w.usb := by
  intro k
  induction k with
  | zero => intro n buffer w; exact ⟨rfl, rfl, rfl, rfl⟩
  | succ k ih =>
    intro n buffer w
    rw [read_16]
    simp only [Endpoint_Read_8]
    obtain ⟨h1, h2, h3, h4⟩ := ih (n + 1) (buffer.set n (env.epOut w.outPos % 256))
      { w with outPos := w.outPos + 1, ep := w.ep ++ [EpEv.Read_8 (env.epOut w.outPos % 256)] }
    refine ⟨h1, h2, ?_, h4⟩
    rw [h3]
    show w.outPos + 1 + k = w.outPos + (k + 1)
    omega

theorem reset_flag_spec (env : Env) (w : Io) :
    (IsMassStoreReset env w).1 = env.msReset w.usb ∧
    (IsMassStoreReset env w).2.calls = w.calls ∧ (IsMassStoreReset env w).2.drv = w.drv ∧
    (IsMassStoreReset env w).2.outPos = w.outPos ∧
    (IsMassStoreReset env w).2.inCount = w.inCount ∧
    ((IsMassStoreReset env w).1 = true → Stopped env (IsMassStoreReset env w).2) := by
  refine ⟨rfl, rfl, rfl, rfl, rfl, fun h => ⟨Nat.succ_pos _, Or.inl ?_⟩⟩
  show env.msReset (w.usb + 1 - 1) = true
  rw [Nat.add_sub_cancel]
  exact h

theorem pump_bank_usb (env : Env) (clear : Io → Io) (w : Io)
    (hclear : ∀ v, (clear v).calls = v.calls ∧ (clear v).drv = v.drv ∧
      (clear v).outPos = v.outPos ∧ (clear v).usb = v.usb ∧ (clear v).inCount = v.inCount) :
    w.usb ≤ (pump_bank env clear w).2.usb := by
  obtain ⟨_, _, _, c4, _⟩ := hclear
    { w with usb := w.usb + 1, ep := w.ep ++ [EpEv.IsReadWriteAllowed (env.epRWAllowed w.usb)] }
  unfold pump_bank Endpoint_IsReadWriteAllowed Endpoint_WaitUntilReady
  simp only
  cases hA : env.epRWAllowed w.usb
  · rw [hA] at c4
    simp only [Bool.false_eq_true, if_false]
    rw [c4]
    show w.usb ≤ w.usb + 1 + 1
    omega
  · simp only [if_true]
    exact Nat.le_succ _

theorem stopped_not_undisturbed (env : Env) (w : Io) (hu : Undisturbed env)
    (hs : Stopped env w) : False := by
  obtain ⟨_, h | h⟩ := hs
  · rw [(hu _).1] at h
    exact Bool.noConfusion h
  · exact h (hu _).2

/-- The inner loop of the read pump, 16 bytes at a time: no Block Driver call;
it either stops at a wait point or moves the rest of the sector to the IN
endpoint. -/
theorem read_block_16_spec (env : Env) (buffer : List Nat) :
    ∀ (fuel j : Nat) (w : Io) (r : Bool × Io), j ≤ 32 →
      read_block_16 env buffer fuel (16 * j) w = some r →
      r.2.calls = w.calls ∧ r.2.drv = w.drv ∧ w.usb ≤ r.2.usb ∧
      (r.1 = true → Stopped env r.2) ∧
      (r.1 = false → r.2.inCount = w.inCount + (512 - 16 * j)) ∧
      (AbortedFrom env w.usb → j < 32 → r.1 = true) := by
  intro fuel
  induction fuel with
  | zero => intro j w r _ h; simp [read_block_16] at h
  | succ f ih =>
    intro j w r hj h
    rw [read_block_16] at h
    by_cases hn : 16 * j < VIRTUAL_MEMORY_BLOCK_SIZE
    · rw [if_pos hn] at h
      obtain ⟨p1, p2, _, p4, p6⟩ := pump_bank_spec env Endpoint_ClearIN w clearIN_frame
      have p7 := pump_bank_usb env Endpoint_ClearIN w clearIN_frame
      generalize pump_bank env Endpoint_ClearIN w = pb at h p1 p2 p4 p6 p7
      obtain ⟨quit, w1⟩ := pb
      simp only at h p1 p2 p4 p6 p7
      cases quit
      · simp only [Bool.false_eq_true, if_false] at h
        obtain ⟨q1, q2, _, q4, q5⟩ := write_16_spec buffer 16 (16 * j) w1
        obtain ⟨f0, f1, f2, _, f4, f5⟩ := reset_flag_spec env (write_16 buffer 16 (16 * j) w1)
        have f6 : (IsMassStoreReset env (write_16 buffer 16 (16 * j) w1)).2.usb
            = (write_16 buffer 16 (16 * j) w1).usb + 1 := rfl
        generalize IsMassStoreReset env (write_16 buffer 16 (16 * j) w1) = mr
          at h f0 f1 f2 f4 f5 f6
        obtain ⟨reset, w2⟩ := mr
        simp only at h f0 f1 f2 f4 f5 f6
        rw [q4] at f0 f6
        cases reset
        · simp only [Bool.false_eq_true, if_false] at h
          have hj2 : (16 * j + 16) % 65536 = 16 * (j + 1) := by omega
          rw [hj2] at h
          unfold VIRTUAL_MEMORY_BLOCK_SIZE at hn
          obtain ⟨i1, i2, i3, i4, i5, _⟩ := ih (j + 1) w2 r (by omega) h
          refine ⟨?_, ?_, by omega, i4, ?_, ?_⟩
          · rw [i1, f1, q1, p1]
          · rw [i2, f2, q2, p2]
          · intro hr
            rw [i5 hr, f4, q5, p4]
            omega
          · intro hall _
            rw [hall _ p7] at f0
            exact Bool.noConfusion f0
        · simp only [if_true, Option.some.injEq] at h
          rw [← h]
          refine ⟨?_, ?_, ?_, fun _ => f5 rfl, fun hh => Bool.noConfusion hh, fun _ _ => rfl⟩
          · rw [f1, q1, p1]
          · rw [f2, q2, p2]
          · show w.usb ≤ w2.usb
            omega
      · simp only [if_true, Option.some.injEq] at h
        rw [← h]
        exact ⟨p1, p2, p7, fun _ => p6 rfl, fun hh => Bool.noConfusion hh, fun _ _ => rfl⟩
    · rw [if_neg hn] at h
      simp only [Option.some.injEq] at h
      rw [← h]
      unfold VIRTUAL_MEMORY_BLOCK_SIZE at hn
      refine ⟨rfl, rfl, Nat.le_refl _, fun hh => Bool.noConfusion hh, fun _ => ?_,
        fun _ hlt => ?_⟩
      · show w.inCount = w.inCount + (512 - 16 * j)
        omega
      · omega

/-- The inner loop of the write pump, 16 bytes at a time: no Block Driver call;
it either stops at a wait point or takes the rest of the sector from the OUT
endpoint. -/
theorem write_block_16_spec (env : Env) :
    ∀ (fuel j : Nat) (buffer : List Nat) (w : Io) (r : Bool × List Nat × Io), j ≤ 32 →
      write_block_16 env fuel (16 * j) buffer w = some r →
      r.2.2.calls = w.calls ∧ r.2.2.drv = w.drv ∧ w.usb ≤ r.2.2.usb ∧
      (r.1 = true → Stopped env r.2.2) ∧
      (r.1 = false → r.2.2.outPos = w.outPos + (512 - 16 * j)) ∧
      (AbortedFrom env w.usb → j < 32 → r.1 = true) := by
  intro fuel
  induction fuel with
  | zero => intro j buffer w r _ h; simp [write_block_16] at h
  | succ f ih =>
    intro j buffer w r hj h
    rw [write_block_16] at h
    by_cases hn : 16 * j < VIRTUAL_MEMORY_BLOCK_SIZE
    · rw [if_pos hn] at h
      obtain ⟨p1, p2, p3, _, p6⟩ := pump_bank_spec env Endpoint_ClearOUT w clearOUT_frame
      have p7 := pump_bank_usb env Endpoint_ClearOUT w clearOUT_frame
      generalize pump_bank env Endpoint_ClearOUT w = pb at h p1 p2 p3 p6 p7
      obtain ⟨quit, w1⟩ := pb
      simp only at h p1 p2 p3 p6 p7
      cases quit
      · simp only [Bool.false_eq_true, if_false] at h
        obtain ⟨q1, q2, q3, q4⟩ := read_16_spec env 16 (16 * j) buffer w1
        generalize read_16 env 16 (16 * j) buffer w1 = rd at h q1 q2 q3 q4
        obtain ⟨buffer1, w2⟩ := rd
        simp only at h q1 q2 q3 q4
        obtain ⟨f0, f1, f2, f3, _, f5⟩ := reset_flag_spec env w2
        have f6 : (IsMassStoreReset env w2).2.usb = w2.usb + 1 := rfl
        generalize IsMassStoreReset env w2 = mr at h f0 f1 f2 f3 f5 f6
        obtain ⟨reset, w3⟩ := mr
        simp only at h f0 f1 f2 f3 f5 f6
        rw [q4] at f0 f6
        cases reset
        · simp only [Bool.false_eq_true, if_false] at h
          have hj2 : (16 * j + 16) % 65536 = 16 * (j + 1) := by omega
          rw [hj2] at h
          unfold VIRTUAL_MEMORY_BLOCK_SIZE at hn
          obtain ⟨i1, i2, i3, i4, i5, _⟩ := ih (j + 1) buffer1 w3 r (by omega) h
          refine ⟨?_, ?_, by omega, i4, ?_, ?_⟩
          · rw [i1, f1, q1, p1]
          · rw [i2, f2, q2, p2]
          · intro hr
            rw [i5 hr, f3, q3, p3]
            omega
          · intro hall _
            rw [hall _ p7] at f0
            exact Bool.noConfusion f0
        · simp only [if_true, Option.some.injEq] at h
          rw [← h]
          refine ⟨?_, ?_, ?_, fun _ => f5 rfl, fun hh => Bool.noConfusion hh, fun _ _ => rfl⟩
          · rw [f1, q1, p1]
          · rw [f2, q2, p2]
          · show w.usb ≤ w3.usb
            omega
      · simp only [if_true, Option.some.injEq] at h
        rw [← h]
        exact ⟨p1, p2, p7, fun _ => p6 rfl, fun hh => Bool.noConfusion hh, fun _ _ => rfl⟩
    · rw [if_neg hn] at h
      simp only [Option.some.injEq] at h
      rw [← h]
      unfold VIRTUAL_MEMORY_BLOCK_SIZE at hn
      refine ⟨rfl, rfl, Nat.le_refl _, fun hh => Bool.noConfusion hh, fun _ => ?_,
        fun _ hlt => ?_⟩
      · show w.outPos = w.outPos + (512 - 16 * j)
        omega
      · omega

/-- One partial stream write of the sector buffer: no Block Driver call, one
observation of the USB side, and the bytes it moves. -/
theorem write_stream_part_spec (env : Env) (buffer : List Nat) (processed : Nat) (w : Io)
    (hp : processed ≤ 512) :
    (Endpoint_Write_Stream_LE_part env buffer VIRTUAL_MEMORY_BLOCK_SIZE processed w).2.2.calls
      = w.calls ∧
    (Endpoint_Write_Stream_LE_part env buffer VIRTUAL_MEMORY_BLOCK_SIZE processed w).2.2.drv
      = w.drv ∧
    (Endpoint_Write_Stream_LE_part env buffer VIRTUAL_MEMORY_BLOCK_SIZE processed w).2.2.usb
      = w.usb + 1 ∧
    (Endpoint_Write_Stream_LE_part env buffer VIRTUAL_MEMORY_BLOCK_SIZE processed w).2.1 ≤ 512 ∧
    (StreamsOk env → 512 ≤ buffer.length →
      ((Endpoint_Write_Stream_LE_part env buffer VIRTUAL_MEMORY_BLOCK_SIZE processed w).1
          ≠ ENDPOINT_RWSTREAM_IncompleteTransfer →
        (Endpoint_Write_Stream_LE_part env buffer VIRTUAL_MEMORY_BLOCK_SIZE processed w).2.2.inCount
          = w.inCount + (512 - processed)) ∧
      ((Endpoint_Write_Stream_LE_part env buffer VIRTUAL_MEMORY_BLOCK_SIZE processed w).1
          = ENDPOINT_RWSTREAM_IncompleteTransfer →
        (Endpoint_Write_Stream_LE_part env buffer VIRTUAL_MEMORY_BLOCK_SIZE processed w).2.2.inCount
          + (512 - (Endpoint_Write_Stream_LE_part env buffer VIRTUAL_MEMORY_BLOCK_SIZE
              processed w).2.1)
          = w.inCount + (512 - processed))) := by
  unfold Endpoint_Write_Stream_LE_part VIRTUAL_MEMORY_BLOCK_SIZE
  simp only
  refine ⟨trivial, trivial, trivial, ?_, ?_⟩
  · split
    · split
      · omega
      · have := Nat.min_le_right (env.epStream w.usb).2 (512 - processed)
        omega
    · exact hp
  · intro hok hlen
    rcases hok w.usb with hc | hc
    · have hne : ENDPOINT_RWSTREAM_NoError ≠ ENDPOINT_RWSTREAM_IncompleteTransfer := by decide
      rw [hc]
      refine ⟨fun _ => ?_, fun h => absurd h hne⟩
      rw [inCount_ep]
      simp only [if_true, EpEv.wire, List.length_take, List.length_drop]
      omega
    · have hne : ENDPOINT_RWSTREAM_IncompleteTransfer ≠ ENDPOINT_RWSTREAM_NoError := by decide
      rw [hc]
      refine ⟨fun h => absurd rfl h, fun _ => ?_⟩
      rw [inCount_ep]
      simp only [if_true, if_neg hne, EpEv.wire, List.length_take, List.length_drop]
      omega

/-- One partial stream read into the sector buffer: no Block Driver call, one
observation of the USB side, and the bytes it takes. -/
theorem read_stream_part_spec (env : Env) (buffer : List Nat) (processed : Nat) (w : Io)
    (hp : processed ≤ 512) :
    (Endpoint_Read_Stream_LE_part env buffer VIRTUAL_MEMORY_BLOCK_SIZE processed w).2.2.2.calls
      = w.calls ∧
    (Endpoint_Read_Stream_LE_part env buffer VIRTUAL_MEMORY_BLOCK_SIZE processed w).2.2.2.drv
      = w.drv ∧
    (Endpoint_Read_Stream_LE_part env buffer VIRTUAL_MEMORY_BLOCK_SIZE processed w).2.2.2.usb
      = w.usb + 1 ∧
    (Endpoint_Read_Stream_LE_part env buffer VIRTUAL_MEMORY_BLOCK_SIZE processed w).2.1 ≤ 512 ∧
    (StreamsOk env →
      ((Endpoint_Read_Stream_LE_part env buffer VIRTUAL_MEMORY_BLOCK_SIZE processed w).1
          ≠ ENDPOINT_RWSTREAM_IncompleteTransfer →
        (Endpoint_Read_Stream_LE_part env buffer VIRTUAL_MEMORY_BLOCK_SIZE processed w).2.2.2.outPos
          = w.outPos + (512 - processed)) ∧
      ((Endpoint_Read_Stream_LE_part env buffer VIRTUAL_MEMORY_BLOCK_SIZE processed w).1
          = ENDPOINT_RWSTREAM_IncompleteTransfer →
        (Endpoint_Read_Stream_LE_part env buffer VIRTUAL_MEMORY_BLOCK_SIZE processed w).2.2.2.outPos
          + (512 - (Endpoint_Read_Stream_LE_part env buffer VIRTUAL_MEMORY_BLOCK_SIZE
              processed w).2.1)
          = w.outPos + (512 - processed))) := by
  unfold Endpoint_Read_Stream_LE_part VIRTUAL_MEMORY_BLOCK_SIZE
  simp only
  refine ⟨trivial, trivial, trivial, ?_, ?_⟩
  · split
    · split
      · omega
      · have := Nat.min_le_right (env.epStream w.usb).2 (512 - processed)
        omega
    · exact hp
  · intro hok
    rcases hok w.usb with hc | hc
    · have hne : ENDPOINT_RWSTREAM_NoError ≠ ENDPOINT_RWSTREAM_IncompleteTransfer := by decide
      rw [hc]
      refine ⟨fun _ => ?_, fun h => absurd h hne⟩
      simp only [if_true]
    · have hne : ENDPOINT_RWSTREAM_IncompleteTransfer ≠ ENDPOINT_RWSTREAM_NoError := by decide
      rw [hc]
      refine ⟨fun h => absurd rfl h, fun _ => ?_⟩
      simp only [if_true, if_neg hne]
      omega

/-- The inner loop of the read pump built on the stream primitive: no Block
Driver call; it either stops at a wait point or, when the stream never fails,
moves the rest of the sector to the IN endpoint. -/
theorem read_block_stream_spec (env : Env) (buffer : List Nat) :
    ∀ (fuel processed : Nat) (w : Io) (r : Bool × Io), processed ≤ 512 →
      read_block_stream env buffer fuel processed w = some r →
      r.2.calls = w.calls ∧ r.2.drv = w.drv ∧ w.usb ≤ r.2.usb ∧
      (r.1 = true → Stopped env r.2) ∧
      (r.1 = false → StreamsOk env → 512 ≤ buffer.length →
        r.2.inCount = w.inCount + (512 - processed)) ∧
      (AbortedFrom env w.usb → r.1 = true) := by
  intro fuel
  induction fuel with
  | zero => intro j w r _ h; simp [read_block_stream] at h
  | succ f ih =>
    intro processed w r hp h
    rw [read_block_stream] at h
    obtain ⟨p1, p2, _, p4, p6⟩ := pump_bank_spec env Endpoint_ClearOUT w clearOUT_frame
    have p7 := pump_bank_usb env Endpoint_ClearOUT w clearOUT_frame
    generalize pump_bank env Endpoint_ClearOUT w = pb at h p1 p2 p4 p6 p7
    obtain ⟨quit, w1⟩ := pb
    simp only at h p1 p2 p4 p6 p7
    cases quit
    · simp only [Bool.false_eq_true, if_false] at h
      obtain ⟨q1, q2, q3, q4, q5⟩ := write_stream_part_spec env buffer processed w1 hp
      generalize Endpoint_Write_Stream_LE_part env buffer VIRTUAL_MEMORY_BLOCK_SIZE processed w1
        = sp at h q1 q2 q3 q4 q5
      obtain ⟨code, processed1, w2⟩ := sp
      simp only at h q1 q2 q3 q4 q5
      obtain ⟨f0, f1, f2, _, f4, f5⟩ := reset_flag_spec env w2
      have f6 : (IsMassStoreReset env w2).2.usb = w2.usb + 1 := rfl
      generalize IsMassStoreReset env w2 = mr at h f0 f1 f2 f4 f5 f6
      obtain ⟨reset, w3⟩ := mr
      simp only at h f0 f1 f2 f4 f5 f6
      cases reset
      · simp only [Bool.false_eq_true, if_false] at h
        have hab : AbortedFrom env w.usb → False := by
          intro hall
          rw [hall _ (by omega)] at f0
          exact Bool.noConfusion f0
        by_cases hc : code = ENDPOINT_RWSTREAM_IncompleteTransfer
        · rw [if_pos hc] at h
          obtain ⟨i1, i2, i3, i4, i5, _⟩ := ih processed1 w3 r q4 h
          refine ⟨?_, ?_, by omega, i4, ?_, fun hall => (hab hall).elim⟩
          · rw [i1, f1, q1, p1]
          · rw [i2, f2, q2, p2]
          · intro hr hok hlen
            rw [i5 hr hok hlen, f4, ← p4]
            exact (q5 hok hlen).2 hc
        · rw [if_neg hc] at h
          simp only [Option.some.injEq] at h
          rw [← h]
          refine ⟨?_, ?_, ?_, fun hh => Bool.noConfusion hh, ?_, fun hall => (hab hall).elim⟩
          · show w3.calls = w.calls
            rw [f1, q1, p1]
          · show w3.drv = w.drv
            rw [f2, q2, p2]
          · show w.usb ≤ w3.usb
            omega
          · intro _ hok hlen
            show w3.inCount = _
            rw [f4, ← p4]
            exact (q5 hok hlen).1 hc
      · simp only [if_true, Option.some.injEq] at h
        rw [← h]
        refine ⟨?_, ?_, ?_, fun _ => f5 rfl, fun hh => Bool.noConfusion hh, fun _ => rfl⟩
        · show w3.calls = w.calls
          rw [f1, q1, p1]
        · show w3.drv = w.drv
          rw [f2, q2, p2]
        · show w.usb ≤ w3.usb
          omega
    · simp only [if_true, Option.some.injEq] at h
      rw [← h]
      exact ⟨p1, p2, p7, fun _ => p6 rfl, fun hh => Bool.noConfusion hh, fun _ => rfl⟩

/-- The inner loop of the write pump built on the stream primitive: no Block
Driver call; it either stops at a wait point or, when the stream never fails,
takes the rest of the sector from the OUT endpoint. -/
theorem write_block_stream_spec (env : Env) :
    ∀ (fuel processed : Nat) (buffer : List Nat) (w : Io) (r : Bool × List Nat × Io),
      processed ≤ 512 →
      write_block_stream env fuel processed buffer w = some r →
      r.2.2.calls = w.calls ∧ r.2.2.drv = w.drv ∧ w.usb ≤ r.2.2.usb ∧
      (r.1 = true → Stopped env r.2.2) ∧
      (r.1 = false → StreamsOk env → r.2.2.outPos = w.outPos + (512 - processed)) ∧
      (AbortedFrom env w.usb → r.1 = true) := by
  intro fuel
  induction fuel with
  | zero => intro j buffer w r _ h; simp [write_block_stream] at h
  | succ f ih =>
    intro processed buffer w r hp h
    rw [write_block_stream] at h
    obtain ⟨p1, p2, p3, _, p6⟩ := pump_bank_spec env Endpoint_ClearOUT w clearOUT_frame
    have p7 := pump_bank_usb env Endpoint_ClearOUT w clearOUT_frame
    generalize pump_bank env Endpoint_ClearOUT w = pb at h p1 p2 p3 p6 p7
    obtain ⟨quit, w1⟩ := pb
    simp only at h p1 p2 p3 p6 p7
    cases quit
    · simp only [Bool.false_eq_true, if_false] at h
      obtain ⟨q1, q2, q3, q4, q5⟩ := read_stream_part_spec env buffer processed w1 hp
      generalize Endpoint_Read_Stream_LE_part env buffer VIRTUAL_MEMORY_BLOCK_SIZE processed w1
        = sp at h q1 q2 q3 q4 q5
      obtain ⟨code, processed1, buffer1, w2⟩ := sp
      simp only at h q1 q2 q3 q4 q5
      obtain ⟨f0, f1, f2, f3, _, f5⟩ := reset_flag_spec env w2
      have f6 : (IsMassStoreReset env w2).2.usb = w2.usb + 1 := rfl
      generalize IsMassStoreReset env w2 = mr at h f0 f1 f2 f3 f5 f6
      obtain ⟨reset, w3⟩ := mr
      simp only at h f0 f1 f2 f3 f5 f6
      cases reset
      · simp only [Bool.false_eq_true, if_false] at h
        have hab : AbortedFrom env w.usb → False := by
          intro hall
          rw [hall _ (by omega)] at f0
          exact Bool.noConfusion f0
        by_cases hc : code = ENDPOINT_RWSTREAM_IncompleteTransfer
        · rw [if_pos hc] at h
          obtain ⟨i1, i2, i3, i4, i5, _⟩ := ih processed1 buffer1 w3 r q4 h
          refine ⟨?_, ?_, by omega, i4, ?_, fun hall => (hab hall).elim⟩
          · rw [i1, f1, q1, p1]
          · rw [i2, f2, q2, p2]
          · intro hr hok
            rw [i5 hr hok, f3, ← p3]
            exact (q5 hok).2 hc
        · rw [if_neg hc] at h
          simp only [Option.some.injEq] at h
          rw [← h]
          refine ⟨?_, ?_, ?_, fun hh => Bool.noConfusion hh, ?_, fun hall => (hab hall).elim⟩
          · show w3.calls = w.calls
            rw [f1, q1, p1]
          · show w3.drv = w.drv
            rw [f2, q2, p2]
          · show w.usb ≤ w3.usb
            omega
          · intro _ hok
            show w3.outPos = _
            rw [f3, ← p3]
            exact (q5 hok).1 hc
      · simp only [if_true, Option.some.injEq] at h
        rw [← h]
        refine ⟨?_, ?_, ?_, fun _ => f5 rfl, fun hh => Bool.noConfusion hh, fun _ => rfl⟩
        · show w3.calls = w.calls
          rw [f1, q1, p1]
        · show w3.drv = w.drv
          rw [f2, q2, p2]
        · show w.usb ≤ w3.usb
          omega
    · simp only [if_true, Option.some.injEq] at h
      rw [← h]
      exact ⟨p1, p2, p7, fun _ => p6 rfl, fun hh => Bool.noConfusion hh, fun _ => rfl⟩

/-- The sector buffer keeps its length through `mmc_disk_read`. -/
theorem mmc_disk_read_length (env : Env) (fuel : Nat) (buf : List Nat) (p sector count : Nat)
    (d : Drv) (r : DRESULT × List Nat × Drv) (hc16 : count < 65536)
    (h : mmc_disk_read env fuel buf p sector count d = some r) :
    r.2.1.length = buf.length := by
  by_cases hcount : count = 0
  · unfold mmc_disk_read at h
    rw [if_pos hcount] at h
    simp only [Option.some.injEq] at h
    rw [← h]
  · by_cases hinit : d.Stat &&& STA_NOINIT = 0
    · obtain ⟨res, d1, _, hrest⟩ := mmc_disk_read_run env fuel buf p sector count d r
        hcount hinit h
      rcases hrest with ⟨_, hr⟩ | ⟨_, c, b, d2, hl, hr⟩
      · rw [hr]
      · obtain ⟨m, e, _, _, hsec, _⟩ := read_loop_spec env fuel fuel buf p count d1 (c, b, d2)
          (by omega) hc16 hl
        have hlen := (sectorsReceived_frame env m d1.now p buf e b hsec).1
        rcases hr with ⟨_, hr⟩ | ⟨_, _, _, _, hr⟩
        · rw [hr]
          exact hlen
        · rw [hr]
          exact hlen
    · unfold mmc_disk_read at h
      rw [if_neg hcount, if_pos hinit] at h
      simp only [Option.some.injEq] at h
      rw [← h]

theorem sectorRun_zero (isRead : Bool) (A : Nat) : sectorRun isRead A 0 = [] := rfl

theorem sectorRun_succ (isRead : Bool) (A m : Nat) (hA : A < 2 ^ 32) :
    sectorRun isRead A (m + 1) = (isRead, A, 1) :: sectorRun isRead ((A + 1) % 2 ^ 32) m := by
  unfold sectorRun
  rw [List.range_succ_eq_map, List.map_cons, List.map_map]
  congr 1
  · rw [Nat.add_zero, Nat.mod_eq_of_lt hA]
  · apply List.map_congr_left
    intro i _
    show (isRead, (A + (i + 1)) % 2 ^ 32, 1) = (isRead, ((A + 1) % 2 ^ 32 + i) % 2 ^ 32, 1)
    have : (A + (i + 1)) % 2 ^ 32 = ((A + 1) % 2 ^ 32 + i) % 2 ^ 32 := by omega
    rw [this]

/-! ## The order of the pump's steps -/

theorem noStop_nil : NoStop [] := fun _ h => absurd h (List.not_mem_nil _)

theorem noStop_append {a b : List PumpEv} (ha : NoStop a) (hb : NoStop b) : NoStop (a ++ b) := by
  intro e he
  rcases List.mem_append.mp he with h | h
  · exact ha e h
  · exact hb e h

theorem callsIn_append (a b : List PumpEv) : callsIn (a ++ b) = callsIn a ++ callsIn b := by
  simp [callsIn, List.filterMap_append]

theorem ran_refl (w : Io) : Ran w w false [] :=
  ⟨[], (List.append_nil _).symm, rfl, noStop_nil⟩

theorem ran_frame {w v : Io} (h : v.seq = w.seq) : Ran w v false [] :=
  ⟨[], by rw [h, List.append_nil], rfl, noStop_nil⟩

theorem ran_trans {w v r : Io} {q : Bool} {c1 c2 : List (IoCall × List Nat)}
    (h1 : Ran w v false c1) (h2 : Ran v r q c2) : Ran w r q (c1 ++ c2) := by
  obtain ⟨e1, s1, k1, n1⟩ := h1
  obtain ⟨e2, s2, k2, n2⟩ := h2
  simp only [Bool.false_eq_true, if_false] at n1
  refine ⟨e1 ++ e2, by rw [s2, s1, List.append_assoc], by rw [callsIn_append, k1, k2], ?_⟩
  cases q
  · simp only [Bool.false_eq_true, if_false] at n2 ⊢
    exact noStop_append n1 n2
  · simp only [if_true] at n2 ⊢
    obtain ⟨pre, e, he, hn, hs⟩ := n2
    exact ⟨e1 ++ pre, e, by rw [he, List.append_assoc], noStop_append n1 hn, hs⟩

theorem ran_event {w v : Io} (e : PumpEv) (h : v.seq = w.seq ++ [e]) (hc : e.callOf = none) :
    Ran w v e.isStop [] := by
  refine ⟨[e], h, by simp [callsIn, hc], ?_⟩
  cases hs : e.isStop
  · simp only [Bool.false_eq_true, if_false]
    intro x hx
    rw [List.mem_singleton.mp hx]
    exact hs
  · simp only [if_true]
    exact ⟨[], e, rfl, noStop_nil, hs⟩

theorem ran_call {w v : Io} (c : IoCall) (data : List Nat)
    (h : v.seq = w.seq ++ [PumpEv.call c data]) : Ran w v false [(c, data)] := by
  refine ⟨[PumpEv.call c data], h, rfl, ?_⟩
  simp only [Bool.false_eq_true, if_false]
  intro x hx
  rw [List.mem_singleton.mp hx]
  rfl

theorem pump_bank_ran (env : Env) (clear : Io → Io) (w : Io)
    (hclear : ∀ v, (clear v).seq = v.seq) :
    Ran w (pump_bank env clear w).2 (pump_bank env clear w).1 [] := by
  have c1 := hclear
    { w with usb := w.usb + 1, ep := w.ep ++ [EpEv.IsReadWriteAllowed (env.epRWAllowed w.usb)] }
  unfold pump_bank Endpoint_IsReadWriteAllowed Endpoint_WaitUntilReady
  simp only
  cases hA : env.epRWAllowed w.usb
  · rw [hA] at c1
    simp only [Bool.false_eq_true, if_false]
    refine ran_event (PumpEv.wait _) ?_ rfl
    show (clear _).seq ++ [_] = _
    rw [c1]
  · simp only [if_true]
    exact ran_frame rfl

theorem reset_flag_ran (env : Env) (w : Io) :
    Ran w (IsMassStoreReset env w).2 (IsMassStoreReset env w).1 [] :=
  ran_event (PumpEv.flag (env.msReset w.usb)) rfl rfl

theorem write_16_seq (buffer : List Nat) : ∀ (k n : Nat) (w : Io),
    (write_16 buffer k n w).seq = w.seq := by
  intro k
  induction k with
  | zero => intro n w; rfl
  | succ k ih =>
    intro n w
    rw [write_16, ih]
    rfl

theorem read_16_seq (env : Env) : ∀ (k n : Nat) (buffer : List Nat) (w : Io),
    (read_16 env k n buffer w).2.seq = w.seq := by
  intro k
  induction k with
  | zero => intro n buffer w; rfl
  | succ k ih =>
    intro n buffer w
    rw [read_16]
    simp only [Endpoint_Read_8]
    rw [ih]

/-- The inner loops make no Block Driver call, and they give up exactly at a
failed wait or a set flag, which is then the last thing they did. -/
theorem read_block_16_ran (env : Env) (buffer : List Nat) :
    ∀ (fuel n : Nat) (w : Io) (r : Bool × Io),
      read_block_16 env buffer fuel n w = some r → Ran w r.2 r.1 [] := by
  intro fuel
  induction fuel with
  | zero => intro n w r h; simp [read_block_16] at h
  | succ f ih =>
    intro n w r h
    rw [read_block_16] at h
    by_cases hn : n < VIRTUAL_MEMORY_BLOCK_SIZE
    · rw [if_pos hn] at h
      have p1 := pump_bank_ran env Endpoint_ClearIN w (fun _ => rfl)
      generalize pump_bank env Endpoint_ClearIN w = pb at h p1
      obtain ⟨quit, w1⟩ := pb
      simp only at h p1
      cases quit
      · simp only [Bool.false_eq_true, if_false] at h
        have q1 := write_16_seq buffer 16 n w1
        have f1 := reset_flag_ran env (write_16 buffer 16 n w1)
        generalize IsMassStoreReset env (write_16 buffer 16 n w1) = mr at h f1
        obtain ⟨reset, w2⟩ := mr
        simp only at h f1
        have f2 : Ran w w2 reset [] := ran_trans (ran_trans p1 (ran_frame q1)) f1
        cases reset
        · simp only [Bool.false_eq_true, if_false] at h
          exact ran_trans f2 (ih _ w2 r h)
        · simp only [if_true, Option.some.injEq] at h
          rw [← h]
          exact f2
      · simp only [if_true, Option.some.injEq] at h
        rw [← h]
        exact p1
    · rw [if_neg hn] at h
      simp only [Option.some.injEq] at h
      rw [← h]
      exact ran_refl w

theorem write_block_16_ran (env : Env) :
    ∀ (fuel n : Nat) (buffer : List Nat) (w : Io) (r : Bool × List Nat × Io),
      write_block_16 env fuel n buffer w = some r → Ran w r.2.2 r.1 [] := by
  intro fuel
  induction fuel with
  | zero => intro n buffer w r h; simp [write_block_16] at h
  | succ f ih =>
    intro n buffer w r h
    rw [write_block_16] at h
    by_cases hn : n < VIRTUAL_MEMORY_BLOCK_SIZE
    · rw [if_pos hn] at h
      have p1 := pump_bank_ran env Endpoint_ClearOUT w (fun _ => rfl)
      generalize pump_bank env Endpoint_ClearOUT w = pb at h p1
      obtain ⟨quit, w1⟩ := pb
      simp only at h p1
      cases quit
      · simp only [Bool.false_eq_true, if_false] at h
        have q1 := read_16_seq env 16 n buffer w1
        generalize read_16 env 16 n buffer w1 = rd at h q1
        obtain ⟨buffer1, w2⟩ := rd
        simp only at h q1
        have f1 := reset_flag_ran env w2
        generalize IsMassStoreReset env w2 = mr at h f1
        obtain ⟨reset, w3⟩ := mr
        simp only at h f1
        have f2 : Ran w w3 reset [] := ran_trans (ran_trans p1 (ran_frame q1)) f1
        cases reset
        · simp only [Bool.false_eq_true, if_false] at h
          exact ran_trans f2 (ih _ buffer1 w3 r h)
        · simp only [if_true, Option.some.injEq] at h
          rw [← h]
          exact f2
      · simp only [if_true, Option.some.injEq] at h
        rw [← h]
        exact p1
    · rw [if_neg hn] at h
      simp only [Option.some.injEq] at h
      rw [← h]
      exact ran_refl w

theorem read_block_stream_ran (env : Env) (buffer : List Nat) :
    ∀ (fuel processed : Nat) (w : Io) (r : Bool × Io),
      read_block_stream env buffer fuel processed w = some r → Ran w r.2 r.1 [] := by
  intro fuel
  induction fuel with
  | zero => intro n w r h; simp [read_block_stream] at h
  | succ f ih =>
    intro processed w r h
    rw [read_block_stream] at h
    have p1 := pump_bank_ran env Endpoint_ClearOUT w (fun _ => rfl)
    generalize pump_bank env Endpoint_ClearOUT w = pb at h p1
    obtain ⟨quit, w1⟩ := pb
    simp only at h p1
    cases quit
    · simp only [Bool.false_eq_true, if_false] at h
      have q1 : (Endpoint_Write_Stream_LE_part env buffer VIRTUAL_MEMORY_BLOCK_SIZE processed
          w1).2.2.seq = w1.seq := rfl
      generalize Endpoint_Write_Stream_LE_part env buffer VIRTUAL_MEMORY_BLOCK_SIZE processed w1
        = sp at h q1
      obtain ⟨code, processed1, w2⟩ := sp
      simp only at h q1
      have f1 := reset_flag_ran env w2
      generalize IsMassStoreReset env w2 = mr at h f1
      obtain ⟨reset, w3⟩ := mr
      simp only at h f1
      have f2 : Ran w w3 reset [] := ran_trans (ran_trans p1 (ran_frame q1)) f1
      cases reset
      · simp only [Bool.false_eq_true, if_false] at h
        by_cases hc : code = ENDPOINT_RWSTREAM_IncompleteTransfer
        · rw [if_pos hc] at h
          exact ran_trans f2 (ih _ w3 r h)
        · rw [if_neg hc] at h
          simp only [Option.some.injEq] at h
          rw [← h]
          exact f2
      · simp only [if_true, Option.some.injEq] at h
        rw [← h]
        exact f2
    · simp only [if_true, Option.some.injEq] at h
      rw [← h]
      exact p1

theorem write_block_stream_ran (env : Env) :
    ∀ (fuel processed : Nat) (buffer : List Nat) (w : Io) (r : Bool × List Nat × Io),
      write_block_stream env fuel processed buffer w = some r → Ran w r.2.2 r.1 [] := by
  intro fuel
  induction fuel with
  | zero => intro n buffer w r h; simp [write_block_stream] at h
  | succ f ih =>
    intro processed buffer w r h
    rw [write_block_stream] at h
    have p1 := pump_bank_ran env Endpoint_ClearOUT w (fun _ => rfl)
    generalize pump_bank env Endpoint_ClearOUT w = pb at h p1
    obtain ⟨quit, w1⟩ := pb
    simp only at h p1
    cases quit
    · simp only [Bool.false_eq_true, if_false] at h
      have q1 : (Endpoint_Read_Stream_LE_part env buffer VIRTUAL_MEMORY_BLOCK_SIZE processed
          w1).2.2.2.seq = w1.seq := rfl
      generalize Endpoint_Read_Stream_LE_part env buffer VIRTUAL_MEMORY_BLOCK_SIZE processed w1
        = sp at h q1
      obtain ⟨code, processed1, buffer1, w2⟩ := sp
      simp only at h q1
      have f1 := reset_flag_ran env w2
      generalize IsMassStoreReset env w2 = mr at h f1
      obtain ⟨reset, w3⟩ := mr
      simp only at h f1
      have f2 : Ran w w3 reset [] := ran_trans (ran_trans p1 (ran_frame q1)) f1
      cases reset
      · simp only [Bool.false_eq_true, if_false] at h
        by_cases hc : code = ENDPOINT_RWSTREAM_IncompleteTransfer
        · rw [if_pos hc] at h
          exact ran_trans f2 (ih _ buffer1 w3 r h)
        · rw [if_neg hc] at h
          simp only [Option.some.injEq] at h
          rw [← h]
          exact f2
      · simp only [if_true, Option.some.injEq] at h
        rw [← h]
        exact f2
    · simp only [if_true, Option.some.injEq] at h
      rw [← h]
      exact p1

/-! ## The bytes the pump moves -/

theorem inBytes_snoc (log : List EpEv) (e : EpEv) : inBytes (log ++ [e]) = inBytes log ++ e.wire := by
  simp [inBytes]

theorem pump_bank_in (env : Env) (clear : Io → Io) (w : Io)
    (hclear : ∀ v, inBytes (clear v).ep = inBytes v.ep) :
    inBytes (pump_bank env clear w).2.ep = inBytes w.ep := by
  have c1 := hclear
    { w with usb := w.usb + 1, ep := w.ep ++ [EpEv.IsReadWriteAllowed (env.epRWAllowed w.usb)] }
  unfold pump_bank Endpoint_IsReadWriteAllowed Endpoint_WaitUntilReady
  simp only
  cases hA : env.epRWAllowed w.usb
  · rw [hA] at c1
    simp only [Bool.false_eq_true, if_false]
    rw [inBytes_snoc, c1, inBytes_snoc]
    simp [EpEv.wire]
  · simp only [if_true]
    rw [inBytes_snoc]
    simp [EpEv.wire]

theorem clearIN_in (v : Io) : inBytes (Endpoint_ClearIN v).ep = inBytes v.ep := by
  show inBytes (v.ep ++ [EpEv.ClearIN]) = _
  rw [inBytes_snoc]
  simp [EpEv.wire]

theorem clearOUT_in (v : Io) : inBytes (Endpoint_ClearOUT v).ep = inBytes v.ep := by
  show inBytes (v.ep ++ [EpEv.ClearOUT]) = _
  rw [inBytes_snoc]
  simp [EpEv.wire]

theorem write_16_bytes (buffer : List Nat) : ∀ (k n : Nat) (w : Io), n + k ≤ buffer.length →
    inBytes (write_16 buffer k n w).ep = inBytes w.ep ++ (buffer.drop n).take k := by
  intro k
  induction k with
  | zero => intro n w _; simp [write_16]
  | succ k ih =>
    intro n w hn
    rw [write_16, ih (n + 1) _ (by omega)]
    show inBytes (w.ep ++ [EpEv.Write_8 (buffer.getD n 0)]) ++ _ = _
    rw [inBytes_snoc, List.append_assoc]
    congr 1
    have hlt : n < buffer.length := by omega
    rw [List.drop_eq_getElem_cons hlt, List.take_succ_cons]
    show [buffer.getD n 0] ++ _ = _
    rw [List.getD_eq_getElem _ _ hlt]
    rfl

theorem drop_split (l : List Nat) (n k : Nat) :
    l.drop n = (l.drop n).take k ++ l.drop (n + k) := by
  rw [← List.drop_drop, List.take_append_drop]

/-- The bytes the 16-byte read loop puts on the IN endpoint are the sector
buffer from the current offset on: all of it when the loop completes, a prefix
when it gives up. -/
theorem read_block_16_data (env : Env) (buffer : List Nat) (hlen : buffer.length = 512) :
    ∀ (fuel j : Nat) (w : Io) (r : Bool × Io), j ≤ 32 →
      read_block_16 env buffer fuel (16 * j) w = some r →
      ∃ p, inBytes r.2.ep = inBytes w.ep ++ p ∧ p <+: buffer.drop (16 * j) ∧
        (r.1 = false → p = buffer.drop (16 * j)) := by
  intro fuel
  induction fuel with
  | zero => intro j w r _ h; simp [read_block_16] at h
  | succ f ih =>
    intro j w r hj h
    rw [read_block_16] at h
    by_cases hn : 16 * j < VIRTUAL_MEMORY_BLOCK_SIZE
    · rw [if_pos hn] at h
      have p1 := pump_bank_in env Endpoint_ClearIN w clearIN_in
      generalize pump_bank env Endpoint_ClearIN w = pb at h p1
      obtain ⟨quit, w1⟩ := pb
      simp only at h p1
      unfold VIRTUAL_MEMORY_BLOCK_SIZE at hn
      cases quit
      · simp only [Bool.false_eq_true, if_false] at h
        have q1 := write_16_bytes buffer 16 (16 * j) w1 (by omega)
        have f1 : (IsMassStoreReset env (write_16 buffer 16 (16 * j) w1)).2.ep
            = (write_16 buffer 16 (16 * j) w1).ep := rfl
        generalize IsMassStoreReset env (write_16 buffer 16 (16 * j) w1) = mr at h f1
        obtain ⟨reset, w2⟩ := mr
        simp only at h f1
        have f2 : inBytes w2.ep = inBytes w.ep ++ (buffer.drop (16 * j)).take 16 := by
          rw [f1, q1, p1]
        have hsplit := drop_split buffer (16 * j) 16
        cases reset
        · simp only [Bool.false_eq_true, if_false] at h
          have hj2 : (16 * j + 16) % 65536 = 16 * (j + 1) := by omega
          rw [hj2] at h
          obtain ⟨p, i1, i2, i3⟩ := ih (j + 1) w2 r (by omega) h
          have hj3 : 16 * (j + 1) = 16 * j + 16 := by omega
          rw [hj3] at i2 i3
          refine ⟨(buffer.drop (16 * j)).take 16 ++ p, ?_, ?_, ?_⟩
          · rw [i1, f2, List.append_assoc]
          · have hpre := (List.prefix_append_right_inj ((buffer.drop (16 * j)).take 16)).mpr i2
            rwa [← hsplit] at hpre
          · intro hr
            rw [i3 hr]
            exact hsplit.symm
        · simp only [if_true, Option.some.injEq] at h
          rw [← h]
          exact ⟨_, f2, List.take_prefix _ _, fun hh => Bool.noConfusion hh⟩
      · simp only [if_true, Option.some.injEq] at h
        rw [← h]
        refine ⟨[], ?_, List.nil_prefix, fun hh => Bool.noConfusion hh⟩
        show inBytes w1.ep = _
        rw [p1, List.append_nil]
    · rw [if_neg hn] at h
      simp only [Option.some.injEq] at h
      rw [← h]
      unfold VIRTUAL_MEMORY_BLOCK_SIZE at hn
      have hd : buffer.drop (16 * j) = [] := List.drop_eq_nil_of_le (by omega)
      rw [hd]
      exact ⟨[], (List.append_nil _).symm, List.nil_prefix, fun _ => rfl⟩

/-- The bytes the stream read loop puts on the IN endpoint, when the stream
primitive never fails: the sector buffer from the current offset on. -/
theorem read_block_stream_data (env : Env) (buffer : List Nat) (hlen : buffer.length = 512)
    (hok : StreamsOk env) :
    ∀ (fuel processed : Nat) (w : Io) (r : Bool × Io), processed ≤ 512 →
      read_block_stream env buffer fuel processed w = some r →
      ∃ p, inBytes r.2.ep = inBytes w.ep ++ p ∧ p <+: buffer.drop processed ∧
        (r.1 = false → p = buffer.drop processed) := by
  intro fuel
  induction fuel with
  | zero => intro j w r _ h; simp [read_block_stream] at h
  | succ f ih =>
    intro processed w r hp h
    rw [read_block_stream] at h
    have p1 := pump_bank_in env Endpoint_ClearOUT w clearOUT_in
    generalize pump_bank env Endpoint_ClearOUT w = pb at h p1
    obtain ⟨quit, w1⟩ := pb
    simp only at h p1
    cases quit
    · simp only [Bool.false_eq_true, if_false] at h
      unfold Endpoint_Write_Stream_LE_part VIRTUAL_MEMORY_BLOCK_SIZE IsMassStoreReset at h
      simp only at h
      rcases hok w1.usb with hc | hc
      · have hne : ENDPOINT_RWSTREAM_NoError ≠ ENDPOINT_RWSTREAM_IncompleteTransfer := by decide
        rw [hc] at h
        simp only [if_true, if_neg hne] at h
        have hfull : List.take (512 - processed) (List.drop processed buffer)
            = List.drop processed buffer := by
          apply List.take_of_length_le
          rw [List.length_drop]
          omega
        rw [hfull] at h
        have hin : inBytes (w1.ep ++ [EpEv.Write_Stream_LE (List.drop processed buffer)])
            = inBytes w.ep ++ buffer.drop processed := by
          rw [inBytes_snoc, p1]
          rfl
        split at h
        · simp only [Option.some.injEq] at h
          rw [← h]
          exact ⟨buffer.drop processed, hin, List.prefix_refl _, fun _ => rfl⟩
        · simp only [Option.some.injEq] at h
          rw [← h]
          exact ⟨buffer.drop processed, hin, List.prefix_refl _, fun _ => rfl⟩
      · have hne : ENDPOINT_RWSTREAM_IncompleteTransfer ≠ ENDPOINT_RWSTREAM_NoError := by decide
        rw [hc] at h
        simp only [if_true, if_neg hne] at h
        have hsplit := drop_split buffer processed (min (env.epStream w1.usb).2 (512 - processed))
        have hle := Nat.min_le_right (env.epStream w1.usb).2 (512 - processed)
        split at h
        · simp only [Option.some.injEq] at h
          rw [← h]
          refine ⟨_, ?_, List.take_prefix (min (env.epStream w1.usb).2 (512 - processed)) _,
            fun hh => Bool.noConfusion hh⟩
          show inBytes (w1.ep ++ [EpEv.Write_Stream_LE _]) = _
          rw [inBytes_snoc, p1]
          rfl
        · obtain ⟨p, i1, i2, i3⟩ := ih _ _ r (by omega) h
          refine ⟨(buffer.drop processed).take (min (env.epStream w1.usb).2 (512 - processed)) ++ p,
            ?_, ?_, ?_⟩
          · rw [i1]
            show inBytes (w1.ep ++ [EpEv.Write_Stream_LE _]) ++ p = _
            rw [inBytes_snoc, p1, List.append_assoc]
            rfl
          · have hpre := (List.prefix_append_right_inj ((buffer.drop processed).take
              (min (env.epStream w1.usb).2 (512 - processed)))).mpr i2
            rwa [← hsplit] at hpre
          · intro hr
            rw [i3 hr]
            exact hsplit.symm
    · simp only [if_true, Option.some.injEq] at h
      rw [← h]
      refine ⟨[], ?_, List.nil_prefix, fun hh => Bool.noConfusion hh⟩
      show inBytes w1.ep = _
      rw [p1, List.append_nil]

theorem storeOut_spec (env : Env) : ∀ (k src p : Nat) (buffer : List Nat),
    (storeOut env k src p buffer).length = buffer.length ∧
    ∀ i, (storeOut env k src p buffer)[i]? =
      if p ≤ i ∧ i < p + k ∧ i < buffer.length then some (env.epOut (src + (i - p)) % 256)
      else buffer[i]? := by
  intro k
  induction k with
  | zero =>
    intro src p buffer
    refine ⟨rfl, fun i => ?_⟩
    rw [if_neg (by omega)]
    rfl
  | succ k ih =>
    intro src p buffer
    rw [storeOut]
    obtain ⟨hl, hi⟩ := ih (src + 1) (p + 1) (buffer.set p (env.epOut src % 256))
    rw [List.length_set] at hl
    refine ⟨hl, fun i => ?_⟩
    rw [hi i, List.length_set, List.getElem?_set]
    by_cases h1 : p = i
    · subst h1
      by_cases h2 : p < buffer.length
      · simp [h2]
      · have : buffer[p]? = none := by simp; omega
        simp [h2, this]
    · by_cases h2 : p + 1 ≤ i ∧ i < p + 1 + k ∧ i < buffer.length
      · rw [if_pos h2, if_pos (by omega)]
        congr 3
        omega
      · rw [if_neg h2, if_neg h1, if_neg (by omega)]

theorem read_16_buf (env : Env) : ∀ (k n : Nat) (buffer : List Nat) (w : Io),
    (read_16 env k n buffer w).1.length = buffer.length ∧
    ∀ i, (read_16 env k n buffer w).1[i]? =
      if n ≤ i ∧ i < n + k ∧ i < buffer.length then some (env.epOut (w.outPos + (i - n)) % 256)
      else buffer[i]? := by
  intro k
  induction k with
  | zero =>
    intro n buffer w
    refine ⟨rfl, fun i => ?_⟩
    rw [if_neg (by omega)]
    rfl
  | succ k ih =>
    intro n buffer w
    rw [read_16]
    simp only [Endpoint_Read_8]
    obtain ⟨hl, hi⟩ := ih (n + 1) (buffer.set n (env.epOut w.outPos % 256))
      { w with outPos := w.outPos + 1, ep := w.ep ++ [EpEv.Read_8 (env.epOut w.outPos % 256)] }
    rw [List.length_set] at hl
    refine ⟨hl, fun i => ?_⟩
    rw [hi i, List.length_set, List.getElem?_set]
    by_cases h1 : n = i
    · subst h1
      by_cases h2 : n < buffer.length
      · simp [h2]
      · have : buffer[n]? = none := by simp; omega
        simp [h2, this]
    · by_cases h2 : n + 1 ≤ i ∧ i < n + 1 + k ∧ i < buffer.length
      · rw [if_pos h2, if_pos (by omega)]
        show some (env.epOut (w.outPos + 1 + (i - (n + 1))) % 256) = _
        congr 3
        omega
      · rw [if_neg h2, if_neg h1, if_neg (by omega)]

theorem outSector_get (env : Env) (s i : Nat) :
    (outSector env s)[i]? = if i < 512 then some (env.epOut (s + i) % 256) else none := by
  unfold outSector
  rw [List.getElem?_map]
  by_cases h : i < 512
  · rw [List.getElem?_range h, if_pos h]
    rfl
  · rw [if_neg h, List.getElem?_eq_none (by simpa using h)]
    rfl

theorem outSector_length (env : Env) (s : Nat) : (outSector env s).length = 512 := by
  simp [outSector]

/-- A sector buffer whose 512 bytes all came from the OUT endpoint. -/
theorem buffer_is_outSector (env : Env) (s : Nat) (buffer : List Nat) (hlen : buffer.length = 512)
    (h : ∀ i, i < 512 → buffer[i]? = some (env.epOut (s + i) % 256)) :
    buffer = outSector env s := by
  apply List.ext_getElem?
  intro i
  rw [outSector_get]
  by_cases hi : i < 512
  · rw [if_pos hi, h i hi]
  · rw [if_neg hi, List.getElem?_eq_none (by omega)]

/-- The sector buffer the 16-byte write loop hands on when it completes holds
the 512 bytes taken from the OUT endpoint. -/
theorem write_block_16_data (env : Env) (s : Nat) :
    ∀ (fuel j : Nat) (buffer : List Nat) (w : Io) (r : Bool × List Nat × Io), j ≤ 32 →
      buffer.length = 512 → w.outPos = s + 16 * j →
      (∀ i, i < 16 * j → buffer[i]? = some (env.epOut (s + i) % 256)) →
      write_block_16 env fuel (16 * j) buffer w = some r →
      r.1 = false → r.2.1 = outSector env s := by
  intro fuel
  induction fuel with
  | zero => intro j buffer w r _ _ _ _ h; simp [write_block_16] at h
  | succ f ih =>
    intro j buffer w r hj hlen hpos hfill h hq
    rw [write_block_16] at h
    by_cases hn : 16 * j < VIRTUAL_MEMORY_BLOCK_SIZE
    · rw [if_pos hn] at h
      obtain ⟨_, _, p3, _, _⟩ := pump_bank_spec env Endpoint_ClearOUT w clearOUT_frame
      generalize pump_bank env Endpoint_ClearOUT w = pb at h p3
      obtain ⟨quit, w1⟩ := pb
      simp only at h p3
      unfold VIRTUAL_MEMORY_BLOCK_SIZE at hn
      cases quit
      · simp only [Bool.false_eq_true, if_false] at h
        obtain ⟨_, _, q3, _⟩ := read_16_spec env 16 (16 * j) buffer w1
        obtain ⟨b1, b2⟩ := read_16_buf env 16 (16 * j) buffer w1
        generalize read_16 env 16 (16 * j) buffer w1 = rd at h q3 b1 b2
        obtain ⟨buffer1, w2⟩ := rd
        simp only at h q3 b1 b2
        have f3 : (IsMassStoreReset env w2).2.outPos = w2.outPos := rfl
        generalize IsMassStoreReset env w2 = mr at h f3
        obtain ⟨reset, w3⟩ := mr
        simp only at h f3
        cases reset
        · simp only [Bool.false_eq_true, if_false] at h
          have hj2 : (16 * j + 16) % 65536 = 16 * (j + 1) := by omega
          rw [hj2] at h
          refine ih (j + 1) buffer1 w3 r (by omega) (by rw [b1, hlen]) ?_ ?_ h hq
          · rw [f3, q3, p3, hpos]
            omega
          · intro i hi
            rw [b2 i]
            by_cases hc : 16 * j ≤ i ∧ i < 16 * j + 16 ∧ i < buffer.length
            · rw [if_pos hc, p3, hpos]
              congr 3
              omega
            · rw [if_neg hc]
              exact hfill i (by omega)
        · simp only [if_true, Option.some.injEq] at h
          rw [← h] at hq
          exact Bool.noConfusion hq
      · simp only [if_true, Option.some.injEq] at h
        rw [← h] at hq
        exact Bool.noConfusion hq
    · rw [if_neg hn] at h
      simp only [Option.some.injEq] at h
      rw [← h]
      unfold VIRTUAL_MEMORY_BLOCK_SIZE at hn
      exact buffer_is_outSector env s buffer hlen (fun i hi => hfill i (by omega))

/-- The sector buffer the stream write loop hands on when it completes holds
the 512 bytes taken from the OUT endpoint, when the stream primitive never
fails. -/
theorem write_block_stream_data (env : Env) (s : Nat) (hok : StreamsOk env) :
    ∀ (fuel processed : Nat) (buffer : List Nat) (w : Io) (r : Bool × List Nat × Io),
      processed ≤ 512 → buffer.length = 512 → w.outPos = s + processed →
      (∀ i, i < processed → buffer[i]? = some (env.epOut (s + i) % 256)) →
      write_block_stream env fuel processed buffer w = some r →
      r.1 = false → r.2.1 = outSector env s := by
  intro fuel
  induction fuel with
  | zero => intro j buffer w r _ _ _ _ h; simp [write_block_stream] at h
  | succ f ih =>
    intro processed buffer w r hp hlen hpos hfill h hq
    rw [write_block_stream] at h
    obtain ⟨_, _, p3, _, _⟩ := pump_bank_spec env Endpoint_ClearOUT w clearOUT_frame
    generalize pump_bank env Endpoint_ClearOUT w = pb at h p3
    obtain ⟨quit, w1⟩ := pb
    simp only at h p3
    cases quit
    · simp only [Bool.false_eq_true, if_false] at h
      unfold Endpoint_Read_Stream_LE_part VIRTUAL_MEMORY_BLOCK_SIZE IsMassStoreReset at h
      simp only at h
      rcases hok w1.usb with hc | hc
      · have hne : ENDPOINT_RWSTREAM_NoError ≠ ENDPOINT_RWSTREAM_IncompleteTransfer := by decide
        rw [hc] at h
        simp only [if_true, if_neg hne] at h
        obtain ⟨b1, b2⟩ := storeOut_spec env (512 - processed) w1.outPos processed buffer
        have hb : storeOut env (512 - processed) w1.outPos processed buffer = outSector env s := by
          apply buffer_is_outSector env s _ (by rw [b1, hlen])
          intro i hi
          rw [b2 i]
          by_cases hc2 : processed ≤ i ∧ i < processed + (512 - processed) ∧ i < buffer.length
          · rw [if_pos hc2, p3, hpos]
            congr 3
            omega
          · rw [if_neg hc2]
            exact hfill i (by omega)
        split at h
        · simp only [Option.some.injEq] at h
          rw [← h] at hq
          exact Bool.noConfusion hq
        · simp only [Option.some.injEq] at h
          rw [← h]
          exact hb
      · have hne : ENDPOINT_RWSTREAM_IncompleteTransfer ≠ ENDPOINT_RWSTREAM_NoError := by decide
        rw [hc] at h
        simp only [if_true, if_neg hne] at h
        have hle := Nat.min_le_right (env.epStream w1.usb).2 (512 - processed)
        obtain ⟨b1, b2⟩ := storeOut_spec env (min (env.epStream w1.usb).2 (512 - processed))
          w1.outPos processed buffer
        split at h
        · simp only [Option.some.injEq] at h
          rw [← h] at hq
          exact Bool.noConfusion hq
        · refine ih _ _ _ r (by omega) (by rw [b1, hlen]) ?_ ?_ h hq
          · show w1.outPos + _ = _
            rw [p3, hpos]
            omega
          · intro i hi
            rw [b2 i]
            by_cases hc2 : processed ≤ i ∧
                i < processed + min (env.epStream w1.usb).2 (512 - processed) ∧ i < buffer.length
            · rw [if_pos hc2, p3, hpos]
              congr 3
              omega
            · rw [if_neg hc2]
              exact hfill i (by omega)
    · simp only [if_true, Option.some.injEq] at h
      rw [← h] at hq
      exact Bool.noConfusion hq

/-- The sector loop of the read pump: one single-sector read per sector, at
consecutive addresses, each followed by the transfer of its 512 bytes. -/
theorem MMC_ReadBlocks2_loop_spec (div16 : Bool) (env : Env) (fuel : Nat) :
    ∀ (k A t : Nat) (w : Io) (r : Bool × Io), A < 2 ^ 32 → t < 65536 →
      MMC_ReadBlocks2_loop div16 env fuel k A t w = some r →
      ∃ m, m ≤ t ∧ r.2.targets = w.targets ++ sectorRun true A m ∧
        (r.1 = true → Stopped env r.2) ∧
        (r.1 = false → m = t) ∧
        (r.1 = false → div16 = true ∨ StreamsOk env → r.2.inCount = w.inCount + 512 * t) ∧
        (AbortedFrom env w.usb → m ≤ 1 ∧ (0 < t → r.1 = true)) := by
  intro k
  induction k with
  | zero => intro A t w r _ _ h; simp [MMC_ReadBlocks2_loop] at h
  | succ k ih =>
    intro A t w r hA ht h
    rw [MMC_ReadBlocks2_loop] at h
    by_cases h0 : t = 0
    · rw [if_pos h0] at h
      simp only [Option.some.injEq] at h
      rw [← h, h0]
      refine ⟨0, Nat.le_refl _, ?_, fun hh => Bool.noConfusion hh, fun _ => rfl, fun _ _ => rfl,
        fun _ => ⟨Nat.zero_le _, fun hh => absurd hh (Nat.lt_irrefl 0)⟩⟩
      show w.targets = w.targets ++ []
      rw [List.append_nil]
    · rw [if_neg h0] at h
      cases hr : mmc_disk_read env fuel (List.replicate VIRTUAL_MEMORY_BLOCK_SIZE 0) 0 A 1 w.drv with
      | none => rw [hr] at h; simp at h
      | some x =>
        obtain ⟨res, buffer, d⟩ := x
        rw [hr] at h
        simp only at h
        have hlen : 512 ≤ buffer.length := by
          have := mmc_disk_read_length env fuel _ 0 A 1 w.drv _ (by decide) hr
          simp only at this
          rw [this, List.length_replicate]
          exact Nat.le_refl _
        have hinner : ∀ ri : Bool × Io,
            (if div16 then
              read_block_16 env buffer fuel 0
                { w with drv := d, calls := w.calls ++ [IoCall.read A 1 res],
                         seq := w.seq ++ [PumpEv.call (IoCall.read A 1 res) buffer] }
            else
              read_block_stream env buffer fuel 0
                { w with drv := d, calls := w.calls ++ [IoCall.read A 1 res],
                         seq := w.seq ++ [PumpEv.call (IoCall.read A 1 res) buffer] }) = some ri →
            ri.2.calls = w.calls ++ [IoCall.read A 1 res] ∧ w.usb ≤ ri.2.usb ∧
            (ri.1 = true → Stopped env ri.2) ∧
            (ri.1 = false → div16 = true ∨ StreamsOk env → ri.2.inCount = w.inCount + 512) ∧
            (AbortedFrom env w.usb → ri.1 = true) := by
          intro ri hi
          cases div16
          · simp only [Bool.false_eq_true, if_false] at hi
            obtain ⟨i1, _, i3, i4, i5, i6⟩ := read_block_stream_spec env buffer fuel 0 _ ri
              (Nat.zero_le _) hi
            refine ⟨i1, i3, i4, fun hf hok => ?_, i6⟩
            rcases hok with hok | hok
            · exact Bool.noConfusion hok
            · exact i5 hf hok hlen
          · simp only [if_true] at hi
            obtain ⟨i1, _, i3, i4, i5, i6⟩ := read_block_16_spec env buffer fuel 0 _ ri
              (Nat.zero_le _) hi
            exact ⟨i1, i3, i4, fun hf _ => i5 hf, fun hall => i6 hall (by decide)⟩
        generalize hgi : (if div16 then
              read_block_16 env buffer fuel 0
                { w with drv := d, calls := w.calls ++ [IoCall.read A 1 res],
                         seq := w.seq ++ [PumpEv.call (IoCall.read A 1 res) buffer] }
            else
              read_block_stream env buffer fuel 0
                { w with drv := d, calls := w.calls ++ [IoCall.read A 1 res],
                         seq := w.seq ++ [PumpEv.call (IoCall.read A 1 res) buffer] }) = inner
          at h hinner
        cases inner with
        | none => simp at h
        | some ri =>
          obtain ⟨quit, w1⟩ := ri
          obtain ⟨j1, j2, j3, j4, j5⟩ := hinner (quit, w1) rfl
          simp only at j1 j2 j3 j4 j5
          have htg : w1.targets = w.targets ++ [(true, A, 1)] := by
            unfold Io.targets
            rw [j1, List.map_append]
            rfl
          cases quit
          · simp only at h
            have hdec : (t + 65536 - 1) % 65536 = t - 1 := by omega
            rw [hdec] at h
            obtain ⟨m, hm, k1, k2, k3, k4, _⟩ := ih ((A + 1) % 2 ^ 32) (t - 1) w1 r
              (Nat.mod_lt _ (by decide)) (by omega) h
            refine ⟨m + 1, by omega, ?_, k2, fun hf => ?_, fun hf hok => ?_, fun hall => ?_⟩
            · rw [k1, htg, sectorRun_succ true A m hA, List.append_assoc]
              rfl
            · have := k3 hf
              omega
            · rw [k4 hf hok, j4 rfl hok]
              omega
            · exact Bool.noConfusion (j5 hall)
          · simp only [Option.some.injEq] at h
            rw [← h]
            refine ⟨1, by omega, ?_, fun _ => j3 rfl, fun hh => Bool.noConfusion hh,
              fun hh => Bool.noConfusion hh, fun _ => ⟨Nat.le_refl _, fun _ => rfl⟩⟩
            show w1.targets = _
            rw [htg, sectorRun_succ true A 0 hA, sectorRun_zero]

/-- The sector loop of the write pump: each sector is received in full before
its single-sector write is issued, at consecutive addresses. -/
theorem MMC_WriteBlocks2_loop_spec (div16 : Bool) (env : Env) (fuel : Nat) :
    ∀ (k A t : Nat) (w : Io) (r : Bool × Io), A < 2 ^ 32 → t < 65536 →
      MMC_WriteBlocks2_loop div16 env fuel k A t w = some r →
      ∃ m, m ≤ t ∧ r.2.targets = w.targets ++ sectorRun false A m ∧
        (r.1 = true → m < t ∧ Stopped env r.2) ∧
        (r.1 = false → m = t) ∧
        (r.1 = false → div16 = true ∨ StreamsOk env → r.2.outPos = w.outPos + 512 * t) ∧
        (AbortedFrom env w.usb → m = 0 ∧ (0 < t → r.1 = true)) := by
  intro k
  induction k with
  | zero => intro A t w r _ _ h; simp [MMC_WriteBlocks2_loop] at h
  | succ k ih =>
    intro A t w r hA ht h
    rw [MMC_WriteBlocks2_loop] at h
    by_cases h0 : t = 0
    · rw [if_pos h0] at h
      simp only [Option.some.injEq] at h
      rw [← h, h0]
      refine ⟨0, Nat.le_refl _, ?_, fun hh => Bool.noConfusion hh, fun _ => rfl, fun _ _ => rfl,
        fun _ => ⟨rfl, fun hh => absurd hh (Nat.lt_irrefl 0)⟩⟩
      show w.targets = w.targets ++ []
      rw [List.append_nil]
    · rw [if_neg h0] at h
      have hinner : ∀ ri : Bool × List Nat × Io,
          (if div16 then
            write_block_16 env fuel 0 (List.replicate VIRTUAL_MEMORY_BLOCK_SIZE 0) w
          else
            write_block_stream env fuel 0 (List.replicate VIRTUAL_MEMORY_BLOCK_SIZE 0) w)
            = some ri →
          ri.2.2.calls = w.calls ∧ w.usb ≤ ri.2.2.usb ∧
          (ri.1 = true → Stopped env ri.2.2) ∧
          (ri.1 = false → div16 = true ∨ StreamsOk env → ri.2.2.outPos = w.outPos + 512) ∧
          (AbortedFrom env w.usb → ri.1 = true) := by
        intro ri hi
        cases div16
        · simp only [Bool.false_eq_true, if_false] at hi
          obtain ⟨i1, _, i3, i4, i5, i6⟩ := write_block_stream_spec env fuel 0 _ w ri
            (Nat.zero_le _) hi
          refine ⟨i1, i3, i4, fun hf hok => ?_, i6⟩
          rcases hok with hok | hok
          · exact Bool.noConfusion hok
          · exact i5 hf hok
        · simp only [if_true] at hi
          obtain ⟨i1, _, i3, i4, i5, i6⟩ := write_block_16_spec env fuel 0 _ w ri
            (Nat.zero_le _) hi
          exact ⟨i1, i3, i4, fun hf _ => i5 hf, fun hall => i6 hall (by decide)⟩
      simp only at h
      generalize hgi : (if div16 then
            write_block_16 env fuel 0 (List.replicate VIRTUAL_MEMORY_BLOCK_SIZE 0) w
          else
            write_block_stream env fuel 0 (List.replicate VIRTUAL_MEMORY_BLOCK_SIZE 0) w) = inner
        at h hinner
      cases inner with
      | none => simp at h
      | some ri =>
        obtain ⟨quit, buffer, w1⟩ := ri
        obtain ⟨j1, j2, j3, j4, j5⟩ := hinner (quit, buffer, w1) rfl
        simp only at j1 j2 j3 j4 j5
        cases quit
        · simp only at h
          cases hr : mmc_disk_write env fuel buffer 0 A 1 w1.drv with
          | none => rw [hr] at h; simp at h
          | some x =>
            obtain ⟨res, d⟩ := x
            rw [hr] at h
            simp only at h
            have hdec : (t + 65536 - 1) % 65536 = t - 1 := by omega
            rw [hdec] at h
            obtain ⟨m, hm, k1, k2, k3, k4, _⟩ := ih ((A + 1) % 2 ^ 32) (t - 1) _ r
              (Nat.mod_lt _ (by decide)) (by omega) h
            refine ⟨m + 1, by omega, ?_, fun hq => ?_, fun hf => ?_, fun hf hok => ?_,
              fun hall => ?_⟩
            · rw [k1, sectorRun_succ false A m hA]
              unfold Io.targets
              simp only [List.map_append, List.map_cons, List.map_nil, List.append_assoc, j1]
              rfl
            · have := k2 hq
              exact ⟨by omega, this.2⟩
            · have := k3 hf
              omega
            · rw [k4 hf hok]
              show w1.outPos + 512 * (t - 1) = _
              rw [j4 rfl hok]
              omega
            · exact Bool.noConfusion (j5 hall)
        · simp only [Option.some.injEq] at h
          rw [← h]
          refine ⟨0, Nat.zero_le _, ?_, fun _ => ⟨by omega, j3 rfl⟩,
            fun hh => Bool.noConfusion hh,
            fun hh => Bool.noConfusion hh, fun _ => ⟨rfl, fun _ => rfl⟩⟩
          show w1.targets = _
          unfold Io.targets
          rw [j1, sectorRun_zero, List.append_nil]

theorem ran_final {w r : Io} {q : Bool} {cs : List (IoCall × List Nat)} (h : Ran w r q cs) :
    ∃ evs, r.seq = w.seq ++ evs ∧ callsIn evs = cs ∧ NoStop evs.dropLast ∧
      (q = true → ∃ e, evs.getLast? = some e ∧ e.isStop = true) ∧
      (q = true → ¬ NoStop evs) ∧
      (q = false → NoStop evs) := by
  obtain ⟨evs, hs, hc, hq⟩ := h
  refine ⟨evs, hs, hc, ?_, ?_, ?_, ?_⟩
  · cases q
    · simp only [Bool.false_eq_true, if_false] at hq
      exact fun e he => hq e (List.mem_of_mem_dropLast he)
    · simp only [if_true] at hq
      obtain ⟨pre, e, he, hn, _⟩ := hq
      rw [he, List.dropLast_concat]
      exact hn
  · intro hq1
    rw [hq1] at hq
    simp only [if_true] at hq
    obtain ⟨pre, e, he, _, hstop⟩ := hq
    exact ⟨e, by rw [he, List.getLast?_concat], hstop⟩
  · intro hq1 hno
    rw [hq1] at hq
    simp only [if_true] at hq
    obtain ⟨pre, e, he, _, hstop⟩ := hq
    have hmem : e ∈ evs := by
      rw [he]
      exact List.mem_append_right _ (List.mem_singleton.mpr rfl)
    rw [hno e hmem] at hstop
    exact Bool.noConfusion hstop
  · intro hq1
    rw [hq1] at hq
    simpa using hq

theorem range_map_shift (g : Nat → List Nat) (n : Nat) :
    (List.range (n + 1)).map g = g 0 :: (List.range n).map (fun i => g (i + 1)) := by
  rw [List.range_succ_eq_map, List.map_cons, List.map_map]
  rfl

/-- The sector loop of the read pump in the ordered log: the reads it makes,
each returning a 512-byte buffer, and the bytes put on the IN endpoint, which
are these buffers one after the other, the last one possibly cut short when
the loop gives up. -/
theorem MMC_ReadBlocks2_loop_log (div16 : Bool) (env : Env) (fuel : Nat) :
    ∀ (k A t : Nat) (w : Io) (r : Bool × Io), t < 65536 →
      MMC_ReadBlocks2_loop div16 env fuel k A t w = some r →
      ∃ cs, Ran w r.2 r.1 cs ∧ r.2.calls = w.calls ++ cs.map Prod.fst ∧
        (r.1 = false → cs.length = t) ∧
        (∀ c ∈ cs, c.2.length = 512) ∧
        (div16 = true ∨ StreamsOk env →
          ∃ p, inBytes r.2.ep = inBytes w.ep ++ p ∧
            p <+: (cs.map Prod.snd).flatten ∧
            ((cs.map Prod.snd).dropLast).flatten <+: p ∧
            (r.1 = false → p = (cs.map Prod.snd).flatten)) ∧
        replayCalls env fuel cs w.drv = some r.2.drv := by
  intro k
  induction k with
  | zero => intro A t w r _ h; simp [MMC_ReadBlocks2_loop] at h
  | succ k ih =>
    intro A t w r ht h
    rw [MMC_ReadBlocks2_loop] at h
    by_cases h0 : t = 0
    · rw [if_pos h0] at h
      simp only [Option.some.injEq] at h
      rw [← h]
      refine ⟨[], ran_refl w, (List.append_nil _).symm, fun _ => h0.symm,
        fun c hc => absurd hc (List.not_mem_nil _),
        fun _ => ⟨[], (List.append_nil _).symm, List.nil_prefix, List.nil_prefix, fun _ => rfl⟩,
        rfl⟩
    · rw [if_neg h0] at h
      cases hr : mmc_disk_read env fuel (List.replicate VIRTUAL_MEMORY_BLOCK_SIZE 0) 0 A 1 w.drv with
      | none => rw [hr] at h; simp at h
      | some x =>
        obtain ⟨res, buffer, d⟩ := x
        rw [hr] at h
        simp only at h
        have hlen : buffer.length = 512 := by
          have := mmc_disk_read_length env fuel _ 0 A 1 w.drv _ (by decide) hr
          simp only at this
          rw [this, List.length_replicate]
          rfl
        have hinner : ∀ ri : Bool × Io,
            (if div16 then
              read_block_16 env buffer fuel 0
                { w with drv := d, calls := w.calls ++ [IoCall.read A 1 res],
                         seq := w.seq ++ [PumpEv.call (IoCall.read A 1 res) buffer] }
            else
              read_block_stream env buffer fuel 0
                { w with drv := d, calls := w.calls ++ [IoCall.read A 1 res],
                         seq := w.seq ++ [PumpEv.call (IoCall.read A 1 res) buffer] }) = some ri →
            Ran w ri.2 ri.1 [(IoCall.read A 1 res, buffer)] ∧
            ri.2.calls = w.calls ++ [IoCall.read A 1 res] ∧ ri.2.drv = d ∧
            (div16 = true ∨ StreamsOk env →
              ∃ p, inBytes ri.2.ep = inBytes w.ep ++ p ∧ p <+: buffer ∧
                (ri.1 = false → p = buffer)) := by
          intro ri hi
          have hcall : Ran w
              ({ w with drv := d, calls := w.calls ++ [IoCall.read A 1 res],
                        seq := w.seq ++ [PumpEv.call (IoCall.read A 1 res) buffer] } : Io)
              false [(IoCall.read A 1 res, buffer)] := ran_call _ _ rfl
          cases div16
          · simp only [Bool.false_eq_true, if_false] at hi
            obtain ⟨i1, i2, _⟩ := read_block_stream_spec env buffer fuel 0 _ ri (Nat.zero_le _) hi
            refine ⟨ran_trans hcall (read_block_stream_ran env buffer fuel 0 _ ri hi), i1, i2,
              fun hok => ?_⟩
            rcases hok with hok | hok
            · exact Bool.noConfusion hok
            · have hd := read_block_stream_data env buffer hlen hok fuel 0 _ ri (Nat.zero_le _) hi
              exact hd
          · simp only [if_true] at hi
            obtain ⟨i1, i2, _⟩ := read_block_16_spec env buffer fuel 0 _ ri (Nat.zero_le _) hi
            have hd := read_block_16_data env buffer hlen fuel 0 _ ri (Nat.zero_le _) hi
            exact ⟨ran_trans hcall (read_block_16_ran env buffer fuel 0 _ ri hi), i1, i2,
              fun _ => hd⟩
        generalize hgi : (if div16 then
              read_block_16 env buffer fuel 0
                { w with drv := d, calls := w.calls ++ [IoCall.read A 1 res],
                         seq := w.seq ++ [PumpEv.call (IoCall.read A 1 res) buffer] }
            else
              read_block_stream env buffer fuel 0
                { w with drv := d, calls := w.calls ++ [IoCall.read A 1 res],
                         seq := w.seq ++ [PumpEv.call (IoCall.read A 1 res) buffer] }) = inner
          at h hinner
        cases inner with
        | none => simp at h
        | some ri =>
          obtain ⟨quit, w1⟩ := ri
          obtain ⟨j1, j2, jd, j3⟩ := hinner (quit, w1) rfl
          simp only at j1 j2 jd j3
          have hreplay : ∀ (rest : List (IoCall × List Nat)) (dr : Drv),
              replayCalls env fuel rest w1.drv = some dr →
              replayCalls env fuel ((IoCall.read A 1 res, buffer) :: rest) w.drv = some dr := by
            intro rest dr hrest
            rw [replayCalls, hr]
            simp only [and_self, if_true]
            rw [← jd]
            exact hrest
          cases quit
          · simp only at h
            have hdec : (t + 65536 - 1) % 65536 = t - 1 := by omega
            rw [hdec] at h
            obtain ⟨cs, k1, k2, k2b, k3, k4, k5⟩ := ih ((A + 1) % 2 ^ 32) (t - 1) w1 r
              (by omega) h
            refine ⟨(IoCall.read A 1 res, buffer) :: cs, ran_trans j1 k1, ?_, ?_, ?_,
              fun hok => ?_, hreplay cs _ k5⟩
            · rw [k2, j2, List.append_assoc]
              rfl
            · intro hq
              rw [List.length_cons, k2b hq]
              omega
            · intro c hc
              rcases List.mem_cons.mp hc with hc | hc
              · rw [hc]
                exact hlen
              · exact k3 c hc
            · obtain ⟨p0, a1, _, a3⟩ := j3 hok
              obtain ⟨p, b1, b2, b3, b4⟩ := k4 hok
              have hp0 := a3 rfl
              refine ⟨buffer ++ p, ?_, ?_, ?_, ?_⟩
              · rw [b1, a1, hp0, List.append_assoc]
              · show buffer ++ p <+: (buffer :: cs.map Prod.snd).flatten
                rw [List.flatten_cons]
                exact (List.prefix_append_right_inj buffer).mpr b2
              · show ((buffer :: cs.map Prod.snd).dropLast).flatten <+: buffer ++ p
                cases hcs : cs.map Prod.snd with
                | nil => exact List.nil_prefix
                | cons x xs =>
                  rw [hcs] at b3
                  rw [List.dropLast_cons₂, List.flatten_cons]
                  exact (List.prefix_append_right_inj buffer).mpr b3
              · intro hq
                show buffer ++ p = (buffer :: cs.map Prod.snd).flatten
                rw [List.flatten_cons, b4 hq]
          · simp only [Option.some.injEq] at h
            rw [← h]
            refine ⟨[(IoCall.read A 1 res, buffer)], j1, j2, fun hh => Bool.noConfusion hh, ?_,
              fun hok => ?_, hreplay [] _ rfl⟩
            · intro c hc
              rw [List.mem_singleton.mp hc]
              exact hlen
            · obtain ⟨p0, a1, a2, _⟩ := j3 hok
              refine ⟨p0, a1, ?_, List.nil_prefix, fun hh => Bool.noConfusion hh⟩
              show p0 <+: [buffer].flatten
              simpa using a2

/-- The sector loop of the write pump in the ordered log: the writes it makes,
each handed the 512 bytes taken from the OUT endpoint for its sector. -/
theorem MMC_WriteBlocks2_loop_log (div16 : Bool) (env : Env) (fuel : Nat) :
    ∀ (k A t : Nat) (w : Io) (r : Bool × Io), t < 65536 →
      MMC_WriteBlocks2_loop div16 env fuel k A t w = some r →
      ∃ cs, Ran w r.2 r.1 cs ∧ r.2.calls = w.calls ++ cs.map Prod.fst ∧
        (r.1 = false → cs.length = t) ∧
        (div16 = true ∨ StreamsOk env →
          cs.map Prod.snd
            = (List.range cs.length).map (fun i => outSector env (w.outPos + 512 * i))) ∧
        replayCalls env fuel cs w.drv = some r.2.drv := by
  intro k
  induction k with
  | zero => intro A t w r _ h; simp [MMC_WriteBlocks2_loop] at h
  | succ k ih =>
    intro A t w r ht h
    rw [MMC_WriteBlocks2_loop] at h
    by_cases h0 : t = 0
    · rw [if_pos h0] at h
      simp only [Option.some.injEq] at h
      rw [← h]
      exact ⟨[], ran_refl w, (List.append_nil _).symm, fun _ => h0.symm, fun _ => rfl, rfl⟩
    · rw [if_neg h0] at h
      have hinner : ∀ ri : Bool × List Nat × Io,
          (if div16 then
            write_block_16 env fuel 0 (List.replicate VIRTUAL_MEMORY_BLOCK_SIZE 0) w
          else
            write_block_stream env fuel 0 (List.replicate VIRTUAL_MEMORY_BLOCK_SIZE 0) w)
            = some ri →
          Ran w ri.2.2 ri.1 [] ∧ ri.2.2.calls = w.calls ∧ ri.2.2.drv = w.drv ∧
          (div16 = true ∨ StreamsOk env → ri.1 = false →
            ri.2.1 = outSector env w.outPos ∧ ri.2.2.outPos = w.outPos + 512) := by
        intro ri hi
        have hrep : (List.replicate VIRTUAL_MEMORY_BLOCK_SIZE 0).length = 512 := by
          rw [List.length_replicate]
          rfl
        cases div16
        · simp only [Bool.false_eq_true, if_false] at hi
          obtain ⟨i1, i2, _, _, i5, _⟩ := write_block_stream_spec env fuel 0 _ w ri
            (Nat.zero_le _) hi
          refine ⟨write_block_stream_ran env fuel 0 _ w ri hi, i1, i2, fun hok hq => ?_⟩
          rcases hok with hok | hok
          · exact Bool.noConfusion hok
          · exact ⟨write_block_stream_data env w.outPos hok fuel 0 _ w ri (Nat.zero_le _) hrep rfl
              (fun i hi0 => absurd hi0 (Nat.not_lt_zero i)) hi hq, i5 hq hok⟩
        · simp only [if_true] at hi
          obtain ⟨i1, i2, _, _, i5, _⟩ := write_block_16_spec env fuel 0 _ w ri
            (Nat.zero_le _) hi
          exact ⟨write_block_16_ran env fuel 0 _ w ri hi, i1, i2, fun _ hq =>
            ⟨write_block_16_data env w.outPos fuel 0 _ w ri (Nat.zero_le _) hrep rfl
              (fun i hi0 => absurd hi0 (Nat.not_lt_zero i)) hi hq, i5 hq⟩⟩
      simp only at h
      generalize hgi : (if div16 then
            write_block_16 env fuel 0 (List.replicate VIRTUAL_MEMORY_BLOCK_SIZE 0) w
          else
            write_block_stream env fuel 0 (List.replicate VIRTUAL_MEMORY_BLOCK_SIZE 0) w) = inner
        at h hinner
      cases inner with
      | none => simp at h
      | some ri =>
        obtain ⟨quit, buffer, w1⟩ := ri
        obtain ⟨j1, j2, jd, j3⟩ := hinner (quit, buffer, w1) rfl
        simp only at j1 j2 jd j3
        cases quit
        · simp only at h
          cases hr : mmc_disk_write env fuel buffer 0 A 1 w1.drv with
          | none => rw [hr] at h; simp at h
          | some x =>
            obtain ⟨res, d⟩ := x
            rw [hr] at h
            simp only at h
            have hdec : (t + 65536 - 1) % 65536 = t - 1 := by omega
            rw [hdec] at h
            obtain ⟨cs, k1, k2, k2b, k3, k5⟩ := ih ((A + 1) % 2 ^ 32) (t - 1) _ r (by omega) h
            have hreplay : replayCalls env fuel ((IoCall.write A 1 res, buffer) :: cs) w.drv
                = some r.2.drv := by
              rw [replayCalls, ← jd, hr]
              simp only [if_true]
              exact k5
            have hcall : Ran w1
                ({ w1 with drv := d, calls := w1.calls ++ [IoCall.write A 1 res],
                           seq := w1.seq ++ [PumpEv.call (IoCall.write A 1 res) buffer] } : Io)
                false [(IoCall.write A 1 res, buffer)] := ran_call _ _ rfl
            refine ⟨(IoCall.write A 1 res, buffer) :: cs, ran_trans (ran_trans j1 hcall) k1, ?_,
              ?_, fun hok => ?_, hreplay⟩
            · rw [k2]
              show (w1.calls ++ [IoCall.write A 1 res]) ++ _ = _
              rw [j2, List.append_assoc]
              rfl
            · intro hq
              rw [List.length_cons, k2b hq]
              omega
            · obtain ⟨hb, hpos⟩ := j3 hok rfl
              have k3b : cs.map Prod.snd
                  = (List.range cs.length).map (fun i => outSector env (w1.outPos + 512 * i)) :=
                k3 hok
              have hshift : (List.range cs.length).map
                    (fun i => outSector env (w1.outPos + 512 * i))
                  = (List.range cs.length).map
                    (fun i => outSector env (w.outPos + 512 * (i + 1))) := by
                apply List.map_congr_left
                intro i _
                have harg : w1.outPos + 512 * i = w.outPos + 512 * (i + 1) := by
                  rw [hpos]
                  omega
                simp only [harg]
              have hzero : w.outPos + 512 * 0 = w.outPos := by omega
              show buffer :: cs.map Prod.snd = _
              rw [k3b, hshift, List.length_cons, range_map_shift, hzero, hb]
        · simp only [Option.some.injEq] at h
          rw [← h]
          refine ⟨[], j1, by rw [j2]; exact (List.append_nil _).symm,
            fun hh => Bool.noConfusion hh, fun _ => rfl, ?_⟩
          show some w.drv = some w1.drv
          rw [jd]

theorem abortedFrom_mono (env : Env) (s t : Nat) (h : AbortedFrom env s) (hst : s ≤ t) :
    AbortedFrom env t := fun k hk => h k (Nat.le_trans hst hk)

/-- What a run of `MMC_ReadBlocks2` leaves behind. -/
theorem MMC_ReadBlocks2_spec (div16 : Bool) (env : Env) (fuel A n : Nat) (w r : Io)
    (hA : A < 2 ^ 32) (hn : n < 65536)
    (h : MMC_ReadBlocks2 div16 env fuel A n w = some r) :
    ∃ m, m ≤ n ∧ r.targets = w.targets ++ sectorRun true A m ∧
      (m < n → Stopped env r) ∧
      (Undisturbed env → m = n ∧
        (div16 = true ∨ StreamsOk env → r.inCount = w.inCount + 512 * n)) ∧
      (AbortedFrom env w.usb → m ≤ 1) ∧
      (env.epWait w.usb % 256 ≠ 0 → m = 0) := by
  unfold MMC_ReadBlocks2 at h
  simp only at h
  by_cases he : (Endpoint_WaitUntilReady env w).1 ≠ 0
  · rw [if_pos he] at h
    simp only [Option.some.injEq] at h
    rw [← h]
    refine ⟨0, Nat.zero_le _, ?_, fun _ => ⟨Nat.succ_pos _, Or.inr he⟩, fun hu => ?_,
      fun _ => Nat.zero_le _, fun _ => rfl⟩
    · show w.targets = w.targets ++ []
      rw [List.append_nil]
    · exact absurd (hu w.usb).2 he
  · rw [if_neg he] at h
    cases hl : MMC_ReadBlocks2_loop div16 env fuel fuel A n (Endpoint_WaitUntilReady env w).2 with
    | none => rw [hl] at h; simp at h
    | some x =>
      obtain ⟨quit, w1⟩ := x
      obtain ⟨m, hm, k1, k2, k3, k4, k5⟩ := MMC_ReadBlocks2_loop_spec div16 env fuel fuel A n
        (Endpoint_WaitUntilReady env w).2 (quit, w1) hA hn hl
      simp only at k1 k2 k3 k4 k5
      have hw0 : (Endpoint_WaitUntilReady env w).2.targets = w.targets := rfl
      have hw1 : (Endpoint_WaitUntilReady env w).2.inCount = w.inCount := by
        unfold Endpoint_WaitUntilReady
        simp only
        rw [inCount_ep]
        rfl
      rw [hw0] at k1
      rw [hw1] at k4
      have hab : AbortedFrom env w.usb → m ≤ 1 := fun hall =>
        (k5 (abortedFrom_mono env w.usb (w.usb + 1) hall (Nat.le_succ _))).1
      have hwait : env.epWait w.usb % 256 ≠ 0 → m = 0 := fun hne => absurd hne he
      rw [hl] at h
      cases quit
      · simp only [Option.some.injEq] at h
        have hm2 := k3 rfl
        have hr : r.targets = w1.targets ∧ r.inCount = w1.inCount := by
          rw [← h]
          unfold Endpoint_IsReadWriteAllowed
          simp only
          split
          · exact ⟨rfl, inCount_ep _ _ _ _⟩
          · refine ⟨rfl, ?_⟩
            rw [(clearIN_frame _).2.2.2.2]
            exact inCount_ep _ _ _ _
        refine ⟨m, hm, ?_, fun hlt => absurd hm2 (Nat.ne_of_lt hlt), fun _ => ⟨hm2, fun hok => ?_⟩,
          hab, hwait⟩
        · rw [hr.1, k1]
        · rw [hr.2, k4 rfl hok]
      · simp only [Option.some.injEq] at h
        rw [← h]
        refine ⟨m, hm, k1, fun _ => k2 rfl, fun hu => ?_, hab, hwait⟩
        exact (stopped_not_undisturbed env w1 hu (k2 rfl)).elim

/-- What a run of `MMC_WriteBlocks2` leaves behind. -/
theorem MMC_WriteBlocks2_spec (div16 : Bool) (env : Env) (fuel A n : Nat) (w r : Io)
    (hA : A < 2 ^ 32) (hn : n < 65536)
    (h : MMC_WriteBlocks2 div16 env fuel A n w = some r) :
    ∃ m, m ≤ n ∧ r.targets = w.targets ++ sectorRun false A m ∧
      (m < n → Stopped env r) ∧
      (Undisturbed env → m = n ∧
        (div16 = true ∨ StreamsOk env → r.outPos = w.outPos + 512 * n)) ∧
      (AbortedFrom env w.usb → m = 0) ∧
      (env.epWait w.usb % 256 ≠ 0 → m = 0) := by
  unfold MMC_WriteBlocks2 at h
  simp only at h
  by_cases he : (Endpoint_WaitUntilReady env w).1 ≠ 0
  · rw [if_pos he] at h
    simp only [Option.some.injEq] at h
    rw [← h]
    refine ⟨0, Nat.zero_le _, ?_, fun _ => ⟨Nat.succ_pos _, Or.inr he⟩, fun hu => ?_,
      fun _ => rfl, fun _ => rfl⟩
    · show w.targets = w.targets ++ []
      rw [List.append_nil]
    · exact absurd (hu w.usb).2 he
  · rw [if_neg he] at h
    cases hl : MMC_WriteBlocks2_loop div16 env fuel fuel A n (Endpoint_WaitUntilReady env w).2 with
    | none => rw [hl] at h; simp at h
    | some x =>
      obtain ⟨quit, w1⟩ := x
      obtain ⟨m, hm, k1, k2, k3, k4, k5⟩ := MMC_WriteBlocks2_loop_spec div16 env fuel fuel A n
        (Endpoint_WaitUntilReady env w).2 (quit, w1) hA hn hl
      simp only at k1 k2 k3 k4 k5
      have hw0 : (Endpoint_WaitUntilReady env w).2.targets = w.targets := rfl
      have hw1 : (Endpoint_WaitUntilReady env w).2.outPos = w.outPos := rfl
      rw [hw0] at k1
      rw [hw1] at k4
      have hab : AbortedFrom env w.usb → m = 0 := fun hall =>
        (k5 (abortedFrom_mono env w.usb (w.usb + 1) hall (Nat.le_succ _))).1
      have hwait : env.epWait w.usb % 256 ≠ 0 → m = 0 := fun hne => absurd hne he
      rw [hl] at h
      cases quit
      · simp only [Option.some.injEq] at h
        have hm2 := k3 rfl
        have hr : r.targets = w1.targets ∧ r.outPos = w1.outPos := by
          rw [← h]
          unfold Endpoint_IsReadWriteAllowed
          simp only
          split
          · exact ⟨rfl, rfl⟩
          · exact ⟨rfl, rfl⟩
        refine ⟨m, hm, ?_, fun hlt => absurd hm2 (Nat.ne_of_lt hlt), fun _ => ⟨hm2, fun hok => ?_⟩,
          hab, hwait⟩
        · rw [hr.1, k1]
        · rw [hr.2, k4 rfl hok]
      · simp only [Option.some.injEq] at h
        rw [← h]
        refine ⟨m, hm, k1, fun _ => (k2 rfl).2, fun hu => ?_, hab, hwait⟩
        exact (stopped_not_undisturbed env w1 hu (k2 rfl).2).elim

/-- A run of `MMC_ReadBlocks2` in the ordered log. -/
theorem MMC_ReadBlocks2_log (div16 : Bool) (env : Env) (fuel A n : Nat) (w r : Io)
    (hA : A < 2 ^ 32) (hn : n < 65536)
    (h : MMC_ReadBlocks2 div16 env fuel A n w = some r) :
    ∃ evs, r.seq = w.seq ++ evs ∧ r.calls = w.calls ++ (callsIn evs).map Prod.fst ∧
      NoStop evs.dropLast ∧
      ((callsIn evs).length < n → ∃ e, evs.getLast? = some e ∧ e.isStop = true) ∧
      (Undisturbed env → NoStop evs) ∧
      (∀ c ∈ callsIn evs, c.2.length = 512) ∧
      (div16 = true ∨ StreamsOk env →
        ∃ p, inBytes r.ep = inBytes w.ep ++ p ∧
          p <+: ((callsIn evs).map Prod.snd).flatten ∧
          (((callsIn evs).map Prod.snd).dropLast).flatten <+: p ∧
          (NoStop evs → p = ((callsIn evs).map Prod.snd).flatten)) ∧
      replayCalls env fuel (callsIn evs) w.drv = some r.drv := by
  unfold MMC_ReadBlocks2 at h
  simp only at h
  have hr0 : Ran w (Endpoint_WaitUntilReady env w).2
      (PumpEv.wait (env.epWait w.usb % 256)).isStop [] := ran_event _ rfl rfl
  have hin0 : inBytes (Endpoint_WaitUntilReady env w).2.ep = inBytes w.ep := by
    show inBytes (w.ep ++ [EpEv.WaitUntilReady _]) = _
    rw [inBytes_snoc]
    simp [EpEv.wire]
  by_cases he : (Endpoint_WaitUntilReady env w).1 ≠ 0
  · rw [if_pos he] at h
    simp only [Option.some.injEq] at h
    rw [← h]
    have hst : (PumpEv.wait (env.epWait w.usb % 256)).isStop = true := decide_eq_true he
    rw [hst] at hr0
    obtain ⟨evs, e1, e2, e3, e4, e5, _⟩ := ran_final hr0
    refine ⟨evs, e1, ?_, e3, fun _ => e4 rfl, fun hu => absurd (hu w.usb).2 he, ?_, fun _ => ?_,
      ?_⟩
    · rw [e2]
      exact (List.append_nil _).symm
    · rw [e2]
      exact fun c hc => absurd hc (List.not_mem_nil _)
    · rw [e2]
      exact ⟨[], by rw [hin0, List.append_nil], List.nil_prefix, List.nil_prefix, fun _ => rfl⟩
    · rw [e2]
      rfl
  · rw [if_neg he] at h
    have hst : (PumpEv.wait (env.epWait w.usb % 256)).isStop = false := decide_eq_false he
    rw [hst] at hr0
    cases hl : MMC_ReadBlocks2_loop div16 env fuel fuel A n (Endpoint_WaitUntilReady env w).2 with
    | none => rw [hl] at h; simp at h
    | some x =>
      obtain ⟨quit, w1⟩ := x
      obtain ⟨_, _, _, k2, _⟩ := MMC_ReadBlocks2_loop_spec div16 env fuel fuel A n
        (Endpoint_WaitUntilReady env w).2 (quit, w1) hA hn hl
      obtain ⟨cs, l1, l2, l3, l4, l5, l6⟩ := MMC_ReadBlocks2_loop_log div16 env fuel fuel A n
        (Endpoint_WaitUntilReady env w).2 (quit, w1) hn hl
      simp only at k2 l1 l2 l3 l4 l5 l6
      rw [hin0] at l5
      have l2b : w1.calls = w.calls ++ cs.map Prod.fst := l2
      have l6b : replayCalls env fuel cs w.drv = some w1.drv := l6
      rw [hl] at h
      have hr : r.seq = w1.seq ∧ r.calls = w1.calls ∧ inBytes r.ep = inBytes w1.ep ∧
          r.drv = w1.drv := by
        cases quit
        · simp only [Option.some.injEq] at h
          rw [← h]
          unfold Endpoint_IsReadWriteAllowed
          simp only
          split
          · refine ⟨rfl, rfl, ?_, rfl⟩
            show inBytes (w1.ep ++ [EpEv.IsReadWriteAllowed _]) = _
            rw [inBytes_snoc]
            simp [EpEv.wire]
          · refine ⟨rfl, rfl, ?_, rfl⟩
            rw [clearIN_in]
            show inBytes (w1.ep ++ [EpEv.IsReadWriteAllowed _]) = _
            rw [inBytes_snoc]
            simp [EpEv.wire]
        · simp only [Option.some.injEq] at h
          rw [← h]
          exact ⟨rfl, rfl, rfl, rfl⟩
      have hran : Ran w r quit cs := by
        obtain ⟨evs, a1, a2, a3⟩ := ran_trans hr0 l1
        exact ⟨evs, by rw [hr.1, a1], a2, a3⟩
      obtain ⟨evs, e1, e2, e3, e4, e5, e6⟩ := ran_final hran
      have hq : NoStop evs → quit = false := by
        intro hno
        cases quit
        · rfl
        · exact absurd hno (e5 rfl)
      refine ⟨evs, e1, ?_, e3, ?_, ?_, ?_, fun hok => ?_, by rw [e2, hr.2.2.2, l6b]⟩
      · rw [e2, hr.2.1, l2b]
      · intro hlt
        rw [e2] at hlt
        cases quit
        · rw [l3 rfl] at hlt
          exact absurd hlt (Nat.lt_irrefl _)
        · exact e4 rfl
      · intro hu
        cases quit
        · exact e6 rfl
        · exact (stopped_not_undisturbed env w1 hu (k2 rfl)).elim
      · rw [e2]
        exact l4
      · obtain ⟨p, b1, b2, b3, b4⟩ := l5 hok
        rw [e2]
        exact ⟨p, by rw [hr.2.2.1, b1], b2, b3, fun hno => b4 (hq hno)⟩

/-- A run of `MMC_WriteBlocks2` in the ordered log. -/
theorem MMC_WriteBlocks2_log (div16 : Bool) (env : Env) (fuel A n : Nat) (w r : Io)
    (hA : A < 2 ^ 32) (hn : n < 65536)
    (h : MMC_WriteBlocks2 div16 env fuel A n w = some r) :
    ∃ evs, r.seq = w.seq ++ evs ∧ r.calls = w.calls ++ (callsIn evs).map Prod.fst ∧
      NoStop evs.dropLast ∧
      ((callsIn evs).length < n → ∃ e, evs.getLast? = some e ∧ e.isStop = true) ∧
      (Undisturbed env → NoStop evs) ∧
      (div16 = true ∨ StreamsOk env →
        (callsIn evs).map Prod.snd = (List.range (callsIn evs).length).map
          (fun i => outSector env (w.outPos + 512 * i))) ∧
      replayCalls env fuel (callsIn evs) w.drv = some r.drv := by
  unfold MMC_WriteBlocks2 at h
  simp only at h
  have hr0 : Ran w (Endpoint_WaitUntilReady env w).2
      (PumpEv.wait (env.epWait w.usb % 256)).isStop [] := ran_event _ rfl rfl
  by_cases he : (Endpoint_WaitUntilReady env w).1 ≠ 0
  · rw [if_pos he] at h
    simp only [Option.some.injEq] at h
    rw [← h]
    have hst : (PumpEv.wait (env.epWait w.usb % 256)).isStop = true := decide_eq_true he
    rw [hst] at hr0
    obtain ⟨evs, e1, e2, e3, e4, e5, _⟩ := ran_final hr0
    refine ⟨evs, e1, ?_, e3, fun _ => e4 rfl, fun hu => absurd (hu w.usb).2 he, fun _ => ?_,
      ?_⟩
    · rw [e2]
      exact (List.append_nil _).symm
    · rw [e2]
      rfl
    · rw [e2]
      rfl
  · rw [if_neg he] at h
    have hst : (PumpEv.wait (env.epWait w.usb % 256)).isStop = false := decide_eq_false he
    rw [hst] at hr0
    cases hl : MMC_WriteBlocks2_loop div16 env fuel fuel A n (Endpoint_WaitUntilReady env w).2 with
    | none => rw [hl] at h; simp at h
    | some x =>
      obtain ⟨quit, w1⟩ := x
      obtain ⟨_, _, _, k2, _⟩ := MMC_WriteBlocks2_loop_spec div16 env fuel fuel A n
        (Endpoint_WaitUntilReady env w).2 (quit, w1) hA hn hl
      obtain ⟨cs, l1, l2, l3, l5, l6⟩ := MMC_WriteBlocks2_loop_log div16 env fuel fuel A n
        (Endpoint_WaitUntilReady env w).2 (quit, w1) hn hl
      simp only at k2 l1 l2 l3 l5 l6
      have l6b : replayCalls env fuel cs w.drv = some w1.drv := l6
      have l2b : w1.calls = w.calls ++ cs.map Prod.fst := l2
      have l5b : div16 = true ∨ StreamsOk env → cs.map Prod.snd
          = (List.range cs.length).map (fun i => outSector env (w.outPos + 512 * i)) := l5
      rw [hl] at h
      have hr : r.seq = w1.seq ∧ r.calls = w1.calls ∧ r.drv = w1.drv := by
        cases quit
        · simp only [Option.some.injEq] at h
          rw [← h]
          unfold Endpoint_IsReadWriteAllowed
          simp only
          split
          · exact ⟨rfl, rfl, rfl⟩
          · exact ⟨rfl, rfl, rfl⟩
        · simp only [Option.some.injEq] at h
          rw [← h]
          exact ⟨rfl, rfl, rfl⟩
      have hran : Ran w r quit cs := by
        obtain ⟨evs, a1, a2, a3⟩ := ran_trans hr0 l1
        exact ⟨evs, by rw [hr.1, a1], a2, a3⟩
      obtain ⟨evs, e1, e2, e3, e4, e5, e6⟩ := ran_final hran
      refine ⟨evs, e1, ?_, e3, ?_, ?_, fun hok => ?_, by rw [e2, hr.2.2, l6b]⟩
      · rw [e2, hr.2.1, l2b]
      · intro hlt
        rw [e2] at hlt
        cases quit
        · rw [l3 rfl] at hlt
          exact absurd hlt (Nat.lt_irrefl _)
        · exact e4 rfl
      · intro hu
        cases quit
        · exact e6 rfl
        · exact (stopped_not_undisturbed env w1 hu (k2 rfl).2).elim
      · rw [e2]
        exact l5b hok

/-- The number of calls in the ordered log is the number of sectors called. -/
theorem calls_count (isRead : Bool) (A m : Nat) (w r : Io) (L : List (IoCall × List Nat))
    (h1 : r.targets = w.targets ++ sectorRun isRead A m)
    (h2 : r.calls = w.calls ++ L.map Prod.fst) : L.length = m := by
  unfold Io.targets at h1
  rw [h2, List.map_append] at h1
  have h3 := List.append_cancel_left h1
  have h4 := congrArg List.length h3
  simp only [List.length_map, sectorRun, List.length_range] at h4
  exact h4

theorem sectorRun_get (isRead : Bool) (A m i : Nat) (hi : i < m) (hA : A + m ≤ 2 ^ 32) :
    (sectorRun isRead A m)[i]? = some (isRead, A + i, 1) := by
  unfold sectorRun
  rw [List.getElem?_map, List.getElem?_range hi]
  show some (isRead, (A + i) % 2 ^ 32, 1) = _
  rw [Nat.mod_eq_of_lt (by omega)]

/-- C23: MMC_ReadBlocks2 and MMC_WriteBlocks2, called with a 32-bit address A
and a 16-bit count n, return when the timer runs, the stream primitive (where
it is used) never reports an incomplete transfer and the fuel suffices; and
whenever they return, the Block Driver calls they added to the log are m ≤ n
single-sector calls (reads for the one, writes for the other) at the
consecutive addresses A, A+1, ... (modulo 2^32) in this order, the i-th of
them at A+i when the range does not wrap. If m < n, the last observation of
the USB side was a failed endpoint wait or the host-abort flag
IsMassStoreReset read as set. Absent host reset and endpoint failure (flag
always clear, every wait successful, stream calls reporting only completion or
incomplete transfer) m = n and exactly 512·n bytes are moved to the IN
endpoint (read) or taken from the OUT endpoint (write). If the flag reads as
set from the start on, the read pump issues at most the one read made before
the flag is first looked at and the write pump issues no write at all; if the
first endpoint wait fails, neither issues a call.
In the ordered log of Block Driver calls, endpoint waits and reads of the
flag, the events of the run contain these m calls, and no event before the
last one is a failed wait or a set flag: once a wait fails or the flag is
observed set, at any point of the command, nothing follows, in particular no
Block Driver call; when m < n the last event is such a stop, so the sector
being received is not written.
The data: when the stream primitive does not fail, the bytes put on the IN
endpoint are the 512-byte buffers returned by the reads, one after the other,
all but the last complete and the last one complete too unless the pump gave
up; and the buffer handed to the i-th write holds the 512 bytes taken from the
OUT endpoint at positions 512·i to 512·i + 511 of the command's data. The
driver state at the end is the one these calls lead to when made in this order
from the driver state at the start, each write with the buffer logged for it:
nothing else in the pump touches the driver. -/
theorem C23_pump_sector_calls (div16 : Bool) (env : Env) (fuel A n : Nat) (w : Io)
    (hA : A < 2 ^ 32) (hn : n < 65536) :
    ((∀ k, 1 ≤ env.ticks k) →
      (div16 = true ∨
        ∀ k, (env.epStream k).1 % 256 ≠ ENDPOINT_RWSTREAM_IncompleteTransfer) →
      256 ≤ fuel → n < fuel →
      (∃ r, MMC_ReadBlocks2 div16 env fuel A n w = some r) ∧
      (∃ r, MMC_WriteBlocks2 div16 env fuel A n w = some r)) ∧
    (∀ r, MMC_ReadBlocks2 div16 env fuel A n w = some r →
      ∃ m, m ≤ n ∧ r.targets = w.targets ++ sectorRun true A m ∧
        (m < n → Stopped env r) ∧
        (Undisturbed env → m = n ∧
          (div16 = true ∨ StreamsOk env → r.inCount = w.inCount + 512 * n)) ∧
        (AbortedFrom env w.usb → m ≤ 1) ∧
        (env.epWait w.usb % 256 ≠ 0 → m = 0) ∧
        ∃ evs, r.seq = w.seq ++ evs ∧ r.calls = w.calls ++ (callsIn evs).map Prod.fst ∧
          (callsIn evs).length = m ∧
          NoStop evs.dropLast ∧
          (m < n → ∃ e, evs.getLast? = some e ∧ e.isStop = true) ∧
          (Undisturbed env → NoStop evs) ∧
          (∀ c ∈ callsIn evs, c.2.length = 512) ∧
          (div16 = true ∨ StreamsOk env →
            ∃ p, inBytes r.ep = inBytes w.ep ++ p ∧
              p <+: ((callsIn evs).map Prod.snd).flatten ∧
              (((callsIn evs).map Prod.snd).dropLast).flatten <+: p ∧
              (NoStop evs → p = ((callsIn evs).map Prod.snd).flatten)) ∧
          replayCalls env fuel (callsIn evs) w.drv = some r.drv) ∧
    (∀ r, MMC_WriteBlocks2 div16 env fuel A n w = some r →
      ∃ m, m ≤ n ∧ r.targets = w.targets ++ sectorRun false A m ∧
        (m < n → Stopped env r) ∧
        (Undisturbed env → m = n ∧
          (div16 = true ∨ StreamsOk env → r.outPos = w.outPos + 512 * n)) ∧
        (AbortedFrom env w.usb → m = 0) ∧
        (env.epWait w.usb % 256 ≠ 0 → m = 0) ∧
        ∃ evs, r.seq = w.seq ++ evs ∧ r.calls = w.calls ++ (callsIn evs).map Prod.fst ∧
          (callsIn evs).length = m ∧
          NoStop evs.dropLast ∧
          (m < n → ∃ e, evs.getLast? = some e ∧ e.isStop = true) ∧
          (Undisturbed env → NoStop evs) ∧
          (div16 = true ∨ StreamsOk env →
            (callsIn evs).map Prod.snd
              = (List.range m).map (fun i => outSector env (w.outPos + 512 * i))) ∧
          replayCalls env fuel (callsIn evs) w.drv = some r.drv) ∧
    (A + n ≤ 2 ^ 32 → ∀ (isRead : Bool) (m i : Nat), m ≤ n → i < m →
      (sectorRun isRead A m)[i]? = some (isRead, A + i, 1)) := by
  refine ⟨fun hticks hstream hf hnf =>
      ⟨MMC_ReadBlocks2_returns div16 env hticks hstream fuel hf A n w hnf hn,
       MMC_WriteBlocks2_returns div16 env hticks hstream fuel hf A n w hnf hn⟩,
    fun r h => ?_, fun r h => ?_,
    fun hw isRead m i hm hi => sectorRun_get isRead A m i hi (by omega)⟩
  · obtain ⟨m, s1, s2, s3, s4, s5, s6⟩ := MMC_ReadBlocks2_spec div16 env fuel A n w r hA hn h
    obtain ⟨evs, e1, e2, e3, e4, e5, e6, e7, e8⟩ :=
      MMC_ReadBlocks2_log div16 env fuel A n w r hA hn h
    have hc := calls_count true A m w r (callsIn evs) s2 e2
    rw [hc] at e4
    exact ⟨m, s1, s2, s3, s4, s5, s6, evs, e1, e2, hc, e3, e4, e5, e6, e7, e8⟩
  · obtain ⟨m, s1, s2, s3, s4, s5, s6⟩ := MMC_WriteBlocks2_spec div16 env fuel A n w r hA hn h
    obtain ⟨evs, e1, e2, e3, e4, e5, e6, e7⟩ :=
      MMC_WriteBlocks2_log div16 env fuel A n w r hA hn h
    have hc := calls_count false A m w r (callsIn evs) s2 e2
    rw [hc] at e4 e6
    exact ⟨m, s1, s2, s3, s4, s5, s6, evs, e1, e2, hc, e3, e4, e5, e6, e7⟩

set_option maxRecDepth 1000000 in
set_option maxHeartbeats 4000000 in
/-- C23 at concrete inputs. With a host that lets everything through, reads
and writes of two sectors from sector 5 make the two calls at sectors 5 and 6
and move 1024 bytes; the two writes are handed the first and the second 512
bytes the host sent. A read of one sector from a card that delivers it puts
the 512 bytes returned by the driver on the IN endpoint. With the flag set
from the start no write is made; with the flag set from the 100th observation
on, in the middle of the second of three sectors, the pump stops there after
the one write of the first sector, and the set flag is the last event of the
run. -/
theorem C23_pump_sector_calls_witness :
    (5 < 2 ^ 32 ∧ 1 < 65536 ∧ 2 < 65536 ∧ 3 < 65536) ∧
    (∃ r, MMC_ReadBlocks2 true Env.quiet 300 5 2 (World.mk0 (Drv.mk0 0 CT_SD2) [] 0 0).io
        = some r ∧
      r.targets = [(true, 5, 1), (true, 6, 1)] ∧ r.inCount = 1024) ∧
    (∃ r, MMC_WriteBlocks2 true Env.quiet 300 5 2 (World.mk0 (Drv.mk0 0 CT_SD2) [] 0 0).io
        = some r ∧
      r.targets = [(false, 5, 1), (false, 6, 1)] ∧ r.outPos = 1024) ∧
    (∃ r, MMC_WriteBlocks2 true Env.aborted 300 5 2 (World.mk0 (Drv.mk0 0 CT_SD2) [] 0 0).io
        = some r ∧ r.targets = []) ∧
    (∃ r, MMC_WriteBlocks2 true Env.counting 300 5 2 (World.mk0 (Drv.mk0 0 CT_SD2) [] 0 0).io
        = some r ∧
      r.targets = [(false, 5, 1), (false, 6, 1)] ∧
      (callsIn r.seq).map Prod.snd = [outSector Env.counting 0, outSector Env.counting 512] ∧
      (outSector Env.counting 512).take 3 = [0, 1, 2]) ∧
    (∃ r, MMC_ReadBlocks2 true Env.reading 300 5 1 (World.mk0 (Drv.mk0 0 CT_SD2) [] 0 0).io
        = some r ∧
      r.calls = [IoCall.read 5 1 RES_OK] ∧
      inBytes r.ep = ((callsIn r.seq).map Prod.snd).flatten ∧
      (inBytes r.ep).take 4 = [0, 1, 2, 3] ∧ (inBytes r.ep).length = 512) ∧
    (∃ r, MMC_WriteBlocks2 true Env.abortedLate 300 5 3 (World.mk0 (Drv.mk0 0 CT_SD2) [] 0 0).io
        = some r ∧
      r.targets = [(false, 5, 1)] ∧ r.seq.getLast? = some (PumpEv.flag true) ∧
      NoStop r.seq.dropLast ∧ r.usb = 101 ∧ r.outPos = 800) := by
  have hA := C23_pump_sector_calls true Env.aborted 300 5 2
    (World.mk0 (Drv.mk0 0 CT_SD2) [] 0 0).io (by decide) (by decide)
  obtain ⟨_, ⟨r3, h3⟩⟩ := hA.1 (fun _ => Nat.le_refl 1) (Or.inl rfl) (by decide) (by decide)
  have hC := C23_pump_sector_calls true Env.quiet 300 5 2 (World.mk0 (Drv.mk0 0 CT_SD2) [] 0 0).io
    (by decide) (by decide)
  have hu : Undisturbed Env.quiet := fun _ => ⟨rfl, rfl⟩
  obtain ⟨⟨r1, h1⟩, ⟨r2, h2⟩⟩ := hC.1 (fun _ => Nat.le_refl 1) (Or.inl rfl) (by decide)
    (by decide)
  have hD := C23_pump_sector_calls true Env.counting 300 5 2
    (World.mk0 (Drv.mk0 0 CT_SD2) [] 0 0).io (by decide) (by decide)
  have hud : Undisturbed Env.counting := fun _ => ⟨rfl, rfl⟩
  obtain ⟨_, ⟨r4, h4⟩⟩ := hD.1 (fun _ => Nat.le_refl 1) (Or.inl rfl) (by decide) (by decide)
  have hR := C23_pump_sector_calls true Env.reading 300 5 1
    (World.mk0 (Drv.mk0 0 CT_SD2) [] 0 0).io (by decide) (by decide)
  have hur : Undisturbed Env.reading := fun _ => ⟨rfl, rfl⟩
  obtain ⟨⟨r5, h5⟩, _⟩ := hR.1 (fun _ => Nat.le_refl 1) (Or.inl rfl) (by decide) (by decide)
  have hL := C23_pump_sector_calls true Env.abortedLate 300 5 3
    (World.mk0 (Drv.mk0 0 CT_SD2) [] 0 0).io (by decide) (by decide)
  obtain ⟨_, ⟨r6, h6⟩⟩ := hL.1 (fun _ => Nat.le_refl 1) (Or.inl rfl) (by decide) (by decide)
  have e5 : (MMC_ReadBlocks2 true Env.reading 300 5 1
        (World.mk0 (Drv.mk0 0 CT_SD2) [] 0 0).io).map
        (fun r => (r.calls, (inBytes r.ep).take 4, (inBytes r.ep).length))
      = some ([IoCall.read 5 1 RES_OK], [0, 1, 2, 3], 512) := by decide
  have e6 : (MMC_WriteBlocks2 true Env.abortedLate 300 5 3
        (World.mk0 (Drv.mk0 0 CT_SD2) [] 0 0).io).map
        (fun r => (r.targets, r.seq.getLast?, r.usb, r.outPos))
      = some ([(false, 5, 1)], some (PumpEv.flag true), 101, 800) := by decide
  rw [h5] at e5
  rw [h6] at e6
  simp only [Option.map_some', Option.some.injEq, Prod.mk.injEq] at e5 e6
  refine ⟨⟨by decide, by decide, by decide, by decide⟩, ⟨r1, h1, ?_⟩, ⟨r2, h2, ?_⟩,
    ⟨r3, h3, ?_⟩, ⟨r4, h4, ?_⟩, ⟨r5, h5, e5.1, ?_, e5.2.1, e5.2.2⟩,
    ⟨r6, h6, e6.1, e6.2.1, ?_, e6.2.2.1, e6.2.2.2⟩⟩
  · obtain ⟨m, _, ht, _, hund, _⟩ := hC.2.1 r1 h1
    obtain ⟨hm, hb⟩ := hund hu
    rw [hm] at ht
    exact ⟨ht, hb (Or.inl rfl)⟩
  · obtain ⟨m, _, ht, _, hund, _⟩ := hC.2.2.1 r2 h2
    obtain ⟨hm, hb⟩ := hund hu
    rw [hm] at ht
    exact ⟨ht, hb (Or.inl rfl)⟩
  · obtain ⟨m, _, ht, _, _, hab, _⟩ := hA.2.2.1 r3 h3
    rw [hab (fun _ _ => rfl)] at ht
    exact ht
  · obtain ⟨m, _, ht, _, hund, _, _, evs, s1, _, _, _, _, _, hdata, _⟩ := hD.2.2.1 r4 h4
    obtain ⟨hm, _⟩ := hund hud
    rw [hm] at ht hdata
    have s2 : r4.seq = evs := by
      rw [s1]
      exact List.nil_append _
    rw [s2]
    exact ⟨ht, hdata (Or.inl rfl), by decide⟩
  · obtain ⟨m, _, _, _, _, _, _, evs, s1, _, _, _, _, hno, _, hdata, _⟩ := hR.2.1 r5 h5
    have s2 : r5.seq = evs := by
      rw [s1]
      exact List.nil_append _
    obtain ⟨p, hp, _, _, hfull⟩ := hdata (Or.inl rfl)
    rw [s2, ← hfull (hno hur), hp]
    exact List.nil_append _
  · obtain ⟨m, _, _, _, _, _, _, evs, s1, _, _, hstop, _⟩ := hL.2.2.1 r6 h6
    have s2 : r6.seq = evs := by
      rw [s1]
      exact List.nil_append _
    rw [s2]
    exact hstop

/-! ## The end of the block range -/

set_option maxRecDepth 1000000 in
set_option maxHeartbeats 4000000 in
/-- C24: READ(10) and WRITE(10) of two blocks from the last block of the LUN
(block 262143 of 262144) are accepted, and the second Block Driver call is
handed block 262144, outside the LUN: the card receives READ_SINGLE_BLOCK and
WRITE_BLOCK for byte address 262144 * 512. -/
theorem C24_range_end_unchecked :
    (SCSI_Command_ReadWrite_10 (Config.loopback false false) Env.quiet 300 DATA_READ
        (World.mk0 (Drv.mk0 0 CT_SD2) [0x28, 0, 0, 0x03, 0xFF, 0xFF, 0, 0, 2, 0] 0 1024)).map
      (fun r => (r.1, r.2.io.calls, cmdsOf r.2.io.drv.trace))
      = some (true, [IoCall.read 262143 1 RES_ERROR, IoCall.read 262144 1 RES_ERROR],
          [(CMD17, 262143 * 512), (CMD17, 262144 * 512)]) ∧
    (SCSI_Command_ReadWrite_10 (Config.loopback false false) Env.quiet 300 DATA_WRITE
        (World.mk0 (Drv.mk0 0 CT_SD2) [0x2A, 0, 0, 0x03, 0xFF, 0xFF, 0, 0, 2, 0] 0 1024)).map
      (fun r => (r.1, r.2.io.calls, cmdsOf r.2.io.drv.trace))
      = some (true, [IoCall.write 262143 1 RES_ERROR, IoCall.write 262144 1 RES_ERROR],
          [(CMD24, 262143 * 512), (CMD24, 262144 * 512)]) ∧
    ¬ (262144 < (Config.loopback false false).LUN_MEDIA_BLOCKS) := by
  refine ⟨?_, ?_, ?_⟩ <;> decide

/-! ## Reachable driver states -/

theorem kept_refl (d : Drv) : Kept d d := ⟨rfl, rfl⟩

theorem kept_trans {d d1 d2 : Drv} (h1 : Kept d d1) (h2 : Kept d1 d2) : Kept d d2 :=
  ⟨h2.1.trans h1.1, h2.2.trans h1.2⟩

theorem issued_kept {d d1 : Drv} {cs : List (Nat × Nat)} (h : Issued d d1 cs) : Kept d d1 :=
  ⟨h.1, h.2.1⟩

theorem send_cmd_kept (env : Env) (fuel cmd arg : Nat) (d : Drv) (r : Nat × Drv)
    (h : send_cmd env fuel cmd arg d = some r) : Kept d r.2 :=
  issued_kept (send_cmd_issued env fuel cmd arg d r h)

theorem deselect_kept (env : Env) (d : Drv) : Kept d (deselect env d) :=
  issued_kept (deselect_issued env d)

theorem init_wait_kept (env : Env) (fuel cmd arg : Nat) :
    ∀ (k : Nat) (d r : Drv), init_wait env fuel cmd arg k d = some r → Kept d r := by
  intro k
  induction k with
  | zero => intro d r h; simp [init_wait] at h
  | succ k ih =>
    intro d r h
    rw [init_wait] at h
    split at h
    · split at h
      · simp at h
      · rename_i res d1 hs
        have h1 := send_cmd_kept env fuel cmd arg d (res, d1) hs
        split at h
        · exact kept_trans h1 (ih _ _ h)
        · simp only [Option.some.injEq] at h
          rw [← h]
          exact h1
    · simp only [Option.some.injEq] at h
      rw [← h]
      exact kept_refl d

theorem init_sd2_kept (env : Env) (fuel : Nat) (d : Drv) (r : Nat × Drv)
    (h : init_sd2 env fuel d = some r) : Kept d r.2 := by
  unfold init_sd2 at h
  have h0 : Kept d (rcvr_n env 4 [0, 0, 0, 0] 0 d).2 := issued_kept (rcvr_n_issued env 4 _ 0 d)
  simp only at h
  split at h
  · split at h
    · simp at h
    · rename_i d1 hw
      have h1 := kept_trans h0 (init_wait_kept env fuel _ _ _ _ _ hw)
      split at h
      · split at h
        · simp at h
        · rename_i r58 d2 hs
          have h2 := kept_trans h1 (send_cmd_kept env fuel _ _ _ (r58, d2) hs)
          split at h
          · simp only [Option.some.injEq] at h
            rw [← h]
            exact kept_trans h2 (issued_kept (rcvr_n_issued env 4
              (rcvr_n env 4 [0, 0, 0, 0] 0 d).1 0 d2))
          · simp only [Option.some.injEq] at h
            rw [← h]
            exact h2
      · simp only [Option.some.injEq] at h
        rw [← h]
        exact h1
  · simp only [Option.some.injEq] at h
    rw [← h]
    exact h0

theorem init_sd1_mmc_kept (env : Env) (fuel : Nat) (d : Drv) (r : Nat × Drv)
    (h : init_sd1_mmc env fuel d = some r) : Kept d r.2 := by
  unfold init_sd1_mmc at h
  split at h
  · simp at h
  · rename_i r41 d1 hs
    have h1 := send_cmd_kept env fuel _ _ d (r41, d1) hs
    simp only at h
    split at h
    · simp at h
    · rename_i d2 hw
      have h2 := kept_trans h1 (init_wait_kept env fuel _ _ _ _ _ hw)
      split at h
      · simp only [Option.some.injEq] at h
        rw [← h]
        exact h2
      · split at h
        · simp at h
        · rename_i r16 d3 hs16
          simp only [Option.some.injEq] at h
          rw [← h]
          exact kept_trans h2 (send_cmd_kept env fuel _ _ _ (r16, d3) hs16)

theorem init_probe_kept (env : Env) (fuel : Nat) (d : Drv) (r : Nat × Drv)
    (h : init_probe env fuel d = some r) : Kept d r.2 := by
  unfold init_probe at h
  split at h
  · simp at h
  · rename_i r0 d1 hs
    have h1 := send_cmd_kept env fuel _ _ d (r0, d1) hs
    split at h
    · split at h
      · simp at h
      · rename_i r8 d2 hs8
        have h2 : Kept d d2 := kept_trans h1
          (kept_trans (issued_kept (timer1_issued d1 100))
            (send_cmd_kept env fuel _ _ _ (r8, d2) hs8))
        split at h
        · exact kept_trans h2 (init_sd2_kept env fuel d2 r h)
        · exact kept_trans h2 (init_sd1_mmc_kept env fuel d2 r h)
    · simp only [Option.some.injEq] at h
      rw [← h]
      exact h1

/-- What `mmc_disk_initialize` does to the globals: the returned value is
`Stat`; `CardType` is the type found by the probe; on success (type non-zero)
STA_NOINIT is cleared in `Stat`, on failure `Stat` is left as it was. -/
theorem mmc_disk_initialize_globals (env : Env) (fuel : Nat) (d : Drv) (r : Nat × Drv)
    (h : mmc_disk_initialize env fuel d = some r) :
    r.1 = r.2.Stat ∧
    ((r.2.CardType ≠ 0 ∧ r.2.Stat = d.Stat &&& (0xFF ^^^ STA_NOINIT)) ∨
     (r.2.CardType = 0 ∧ r.2.Stat = d.Stat)) := by
  unfold mmc_disk_initialize at h
  split at h
  · simp at h
  · rename_i d1 hsp
    have h1 : Kept d d1 := kept_trans
      (kept_trans (issued_kept (event_issued d SpiEv.powerOff (by intro i a; simp)))
        (issued_kept (timer1_issued (power_off d) 10)))
      (issued_kept (spin_Timer1_issued env fuel _ d1 hsp))
    have h2 : Kept d (xchg_n env 10 (FCLK_SLOW (power_on d1))) := kept_trans h1
      (kept_trans (issued_kept (event_issued d1 SpiEv.powerOn (by intro i a; simp)))
        (kept_trans (issued_kept (event_issued (power_on d1) SpiEv.fclkSlow
          (by intro i a; simp))) (issued_kept (xchg_n_issued env 10 _))))
    simp only at h
    split at h
    · simp at h
    · rename_i ty d2 hp
      have h3 : d2.Stat = d.Stat := (kept_trans h2 (init_probe_kept env fuel _ (ty, d2) hp)).1
      have h4 := deselect_kept env { d2 with CardType := ty }
      simp only [Option.some.injEq] at h
      rw [← h]
      by_cases hty : ty = 0
      · rw [if_neg (by simpa using hty)]
        refine ⟨rfl, Or.inr ⟨?_, ?_⟩⟩
        · show (deselect env { d2 with CardType := ty }).CardType = 0
          rw [h4.2]
          exact hty
        · show (deselect env { d2 with CardType := ty }).Stat = d.Stat
          rw [h4.1]
          exact h3
      · rw [if_pos hty]
        refine ⟨rfl, Or.inl ⟨?_, ?_⟩⟩
        · show (deselect env { d2 with CardType := ty }).CardType ≠ 0
          rw [h4.2]
          exact hty
        · show (deselect env { d2 with CardType := ty }).Stat &&& (0xFF ^^^ STA_NOINIT) = _
          rw [h4.1]
          show d2.Stat &&& (0xFF ^^^ STA_NOINIT) = _
          rw [h3]

theorem mmc_disk_read_kept (env : Env) (fuel : Nat) (buf : List Nat) (p sector count : Nat)
    (d : Drv) (r : DRESULT × List Nat × Drv)
    (h : mmc_disk_read env fuel buf p sector count d = some r) : Kept d r.2.2 := by
  by_cases hcount : count = 0
  · unfold mmc_disk_read at h
    rw [if_pos hcount] at h
    simp only [Option.some.injEq] at h
    rw [← h]
    exact kept_refl d
  · by_cases hinit : d.Stat &&& STA_NOINIT = 0
    · obtain ⟨res, d1, hs, hrest⟩ := mmc_disk_read_run env fuel buf p sector count d r
        hcount hinit h
      have h1 := send_cmd_kept env fuel _ _ d (res, d1) hs
      rcases hrest with ⟨_, hr⟩ | ⟨_, c, b, d2, hl, hr⟩
      · rw [hr]
        exact kept_trans h1 (deselect_kept env d1)
      · have h2 := kept_trans h1
          (issued_kept (read_loop_issued env fuel fuel buf p count d1 (c, b, d2) hl))
        rcases hr with ⟨_, hr⟩ | ⟨_, r12, d3, h12, hr⟩
        · rw [hr]
          exact kept_trans h2 (deselect_kept env d2)
        · rw [hr]
          exact kept_trans (kept_trans h2 (send_cmd_kept env fuel _ _ d2 (r12, d3) h12))
            (deselect_kept env d3)
    · unfold mmc_disk_read at h
      rw [if_neg hcount, if_pos hinit] at h
      simp only [Option.some.injEq] at h
      rw [← h]
      exact kept_refl d

theorem wrprt_ne : RES_PARERR ≠ RES_WRPRT ∧ RES_NOTRDY ≠ RES_WRPRT ∧ RES_ERROR ≠ RES_WRPRT ∧
    RES_OK ≠ RES_WRPRT := by decide

theorem mmc_disk_write_kept (env : Env) (fuel : Nat) (buf : List Nat) (p sector count : Nat)
    (d : Drv) (r : DRESULT × Drv)
    (h : mmc_disk_write env fuel buf p sector count d = some r) :
    Kept d r.2 ∧ (d.Stat &&& STA_PROTECT = 0 → r.1 ≠ RES_WRPRT) := by
  by_cases hcount : count = 0
  · unfold mmc_disk_write at h
    rw [if_pos hcount] at h
    simp only [Option.some.injEq] at h
    rw [← h]
    exact ⟨kept_refl d, fun _ => wrprt_ne.1⟩
  · by_cases hinit : d.Stat &&& STA_NOINIT = 0
    · by_cases hprot : d.Stat &&& STA_PROTECT = 0
      · by_cases h1 : count = 1
        · subst h1
          obtain ⟨res, d1, hs, hrest⟩ := mmc_disk_write_single env fuel buf p sector d r
            hinit hprot h
          have k1 := send_cmd_kept env fuel _ _ d (res, d1) hs
          rcases hrest with ⟨_, hr⟩ | ⟨_, ok, d2, hx, hr⟩
          · rw [hr]
            exact ⟨kept_trans k1 (deselect_kept env d1), fun _ => wrprt_ne.2.2.1⟩
          · rw [hr]
            refine ⟨kept_trans (kept_trans k1
              (issued_kept (xmit_datablock_issued env fuel buf p 0xFE d1 (ok, d2) hx)))
              (deselect_kept env d2), fun _ => ?_⟩
            show (if ok ≠ 0 then RES_OK else RES_ERROR) ≠ RES_WRPRT
            split <;> decide
        · obtain ⟨d0, res, d1, hpre, hs, hrest⟩ := mmc_disk_write_multi env fuel buf p sector
            count d r (by omega) hinit hprot h
          have k0 : Kept d d0 := by
            by_cases hsd : d.CardType &&& CT_SDC ≠ 0
            · rw [if_pos hsd] at hpre
              obtain ⟨r23, h23⟩ := hpre
              exact send_cmd_kept env fuel _ _ d (r23, d0) h23
            · rw [if_neg hsd] at hpre
              rw [hpre]
              exact kept_refl d
          have k1 := kept_trans k0 (send_cmd_kept env fuel _ _ d0 (res, d1) hs)
          rcases hrest with ⟨_, hr⟩ | ⟨_, c, d2, ok, d3, hl, hx, hr⟩
          · rw [hr]
            exact ⟨kept_trans k1 (deselect_kept env d1), fun _ => wrprt_ne.2.2.1⟩
          · rw [hr]
            refine ⟨kept_trans (kept_trans (kept_trans k1
              (issued_kept (write_loop_issued env fuel fuel buf p count d1 (c, d2) hl)))
              (issued_kept (xmit_datablock_issued env fuel buf 0 0xFD d2 (ok, d3) hx)))
              (deselect_kept env d3), fun _ => ?_⟩
            show (if ok ≠ 0 ∧ c = 0 then RES_OK else RES_ERROR) ≠ RES_WRPRT
            split <;> decide
      · unfold mmc_disk_write at h
        rw [if_neg hcount, if_neg (by simpa using hinit), if_pos hprot] at h
        simp only [Option.some.injEq] at h
        rw [← h]
        exact ⟨kept_refl d, fun hh => absurd hh hprot⟩
    · unfold mmc_disk_write at h
      rw [if_neg hcount, if_pos hinit] at h
      simp only [Option.some.injEq] at h
      rw [← h]
      exact ⟨kept_refl d, fun _ => wrprt_ne.2.1⟩

theorem read_register_kept (env : Env) (fuel cmd btr : Nat) (ptr : List Nat) (d : Drv)
    (r : Bool × List Nat × Drv) (h : read_register env fuel cmd btr ptr d = some r) :
    Kept d r.2.2 := by
  unfold read_register at h
  split at h
  · simp at h
  · rename_i res d1 hs
    have k1 := send_cmd_kept env fuel _ _ d (res, d1) hs
    split at h
    · split at h
      · simp at h
      · rename_i ok b d2 hrd
        simp only [Option.some.injEq] at h
        rw [← h]
        exact kept_trans k1 (issued_kept (rcvr_datablock_issued env fuel ptr 0 btr d1
          (ok, b, d2) hrd))
    · simp only [Option.some.injEq] at h
      rw [← h]
      exact k1

theorem ioctl_get_csd_kept (env : Env) (fuel : Nat) (ptr : List Nat) (d : Drv)
    (r : DRESULT × List Nat × Drv) (h : ioctl_get_csd env fuel ptr d = some r) :
    Kept d r.2.2 := by
  unfold ioctl_get_csd at h
  split at h
  · simp at h
  · rename_i ok b d1 hr
    simp only [Option.some.injEq] at h
    rw [← h]
    exact kept_trans (read_register_kept env fuel _ _ ptr d (ok, b, d1) hr) (deselect_kept env d1)

theorem xchg_spi_kept (env : Env) (dat : Nat) (d : Drv) : Kept d (xchg_spi env dat d).2 :=
  issued_kept (xchg_spi_issued env dat d)

theorem ioctl_block_size_kept (env : Env) (fuel : Nat) (buff : List Nat) (d : Drv)
    (r : DRESULT × List Nat × Drv) (h : ioctl_block_size env fuel buff d = some r) :
    Kept d r.2.2 := by
  unfold ioctl_block_size at h
  simp only at h
  split at h
  · simp at h
  · rename_i res b d1 hbody
    simp only [Option.some.injEq] at h
    rw [← h]
    refine kept_trans ?_ (deselect_kept env d1)
    split at hbody
    · split at hbody
      · simp at hbody
      · rename_i r13 d2 hs
        have k1 := send_cmd_kept env fuel _ _ d (r13, d2) hs
        split at hbody
        · split at hbody
          · simp at hbody
          · rename_i ok csd d3 hrd
            have k2 := kept_trans (kept_trans k1 (xchg_spi_kept env 0xFF d2))
              (issued_kept (rcvr_datablock_issued env fuel _ 0 16 _ (ok, csd, d3) hrd))
            split at hbody
            · simp only [Option.some.injEq, Prod.mk.injEq] at hbody
              rw [← hbody.2.2]
              exact kept_trans k2 (issued_kept (xchg_n_issued env (64 - 16) d3))
            · simp only [Option.some.injEq, Prod.mk.injEq] at hbody
              rw [← hbody.2.2]
              exact k2
        · simp only [Option.some.injEq, Prod.mk.injEq] at hbody
          rw [← hbody.2.2]
          exact k1
    · split at hbody
      · simp at hbody
      · rename_i ok csd d2 hr
        have k1 := read_register_kept env fuel _ _ _ d (ok, csd, d2) hr
        split at hbody
        · simp only [Option.some.injEq, Prod.mk.injEq] at hbody
          rw [← hbody.2.2]
          exact k1
        · simp only [Option.some.injEq, Prod.mk.injEq] at hbody
          rw [← hbody.2.2]
          exact k1

theorem ioctl_trim_kept (env : Env) (fuel : Nat) (buff : List Nat) (d : Drv)
    (r : DRESULT × Drv) (h : ioctl_trim env fuel buff d = some r) : Kept d r.2 := by
  unfold ioctl_trim at h
  split at h
  · simp only [Option.some.injEq] at h
    rw [← h]
    exact kept_refl d
  · simp only at h
    split at h
    · simp at h
    · rename_i rn csd d1 hn
      have k1 : Kept d d1 := by
        split at hn
        · simp only [Option.some.injEq, Prod.mk.injEq] at hn
          rw [← hn.2.2]
          exact kept_refl d
        · exact ioctl_get_csd_kept env fuel _ d (rn, csd, d1) hn
      split at h
      · simp only [Option.some.injEq] at h
        rw [← h]
        exact k1
      · split at h
        · simp only [Option.some.injEq] at h
          rw [← h]
          exact k1
        · split at h
          · simp at h
          · rename_i r32 d2 h32
            have k2 := kept_trans k1 (send_cmd_kept env fuel _ _ d1 (r32, d2) h32)
            split at h
            · simp only [Option.some.injEq] at h
              rw [← h]
              exact k2
            · split at h
              · simp at h
              · rename_i r33 d3 h33
                have k3 := kept_trans k2 (send_cmd_kept env fuel _ _ d2 (r33, d3) h33)
                split at h
                · simp only [Option.some.injEq] at h
                  rw [← h]
                  exact k3
                · split at h
                  · simp at h
                  · rename_i r38 d4 h38
                    have k4 := kept_trans k3 (send_cmd_kept env fuel _ _ d3 (r38, d4) h38)
                    split at h
                    · simp only [Option.some.injEq] at h
                      rw [← h]
                      exact k4
                    · split at h
                      · simp at h
                      · rename_i rdy d5 hw
                        simp only [Option.some.injEq] at h
                        rw [← h]
                        exact kept_trans k4
                          (issued_kept (wait_ready_issued env fuel 30000 d4 (rdy, d5) hw))

theorem ioctl_isdio_read_kept (env : Env) (fuel : Nat) (sdi : SDIO_CTRL) (d : Drv)
    (r : DRESULT × List Nat × Drv) (h : ioctl_isdio_read env fuel sdi d = some r) :
    Kept d r.2.2 := by
  unfold ioctl_isdio_read at h
  simp only at h
  split at h
  · simp at h
  · rename_i res d1 hs
    have k1 := send_cmd_kept env fuel _ _ d (res, d1) hs
    split at h
    · simp at h
    · rename_i rr data d2 hbody
      simp only [Option.some.injEq] at h
      rw [← h]
      refine kept_trans ?_ (deselect_kept env d2)
      split at hbody
      · split at hbody
        · simp at hbody
        · rename_i rc d3 ht
          have k2 := kept_trans (kept_trans k1 (issued_kept (timer1_issued d1 100)))
            (issued_kept (rcvr_token_loop_issued env fuel _ (rc, d3) ht))
          split at hbody
          · simp only [Option.some.injEq, Prod.mk.injEq] at hbody
            rw [← hbody.2.2]
            exact kept_trans (kept_trans k2
              (issued_kept (rcvr_n_issued env (sdi.ndata % 65536) sdi.data 0 d3)))
              (issued_kept (xchg_n_issued env _ _))
          · simp only [Option.some.injEq, Prod.mk.injEq] at hbody
            rw [← hbody.2.2]
            exact k2
      · simp only [Option.some.injEq, Prod.mk.injEq] at hbody
        rw [← hbody.2.2]
        exact k1

theorem ioctl_isdio_write_kept (env : Env) (fuel : Nat) (sdi : SDIO_CTRL) (d : Drv)
    (r : DRESULT × Drv) (h : ioctl_isdio_write env fuel sdi d = some r) : Kept d r.2 := by
  unfold ioctl_isdio_write at h
  simp only at h
  split at h
  · simp at h
  · rename_i res d1 hs
    have k1 := send_cmd_kept env fuel _ _ d (res, d1) hs
    split at h
    · simp only [Option.some.injEq] at h
      rw [← h]
      refine kept_trans (kept_trans k1 ?_) (deselect_kept env _)
      exact kept_trans (kept_trans (kept_trans (kept_trans (xchg_spi_kept env 0xFF d1)
        (xchg_spi_kept env 0xFE _)) (issued_kept (xmit_n_issued env _ sdi.data 0 _)))
        (issued_kept (xchg_n_issued env _ _))) (xchg_spi_kept env 0xFF _)
    · simp only [Option.some.injEq] at h
      rw [← h]
      exact kept_trans k1 (deselect_kept env d1)

theorem ioctl_isdio_mrite_kept (env : Env) (fuel : Nat) (sdi : SDIO_CTRL) (d : Drv)
    (r : DRESULT × Drv) (h : ioctl_isdio_mrite env fuel sdi d = some r) : Kept d r.2 := by
  unfold ioctl_isdio_mrite at h
  simp only at h
  split at h
  · simp at h
  · rename_i res d1 hs
    have k1 := send_cmd_kept env fuel _ _ d (res, d1) hs
    split at h
    · simp only [Option.some.injEq] at h
      rw [← h]
      refine kept_trans (kept_trans k1 ?_) (deselect_kept env _)
      exact kept_trans (kept_trans (kept_trans (kept_trans (xchg_spi_kept env 0xFF d1)
        (xchg_spi_kept env 0xFE _)) (xchg_spi_kept env _ _))
        (issued_kept (xchg_n_issued env 513 _))) (xchg_spi_kept env 0xFF _)
    · simp only [Option.some.injEq] at h
      rw [← h]
      exact kept_trans k1 (deselect_kept env d1)

/-- What `mmc_disk_ioctl` does to the globals: `CardType` is left alone, and
`Stat` is left alone or, by CTRL_POWER_OFF, gets STA_NOINIT set. -/
theorem mmc_disk_ioctl_globals (env : Env) (fuel : Nat) (cmd : Ctrl) (buff : List Nat)
    (sdi : SDIO_CTRL) (d : Drv) (r : DRESULT × List Nat × List Nat × Drv)
    (h : mmc_disk_ioctl env fuel cmd buff sdi d = some r) :
    r.2.2.2.CardType = d.CardType ∧
    (r.2.2.2.Stat = d.Stat ∨ r.2.2.2.Stat = d.Stat ||| STA_NOINIT) := by
  have hk : ∀ d1 : Drv, Kept d d1 → d1.CardType = d.CardType ∧
      (d1.Stat = d.Stat ∨ d1.Stat = d.Stat ||| STA_NOINIT) :=
    fun _ k => ⟨k.2, Or.inl k.1⟩
  unfold mmc_disk_ioctl at h
  split at h
  · simp only [Option.some.injEq] at h
    rw [← h]
    exact hk _ (kept_refl d)
  · cases cmd with
    | CTRL_SYNC =>
      simp only [Option.map_eq_some'] at h
      obtain ⟨x, hx, hr⟩ := h
      rw [← hr]
      exact hk _ (kept_trans (issued_kept (select_issued env fuel d x hx)) (deselect_kept env x.2))
    | GET_SECTOR_COUNT =>
      simp only [Option.map_eq_some'] at h
      obtain ⟨x, hx, hr⟩ := h
      rw [← hr]
      exact hk _ (kept_trans (read_register_kept env fuel _ _ _ d x hx) (deselect_kept env x.2.2))
    | GET_BLOCK_SIZE =>
      simp only [Option.map_eq_some'] at h
      obtain ⟨x, hx, hr⟩ := h
      rw [← hr]
      exact hk _ (ioctl_block_size_kept env fuel buff d x hx)
    | CTRL_TRIM =>
      simp only [Option.map_eq_some'] at h
      obtain ⟨x, hx, hr⟩ := h
      rw [← hr]
      exact hk _ (ioctl_trim_kept env fuel buff d x hx)
    | MMC_GET_TYPE =>
      simp only [Option.some.injEq] at h
      rw [← h]
      exact hk _ (kept_refl d)
    | MMC_GET_CSD =>
      simp only [Option.map_eq_some'] at h
      obtain ⟨x, hx, hr⟩ := h
      rw [← hr]
      exact hk _ (ioctl_get_csd_kept env fuel buff d x hx)
    | MMC_GET_CID =>
      simp only [Option.map_eq_some'] at h
      obtain ⟨x, hx, hr⟩ := h
      rw [← hr]
      exact hk _ (kept_trans (read_register_kept env fuel _ _ _ d x hx) (deselect_kept env x.2.2))
    | MMC_GET_OCR =>
      simp only [Option.map_eq_some'] at h
      obtain ⟨x, hx, hr⟩ := h
      have k1 := send_cmd_kept env fuel _ _ d x hx
      rw [← hr]
      split
      · exact hk _ (kept_trans (kept_trans k1 (issued_kept (rcvr_n_issued env 4 buff 0 x.2)))
          (deselect_kept env _))
      · exact hk _ (kept_trans k1 (deselect_kept env x.2))
    | MMC_GET_SDSTAT =>
      simp only at h
      split at h
      · simp at h
      · rename_i res d1 hs
        have k1 := send_cmd_kept env fuel _ _ d (res, d1) hs
        split at h
        · simp only [Option.map_eq_some'] at h
          obtain ⟨x, hx, hr⟩ := h
          rw [← hr]
          exact hk _ (kept_trans (kept_trans (kept_trans k1 (xchg_spi_kept env 0xFF d1))
            (issued_kept (rcvr_datablock_issued env fuel buff 0 64 _ x hx)))
            (deselect_kept env x.2.2))
        · simp only [Option.some.injEq] at h
          rw [← h]
          exact hk _ (kept_trans k1 (deselect_kept env d1))
    | CTRL_POWER_OFF =>
      simp only [Option.some.injEq] at h
      rw [← h]
      exact ⟨rfl, Or.inr rfl⟩
    | ISDIO_READ =>
      simp only [Option.map_eq_some'] at h
      obtain ⟨x, hx, hr⟩ := h
      rw [← hr]
      exact hk _ (ioctl_isdio_read_kept env fuel sdi d x hx)
    | ISDIO_WRITE =>
      simp only [Option.map_eq_some'] at h
      obtain ⟨x, hx, hr⟩ := h
      rw [← hr]
      exact hk _ (ioctl_isdio_write_kept env fuel sdi d x hx)
    | ISDIO_MRITE =>
      simp only [Option.map_eq_some'] at h
      obtain ⟨x, hx, hr⟩ := h
      rw [← hr]
      exact hk _ (ioctl_isdio_mrite_kept env fuel sdi d x hx)
    | other code =>
      simp only [Option.some.injEq] at h
      rw [← h]
      exact hk _ (kept_refl d)

/-! ## A failed initialisation after a successful one -/

set_option maxRecDepth 1000000 in
set_option maxHeartbeats 4000000 in
/-- C25: a driver state with STA_NOINIT clear and CardType = 0 is reachable: on
a card that initialises as an MMC card and then stops answering, a first
mmc_disk_initialize succeeds (status 0, CardType = CT_MMC) and a second one
fails, setting CardType to 0 and powering the card off while leaving Stat at
0. -/
theorem C25_failed_reinit_looks_ready :
    (∃ d, Reachable Env.removed d ∧ d.Stat &&& STA_NOINIT = 0 ∧ d.CardType = 0) ∧
    ( mmc_disk_initialize Env.removed 300 Drv.init).map (fun r => (r.1, r.2.Stat, r.2.CardType))
      = some (0, 0, CT_MMC) ∧
    (( mmc_disk_initialize Env.removed 300 Drv.init).bind
        (fun r => mmc_disk_initialize Env.removed 300 r.2)).map
      (fun r => (r.1, r.2.Stat, r.2.CardType)) = some (0, 0, 0) := by
  have h2 : (( mmc_disk_initialize Env.removed 300 Drv.init).bind
        (fun r => mmc_disk_initialize Env.removed 300 r.2)).map
      (fun r => (r.1, r.2.Stat, r.2.CardType)) = some (0, 0, 0) := by decide
  refine ⟨?_, by decide, h2⟩
  simp only [Option.map_eq_some', Option.bind_eq_some] at h2
  obtain ⟨r2, ⟨r1, hr1, hr2⟩, hv⟩ := h2
  simp only [Prod.mk.injEq] at hv
  refine ⟨r2.2, Reachable.afterInit r1.2 300 r2
    (Reachable.afterInit Drv.init 300 r1 Reachable.atReset hr1) hr2, ?_, hv.2.2⟩
  rw [hv.2.1]
  decide

/-! ## The status bits that are never set -/

/-- In every reachable state `Stat` is 0 or STA_NOINIT. -/
theorem reachable_stat (env : Env) (d : Drv) (h : Reachable env d) :
    d.Stat = 0 ∨ d.Stat = STA_NOINIT := by
  induction h with
  | atReset => exact Or.inr rfl
  | afterInit d fuel r _ hop ih =>
    obtain ⟨_, hcase⟩ := mmc_disk_initialize_globals env fuel d r hop
    rcases hcase with ⟨_, hs⟩ | ⟨_, hs⟩
    · rw [hs]
      rcases ih with h0 | h1
      · rw [h0]
        exact Or.inl (by decide)
      · rw [h1]
        exact Or.inl (by decide)
    · rw [hs]
      exact ih
  | afterRead d fuel buf p sector count r _ hop ih =>
    rw [(mmc_disk_read_kept env fuel buf p sector count d r hop).1]
    exact ih
  | afterWrite d fuel buf p sector count r _ hop ih =>
    rw [(mmc_disk_write_kept env fuel buf p sector count d r hop).1.1]
    exact ih
  | afterIoctl d fuel cmd buff sdi r _ hop ih =>
    rcases (mmc_disk_ioctl_globals env fuel cmd buff sdi d r hop).2 with hs | hs
    · rw [hs]
      exact ih
    · rw [hs]
      rcases ih with h0 | h1
      · rw [h0]
        exact Or.inr (by decide)
      · rw [h1]
        exact Or.inr (by decide)
  | afterTimer d _ ih =>
    rw [timerproc_eq]
    exact ih

/-- C26: with MMC_NO_CARD_DETECT defined, in every driver state reachable from
the state at reset by calls of mmc_disk_initialize, mmc_disk_read,
mmc_disk_write, mmc_disk_ioctl and mmc_disk_timerproc, under any bus behaviour,
Stat is 0 or STA_NOINIT: STA_PROTECT and STA_NODISK are never set, and
mmc_disk_write never returns RES_WRPRT. -/
theorem C26_no_protect (env : Env) (d : Drv) (h : Reachable env d) :
    (d.Stat = 0 ∨ d.Stat = STA_NOINIT) ∧
    d.Stat &&& STA_PROTECT = 0 ∧ d.Stat &&& STA_NODISK = 0 ∧
    ∀ (fuel : Nat) (buf : List Nat) (p sector count : Nat) (r : DRESULT × Drv),
      mmc_disk_write env fuel buf p sector count d = some r → r.1 ≠ RES_WRPRT := by
  have hs := reachable_stat env d h
  have hp : d.Stat &&& STA_PROTECT = 0 := by
    rcases hs with h0 | h1
    · rw [h0]
      decide
    · rw [h1]
      decide
  have hn : d.Stat &&& STA_NODISK = 0 := by
    rcases hs with h0 | h1
    · rw [h0]
      decide
    · rw [h1]
      decide
  exact ⟨hs, hp, hn, fun fuel buf p sector count r hw =>
    (mmc_disk_write_kept env fuel buf p sector count d r hw).2 hp⟩

set_option maxRecDepth 1000000 in
set_option maxHeartbeats 4000000 in
/-- C26 at a concrete input: the state after a successful initialisation (an
MMC card, `Stat = 0`), which is reachable. There the status bits STA_PROTECT
and STA_NODISK are clear, and a single-sector write passes the three guards of
`mmc_disk_write`, protect test included, and goes to the card, which no longer
answers: the result is RES_ERROR, not RES_WRPRT. -/
theorem C26_no_protect_witness :
    ∃ d, ( mmc_disk_initialize Env.removed 300 Drv.init).map (fun r => r.2) = some d ∧
      Reachable Env.removed d ∧ d.Stat = 0 ∧ d.CardType = CT_MMC ∧
      (d.Stat = 0 ∨ d.Stat = STA_NOINIT) ∧
      d.Stat &&& STA_PROTECT = 0 ∧ d.Stat &&& STA_NODISK = 0 ∧
      ∃ r, mmc_disk_write Env.removed 300 (List.replicate 512 0) 0 5 1 d = some r ∧
        r.1 = RES_ERROR ∧ r.1 ≠ RES_WRPRT := by
  have h1 : ( mmc_disk_initialize Env.removed 300 Drv.init).map
      (fun r => (r.2.Stat, r.2.CardType)) = some (0, CT_MMC) := by decide
  have h2 : (( mmc_disk_initialize Env.removed 300 Drv.init).bind
      (fun r => mmc_disk_write Env.removed 300 (List.replicate 512 0) 0 5 1 r.2)).map
      (fun r => r.1) = some RES_ERROR := by decide
  cases hi : mmc_disk_initialize Env.removed 300 Drv.init with
  | none =>
    rw [hi] at h1
    exact Option.noConfusion h1
  | some r0 =>
    rw [hi] at h1 h2
    simp only [Option.map_some', Option.some.injEq, Prod.mk.injEq, Option.some_bind] at h1 h2
    have hreach : Reachable Env.removed r0.2 :=
      Reachable.afterInit Drv.init 300 r0 Reachable.atReset hi
    cases hw : mmc_disk_write Env.removed 300 (List.replicate 512 0) 0 5 1 r0.2 with
    | none =>
      rw [hw] at h2
      exact Option.noConfusion h2
    | some r =>
      rw [hw] at h2
      simp only [Option.map_some', Option.some.injEq] at h2
      exact ⟨r0.2, rfl, hreach, h1.1, h1.2,
        (C26_no_protect Env.removed r0.2 hreach).1,
        (C26_no_protect Env.removed r0.2 hreach).2.1,
        (C26_no_protect Env.removed r0.2 hreach).2.2.1,
        r, hw, h2,
        (C26_no_protect Env.removed r0.2 hreach).2.2.2 300 (List.replicate 512 0) 0 5 1 r hw⟩

/-! ## The erase wait -/

set_option maxRecDepth 1000000 in
set_option maxHeartbeats 4000000 in
/-- C27: wait_ready(30000), the erase wait of CTRL_TRIM, arms the 8-bit Timer2
with 3000 mod 256 = 184: on a card that is ready at once, with no interrupt
delivered, Timer2 is left at 184; on a card that stays busy, with one interrupt
per step, the wait times out after 184 polls, 1.84 s instead of 30 s. With 500
the counter is armed with 50. -/
theorem C27_erase_wait_truncated :
    (wait_ready Env.frozen 300 30000 (Drv.mk0 0 CT_SD2)).map (fun r => (r.1, r.2.Timer2))
      = some (1, 184) ∧
    (wait_ready Env.busy 4000 30000 (Drv.mk0 0 CT_SD2)).map (fun r => (r.1, r.2.now))
      = some (0, 184) ∧
    (wait_ready Env.frozen 300 500 (Drv.mk0 0 CT_SD2)).map (fun r => (r.1, r.2.Timer2))
      = some (1, 50) := by
  refine ⟨?_, ?_, ?_⟩ <;> decide
